import Mathlib

/-!
# regard: query classification, status interpretation, lifecycle guidance, summary assembly

A shallow embedding of the decision logic of `internal/query` and `internal/domain`.

Conventions of the embedding.

* A Go `string` is a Lean `String` (valid UTF-8 text).  `len` is the length in bytes,
  positions returned by `Index` and `LastIndex` count characters; every position the
  code slices at is the position of an ASCII character, so that slicing by characters
  and slicing by bytes give the same text.
* What the code takes from Go's standard library and runtime and what is not part of
  the repository is either written out (`strings`, `unicode.IsSpace`, `float64`
  rounding, `fmt` with `%d`) or taken as a parameter: the Unicode case tables
  (`CaseTables`), the clock, `time.Parse` and `json.Marshal` (`Runtime`).
* A `time.Time` is the instant in nanoseconds since the Unix epoch; a `time.Duration`
  is a number of nanoseconds in the signed 64-bit range.
-/

namespace Regard

/-! ## The `strings` and `unicode` packages -/

/-- Case mapping of the runes above U+007F, which Go's `unicode.ToLower` and
`unicode.ToUpper` read from the Unicode tables of the standard library. -/
structure CaseTables where
  lower : Char → Char
  upper : Char → Char

/-- Tables without any case pair above U+007F. -/
def CaseTables.ascii : CaseTables := ⟨id, id⟩

/-- Go `unicode.ToLower`: ASCII letters are shifted, other ASCII runes are kept, the
rest is looked up in the tables. -/
def unicodeToLower (tbl : CaseTables) (r : Char) : Char :=
  if r.toNat ≤ 0x7F then
    if 'A'.toNat ≤ r.toNat ∧ r.toNat ≤ 'Z'.toNat then Char.ofNat (r.toNat + 32) else r
  else tbl.lower r

/-- Go `unicode.ToUpper`. -/
def unicodeToUpper (tbl : CaseTables) (r : Char) : Char :=
  if r.toNat ≤ 0x7F then
    if 'a'.toNat ≤ r.toNat ∧ r.toNat ≤ 'z'.toNat then Char.ofNat (r.toNat - 32) else r
  else tbl.upper r

/-- Go `unicode.IsSpace`: the Unicode White_Space property. -/
def unicodeIsSpace (r : Char) : Bool :=
  let n := r.toNat
  (0x09 ≤ n && n ≤ 0x0D) || n == 0x20 || n == 0x85 || n == 0xA0 || n == 0x1680 ||
  (0x2000 ≤ n && n ≤ 0x200A) || n == 0x2028 || n == 0x2029 || n == 0x202F ||
  n == 0x205F || n == 0x3000

/-- Go `strings.ToLower`. -/
def ToLower (tbl : CaseTables) (s : String) : String := ⟨s.data.map (unicodeToLower tbl)⟩

/-- Go `strings.ToUpper`. -/
def ToUpper (tbl : CaseTables) (s : String) : String := ⟨s.data.map (unicodeToUpper tbl)⟩

/-- Go `len(s)`: the number of bytes of the UTF-8 encoding. -/
def len (s : String) : Nat := (s.data.map Char.utf8Size).sum

/-- Whether `sub` occurs in `s` as a contiguous block. -/
def containsL : List Char → List Char → Bool
  | [], sub => sub.isEmpty
  | c :: cs, sub => sub.isPrefixOf (c :: cs) || containsL cs sub

/-- Go `strings.Contains`. -/
def Contains (s sub : String) : Bool := containsL s.data sub.data

/-- Go `strings.HasPrefix`. -/
def HasPrefix (s pre : String) : Bool := pre.data.isPrefixOf s.data

/-- Go `strings.Count(s, sep)` for a separator of one character. -/
def Count (s : String) (sep : Char) : Nat := s.data.count sep

/-- Pieces of a character list between the occurrences of `sep`. -/
def splitL (sep : Char) : List Char → List (List Char)
  | [] => [[]]
  | c :: cs =>
    if c = sep then [] :: splitL sep cs
    else match splitL sep cs with
      | [] => [[c]]
      | p :: ps => (c :: p) :: ps

/-- Go `strings.Split(s, sep)` for a separator of one character. -/
def Split (s : String) (sep : Char) : List String := (splitL sep s.data).map String.mk

/-- At most `n` pieces: the last one is the unsplit rest. -/
def splitNL (sep : Char) : Nat → List Char → List (List Char)
  | 0, _ => []
  | 1, s => [s]
  | _ + 2, [] => [[]]
  | n + 2, c :: cs =>
    if c = sep then [] :: splitNL sep (n + 1) cs
    else match splitNL sep (n + 2) cs with
      | [] => [[c]]
      | p :: ps => (c :: p) :: ps

/-- Go `strings.SplitN(s, sep, n)` for a separator of one character and `n ≥ 0`. -/
def SplitN (s : String) (sep : Char) (n : Nat) : List String :=
  (splitNL sep n s.data).map String.mk

/-- Go `strings.Join`. -/
def Join (parts : List String) (sep : String) : String := sep.intercalate parts

/-- Go `strings.TrimSpace`. -/
def TrimSpace (s : String) : String :=
  ⟨((s.data.dropWhile unicodeIsSpace).reverse.dropWhile unicodeIsSpace).reverse⟩

/-- Go `strings.TrimRight(s, cutset)`. -/
def TrimRight (s cutset : String) : String :=
  ⟨(s.data.reverse.dropWhile (fun c => cutset.data.contains c)).reverse⟩

/-- Maximal runs of characters that are not white space. -/
def fieldsL : List Char → List Char → List (List Char)
  | [], cur => if cur.isEmpty then [] else [cur.reverse]
  | c :: cs, cur =>
    if unicodeIsSpace c then
      if cur.isEmpty then fieldsL cs [] else cur.reverse :: fieldsL cs []
    else fieldsL cs (c :: cur)

/-- Go `strings.Fields`. -/
def Fields (s : String) : List String := (fieldsL s.data []).map String.mk

/-- Position of the first `c` in a character list. -/
def indexL (c : Char) : List Char → Option Nat
  | [] => none
  | x :: xs => if x = c then some 0 else (indexL c xs).map (· + 1)

/-- Position of the last `c` in a character list. -/
def lastIndexL (c : Char) : List Char → Option Nat
  | [] => none
  | x :: xs =>
    match lastIndexL c xs with
    | some i => some (i + 1)
    | none => if x = c then some 0 else none

/-- Go `strings.Index(s, sep)` for a separator of one character; `-1` when absent. -/
def Index (s : String) (c : Char) : Int :=
  match indexL c s.data with
  | some i => i
  | none => -1

/-- Go `strings.LastIndex(s, sep)` for a separator of one character; `-1` when absent. -/
def LastIndex (s : String) (c : Char) : Int :=
  match lastIndexL c s.data with
  | some i => i
  | none => -1

/-- Go slice expression `s[lo:hi]`. -/
def slice (s : String) (lo hi : Nat) : String := ⟨(s.data.take hi).drop lo⟩

/-! ## Query classifier (`internal/query/detector.go`, `types.go`) -/

/-- The three query types. -/
inductive QueryType where
  | QueryTypeDomain
  | QueryTypeIP
  | QueryTypeASN
  deriving DecidableEq, Repr

open QueryType

/-- The string behind a `QueryType` constant. -/
def QueryType.toString : QueryType → String
  | QueryTypeDomain => "domain"
  | QueryTypeIP => "ip"
  | QueryTypeASN => "asn"

/-- `DetectQueryType` of `detector.go`. -/
def DetectQueryType (tbl : CaseTables) (query : String) : QueryType :=
  if Contains query "." then
    if Count query '.' = 3 then
      let parts := Split query '.'
      if parts.any (fun part => len part > 3) then QueryTypeDomain
      else QueryTypeIP
    else QueryTypeDomain
  else if HasPrefix (ToUpper tbl query) "AS" && decide (len query > 2) then QueryTypeASN
  else if Contains query ":" then QueryTypeIP
  else QueryTypeDomain

/-! ## Status interpreter (`internal/domain/status.go`) -/

/-- `InterpretStatus` of `status.go`. -/
def InterpretStatus (tbl : CaseTables) (statusDetails : List String) (rawData : String) :
    String :=
  let lowerRaw := ToLower tbl rawData
  if Contains lowerRaw "not found" ||
      Contains lowerRaw "no match" ||
      Contains lowerRaw "no data found" ||
      Contains lowerRaw "domain not found" ||
      Contains lowerRaw "available for registration" then
    "available"
  else if statusDetails.length = 0 then
    if rawData ≠ "" ∧
        (Contains lowerRaw "no entries found" ∨ len (TrimSpace rawData) < 100) then
      "available"
    else "unknown"
  else
    let hasActive := statusDetails.any (fun status =>
      let lowerStatus := ToLower tbl status
      Contains lowerStatus "active" || Contains lowerStatus "ok")
    let hasProhibited := statusDetails.any (fun status =>
      Contains (ToLower tbl status) "prohibited")
    if hasActive || hasProhibited then "active" else "unknown"

/-- The test of step 1 of `InterpretStatus`: the lower-cased raw text contains one of
the five denial phrases. -/
def hasDenialPhrase (tbl : CaseTables) (rawData : String) : Bool :=
  Contains (ToLower tbl rawData) "not found" ||
  Contains (ToLower tbl rawData) "no match" ||
  Contains (ToLower tbl rawData) "no data found" ||
  Contains (ToLower tbl rawData) "domain not found" ||
  Contains (ToLower tbl rawData) "available for registration"

/-! ## Time, durations and `float64` -/

/-- A `time.Time`: the instant, in nanoseconds since the Unix epoch. -/
structure Time where
  ns : Int
  deriving DecidableEq, Repr

/-- A `time.Duration`: a signed number of nanoseconds (an `int64`). -/
abbrev Duration := Int

/-- `time.Hour` in nanoseconds. -/
def Hour : Nat := 3600000000000

/-- Nanoseconds of a day of 24 hours. -/
def Day : Nat := 24 * Hour

/-- Largest `time.Duration`. -/
def maxDuration : Duration := 2 ^ 63 - 1

/-- Smallest `time.Duration`. -/
def minDuration : Duration := -(2 ^ 63)

/-- Go `t.Sub(u)`: the difference, saturated at the ends of the `int64` range. -/
def Time.Sub (t u : Time) : Duration :=
  if t.ns - u.ns > maxDuration then maxDuration
  else if t.ns - u.ns < minDuration then minDuration
  else t.ns - u.ns

/-- Go `t.After(u)`. -/
def Time.After (t u : Time) : Bool := decide (u.ns < t.ns)

/-- Go `t.AddDate(0, 0, days)`, for a time whose zone has a fixed offset from UTC
(UTC itself, or the zone written in a parsed timestamp): every calendar day is 24
hours long. -/
def Time.AddDate (t : Time) (days : Int) : Time := ⟨t.ns + days * Day⟩

/-- A non-negative rational number `num / den`. -/
structure Frac where
  num : Nat
  den : Nat
  deriving DecidableEq, Repr

/-- The integer nearest to `n / d`, a tie going to the even one. -/
def roundHalfEven (n d : Nat) : Nat :=
  let q := n / d
  let r := n % d
  if 2 * r < d then q
  else if d < 2 * r then q + 1
  else if q % 2 = 0 then q else q + 1

/-- Halving `n` until it is below 2, at most `fuel` times. -/
def floorLog2Aux : Nat → Nat → Nat
  | 0, _ => 0
  | fuel + 1, n => if n < 2 then 0 else floorLog2Aux fuel (n / 2) + 1

/-- The exponent of the highest power of two that is at most `n` (0 for `n = 0`). -/
def floorLog2 (n : Nat) : Nat := floorLog2Aux n n

/-- The `float64` nearest to `n / d` (round to nearest, ties to even; normal range):
the quotient is scaled by a power of two into `[2^52, 2^53)`, rounded to an integer
(the 53-bit significand) and scaled back. -/
def float64 (n d : Nat) : Frac :=
  if n = 0 ∨ d = 0 then ⟨0, 1⟩
  else
    let a := floorLog2 n
    let b := floorLog2 d
    let N := n * 2 ^ (b + 53)
    let D := d * 2 ^ a
    if N < 2 ^ 53 * D then ⟨roundHalfEven N D * 2 ^ a, 2 ^ (b + 53)⟩
    else ⟨roundHalfEven N (2 * D) * 2 ^ (a + 1), 2 ^ (b + 53)⟩

/-- Sum of two `float64` values, rounded. -/
def Frac.add (x y : Frac) : Frac := float64 (x.num * y.den + y.num * x.den) (x.den * y.den)

/-- Quotient of two `float64` values, rounded. -/
def Frac.div (x y : Frac) : Frac := float64 (x.num * y.den) (x.den * y.num)

/-- Go `int(x)` for a non-negative `float64`: the integer part. -/
def Frac.toInt (x : Frac) : Nat := x.num / x.den

/-- Go `Duration.Hours` on the magnitude of a duration:
`hour := d / Hour; nsec := d % Hour; float64(hour) + float64(nsec)/(60*60*1e9)`. -/
def hoursMag (d : Nat) : Frac :=
  let hour := d / Hour
  let nsec := d % Hour
  (float64 hour 1).add ((float64 nsec 1).div (float64 3600000000000 1))

/-- The value `int(h / 24)` for the hours `h` of a non-negative duration. -/
def daysMag (d : Nat) : Nat := ((hoursMag d).div (float64 24 1)).toInt

/-- The expression `int(d.Hours() / 24)` of `guidance.go` and `parser.go`.  Go's `/` and `%`
on integers, `float64` rounding and the conversion to `int` are all symmetric in the
sign, so the value is computed on the magnitude of `d` and given the sign of `d`. -/
def wholeDays (d : Duration) : Int :=
  if d < 0 then -(daysMag d.natAbs : Int) else (daysMag d.natAbs : Int)

/-- The verb `%d` of `fmt.Sprintf`. -/
def fmtInt (n : Int) : String := toString n

/-! ## Data model (`internal/query/types.go`, `internal/domain/types.go`) -/

/-- A dynamic Go value as the code inspects it: the `interface{}` tree that
`encoding/json` decodes to, which is also the shape of the WHOIS payload
(`map[string]interface{}` of strings).  The entries of an `obj` stand in the order in
which a `range` over the map visits them; `m[k]` is `List.lookup`. -/
inductive Value where
  | null
  | bool (b : Bool)
  | number (text : String)
  | str (s : String)
  | arr (items : List Value)
  | obj (entries : List (String × Value))

/-- Go `v.(string)` with the zero value on failure, as in `s, _ := m[k].(string)`. -/
def stringOrEmpty : Option Value → String
  | some (Value.str s) => s
  | _ => ""

/-- `QueryResult` of `types.go` (`Type_` is the field `Type`). -/
structure QueryResult where
  Query : String := ""
  Type_ : String := ""
  Protocol : String := ""
  Timestamp : Time := ⟨0⟩
  Success : Bool := false
  Data : Value := Value.null
  RawData : String := ""
  Error : String := ""

/-- `TimelineEvent` of `types.go`. -/
structure TimelineEvent where
  Date : Time
  HumanReadable : String
  deriving DecidableEq, Repr

/-- `Timeline` of `types.go`. -/
structure Timeline where
  Registration : Option TimelineEvent := none
  LastUpdated : Option TimelineEvent := none
  Expiration : Option TimelineEvent := none
  deriving DecidableEq, Repr

/-- `DNSSECInfo` of `types.go`. -/
structure DNSSECInfo where
  Enabled : Bool := false
  Details : String := ""
  deriving DecidableEq, Repr

/-- `RegistrarInfo` of `types.go`. -/
structure RegistrarInfo where
  Name : String := ""
  ID : String := ""
  deriving DecidableEq, Repr

/-- `ExpirationInfo` of `types.go`. -/
structure ExpirationInfo where
  DaysExpired : Int := 0
  AvailableDate : Option Time := none
  GuidanceMessage : String := ""
  deriving DecidableEq, Repr

/-- `ASNInfo` of `types.go`. -/
structure ASNInfo where
  Number : String := ""
  Name : String := ""
  Description : String := ""
  Country : String := ""
  Organization : String := ""
  Status : String := ""
  AbuseContact : String := ""
  Peers : List String := []
  deriving DecidableEq, Repr

/-- `Summary` of `types.go`. -/
structure Summary where
  Domain : String := ""
  Status : String := ""
  StatusDetails : List String := []
  Protocol : String := ""
  QueryType : String := ""
  Timeline : Timeline := {}
  Nameservers : List String := []
  DNSSEC : DNSSECInfo := {}
  Registrar : RegistrarInfo := {}
  PostExpiration : Option ExpirationInfo := none
  ASN : Option ASNInfo := none
  deriving DecidableEq, Repr

/-- What `CreateSummary` takes from outside the repository: the Unicode case tables,
the instant `time.Now()` returns (one instant for the whole call), `time.Parse` (with
`none` for an error) and the text `json.Marshal` produces for the payload. -/
structure Runtime where
  tbl : CaseTables
  now : Time
  timeParse : String → String → Option Time
  jsonMarshal : Value → String

/-! ## Lifecycle and guidance (`internal/domain/guidance.go`, `HumanReadableTime`) -/

/-- `extractTLD` of `guidance.go`. -/
def extractTLD (domain : String) : String :=
  let parts := Split domain '.'
  if parts.length ≥ 2 then
    if parts.length ≥ 3 ∧ len (parts.getD (parts.length - 2) "") ≤ 3 ∧
        len (parts.getD (parts.length - 1) "") ≤ 3 then
      Join (parts.drop (parts.length - 2)) "."
    else parts.getD (parts.length - 1) ""
  else domain

/-- Message of the branch "expires within a week". -/
def msgMonitor (days : Int) : String :=
  "Domain expires in " ++ fmtInt days ++
    " days. Monitor closely - it may become available if not renewed."

/-- Message of the branch "expires within 30 days". -/
def msgWatchlist (days : Int) : String :=
  "Domain expires in " ++ fmtInt days ++ " days. Add to your watchlist if interested."

/-- Message of the renewal grace period of `com`, `net`, `org`. -/
def msgRenewalGrace : String :=
  "Domain is in renewal grace period. Original owner can still renew. Not yet available for registration."

/-- Message of the redemption grace period of `com`, `net`, `org`. -/
def msgRedemption : String :=
  "Domain is in redemption grace period. Original owner can still recover it with fees. Not available for public registration yet."

/-- Message of the pending-deletion phase of `com`, `net`, `org`. -/
def msgPendingDelete (pendingDeleteDays : Int) : String :=
  "Domain is pending deletion! It will drop and become available for registration in approximately "
    ++ fmtInt pendingDeleteDays ++ " days."

/-- Message after the deletion of a `com`, `net`, `org` name. -/
def msgDeleted : String :=
  "Domain has completed the deletion process and should be available for registration at any registrar."

/-- Message of the 90-day grace period of `uk`, `co.uk`. -/
def msgUkGrace : String :=
  "Domain is in renewal grace period (.uk domains have 90-day grace period). Original owner can still renew."

/-- Message after the grace period of `uk`, `co.uk`. -/
def msgUkAvailable : String :=
  "Domain has passed the renewal grace period and should be available for public registration."

/-- Message of the generic grace period. -/
def msgGenericGrace : String :=
  "Domain may still be in renewal grace period. Original owner might still renew."

/-- Message after the generic grace period. -/
def msgGenericAvailable : String :=
  "Domain is likely available for registration. Check with registrars or domain drop services."

/-- `GeneratePostExpirationGuidance` of `guidance.go`; `now` is what `time.Now()`
returns. -/
def GeneratePostExpirationGuidance (tbl : CaseTables) (now : Time) (summary : Summary) :
    Option ExpirationInfo :=
  match summary.Timeline.Expiration with
  | none => none
  | some expiration =>
    let expiryDate := expiration.Date
    if expiryDate.After (now.AddDate 30) then none
    else
      let daysUntilExpiry := wholeDays (expiryDate.Sub now)
      let daysExpired := wholeDays (now.Sub expiryDate)
      let guidance : ExpirationInfo := {}
      if expiryDate.After now then
        if daysUntilExpiry ≤ 7 then
          some { guidance with GuidanceMessage := msgMonitor daysUntilExpiry }
        else
          some { guidance with GuidanceMessage := msgWatchlist daysUntilExpiry }
      else
        let guidance := { guidance with DaysExpired := daysExpired }
        let tld := ToLower tbl (extractTLD summary.Domain)
        if tld = "com" ∨ tld = "net" ∨ tld = "org" then
          if daysExpired ≤ 30 then
            some { guidance with GuidanceMessage := msgRenewalGrace }
          else if daysExpired ≤ 75 then
            some { guidance with GuidanceMessage := msgRedemption }
          else
            let pendingDeleteDays := 80 - daysExpired
            if pendingDeleteDays > 0 then
              some { guidance with
                GuidanceMessage := msgPendingDelete pendingDeleteDays
                AvailableDate := some (expiryDate.AddDate 80) }
            else
              some { guidance with GuidanceMessage := msgDeleted }
        else if tld = "uk" ∨ tld = "co.uk" then
          if daysExpired ≤ 90 then
            some { guidance with GuidanceMessage := msgUkGrace }
          else
            some { guidance with GuidanceMessage := msgUkAvailable }
        else
          if daysExpired ≤ 30 then
            some { guidance with GuidanceMessage := msgGenericGrace }
          else
            some { guidance with GuidanceMessage := msgGenericAvailable }

/-- `HumanReadableTime` of `parser.go`; `now` is what `time.Now()` returns. -/
def HumanReadableTime (now t : Time) : String :=
  if t.After now then
    let days := wholeDays (t.Sub now)
    if days = 0 then "today"
    else if days = 1 then "tomorrow"
    else if days < 30 then "in " ++ fmtInt days ++ " days"
    else if days < 365 then "in " ++ fmtInt (days / 30) ++ " months"
    else "in " ++ fmtInt (days / 365) ++ " years"
  else
    let days := wholeDays (now.Sub t)
    if days = 0 then "today"
    else if days = 1 then "yesterday"
    else if days < 30 then fmtInt days ++ " days ago"
    else if days < 365 then fmtInt (days / 30) ++ " months ago"
    else fmtInt (days / 365) ++ " years ago"

/-! ## Summary assembly (`internal/domain/parser.go`) -/

/-- The layout `time.RFC3339`. -/
def RFC3339 : String := "2006-01-02T15:04:05Z07:00"

/-- `parseWhoisDate` of `parser.go`: the first layout that parses; `none` is the error. -/
def parseWhoisDate (rt : Runtime) (dateStr : String) : Option Time :=
  [RFC3339, "2006-01-02T15:04:05Z", "2006-01-02", "2006-01-02 15:04:05", "02-Jan-2006",
    "2006/01/02"].findSome? (fun format => rt.timeParse format dateStr)

/-- Body of the loop over the `Status` array of an RDAP object. -/
def rdapStatusStep (summary : Summary) (status : Value) : Summary :=
  match status with
  | Value.str statusStr => { summary with StatusDetails := summary.StatusDetails ++ [statusStr] }
  | _ => summary

/-- Body of the loop over the `Nameservers` array of an RDAP object. -/
def rdapNameserverStep (summary : Summary) (ns : Value) : Summary :=
  match ns with
  | Value.obj nsObj =>
    match nsObj.lookup "LDHName" with
    | some (Value.str name) => { summary with Nameservers := summary.Nameservers ++ [name] }
    | _ => summary
  | _ => summary

/-- Body of the loop over the `Events` array of an RDAP object. -/
def rdapEventStep (rt : Runtime) (summary : Summary) (event : Value) : Summary :=
  match event with
  | Value.obj eventObj =>
    let action := stringOrEmpty (eventObj.lookup "Action")
    let dateStr := stringOrEmpty (eventObj.lookup "Date")
    match rt.timeParse RFC3339 dateStr with
    | some date =>
      let timelineEvent : TimelineEvent :=
        { Date := date, HumanReadable := HumanReadableTime rt.now date }
      if action = "registration" then
        { summary with Timeline := { summary.Timeline with Registration := some timelineEvent } }
      else if action = "last changed" ∨ action = "last update of RDAP database" then
        { summary with Timeline := { summary.Timeline with LastUpdated := some timelineEvent } }
      else if action = "expiration" then
        { summary with Timeline := { summary.Timeline with Expiration := some timelineEvent } }
      else summary
    | none => summary
  | _ => summary

/-- Body of the loop over the `Properties` of a registrar's VCard. -/
def rdapPropStep (summary : Summary) (prop : Value) : Summary :=
  match prop with
  | Value.obj propObj =>
    if stringOrEmpty (propObj.lookup "Name") = "fn" then
      match propObj.lookup "Value" with
      | some (Value.str value) =>
        { summary with Registrar := { summary.Registrar with Name := value } }
      | _ => summary
    else summary
  | _ => summary

/-- What the role loop does at a role equal to `"registrar"`, before its `break`:
the name from the VCard, the ID from the handle. -/
def rdapRegistrar (summary : Summary) (entityObj : List (String × Value)) : Summary :=
  let summary :=
    match entityObj.lookup "VCard" with
    | some (Value.obj vcard) =>
      match vcard.lookup "Properties" with
      | some (Value.arr props) => props.foldl rdapPropStep summary
      | _ => summary
    | _ => summary
  match entityObj.lookup "Handle" with
  | some (Value.str handle) => { summary with Registrar := { summary.Registrar with ID := handle } }
  | _ => summary

/-- The loop over the `Roles` of one entity; it ends at the first role `"registrar"`. -/
def rdapRoleLoop (summary : Summary) (entityObj : List (String × Value)) :
    List Value → Summary
  | [] => summary
  | Value.str roleStr :: rest =>
    if roleStr = "registrar" then rdapRegistrar summary entityObj
    else rdapRoleLoop summary entityObj rest
  | _ :: rest => rdapRoleLoop summary entityObj rest

/-- Body of the loop over the `Entities` array of an RDAP object. -/
def rdapEntityStep (summary : Summary) (entity : Value) : Summary :=
  match entity with
  | Value.obj entityObj =>
    match entityObj.lookup "Roles" with
    | some (Value.arr rolesArray) => rdapRoleLoop summary entityObj rolesArray
    | _ => summary
  | _ => summary

/-- `parseRDAPSummary` of `parser.go`.  `result.Data` is the JSON image of the payload
(what `json.Marshal` followed by `json.Unmarshal` into `interface{}` gives; it is a
non-nil map exactly when it is an `obj`), `rt.jsonMarshal result.Data` the marshalled
text. -/
def parseRDAPSummary (rt : Runtime) (result : QueryResult) (summary : Summary) : Summary :=
  match result.Data with
  | Value.obj domainData =>
    let summary :=
      match domainData.lookup "Status" with
      | some (Value.arr statusArray) =>
        let summary := statusArray.foldl rdapStatusStep summary
        let rawData := rt.jsonMarshal result.Data
        { summary with Status := InterpretStatus rt.tbl summary.StatusDetails rawData }
      | _ => summary
    let summary :=
      match domainData.lookup "Nameservers" with
      | some (Value.arr nsArray) => nsArray.foldl rdapNameserverStep summary
      | _ => summary
    let summary :=
      match domainData.lookup "SecureDNS" with
      | some (Value.obj secureDNS) =>
        match secureDNS.lookup "DelegationSigned" with
        | some (Value.bool delegationSigned) =>
          if delegationSigned then
            { summary with DNSSEC := { Enabled := delegationSigned, Details := "Delegation signed" } }
          else
            { summary with DNSSEC := { summary.DNSSEC with Enabled := delegationSigned } }
        | _ => summary
      | _ => summary
    let summary :=
      match domainData.lookup "Events" with
      | some (Value.arr eventsArray) => eventsArray.foldl (rdapEventStep rt) summary
      | _ => summary
    match domainData.lookup "Entities" with
    | some (Value.arr entitiesArray) => entitiesArray.foldl rdapEntityStep summary
    | _ => summary
  | _ => summary

/-- Body of the loop over the words of a WHOIS status field. -/
def whoisStatusPart (summary : Summary) (part : String) : Summary :=
  if Contains part "rohibited" || Contains part "ctive" || Contains part "ransfer" ||
      Contains part "client" then
    let cleanStatus := (Split part ' ').headD ""
    if !HasPrefix cleanStatus "http" then
      { summary with StatusDetails := summary.StatusDetails ++ [cleanStatus] }
    else summary
  else summary

/-- Body of the loop over the two status fields of a WHOIS record. -/
def whoisStatusField (fields : List (String × Value)) (summary : Summary) (field : String) :
    Summary :=
  match fields.lookup field with
  | some (Value.str status) => (Fields status).foldl whoisStatusPart summary
  | _ => summary

/-- Body of the `range` over the parsed fields that collects the name servers. -/
def whoisNameserverStep (tbl : CaseTables) (summary : Summary) (entry : String × Value) :
    Summary :=
  if Contains (ToLower tbl entry.1) "name_server" || Contains (ToLower tbl entry.1) "nameserver" then
    match entry.2 with
    | Value.str ns =>
      if summary.Nameservers.contains ns then summary
      else { summary with Nameservers := summary.Nameservers ++ [ns] }
    | _ => summary
  else summary

/-- A timeline event for a date field of a WHOIS record, when the field is a string
that `parseWhoisDate` accepts. -/
def whoisEvent (rt : Runtime) (fields : List (String × Value)) (key : String) :
    Option TimelineEvent :=
  match fields.lookup key with
  | some (Value.str text) =>
    match parseWhoisDate rt text with
    | some date => some { Date := date, HumanReadable := HumanReadableTime rt.now date }
    | none => none
  | _ => none

/-- `parseWhoisSummary` of `parser.go`. -/
def parseWhoisSummary (rt : Runtime) (result : QueryResult) (summary : Summary) : Summary :=
  match result.Data with
  | Value.obj data =>
    match data.lookup "parsed_fields" with
    | some (Value.obj fields) =>
      let summary := ["domain_status", "status"].foldl (whoisStatusField fields) summary
      let rawData :=
        match data.lookup "raw_response" with
        | some (Value.str rawResponse) => rawResponse
        | _ => ""
      let summary := { summary with Status := InterpretStatus rt.tbl summary.StatusDetails rawData }
      let summary := fields.foldl (whoisNameserverStep rt.tbl) summary
      let summary :=
        match fields.lookup "dnssec" with
        | some (Value.str dnssec) =>
          { summary with DNSSEC := { Enabled := decide (dnssec = "signedDelegation"), Details := dnssec } }
        | _ => summary
      let summary :=
        match whoisEvent rt fields "creation_date" with
        | some ev => { summary with Timeline := { summary.Timeline with Registration := some ev } }
        | none => summary
      let summary :=
        match whoisEvent rt fields "updated_date" with
        | some ev => { summary with Timeline := { summary.Timeline with LastUpdated := some ev } }
        | none => summary
      let summary :=
        match whoisEvent rt fields "registry_expiry_date" with
        | some ev => { summary with Timeline := { summary.Timeline with Expiration := some ev } }
        | none => summary
      let summary :=
        match fields.lookup "registrar" with
        | some (Value.str registrar) =>
          { summary with Registrar := { summary.Registrar with Name := registrar } }
        | _ => summary
      match fields.lookup "registrar_iana_id" with
      | some (Value.str registrarID) =>
        { summary with Registrar := { summary.Registrar with ID := registrarID } }
      | _ => summary
    | _ => summary
  | _ => summary

/-- The single quote. -/
def quote : Char := Char.ofNat 39

/-- The abuse contact read from a `%` comment line of an AS record. -/
def asnAbuseComment (tbl : CaseTables) (asn : ASNInfo) (line : String) : ASNInfo :=
  if Contains (ToLower tbl line) "abuse contact for" && Contains line "@" then
    let start := Index line quote
    if start ≠ -1 then
      let stop := LastIndex line quote
      if stop > start then
        let email := slice line (start + 1).toNat stop.toNat
        if Contains email "@" then { asn with AbuseContact := email } else asn
      else asn
    else asn
  else asn

/-- State of the line loop of `parseASNInfo`. -/
structure ASNScan where
  asn : ASNInfo
  currentSection : String := ""
  deriving DecidableEq, Repr

/-- The `switch` on the lower-cased key of a `key: value` line. -/
def asnSwitch (st : ASNScan) (key value : String) : ASNScan :=
  if key = "aut-num" ∨ key = "asnumber" then { st with asn := { st.asn with Number := value } }
  else if key = "as-name" ∨ key = "asname" then { st with asn := { st.asn with Name := value } }
  else if key = "descr" ∨ key = "description" then
    if st.asn.Description = "" then { st with asn := { st.asn with Description := value } }
    else st
  else if key = "country" then { st with asn := { st.asn with Country := value } }
  else if key = "org-name" ∨ key = "orgname" then
    { st with asn := { st.asn with Organization := value } }
  else if key = "status" then { st with asn := { st.asn with Status := value } }
  else if key = "abuse-mailbox" ∨ key = "orgabuseemail" ∨ key = "orgabuse-email" then
    { st with asn := { st.asn with AbuseContact := value } }
  else if key = "organisation" ∨ key = "organization" then { st with currentSection := "org" }
  else if key = "role" then { st with currentSection := "role" }
  else st

/-- Body of the loop over the words of an `import`/`export` value. -/
def asnPeerStep (asn : ASNInfo) (word : String) : ASNInfo :=
  if HasPrefix word "AS" && decide (len word > 2) then
    let asNum := TrimRight word ",;:"
    if len asNum > 2 then
      let found := asn.Peers.contains asNum
      if !found && asNum != asn.Number then { asn with Peers := asn.Peers ++ [asNum] }
      else asn
    else asn
  else asn

/-- Body of the line loop of `parseASNInfo`. -/
def asnLine (tbl : CaseTables) (st : ASNScan) (rawLine : String) : ASNScan :=
  let line := TrimSpace rawLine
  if line = "" ∨ HasPrefix line "#" then st
  else if HasPrefix line "%" then { st with asn := asnAbuseComment tbl st.asn line }
  else if Contains line ":" then
    let parts := SplitN line ':' 2
    if parts.length = 2 then
      let key := TrimSpace (parts.getD 0 "")
      let value := TrimSpace (parts.getD 1 "")
      if value = "" then st
      else
        let st := asnSwitch st (ToLower tbl key) value
        let st :=
          if st.currentSection = "org" ∧ ToLower tbl key = "org-name" then
            { st with asn := { st.asn with Organization := value } }
          else st
        if HasPrefix (ToLower tbl key) "import" || HasPrefix (ToLower tbl key) "export" then
          if Contains value "AS" then
            { st with asn := (Fields value).foldl asnPeerStep st.asn }
          else st
        else st
    else st
  else st

/-- `parseASNInfo` of `parser.go`; `none` is the nil pointer. -/
def parseASNInfo (tbl : CaseTables) (result : QueryResult) : Option ASNInfo :=
  if result.RawData = "" then none
  else
    let lines := Split result.RawData '\n'
    let st := lines.foldl (asnLine tbl) { asn := { Number := result.Query } }
    let asn := st.asn
    let asn :=
      if asn.Organization = "" ∧ asn.Description ≠ "" then
        { asn with Organization := asn.Description }
      else asn
    let asn :=
      if asn.Status = "" ∧ (asn.Name ≠ "" ∨ asn.Organization ≠ "") then
        { asn with Status := "active" }
      else asn
    some asn

/-- `CreateSummary` of `parser.go`. -/
def CreateSummary (rt : Runtime) (result : QueryResult) : Summary :=
  let summary : Summary :=
    { Domain := result.Query, Protocol := result.Protocol, QueryType := result.Type_ }
  let summary :=
    if result.Protocol = "RDAP" then parseRDAPSummary rt result summary
    else parseWhoisSummary rt result summary
  let summary :=
    if result.Type_ = QueryType.toString QueryTypeASN then
      let summary := { summary with ASN := parseASNInfo rt.tbl result }
      match summary.ASN with
      | some asn => if asn.Status ≠ "" then { summary with Status := asn.Status } else summary
      | none => summary
    else summary
  if summary.Timeline.Expiration.isSome then
    { summary with PostExpiration := GeneratePostExpirationGuidance rt.tbl rt.now summary }
  else summary

/-! ## Reference notions used to state the claims on `CreateSummary` -/

/-- A runtime for closed examples: no case pair above U+007F, the clock at `now`,
`text` as the marshalled payload, and a `time.Parse` that is given by the table
`dates` of the timestamps it accepts (in any layout). -/
def exampleRuntime (now : Time) (text : String) (dates : List (String × Time)) : Runtime :=
  ⟨CaseTables.ascii, now, fun _ value => dates.lookup value, fun _ => text⟩

/-- Whether `CreateSummary` reaches a call of `InterpretStatus`: on the RDAP path the
payload is an object with a `Status` array, on the WHOIS path it is a map with a
`parsed_fields` map. -/
def statusInterpreted (result : QueryResult) : Bool :=
  match result.Data with
  | Value.obj data =>
    if result.Protocol = "RDAP" then
      match data.lookup "Status" with
      | some (Value.arr _) => true
      | _ => false
    else
      match data.lookup "parsed_fields" with
      | some (Value.obj _) => true
      | _ => false
  | _ => false

/-- A role that is the string "registrar". -/
def isRegistrarRole : Value → Bool
  | Value.str roleStr => decide (roleStr = "registrar")
  | _ => false

/-- An entity object whose `Roles` array holds the string "registrar". -/
def hasRegistrarRole (entityObj : List (String × Value)) : Bool :=
  match entityObj.lookup "Roles" with
  | some (Value.arr rolesArray) => rolesArray.any isRegistrarRole
  | _ => false

/-- The string handle of an entity with the role "registrar". -/
def registrarHandle : Value → Option String
  | Value.obj entityObj =>
    if hasRegistrarRole entityObj then
      match entityObj.lookup "Handle" with
      | some (Value.str handle) => some handle
      | _ => none
    else none
  | _ => none

/-- The string value of a VCard property named "fn". -/
def fnValue : Value → Option String
  | Value.obj propObj =>
    if stringOrEmpty (propObj.lookup "Name") = "fn" then
      match propObj.lookup "Value" with
      | some (Value.str value) => some value
      | _ => none
    else none
  | _ => none

/-- The last string-valued "fn" property of the VCard of an entity with the role
"registrar". -/
def registrarName : Value → Option String
  | Value.obj entityObj =>
    if hasRegistrarRole entityObj then
      match entityObj.lookup "VCard" with
      | some (Value.obj vcard) =>
        match vcard.lookup "Properties" with
        | some (Value.arr props) => (props.filterMap fnValue).getLast?
        | _ => none
      | _ => none
    else none
  | _ => none

/-- An RDAP payload with two registrar entities, "First Registrar" with handle "1"
and then "Second Registrar" with handle "2". -/
def twoRegistrars : List Value :=
  [Value.obj [("Handle", Value.str "1"), ("Roles", Value.arr [Value.str "registrar"]),
      ("VCard", Value.obj [("Properties", Value.arr
        [Value.obj [("Name", Value.str "fn"), ("Value", Value.str "First Registrar")]])])],
    Value.obj [("Handle", Value.str "2"), ("Roles", Value.arr [Value.str "registrar"]),
      ("VCard", Value.obj [("Properties", Value.arr
        [Value.obj [("Name", Value.str "fn"), ("Value", Value.str "Second Registrar")]])])]]

/-- The marshalled text of the payload with `twoRegistrars` as its `Entities`. -/
def twoRegistrarsJSON : String :=
  "\x7b\"Entities\":[\x7b\"Handle\":\"1\",\"Roles\":[\"registrar\"],\"VCard\":\x7b\"Properties\":[\x7b\"Name\":\"fn\",\"Value\":\"First Registrar\"\x7d]\x7d\x7d,\x7b\"Handle\":\"2\",\"Roles\":[\"registrar\"],\"VCard\":\x7b\"Properties\":[\x7b\"Name\":\"fn\",\"Value\":\"Second Registrar\"\x7d]\x7d\x7d]\x7d"

/-- A successful RDAP result for a domain whose payload has the two registrar
entities of `twoRegistrars`. -/
def twoRegistrarsResult : QueryResult :=
  { Query := "example.com", Type_ := "domain", Protocol := "RDAP", Success := true,
    Data := Value.obj [("Entities", Value.arr twoRegistrars)] }

/-- An RDAP result for a domain with a nil payload. -/
def nilRDAPResult : QueryResult :=
  { Query := "example.com", Type_ := "domain", Protocol := "RDAP" }

/-- An RDAP result for a domain whose payload is an object without a `Status` array. -/
def noStatusRDAPResult : QueryResult :=
  { Query := "example.com", Type_ := "domain", Protocol := "RDAP", Success := true,
    Data := Value.obj [("Nameservers", Value.arr [])] }

/-- A WHOIS result for a domain whose payload has no `parsed_fields`. -/
def noFieldsWhoisResult : QueryResult :=
  { Query := "example.com", Type_ := "domain", Protocol := "WHOIS", Success := true,
    Data := Value.obj [("raw_response", Value.str "\n")], RawData := "\n" }

/-- An RDAP result for a domain whose payload has the status array `["active"]`. -/
def activeRDAPResult : QueryResult :=
  { Query := "example.com", Type_ := "domain", Protocol := "RDAP", Success := true,
    Data := Value.obj [("Status", Value.arr [Value.str "active"])] }

/-- A summary of `name` whose expiration event is at the instant `expiry`. -/
def expiringSummary (name : String) (expiry : Time) : Summary :=
  { Domain := name, Timeline := { Expiration := some ⟨expiry, "test"⟩ } }

/-! ## WHOIS text parser (`internal/query/whois.go`) -/

/-- Go `strings.ReplaceAll(s, old, new)` for `old` and `new` of one character. -/
def ReplaceAll (s : String) (old new : Char) : String :=
  ⟨s.data.map (fun c => if c = old then new else c)⟩

/-- Go `m[key] = value` on a map: the entry of `key` gets the new value, a new key gets a
new entry. -/
def mapSet : List (String × Value) → String → Value → List (String × Value)
  | [], key, value => [(key, value)]
  | (k, v) :: rest, key, value =>
    if k = key then (k, value) :: rest else (k, v) :: mapSet rest key value

/-- Body of the line loop of `parseWhoisData`, on the map `sectionData`. -/
def whoisLine (tbl : CaseTables) (sectionData : List (String × Value)) (rawLine : String) :
    List (String × Value) :=
  let line := TrimSpace rawLine
  if line = "" ∨ HasPrefix line "%" ∨ HasPrefix line "#" then sectionData
  else if Contains line ":" then
    let parts := SplitN line ':' 2
    if parts.length = 2 then
      let key := TrimSpace (parts.getD 0 "")
      let value := TrimSpace (parts.getD 1 "")
      if value ≠ "" then
        mapSet sectionData (ToLower tbl (ReplaceAll key ' ' '_')) (Value.str value)
      else sectionData
    else sectionData
  else sectionData

/-- The map `sectionData` at the end of the line loop of `parseWhoisData`. -/
def whoisSectionData (tbl : CaseTables) (whoisData : String) : List (String × Value) :=
  (Split whoisData '\n').foldl (whoisLine tbl) []

/-- `parseWhoisData` of `whois.go`. -/
def parseWhoisData (tbl : CaseTables) (whoisData : String) : List (String × Value) :=
  let sectionData := whoisSectionData tbl whoisData
  let data : List (String × Value) := []
  let data :=
    if sectionData.length > 0 then mapSet data "parsed_fields" (Value.obj sectionData)
    else data
  mapSet data "raw_response" (Value.str whoisData)

/-- The keys of a map, in the order of its entries. -/
def mapKeys (m : List (String × Value)) : List String := m.map (fun entry => entry.1)

/-- The sample text of `TestParseWhoisData`. -/
def sampleWhoisData : String :=
  "Domain Name: EXAMPLE.COM\n   Registry Domain ID: 2336799_DOMAIN_COM-VRSN\n   Registrar WHOIS Server: whois.iana.org\n   Registrar URL: http://res-dom.iana.org\n   Updated Date: 2025-08-14T07:01:39Z\n   Creation Date: 1995-08-14T04:00:00Z\n   Registry Expiry Date: 2026-08-13T04:00:00Z\n   Registrar: RESERVED-Internet Assigned Numbers Authority\n   Registrar IANA ID: 376\n   Domain Status: clientDeleteProhibited https://icann.org/epp#clientDeleteProhibited\n   Domain Status: clientTransferProhibited https://icann.org/epp#clientTransferProhibited\n   Domain Status: clientUpdateProhibited https://icann.org/epp#clientUpdateProhibited\n   Name Server: A.IANA-SERVERS.NET\n   Name Server: B.IANA-SERVERS.NET\n   DNSSEC: signedDelegation\n\n% This is a comment line\n# This is another comment line\n\n>>> Last update of whois database: 2025-09-06T14:10:36Z <<<"

/-! ## Reference notions for the classifier, the TLD and the relative time -/

/-- The reference of `extractTLD`, after the words of the specification: one label gives
the whole input; at least three labels of which the last two are at most 3 bytes long
give these two joined by a dot; anything else gives the last label. -/
def extractTLDSpec (domain : String) : String :=
  match (Split domain '.').reverse with
  | [] => domain
  | [_] => domain
  | last :: second :: rest =>
    if rest ≠ [] ∧ len second ≤ 3 ∧ len last ≤ 3 then second ++ "." ++ last else last

/-- The reference of `HumanReadableTime`, after the words of the specification, for a
count `n` of days and the direction of the timestamp. -/
def humanReadableSpec (future : Bool) (n : Int) : String :=
  if n = 0 then "today"
  else if n = 1 then (if future then "tomorrow" else "yesterday")
  else if n ≤ 29 then
    (if future then "in " ++ fmtInt n ++ " days" else fmtInt n ++ " days ago")
  else if n ≤ 364 then
    (if future then "in " ++ fmtInt (n / 30) ++ " months" else fmtInt (n / 30) ++ " months ago")
  else
    (if future then "in " ++ fmtInt (n / 365) ++ " years" else fmtInt (n / 365) ++ " years ago")

/-- The whole 24-hour days in the distance of two instants, truncated. -/
def daysBetween (t u : Time) : Int := (t.ns - u.ns).natAbs / Day

/-- The text of a line before its first colon. -/
def beforeColon (line : String) : String := ⟨line.data.takeWhile (fun c => c != ':')⟩

/-- The text of a line after its first colon. -/
def afterColon (line : String) : String :=
  ⟨(line.data.dropWhile (fun c => c != ':')).drop 1⟩

/-- The `fields` that `TestParseWhoisData` reads from the result:
`result["parsed_fields"].(map[string]interface{})`, empty when absent. -/
def parsedFields (data : List (String × Value)) : List (String × Value) :=
  match data.lookup "parsed_fields" with
  | some (Value.obj fields) => fields
  | _ => []

/-- The entry `(k, v)` that a line of the text contributes to the parsed mapping: the
trimmed line is not blank, does not start with `%` or `#` and contains a colon, `v` is
the trimmed text after its first colon and is not empty, `k` is the trimmed text before
the first colon with spaces replaced by underscores, lower-cased. -/
def entryOfLine (tbl : CaseTables) (rawLine : String) (k : String) (v : Value) : Prop :=
  TrimSpace rawLine ≠ "" ∧ HasPrefix (TrimSpace rawLine) "%" = false ∧
    HasPrefix (TrimSpace rawLine) "#" = false ∧ Contains (TrimSpace rawLine) ":" = true ∧
    TrimSpace (afterColon (TrimSpace rawLine)) ≠ "" ∧
    v = Value.str (TrimSpace (afterColon (TrimSpace rawLine))) ∧
    k = ToLower tbl (ReplaceAll (TrimSpace (beforeColon (TrimSpace rawLine))) ' ' '_')

/-! ## Reference notions for the WHOIS text parser -/

/-- The entry that one line of a WHOIS text contributes to the parsed mapping, if any:
blank lines and lines starting with `%` or `#` give none; a line with a colon gives the
trimmed text after the first colon, unless that is empty, under the normalized key. -/
def lineEntry (tbl : CaseTables) (rawLine : String) : Option (String × Value) :=
  let line := TrimSpace rawLine
  if line = "" ∨ HasPrefix line "%" = true ∨ HasPrefix line "#" = true then none
  else if Contains line ":" = true then
    if TrimSpace (afterColon line) = "" then none
    else some (ToLower tbl (ReplaceAll (TrimSpace (beforeColon line)) ' ' '_'),
      Value.str (TrimSpace (afterColon line)))
  else none

/-- The entries of the accepted lines of a WHOIS text, in input order. -/
def acceptedEntries (tbl : CaseTables) (whoisData : String) : List (String × Value) :=
  (Split whoisData '\n').filterMap (lineEntry tbl)

/-! ## Reference notions for the RDAP summary -/

/-- The string elements of a JSON array, in array order. -/
def stringElems (items : List Value) : List String :=
  items.filterMap (fun item =>
    match item with
    | Value.str s => some s
    | _ => none)

/-- The string `LDHName` of a name server object. -/
def ldhName : Value → Option String
  | Value.obj nsObj =>
    match nsObj.lookup "LDHName" with
    | some (Value.str name) => some name
    | _ => none
  | _ => none

/-- An event object whose action is one of `actions` and whose date `time.Parse` accepts
in the layout RFC 3339. -/
def eventMatches (rt : Runtime) (actions : List String) : Value → Bool
  | Value.obj eventObj =>
    actions.contains (stringOrEmpty (eventObj.lookup "Action")) &&
      (rt.timeParse RFC3339 (stringOrEmpty (eventObj.lookup "Date"))).isSome
  | _ => false

/-- The actions that `parseRDAPSummary` maps to a slot of the timeline. -/
def timelineActions : List String :=
  ["registration", "last changed", "last update of RDAP database", "expiration"]

/-- The summary that `CreateSummary` starts from. -/
def initialSummary (result : QueryResult) : Summary :=
  { Domain := result.Query, Protocol := result.Protocol, QueryType := result.Type_ }

/-- The two "fn" properties of the VCard of `twoNamesResult`. -/
def twoNamesProps : List Value :=
  [Value.obj [("Name", Value.str "fn"), ("Value", Value.str "First Name")],
    Value.obj [("Name", Value.str "fn"), ("Value", Value.str "Second Name")]]

/-- The registrar entity of `twoNamesResult`. -/
def twoNamesEntity : List (String × Value) :=
  [("Handle", Value.str "42"), ("Roles", Value.arr [Value.str "registrar"]),
    ("VCard", Value.obj [("Properties", Value.arr twoNamesProps)])]

/-- An RDAP result for a domain whose single registrar entity has a VCard with two
properties named "fn", "First Name" and then "Second Name". -/
def twoNamesResult : QueryResult :=
  { Query := "example.com", Type_ := "domain", Protocol := "RDAP", Success := true,
    Data := Value.obj [("Entities", Value.arr [Value.obj twoNamesEntity])] }

/-- The marshalled text of the payload of `twoNamesResult`. -/
def twoNamesJSON : String :=
  "\x7b\"Entities\":[\x7b\"Handle\":\"42\",\"Roles\":[\"registrar\"],\"VCard\":\x7b\"Properties\":[\x7b\"Name\":\"fn\",\"Value\":\"First Name\"\x7d,\x7b\"Name\":\"fn\",\"Value\":\"Second Name\"\x7d]\x7d\x7d]\x7d"

/-- An entity with the role "technical" and no VCard. -/
def technicalEntity : List (String × Value) :=
  [("Handle", Value.str "T1"), ("Roles", Value.arr [Value.str "technical"])]

/-- An RDAP result for a domain whose registrar entity, with the two "fn" properties of
`twoNamesProps`, is followed by a technical entity. -/
def namesThenTechnicalResult : QueryResult :=
  { Query := "example.com", Type_ := "domain", Protocol := "RDAP", Success := true,
    Data := Value.obj [("Entities",
      Value.arr [Value.obj twoNamesEntity, Value.obj technicalEntity])] }

/-- The marshalled text of the payload of `namesThenTechnicalResult`. -/
def namesThenTechnicalJSON : String :=
  "\x7b\"Entities\":[\x7b\"Handle\":\"42\",\"Roles\":[\"registrar\"],\"VCard\":\x7b\"Properties\":[\x7b\"Name\":\"fn\",\"Value\":\"First Name\"\x7d,\x7b\"Name\":\"fn\",\"Value\":\"Second Name\"\x7d]\x7d\x7d,\x7b\"Handle\":\"T1\",\"Roles\":[\"technical\"]\x7d]\x7d"

/-- An RDAP result of type "asn" whose payload has the status array `["active"]` and
whose raw text is the line `status: ASSIGNED`. -/
def asnRDAPResult : QueryResult :=
  { Query := "AS64500", Type_ := "asn", Protocol := "RDAP", Success := true,
    Data := Value.obj [("Status", Value.arr [Value.str "active"])],
    RawData := "status: ASSIGNED" }

/-- The events of `eventsResult`: a registration, an expiration, a transfer, and a
last change whose date is not a timestamp. -/
def sampleEvents : List Value :=
  [Value.obj [("Action", Value.str "registration"), ("Date", Value.str "1995-08-14T04:00:00Z")],
    Value.obj [("Action", Value.str "expiration"), ("Date", Value.str "2026-08-13T04:00:00Z")],
    Value.obj [("Action", Value.str "transfer"), ("Date", Value.str "2020-01-01T00:00:00Z")],
    Value.obj [("Action", Value.str "last changed"), ("Date", Value.str "yesterday")]]

/-- An RDAP result for a domain whose payload has the events `sampleEvents`. -/
def eventsResult : QueryResult :=
  { Query := "example.com", Type_ := "domain", Protocol := "RDAP", Success := true,
    Data := Value.obj [("Events", Value.arr sampleEvents)] }

/-- A runtime for `eventsResult`: the clock at the start of 2025 and a `time.Parse` that
accepts the three timestamps of `sampleEvents`. -/
def eventsRuntime : Runtime :=
  exampleRuntime ⟨1735689600000000000⟩
    "\x7b\"Events\":[\x7b\"Action\":\"registration\",\"Date\":\"1995-08-14T04:00:00Z\"\x7d,\x7b\"Action\":\"expiration\",\"Date\":\"2026-08-13T04:00:00Z\"\x7d,\x7b\"Action\":\"transfer\",\"Date\":\"2020-01-01T00:00:00Z\"\x7d,\x7b\"Action\":\"last changed\",\"Date\":\"yesterday\"\x7d]\x7d"
    [("1995-08-14T04:00:00Z", ⟨808372800000000000⟩),
      ("2026-08-13T04:00:00Z", ⟨1786593600000000000⟩),
      ("2020-01-01T00:00:00Z", ⟨1577836800000000000⟩)]

/-- An RDAP result for a domain whose `Nameservers` array lists "ns1.example.com" twice. -/
def dupNameserversResult : QueryResult :=
  { Query := "example.com", Type_ := "domain", Protocol := "RDAP", Success := true,
    Data := Value.obj [("Nameservers", Value.arr
      [Value.obj [("LDHName", Value.str "ns1.example.com")],
        Value.obj [("LDHName", Value.str "ns1.example.com")]])] }

/-- The marshalled text of the payload of `dupNameserversResult`. -/
def dupNameserversJSON : String :=
  "\x7b\"Nameservers\":[\x7b\"LDHName\":\"ns1.example.com\"\x7d,\x7b\"LDHName\":\"ns1.example.com\"\x7d]\x7d"

/-! ## Reference notions for the AS record parser -/

/-- The state of the line loop of `parseASNInfo` after the last line. -/
def asnScan (tbl : CaseTables) (result : QueryResult) : ASNScan :=
  (Split result.RawData '\n').foldl (asnLine tbl) { asn := { Number := result.Query } }

/-- The first part of the block of the line loop of `parseASNInfo` for a `key: value`
line: the `switch` on the key and the organization section. -/
def asnFieldStep (tbl : CaseTables) (st : ASNScan) (key value : String) : ASNScan :=
  let st := asnSwitch st (ToLower tbl key) value
  if st.currentSection = "org" ∧ ToLower tbl key = "org-name" then
    { st with asn := { st.asn with Organization := value } }
  else st

/-- The block of the line loop of `parseASNInfo` that handles a `key: value` line with
a non-empty value. -/
def asnKeyValue (tbl : CaseTables) (st : ASNScan) (key value : String) : ASNScan :=
  let st := asnFieldStep tbl st key value
  if HasPrefix (ToLower tbl key) "import" || HasPrefix (ToLower tbl key) "export" then
    if Contains value "AS" then
      { st with asn := (Fields value).foldl asnPeerStep st.asn }
    else st
  else st

/-- The lower-cased key and the value of a line of an AS record that the line loop of
`parseASNInfo` reads as `key: value`: the trimmed line is not blank, does not start with
`#` or `%`, contains a colon, and the trimmed text after the first colon is not empty. -/
def asnEntry (tbl : CaseTables) (rawLine : String) : Option (String × String) :=
  let line := TrimSpace rawLine
  if line = "" ∨ HasPrefix line "#" = true ∨ HasPrefix line "%" = true then none
  else if Contains line ":" = true then
    if TrimSpace (afterColon line) = "" then none
    else some (ToLower tbl (TrimSpace (beforeColon line)), TrimSpace (afterColon line))
  else none

/-- A line that sets the number of the record: its key is `aut-num` or `asnumber`. -/
def isNumberLine (tbl : CaseTables) (rawLine : String) : Bool :=
  match asnEntry tbl rawLine with
  | some (key, _) => decide (key = "aut-num" ∨ key = "asnumber")
  | none => false

/-- A line whose key starts with `import` or `export`. -/
def isPeerLine (tbl : CaseTables) (rawLine : String) : Bool :=
  match asnEntry tbl rawLine with
  | some (key, _) => HasPrefix key "import" || HasPrefix key "export"
  | none => false

/-- A peer as `parseASNInfo` stores it: it starts with "AS", is longer than 2 bytes and
does not end with one of the characters `,`, `;`, `:`. -/
def isPeerToken (p : String) : Bool :=
  HasPrefix p "AS" && decide (len p > 2) &&
    match p.data.getLast? with
    | some c => !(",;:".data.contains c)
    | none => false

/-- An AS record whose `import` line, which names AS9009, stands before its `aut-num`
line. -/
def selfPeerResult : QueryResult :=
  { Query := "as9009", Type_ := "asn", Protocol := "WHOIS",
    RawData := "import: from AS9009 accept ANY\naut-num: AS9009\nas-name: EXAMPLE\n" }

/-- A line that the line loop of `parseASNInfo` reads as `key: value` with a key, lower-cased,
among `keys`. -/
def lineHasKey (tbl : CaseTables) (keys : List String) (rawLine : String) : Bool :=
  match asnEntry tbl rawLine with
  | some (key, _) => keys.contains key
  | none => false

/-- Whether some line of the text is read as `key: value` with a key among `keys`. -/
def hasKeyLine (tbl : CaseTables) (keys : List String) (text : String) : Bool :=
  (Split text '\n').any (lineHasKey tbl keys)

/-- An AS record with a name and a description, without organization and status. -/
def describedResult : QueryResult :=
  { Query := "AS64500", Type_ := "asn", Protocol := "WHOIS",
    RawData := "as-name: EXAMPLE\ndescr: Example Net\ndescr: second line\n" }

/-- An AS record whose `aut-num` line stands before its `import` line, which names the
record itself and a peer with a trailing comma. -/
def orderedPeerResult : QueryResult :=
  { Query := "as9009", Type_ := "asn", Protocol := "WHOIS",
    RawData := "aut-num: AS9009\nimport: from AS9009 AS701, AS701 accept ANY" }

/-- An AS record whose `import` line names AS701 twice, once with a trailing comma, and
AS3356 with a trailing semicolon. -/
def peersResult : QueryResult :=
  { Query := "AS64500", Type_ := "asn", Protocol := "WHOIS",
    RawData := "aut-num: AS64500\nimport: from AS701, AS3356; AS701 accept ANY" }

/-! ## Reference model of `time.Parse` (Go standard library, `time/format.go`)

`time.Parse` is not code of this repository. The model below follows the parse loop of
the standard library (as of Go 1.21) for the layout elements that occur in the six
layouts of `parseWhoisDate` and in `time.RFC3339`: `2006`, `01`, `02`, `15`, `04`, `05`,
`Jan`, `Z07:00`, and single literal characters. -/

/-- The elements of a layout: a literal character or one of the reference-time fields. -/
inductive LayoutElem where
  | literal (c : Char)
  | longYear
  | zeroMonth
  | shortMonth
  | zeroDay
  | hour
  | zeroMinute
  | zeroSecond
  | isoColonTZ
  deriving DecidableEq, Repr

/-- The split of a layout into elements, as `nextStdChunk` does it for the elements
above; `skipCount` characters belong to the element found last. -/
def layoutElemsAux : Nat → List Char → List LayoutElem
  | _, [] => []
  | skipCount + 1, _ :: cs => layoutElemsAux skipCount cs
  | 0, c :: cs =>
    if "Z07:00".data.isPrefixOf (c :: cs) then LayoutElem.isoColonTZ :: layoutElemsAux 5 cs
    else if "2006".data.isPrefixOf (c :: cs) then LayoutElem.longYear :: layoutElemsAux 3 cs
    else if "Jan".data.isPrefixOf (c :: cs) then LayoutElem.shortMonth :: layoutElemsAux 2 cs
    else if "01".data.isPrefixOf (c :: cs) then LayoutElem.zeroMonth :: layoutElemsAux 1 cs
    else if "02".data.isPrefixOf (c :: cs) then LayoutElem.zeroDay :: layoutElemsAux 1 cs
    else if "15".data.isPrefixOf (c :: cs) then LayoutElem.hour :: layoutElemsAux 1 cs
    else if "04".data.isPrefixOf (c :: cs) then LayoutElem.zeroMinute :: layoutElemsAux 1 cs
    else if "05".data.isPrefixOf (c :: cs) then LayoutElem.zeroSecond :: layoutElemsAux 1 cs
    else LayoutElem.literal c :: layoutElemsAux 0 cs

/-- The elements of a layout. -/
def layoutElems (layout : String) : List LayoutElem := layoutElemsAux 0 layout.data

/-- Go `isDigit` of `time/format.go` on one character. -/
def isDigitChar (c : Char) : Bool := decide ('0'.toNat ≤ c.toNat) && decide (c.toNat ≤ '9'.toNat)

/-- The value of a decimal digit. -/
def digitValue (c : Char) : Nat := c.toNat - '0'.toNat

/-- Go `getnum(s, fixed)`: a number of two digits, or of one digit when `fixed` is false
and no second digit follows; the rest of the text is returned with it. -/
def getnum (s : List Char) (fixed : Bool) : Option (Nat × List Char) :=
  match s with
  | [] => none
  | [a] => if isDigitChar a && !fixed then some (digitValue a, []) else none
  | a :: b :: rest =>
    if isDigitChar a then
      if isDigitChar b then some (digitValue a * 10 + digitValue b, rest)
      else if fixed then none
      else some (digitValue a, b :: rest)
    else none

/-- The number written by a list of digits. -/
def digitsValue (digits : List Char) : Nat :=
  digits.foldl (fun n c => n * 10 + digitValue c) 0

/-- Go `match(s1, s2)` of `time/format.go` on one character: equal ignoring the case of
ASCII letters. -/
def matchFold (c1 c2 : Char) : Bool :=
  c1 == c2 ||
    (Nat.lor c1.toNat 32 == Nat.lor c2.toNat 32 &&
      decide ('a'.toNat ≤ Nat.lor c1.toNat 32) && decide (Nat.lor c1.toNat 32 ≤ 'z'.toNat))

/-- Go `shortMonthNames`. -/
def shortMonthNames : List String :=
  ["Jan", "Feb", "Mar", "Apr", "May", "Jun", "Jul", "Aug", "Sep", "Oct", "Nov", "Dec"]

/-- Whether the text starts with the name, ignoring case. -/
def startsWithFold : List Char → List Char → Bool
  | _, [] => true
  | [], _ :: _ => false
  | v :: vs, n :: ns => matchFold v n && startsWithFold vs ns

/-- Go `lookup(shortMonthNames, value)`: the number of the first month, counted from
`index + 1`, whose short name the text starts with, and the rest of the text. -/
def lookupMonth (value : List Char) : List String → Nat → Option (Nat × List Char)
  | [], _ => none
  | name :: names, index =>
    if startsWithFold value name.data then some (index + 1, value.drop name.data.length)
    else lookupMonth value names (index + 1)

/-- The fields that the parse loop of `time.Parse` fills; a layout without month or day
leaves them at 1, one without zone at UTC. -/
structure ParsedTime where
  year : Nat := 0
  month : Nat := 1
  day : Nat := 1
  hour : Nat := 0
  min : Nat := 0
  sec : Nat := 0
  nsec : Nat := 0
  zoneOffset : Int := 0
  deriving DecidableEq, Repr

/-- The nanoseconds of a fraction of a second, from its digits: the first nine digits
count (`parseNanoseconds`). -/
def fractionNanos (digits : List Char) : Nat :=
  digitsValue (digits.take 9) * 10 ^ (9 - (digits.take 9).length)

/-- One round of the parse loop of `time.Parse`: the element is read off the front of the
text; `none` is a parse error. -/
def parseElem (elem : LayoutElem) (t : ParsedTime) (value : List Char) :
    Option (ParsedTime × List Char) :=
  match elem with
  | LayoutElem.literal c =>
    if c = ' ' then
      match value with
      | [] => some (t, [])
      | v :: _ => if v ≠ ' ' then none else some (t, value.dropWhile (fun x => x == ' '))
    else
      match value with
      | [] => none
      | v :: rest => if v = c then some (t, rest) else none
  | LayoutElem.longYear =>
    match value with
    | a :: b :: c :: d :: rest =>
      if isDigitChar a && isDigitChar b && isDigitChar c && isDigitChar d then
        some ({ t with year := digitsValue [a, b, c, d] }, rest)
      else none
    | _ => none
  | LayoutElem.zeroMonth =>
    match getnum value true with
    | some (month, rest) =>
      if month = 0 ∨ 12 < month then none else some ({ t with month := month }, rest)
    | none => none
  | LayoutElem.shortMonth =>
    match lookupMonth value shortMonthNames 0 with
    | some (month, rest) => some ({ t with month := month }, rest)
    | none => none
  | LayoutElem.zeroDay =>
    match getnum value true with
    | some (day, rest) => some ({ t with day := day }, rest)
    | none => none
  | LayoutElem.hour =>
    match getnum value false with
    | some (hour, rest) => if 24 ≤ hour then none else some ({ t with hour := hour }, rest)
    | none => none
  | LayoutElem.zeroMinute =>
    match getnum value true with
    | some (min, rest) => if 60 ≤ min then none else some ({ t with min := min }, rest)
    | none => none
  | LayoutElem.zeroSecond =>
    match getnum value true with
    | some (sec, rest) =>
      if 60 ≤ sec then none
      else
        match rest with
        | p :: d :: more =>
          if (p = '.' ∨ p = ',') ∧ isDigitChar d = true then
            some ({ t with sec := sec, nsec := fractionNanos ((d :: more).takeWhile isDigitChar) },
              (d :: more).dropWhile isDigitChar)
          else some ({ t with sec := sec }, rest)
        | _ => some ({ t with sec := sec }, rest)
    | none => none
  | LayoutElem.isoColonTZ =>
    match value with
    | 'Z' :: rest => some ({ t with zoneOffset := 0 }, rest)
    | sign :: h1 :: h2 :: colon :: m1 :: m2 :: rest =>
      if colon = ':' ∧ (sign = '+' ∨ sign = '-') then
        match getnum [h1, h2] true, getnum [m1, m2] true with
        | some (hr, _), some (mm, _) =>
          if 24 < hr ∨ 60 < mm then none
          else
            some ({ t with zoneOffset :=
              if sign = '-' then -(((hr * 60 + mm) * 60 : Nat) : Int)
              else (((hr * 60 + mm) * 60 : Nat) : Int) }, rest)
        | _, _ => none
      else none
    | _ => none

/-- The parse loop of `time.Parse`: the elements in turn; text left over at the end is an
error. -/
def parseElems : List LayoutElem → ParsedTime → List Char → Option ParsedTime
  | [], t, value => if value = [] then some t else none
  | elem :: elems, t, value =>
    match parseElem elem t value with
    | some (t2, rest) => parseElems elems t2 rest
    | none => none

/-- Go `isLeap`. -/
def isLeap (year : Nat) : Bool :=
  year % 4 == 0 && (year % 100 != 0 || year % 400 == 0)

/-- Go `daysIn(month, year)`. -/
def daysIn (month year : Nat) : Nat :=
  if month = 2 then (if isLeap year then 29 else 28)
  else if month = 4 ∨ month = 6 ∨ month = 9 ∨ month = 11 then 30
  else 31

/-- Days of the year before the first of the month. -/
def daysBeforeMonth (month year : Nat) : Nat :=
  ([0, 31, 59, 90, 120, 151, 181, 212, 243, 273, 304, 334].getD (month - 1) 0) +
    (if decide (2 < month) && isLeap year then 1 else 0)

/-- Days from 1 January of the year 0 to 1 January of `year` in the proleptic Gregorian
calendar. -/
def daysBeforeYear (year : Nat) : Nat :=
  365 * year + (year + 3) / 4 - (year + 99) / 100 + (year + 399) / 400

/-- The instant of `time.Date(year, month, day, hour, min, sec, nsec, UTC)` moved by the
zone offset: nanoseconds since 1 January 1970 UTC, which is day 719528. -/
def ParsedTime.instant (t : ParsedTime) : Time :=
  ⟨(((((daysBeforeYear t.year + daysBeforeMonth t.month t.year + (t.day - 1) : Nat) : Int)
      - 719528) * 86400 + ((t.hour * 3600 + t.min * 60 + t.sec : Nat) : Int)
      - t.zoneOffset) * 1000000000 + (t.nsec : Int))⟩

/-- Reference model of `time.Parse(layout, value)`: the parse loop, then the check of the
day against the month; `none` is the error. -/
def goTimeParse (layout value : String) : Option Time :=
  match parseElems (layoutElems layout) {} value.data with
  | some t => if 1 ≤ t.day ∧ t.day ≤ daysIn t.month t.year then some t.instant else none
  | none => none

/-- A runtime for closed examples whose `time.Parse` is the reference model: no case pair
above U+007F, the clock at `now`, and `text` as the marshalled payload. -/
def modelRuntime (now : Time) (text : String) : Runtime :=
  ⟨CaseTables.ascii, now, goTimeParse, fun _ => text⟩

/-! ## Reference notions for the WHOIS summary -/

/-- The words of a WHOIS status text that `parseWhoisSummary` keeps: the word contains
"rohibited", "ctive", "ransfer" or "client" and does not start with "http". -/
def keepsStatusWord (part : String) : Bool :=
  (Contains part "rohibited" || Contains part "ctive" || Contains part "ransfer" ||
    Contains part "client") && !HasPrefix part "http"

/-- The status tokens of one field of a WHOIS record: the kept words of its text, in
order; none when the field is absent or not a string. -/
def statusWords (fields : List (String × Value)) (field : String) : List String :=
  match fields.lookup field with
  | some (Value.str status) => (Fields status).filter keepsStatusWord
  | _ => []

/-- The body of the loop that collects the name servers, on the list alone. -/
def nameserverStep (tbl : CaseTables) (acc : List String) (entry : String × Value) :
    List String :=
  if Contains (ToLower tbl entry.1) "name_server" || Contains (ToLower tbl entry.1) "nameserver" then
    match entry.2 with
    | Value.str ns => if acc.contains ns then acc else acc ++ [ns]
    | _ => acc
  else acc

/-- The raw text that `parseWhoisSummary` passes to `InterpretStatus`. -/
def whoisRaw (data : List (String × Value)) : String :=
  match data.lookup "raw_response" with
  | some (Value.str rawResponse) => rawResponse
  | _ => ""

/-- The DNSSEC block of `parseWhoisSummary`. -/
def whoisDnssecBlock (fields : List (String × Value)) (summary : Summary) : Summary :=
  match fields.lookup "dnssec" with
  | some (Value.str dnssec) =>
    { summary with DNSSEC := { Enabled := decide (dnssec = "signedDelegation"), Details := dnssec } }
  | _ => summary

/-- The timeline block of `parseWhoisSummary`. -/
def whoisTimelineBlock (rt : Runtime) (fields : List (String × Value)) (summary : Summary) :
    Summary :=
  let summary :=
    match whoisEvent rt fields "creation_date" with
    | some ev => { summary with Timeline := { summary.Timeline with Registration := some ev } }
    | none => summary
  let summary :=
    match whoisEvent rt fields "updated_date" with
    | some ev => { summary with Timeline := { summary.Timeline with LastUpdated := some ev } }
    | none => summary
  match whoisEvent rt fields "registry_expiry_date" with
  | some ev => { summary with Timeline := { summary.Timeline with Expiration := some ev } }
  | none => summary

/-- The registrar block of `parseWhoisSummary`. -/
def whoisRegistrarBlock (fields : List (String × Value)) (summary : Summary) : Summary :=
  let summary :=
    match fields.lookup "registrar" with
    | some (Value.str registrar) =>
      { summary with Registrar := { summary.Registrar with Name := registrar } }
    | _ => summary
  match fields.lookup "registrar_iana_id" with
  | some (Value.str registrarID) =>
    { summary with Registrar := { summary.Registrar with ID := registrarID } }
  | _ => summary

/-- The status block of `parseWhoisSummary`: the tokens of the two status fields and the
interpreted status. -/
def whoisStatusBlock (rt : Runtime) (data fields : List (String × Value)) (summary : Summary) :
    Summary :=
  let summary := ["domain_status", "status"].foldl (whoisStatusField fields) summary
  { summary with Status := InterpretStatus rt.tbl summary.StatusDetails (whoisRaw data) }

/-- The summary of the protocol parser that `CreateSummary` selects. -/
def protocolSummary (rt : Runtime) (result : QueryResult) : Summary :=
  if result.Protocol = "RDAP" then parseRDAPSummary rt result (initialSummary result)
  else parseWhoisSummary rt result (initialSummary result)

/-- A timeline slot is a snapshot at `now`: when an event is present, its
`HumanReadable` is `HumanReadableTime` of its own date at `now`. -/
def snapshotAt (now : Time) (slot : Option TimelineEvent) : Prop :=
  ∀ ev, slot = some ev → ev.HumanReadable = HumanReadableTime now ev.Date

/-- A failed RDAP query: no payload, no raw text. -/
def failedResult : QueryResult :=
  { Query := "example.com", Type_ := "domain", Protocol := "RDAP", Error := "timeout" }

/-- A WHOIS result for a domain whose record says `DNSSEC: unsigned`. -/
def unsignedResult : QueryResult :=
  { Query := "example.com", Type_ := "domain", Protocol := "WHOIS", Success := true,
    Data := Value.obj [("parsed_fields", Value.obj [("dnssec", Value.str "unsigned")]),
      ("raw_response", Value.str "DNSSEC: unsigned")],
    RawData := "DNSSEC: unsigned" }

/-- The raw text of `okResult`: a record of more than 100 bytes whose only status is
"ok". -/
def okRecord : String :=
  "Domain Name: EXAMPLE.TEST\nRegistrar: Example Registrar, Inc.\nStatus: ok\nName Server: NS1.EXAMPLE.TEST\nName Server: NS2.EXAMPLE.TEST"

/-- A WHOIS result with the payload `parsed_fields` = `fields` and `raw_response` =
`raw`. -/
def whoisResult (fields : List (String × Value)) (raw : String) : QueryResult :=
  { Query := "example.test", Type_ := "domain", Protocol := "WHOIS", Success := true,
    Data := Value.obj [("parsed_fields", Value.obj fields), ("raw_response", Value.str raw)],
    RawData := raw }

/-- A WHOIS result whose parsed fields hold the status "ok" and whose raw text is
`okRecord`. -/
def okResult : QueryResult := whoisResult [("status", Value.str "ok")] okRecord

/-- A raw text of 110 characters: the line `Status: ok` followed by 100 line feeds. -/
def paddedRecord : String := ⟨"Status: ok".data ++ List.replicate 100 '\n'⟩

/-- A WHOIS result whose parsed fields hold the status "ok" and whose raw text is
`paddedRecord`. -/
def paddedResult : QueryResult := whoisResult [("status", Value.str "ok")] paddedRecord

/-- A raw text of more than 100 bytes, trimmed, that contains "No entries found" and
none of the five denial phrases. -/
def noEntriesRecord : String :=
  "Domain Name: EXAMPLE.TEST\nStatus: ok\nRemarks: No entries found in the secondary registry database for this name\nName Server: NS1.EXAMPLE.TEST"

/-- A WHOIS result whose parsed fields hold the status "ok" and whose raw text is
`noEntriesRecord`. -/
def noEntriesResult : QueryResult := whoisResult [("status", Value.str "ok")] noEntriesRecord

/-- The layouts that `parseWhoisDate` tries, in the order of the source. -/
def whoisLayouts : List String :=
  [RFC3339, "2006-01-02T15:04:05Z", "2006-01-02", "2006-01-02 15:04:05", "02-Jan-2006",
    "2006/01/02"]

/-- A WHOIS result whose creation date is "not a date" and whose expiry date is
"2023-08-14". -/
def badDateResult : QueryResult :=
  whoisResult [("creation_date", Value.str "not a date"),
    ("registry_expiry_date", Value.str "2023-08-14"), ("registrar", Value.str "Example")]
    "Creation Date: not a date\nRegistry Expiry Date: 2023-08-14\nRegistrar: Example"

/-- The date of an event object whose action is one of `actions`, when `time.Parse`
accepts it in the layout RFC 3339. -/
def eventTime (rt : Runtime) (actions : List String) : Value → Option Time
  | Value.obj eventObj =>
    if actions.contains (stringOrEmpty (eventObj.lookup "Action")) then
      rt.timeParse RFC3339 (stringOrEmpty (eventObj.lookup "Date"))
    else none
  | _ => none

/-- The date of the last event of the list that has an action of `actions` and a date
that parses. -/
def lastEventTime (rt : Runtime) (actions : List String) : List Value → Option Time
  | [] => none
  | event :: rest =>
    match lastEventTime rt actions rest with
    | some date => some date
    | none => eventTime rt actions event

/-- The timeline event that `parseRDAPSummary` makes of a date. -/
def eventAt (rt : Runtime) (date : Time) : TimelineEvent :=
  { Date := date, HumanReadable := HumanReadableTime rt.now date }

/-- The events of `changesResult`: a last change followed by a later update of the RDAP
database. -/
def changeEvents : List Value :=
  [Value.obj [("Action", Value.str "last changed"), ("Date", Value.str "2024-03-01T00:00:00Z")],
    Value.obj [("Action", Value.str "last update of RDAP database"),
      ("Date", Value.str "2025-06-01T00:00:00Z")]]

/-- An RDAP result for a domain whose payload has the events `changeEvents`. -/
def changesResult : QueryResult :=
  { Query := "example.com", Type_ := "domain", Protocol := "RDAP", Success := true,
    Data := Value.obj [("Events", Value.arr changeEvents)] }

/-- A runtime for `changesResult`: a `time.Parse` that accepts the two timestamps of
`changeEvents`. -/
def changesRuntime : Runtime :=
  exampleRuntime ⟨1750000000000000000⟩ ""
    [("2024-03-01T00:00:00Z", ⟨1709251200000000000⟩),
      ("2025-06-01T00:00:00Z", ⟨1748736000000000000⟩)]

/-- The raw text of a record that spells the name server key in two ways. -/
def twoSpellingsRecord : String :=
  "Name Server: ns1.example.test\nNameserver: ns2.example.test"

/-- The parsed fields of `twoSpellingsRecord`, with `name_server` visited first. -/
def firstOrderFields : List (String × Value) :=
  [("name_server", Value.str "ns1.example.test"), ("nameserver", Value.str "ns2.example.test")]

/-- The same map as `firstOrderFields`, with `nameserver` visited first. -/
def secondOrderFields : List (String × Value) :=
  [("nameserver", Value.str "ns2.example.test"), ("name_server", Value.str "ns1.example.test")]

/-- The value of a line that the line loop of `parseASNInfo` reads as `key: value` with a
key, lower-cased, among `keys`. -/
def keyValue (tbl : CaseTables) (keys : List String) (rawLine : String) : Option String :=
  match asnEntry tbl rawLine with
  | some (key, value) => if keys.contains key then some value else none
  | none => none

/-- The value of the last line of the list that has a key among `keys`. -/
def lastValue (tbl : CaseTables) (keys : List String) : List String → Option String
  | [] => none
  | rawLine :: rest =>
    match lastValue tbl keys rest with
    | some value => some value
    | none => keyValue tbl keys rawLine

/-- The value of the first line of the list that has a key among `keys`. -/
def firstValue (tbl : CaseTables) (keys : List String) (lines : List String) : Option String :=
  lines.findSome? (keyValue tbl keys)

/-- An AS record with two `descr` lines, two `country` lines and keys in mixed case. -/
def mixedCaseResult : QueryResult :=
  { Query := "as9009", Type_ := "asn", Protocol := "WHOIS",
    RawData := "Aut-Num: AS9009\nAS-Name: FIRST\nas-name: SECOND\ndescr: one\nDescr: two\ncountry: GB\nCountry: NL\nstatus: ASSIGNED\nstatus:\n" }

/-! ## Lemmas on `float64` and the day count -/

theorem floorLog2Aux_eq (fuel n : Nat) (h : n ≤ fuel) : floorLog2Aux fuel n = Nat.log 2 n := by
  induction fuel generalizing n with
  | zero =>
    have : n = 0 := by omega
    subst this; simp [floorLog2Aux]
  | succ f ih =>
    unfold floorLog2Aux
    by_cases h2 : n < 2
    · simp [h2, Nat.log_of_lt h2]
    · simp only [h2, if_false]
      rw [ih (n / 2) (by omega)]
      have h3 : Nat.log 2 n = Nat.log 2 (n / 2) + 1 :=
        Nat.log_of_one_lt_of_le (by norm_num) (by omega)
      rw [h3]

theorem floorLog2_eq (n : Nat) : floorLog2 n = Nat.log 2 n := floorLog2Aux_eq n n le_rfl

theorem floorLog2_le (n : Nat) (h : 0 < n) : 2 ^ floorLog2 n ≤ n := by
  rw [floorLog2_eq]; exact Nat.pow_log_le_self 2 (by omega)

theorem floorLog2_lt (n : Nat) : n < 2 ^ (floorLog2 n + 1) := by
  rw [floorLog2_eq]; exact Nat.lt_pow_succ_log_self (by norm_num) n

theorem rhe_ge (n d G : Nat) (hd : 0 < d) (h : G * d ≤ n) : G ≤ roundHalfEven n d := by
  have hq : G ≤ n / d := (Nat.le_div_iff_mul_le hd).2 h
  unfold roundHalfEven
  simp only
  split_ifs <;> omega

theorem rhe_le (n d G : Nat) (hd : 0 < d) (h : n ≤ G * d) : roundHalfEven n d ≤ G := by
  have hdiv := Nat.div_add_mod n d
  have hmod := Nat.mod_lt n hd
  have hq : n / d ≤ G := by
    have := Nat.div_le_div_right (c := d) h
    rwa [Nat.mul_div_cancel _ hd] at this
  unfold roundHalfEven
  simp only
  rcases Nat.lt_or_eq_of_le hq with hlt | heq
  · split_ifs <;> omega
  · have hr : n % d = 0 := by
      have : d * (n / d) = G * d := by rw [heq, Nat.mul_comm]
      omega
    simp [hr, hd, heq]

theorem rhe_lt (n d G : Nat) (hd : 0 < d) (h : 2 * n + d < 2 * (G * d)) : roundHalfEven n d < G := by
  have hdiv := Nat.div_add_mod n d
  have hmod := Nat.mod_lt n hd
  have hq : n / d < G := by
    apply (Nat.div_lt_iff_lt_mul hd).2; omega
  unfold roundHalfEven
  simp only
  rcases Nat.lt_or_eq_of_le (Nat.succ_le_of_lt hq) with hlt | heq
  · split_ifs <;> omega
  · have hr : 2 * (n % d) < d := by
      have e1 : G * d = d * (n / d) + d := by rw [← heq, Nat.succ_mul, Nat.mul_comm]
      omega
    simp [hr]
    omega

theorem float64_zero (d : Nat) : float64 0 d = ⟨0, 1⟩ := by simp [float64]

theorem float64_spec (n d : Nat) (hn : 0 < n) (hd : 0 < d) :
    ∃ j : Nat, (float64 n d).num =
        roundHalfEven (n * 2 ^ (floorLog2 d + 53)) (d * 2 ^ j) * 2 ^ j ∧
      (float64 n d).den = 2 ^ (floorLog2 d + 53) ∧
      2 ^ 52 * (d * 2 ^ j) ≤ n * 2 ^ (floorLog2 d + 53) := by
  have ha := floorLog2_le n hn
  have hb := floorLog2_lt d
  unfold float64
  simp only [Nat.ne_of_gt hn, Nat.ne_of_gt hd, or_self, if_false]
  by_cases hc : n * 2 ^ (floorLog2 d + 53) < 2 ^ 53 * (d * 2 ^ floorLog2 n)
  · rw [if_pos hc]
    refine ⟨floorLog2 n, rfl, rfl, ?_⟩
    · have h1 : 2 ^ 52 * d ≤ 2 ^ (floorLog2 d + 53) := by
        have : 2 ^ (floorLog2 d + 53) = 2 ^ 52 * 2 ^ (floorLog2 d + 1) := by
          rw [← pow_add]; congr 1; omega
        rw [this]; exact Nat.mul_le_mul_left _ (Nat.le_of_lt hb)
      calc 2 ^ 52 * (d * 2 ^ floorLog2 n) = (2 ^ 52 * d) * 2 ^ floorLog2 n := by ring
        _ ≤ 2 ^ (floorLog2 d + 53) * n := Nat.mul_le_mul h1 ha
        _ = n * 2 ^ (floorLog2 d + 53) := by ring
  · rw [if_neg hc]
    refine ⟨floorLog2 n + 1, ?_, rfl, ?_⟩
    · have : 2 * (d * 2 ^ floorLog2 n) = d * 2 ^ (floorLog2 n + 1) := by ring
      rw [← this]
    · have : 2 ^ 52 * (d * 2 ^ (floorLog2 n + 1)) = 2 ^ 53 * (d * 2 ^ floorLog2 n) := by ring
      rw [this]; exact Nat.le_of_not_lt hc

theorem float64_den_pos (n d : Nat) : 0 < (float64 n d).den := by
  unfold float64
  simp only
  split_ifs <;> simp

/-- Exponent bookkeeping shared by the three bounds on `float64`. -/
theorem shift_split (n d j b E t : Nat) (hE : n < d * 2 ^ E) (htE : t + E ≤ 53)
    (hj : 2 ^ 52 * (d * 2 ^ j) ≤ n * 2 ^ (b + 53)) : ∃ J, b + 53 = j + t + J := by
  have h1 : 2 ^ 52 * (d * 2 ^ j) < d * 2 ^ E * 2 ^ (b + 53) :=
    lt_of_le_of_lt hj (Nat.mul_lt_mul_of_pos_right hE (by positivity))
  have h2 : d * 2 ^ (52 + j) < d * 2 ^ (E + (b + 53)) := by
    calc d * 2 ^ (52 + j) = 2 ^ 52 * (d * 2 ^ j) := by ring
      _ < d * 2 ^ E * 2 ^ (b + 53) := h1
      _ = d * 2 ^ (E + (b + 53)) := by ring
  have h3 : 2 ^ (52 + j) < 2 ^ (E + (b + 53)) := Nat.lt_of_mul_lt_mul_left h2
  have h4 : 52 + j < E + (b + 53) := (Nat.pow_lt_pow_iff_right (by norm_num)).1 h3
  exact ⟨b + 53 - j - t, by omega⟩

theorem float64_le (n d G t E : Nat) (hd : 0 < d) (hE : n < d * 2 ^ E) (htE : t + E ≤ 53)
    (h : n * 2 ^ t ≤ G * d) : (float64 n d).num * 2 ^ t ≤ G * (float64 n d).den := by
  rcases Nat.eq_zero_or_pos n with hn | hn
  · subst hn; simp [float64_zero]
  obtain ⟨j, hnum, hden, hj⟩ := float64_spec n d hn hd
  obtain ⟨J, hJ⟩ := shift_split n d j (floorLog2 d) E t hE htE hj
  rw [hnum, hden, hJ]
  have hm : roundHalfEven (n * 2 ^ (j + t + J)) (d * 2 ^ j) ≤ G * 2 ^ J := by
    apply rhe_le _ _ _ (by positivity)
    calc n * 2 ^ (j + t + J) = (n * 2 ^ t) * (2 ^ j * 2 ^ J) := by ring
      _ ≤ (G * d) * (2 ^ j * 2 ^ J) := Nat.mul_le_mul_right _ h
      _ = G * 2 ^ J * (d * 2 ^ j) := by ring
  calc roundHalfEven (n * 2 ^ (j + t + J)) (d * 2 ^ j) * 2 ^ j * 2 ^ t
      = roundHalfEven (n * 2 ^ (j + t + J)) (d * 2 ^ j) * (2 ^ j * 2 ^ t) := by ring
    _ ≤ G * 2 ^ J * (2 ^ j * 2 ^ t) := Nat.mul_le_mul_right _ hm
    _ = G * 2 ^ (j + t + J) := by ring

theorem float64_ge (n d G t E : Nat) (hd : 0 < d) (hE : n < d * 2 ^ E) (htE : t + E ≤ 53)
    (h : G * d ≤ n * 2 ^ t) : G * (float64 n d).den ≤ (float64 n d).num * 2 ^ t := by
  rcases Nat.eq_zero_or_pos n with hn | hn
  · subst hn
    have : G = 0 := by
      simp at h
      rcases h with h | h
      · exact h
      · omega
    simp [this]
  obtain ⟨j, hnum, hden, hj⟩ := float64_spec n d hn hd
  obtain ⟨J, hJ⟩ := shift_split n d j (floorLog2 d) E t hE htE hj
  rw [hnum, hden, hJ]
  have hm : G * 2 ^ J ≤ roundHalfEven (n * 2 ^ (j + t + J)) (d * 2 ^ j) := by
    apply rhe_ge _ _ _ (by positivity)
    calc G * 2 ^ J * (d * 2 ^ j) = (G * d) * (2 ^ j * 2 ^ J) := by ring
      _ ≤ (n * 2 ^ t) * (2 ^ j * 2 ^ J) := Nat.mul_le_mul_right _ h
      _ = n * 2 ^ (j + t + J) := by ring
  calc G * 2 ^ (j + t + J) = G * 2 ^ J * (2 ^ j * 2 ^ t) := by ring
    _ ≤ roundHalfEven (n * 2 ^ (j + t + J)) (d * 2 ^ j) * (2 ^ j * 2 ^ t) :=
        Nat.mul_le_mul_right _ hm
    _ = roundHalfEven (n * 2 ^ (j + t + J)) (d * 2 ^ j) * 2 ^ j * 2 ^ t := by ring

theorem float64_lt (n d G t E : Nat) (hd : 0 < d) (hE : n < d * 2 ^ E) (htE : t + E ≤ 53)
    (h : 2 * (n * 2 ^ t) + d < 2 * (G * d)) :
    (float64 n d).num * 2 ^ t < G * (float64 n d).den := by
  rcases Nat.eq_zero_or_pos n with hn | hn
  · subst hn
    have : 0 < G := by
      rcases Nat.eq_zero_or_pos G with h0 | h0
      · subst h0; simp at h
      · exact h0
    simp [float64_zero, this]
  obtain ⟨j, hnum, hden, hj⟩ := float64_spec n d hn hd
  obtain ⟨J, hJ⟩ := shift_split n d j (floorLog2 d) E t hE htE hj
  rw [hnum, hden, hJ]
  have hpos : 0 < 2 ^ j * 2 ^ J := by positivity
  have hJ1 : 1 ≤ 2 ^ J := Nat.one_le_two_pow
  have hm : roundHalfEven (n * 2 ^ (j + t + J)) (d * 2 ^ j) < G * 2 ^ J := by
    apply rhe_lt _ _ _ (by positivity)
    have h1 : (2 * (n * 2 ^ t) + d) * (2 ^ j * 2 ^ J) < 2 * (G * d) * (2 ^ j * 2 ^ J) :=
      Nat.mul_lt_mul_of_pos_right h hpos
    have h2 : d * 2 ^ j ≤ d * (2 ^ j * 2 ^ J) := by
      calc d * 2 ^ j = d * (2 ^ j * 1) := by ring
        _ ≤ d * (2 ^ j * 2 ^ J) := Nat.mul_le_mul_left _ (Nat.mul_le_mul_left _ hJ1)
    calc 2 * (n * 2 ^ (j + t + J)) + d * 2 ^ j
        ≤ 2 * (n * 2 ^ (j + t + J)) + d * (2 ^ j * 2 ^ J) := Nat.add_le_add_left h2 _
      _ = (2 * (n * 2 ^ t) + d) * (2 ^ j * 2 ^ J) := by ring
      _ < 2 * (G * d) * (2 ^ j * 2 ^ J) := h1
      _ = 2 * (G * 2 ^ J * (d * 2 ^ j)) := by ring
  calc roundHalfEven (n * 2 ^ (j + t + J)) (d * 2 ^ j) * 2 ^ j * 2 ^ t
      = roundHalfEven (n * 2 ^ (j + t + J)) (d * 2 ^ j) * (2 ^ j * 2 ^ t) := by ring
    _ < G * 2 ^ J * (2 ^ j * 2 ^ t) := Nat.mul_lt_mul_of_pos_right hm (by positivity)
    _ = G * 2 ^ (j + t + J) := by ring

theorem float64_int (n : Nat) (h : n < 2 ^ 53) : (float64 n 1).num = n * (float64 n 1).den := by
  have h1 := float64_le n 1 n 0 53 (by norm_num) (by simpa using h) (by norm_num) (by simp)
  have h2 := float64_ge n 1 n 0 53 (by norm_num) (by simpa using h) (by norm_num) (by simp)
  simp at h1 h2
  omega

/-- The fraction of an hour: at most `1 - 2^-42`. -/
theorem nsecFrac_le (nsec : Nat) (h : nsec < Hour) :
    ((float64 nsec 1).div (float64 3600000000000 1)).num * 2 ^ 42 ≤
      (2 ^ 42 - 1) * ((float64 nsec 1).div (float64 3600000000000 1)).den := by
  have hg := float64_int nsec (lt_trans h (by norm_num [Hour]))
  have hc := float64_int 3600000000000 (by norm_num)
  have hgd := float64_den_pos nsec 1
  have hcd := float64_den_pos 3600000000000 1
  unfold Frac.div
  rw [hg, hc]
  generalize (float64 nsec 1).den = a at *
  generalize (float64 3600000000000 1).den = c at *
  have hac : 0 < a * c := Nat.mul_pos hgd hcd
  unfold Hour at h
  apply float64_le _ _ _ 42 0 (by positivity) _ (by norm_num)
  · have : nsec * a * c * 2 ^ 42 = (nsec * 2 ^ 42) * (a * c) := by ring
    rw [this]
    have : (2 ^ 42 - 1) * (a * (3600000000000 * c)) = ((2 ^ 42 - 1) * 3600000000000) * (a * c) := by ring
    rw [this]
    apply Nat.mul_le_mul_right
    norm_num
    omega
  · have : nsec * a * c = nsec * (a * c) := by ring
    rw [this]
    have : a * (3600000000000 * c) * 2 ^ 0 = 3600000000000 * (a * c) := by ring
    rw [this]
    exact Nat.mul_lt_mul_of_pos_right h hac

theorem hoursMag_den_pos (D : Nat) : 0 < (hoursMag D).den := float64_den_pos _ _

theorem hoursMag_le (D H : Nat) (hH : H ≤ 2048) (hD : D < H * Hour) :
    (hoursMag D).num * 2 ^ 42 ≤ (H * 2 ^ 42 - 1) * (hoursMag D).den := by
  have hhour : D / Hour < H := (Nat.div_lt_iff_lt_mul (by norm_num [Hour])).2 hD
  have hnsec : D % Hour < Hour := Nat.mod_lt _ (by norm_num [Hour])
  have hf := float64_int (D / Hour) (by omega)
  have hq := nsecFrac_le (D % Hour) hnsec
  have hfd := float64_den_pos (D / Hour) 1
  have hqd : 0 < ((float64 (D % Hour) 1).div (float64 3600000000000 1)).den :=
    float64_den_pos _ _
  unfold hoursMag
  simp only
  unfold Frac.add
  rw [hf]
  generalize (float64 (D / Hour) 1).den = a at *
  generalize (float64 (D % Hour) 1).div (float64 3600000000000 1) = q at *
  generalize D / Hour = hour at *
  have key : (hour * a * q.den + q.num * a) * 2 ^ 42 ≤ (H * 2 ^ 42 - 1) * (a * q.den) := by
    have e1 : (hour * a * q.den + q.num * a) * 2 ^ 42
        = hour * 2 ^ 42 * (a * q.den) + (q.num * 2 ^ 42) * a := by ring
    have e2 : (q.num * 2 ^ 42) * a ≤ (2 ^ 42 - 1) * q.den * a := Nat.mul_le_mul_right _ hq
    have e3 : (H * 2 ^ 42 - 1) = hour * 2 ^ 42 + (2 ^ 42 - 1) + (H - hour - 1) * 2 ^ 42 := by
      have : H = hour + 1 + (H - hour - 1) := by omega
      conv_lhs => rw [this]
      have : (hour + 1 + (H - hour - 1)) * 2 ^ 42
          = hour * 2 ^ 42 + 2 ^ 42 + (H - hour - 1) * 2 ^ 42 := by ring
      rw [this]
      have : 1 ≤ 2 ^ 42 := Nat.one_le_two_pow
      omega
    rw [e1, e3]
    calc hour * 2 ^ 42 * (a * q.den) + q.num * 2 ^ 42 * a
        ≤ hour * 2 ^ 42 * (a * q.den) + (2 ^ 42 - 1) * q.den * a := Nat.add_le_add_left e2 _
      _ = (hour * 2 ^ 42 + (2 ^ 42 - 1)) * (a * q.den) := by ring
      _ ≤ (hour * 2 ^ 42 + (2 ^ 42 - 1) + (H - hour - 1) * 2 ^ 42) * (a * q.den) :=
          Nat.mul_le_mul_right _ (Nat.le_add_right _ _)
  apply float64_le _ _ _ 42 11 (Nat.mul_pos hfd hqd) _ (by norm_num) key
  have hpos : 0 < a * q.den := Nat.mul_pos hfd hqd
  have hlt : (H * 2 ^ 42 - 1) * (a * q.den) < 2 ^ 11 * 2 ^ 42 * (a * q.den) := by
    apply Nat.mul_lt_mul_of_pos_right _ hpos
    have : H * 2 ^ 42 ≤ 2048 * 2 ^ 42 := Nat.mul_le_mul_right _ hH
    norm_num at this ⊢
    omega
  have := lt_of_le_of_lt key hlt
  have e : 2 ^ 11 * 2 ^ 42 * (a * q.den) = (a * q.den * 2 ^ 11) * 2 ^ 42 := by ring
  rw [e] at this
  exact Nat.lt_of_mul_lt_mul_right this

theorem hoursMag_bounds (D : Nat) (hD : D < 2 ^ 63) :
    (D / Hour) * (hoursMag D).den ≤ (hoursMag D).num ∧
      (hoursMag D).num ≤ (D / Hour + 1) * (hoursMag D).den := by
  have hhour : D / Hour < 2 ^ 22 := by
    apply (Nat.div_lt_iff_lt_mul (by norm_num [Hour])).2
    exact lt_of_lt_of_le hD (by norm_num [Hour])
  have hnsec : D % Hour < Hour := Nat.mod_lt _ (by norm_num [Hour])
  have hf := float64_int (D / Hour) (lt_trans hhour (by norm_num))
  have hq := nsecFrac_le (D % Hour) hnsec
  have hfd := float64_den_pos (D / Hour) 1
  have hqd : 0 < ((float64 (D % Hour) 1).div (float64 3600000000000 1)).den :=
    float64_den_pos _ _
  unfold hoursMag
  simp only
  unfold Frac.add
  rw [hf]
  generalize (float64 (D / Hour) 1).den = a at *
  generalize (float64 (D % Hour) 1).div (float64 3600000000000 1) = q at *
  generalize D / Hour = hour at *
  have hq1 : q.num ≤ q.den := by
    have h1 : q.num * 2 ^ 42 ≤ q.den * 2 ^ 42 :=
      le_trans hq (by rw [Nat.mul_comm]; exact Nat.mul_le_mul_left _ (Nat.sub_le _ _))
    exact Nat.le_of_mul_le_mul_right h1 (by positivity)
  have hpos : 0 < a * q.den := Nat.mul_pos hfd hqd
  have lo : hour * (a * q.den) ≤ (hour * a * q.den + q.num * a) := by
    have : hour * (a * q.den) = hour * a * q.den := by ring
    omega
  have hi : (hour * a * q.den + q.num * a) ≤ (hour + 1) * (a * q.den) := by
    have e : (hour + 1) * (a * q.den) = hour * a * q.den + q.den * a := by ring
    rw [e]
    exact Nat.add_le_add_left (Nat.mul_le_mul_right _ hq1) _
  have hE : hour * a * q.den + q.num * a < a * q.den * 2 ^ 23 := by
    calc hour * a * q.den + q.num * a ≤ (hour + 1) * (a * q.den) := hi
      _ < 2 ^ 23 * (a * q.den) := Nat.mul_lt_mul_of_pos_right (by omega) hpos
      _ = a * q.den * 2 ^ 23 := by ring
  have h1 := float64_ge _ _ hour 0 23 hpos hE (by norm_num) (by simpa using lo)
  have h2 := float64_le _ _ (hour + 1) 0 23 hpos hE (by norm_num) (by simpa using hi)
  simp only [pow_zero, Nat.mul_one] at h1 h2
  exact ⟨h1, h2⟩

theorem daysMag_lt (D K : Nat) (hK : K ≤ 85) (hD : D < K * Day) : daysMag D < K := by
  have hH : D < (24 * K) * Hour := by
    have : K * Day = (24 * K) * Hour := by unfold Day; ring
    omega
  have hs := hoursMag_le D (24 * K) (by omega) hH
  have hsd := hoursMag_den_pos D
  have hc := float64_int 24 (by norm_num)
  have hcd := float64_den_pos 24 1
  unfold daysMag Frac.toInt Frac.div
  rw [hc]
  generalize hoursMag D = s at *
  generalize (float64 24 1).den = c at *
  have hK0 : 0 < K := by
    rcases Nat.eq_zero_or_pos K with h | h
    · subst h; simp at hD
    · exact h
  -- s ≤ 24 K - 2^-42
  have hs16 : s.num * 2 ^ 46 + 16 * s.den ≤ 24 * K * 2 ^ 46 * s.den := by
    have h1 : (24 * K * 2 ^ 42 - 1) * s.den + s.den = 24 * K * 2 ^ 42 * s.den := by
      have : 1 ≤ 24 * K * 2 ^ 42 := by
        have : 1 ≤ 2 ^ 42 := Nat.one_le_two_pow
        nlinarith
      have e : 24 * K * 2 ^ 42 = (24 * K * 2 ^ 42 - 1) + 1 := by omega
      conv_rhs => rw [e]
      ring
    have h2 : s.num * 2 ^ 42 + s.den ≤ 24 * K * 2 ^ 42 * s.den := by omega
    have h3 := Nat.mul_le_mul_left 16 h2
    have e1 : 16 * (s.num * 2 ^ 42 + s.den) = s.num * 2 ^ 46 + 16 * s.den := by ring
    have e2 : 16 * (24 * K * 2 ^ 42 * s.den) = 24 * K * 2 ^ 46 * s.den := by ring
    rw [e1, e2] at h3
    exact h3
  have hpos : 0 < s.den * (24 * c) := by positivity
  have key : 2 * (s.num * c * 2 ^ 46) + s.den * (24 * c) < 2 * (K * 2 ^ 46 * (s.den * (24 * c))) := by
    have h4 : (2 * (s.num * 2 ^ 46) + 24 * s.den) * c < (48 * K * 2 ^ 46 * s.den) * c := by
      apply Nat.mul_lt_mul_of_pos_right _ hcd
      have e : 48 * K * 2 ^ 46 * s.den = 2 * (24 * K * 2 ^ 46 * s.den) := by ring
      rw [e]
      omega
    calc 2 * (s.num * c * 2 ^ 46) + s.den * (24 * c)
        = (2 * (s.num * 2 ^ 46) + 24 * s.den) * c := by ring
      _ < (48 * K * 2 ^ 46 * s.den) * c := h4
      _ = 2 * (K * 2 ^ 46 * (s.den * (24 * c))) := by ring
  have hE : s.num * c < s.den * (24 * c) * 2 ^ 7 := by
    have h5 : s.num * 2 ^ 46 < 24 * 128 * 2 ^ 46 * s.den := by
      have : 24 * K * 2 ^ 46 * s.den ≤ 24 * 85 * 2 ^ 46 * s.den := by
        apply Nat.mul_le_mul_right
        apply Nat.mul_le_mul_right
        omega
      have : 24 * 85 * 2 ^ 46 * s.den < 24 * 128 * 2 ^ 46 * s.den := by
        apply Nat.mul_lt_mul_of_pos_right _ hsd
        norm_num
      omega
    have h6 : s.num < 24 * 128 * s.den := by
      have e : 24 * 128 * 2 ^ 46 * s.den = (24 * 128 * s.den) * 2 ^ 46 := by ring
      rw [e] at h5
      exact Nat.lt_of_mul_lt_mul_right h5
    calc s.num * c < (24 * 128 * s.den) * c := Nat.mul_lt_mul_of_pos_right h6 hcd
      _ = s.den * (24 * c) * 2 ^ 7 := by ring
  have h := float64_lt (s.num * c) (s.den * (24 * c)) (K * 2 ^ 46) 46 7 hpos hE (by norm_num) key
  have hyd := float64_den_pos (s.num * c) (s.den * (24 * c))
  generalize float64 (s.num * c) (s.den * (24 * c)) = y at *
  apply (Nat.div_lt_iff_lt_mul hyd).2
  have e : K * 2 ^ 46 * y.den = (K * y.den) * 2 ^ 46 := by ring
  rw [e] at h
  exact Nat.lt_of_mul_lt_mul_right h

theorem daysMag_ge (D k : Nat) (hD : D < 2 ^ 63) (hk : k * Day ≤ D) : k ≤ daysMag D := by
  have hs := hoursMag_bounds D hD
  have hsd := hoursMag_den_pos D
  have hc := float64_int 24 (by norm_num)
  have hcd := float64_den_pos 24 1
  have hhour : 24 * k ≤ D / Hour := by
    apply (Nat.le_div_iff_mul_le (by norm_num [Hour])).2
    have : k * Day = 24 * k * Hour := by unfold Day; ring
    omega
  have hhour2 : D / Hour < 2 ^ 22 := by
    apply (Nat.div_lt_iff_lt_mul (by norm_num [Hour])).2
    exact lt_of_lt_of_le hD (by norm_num [Hour])
  unfold daysMag Frac.toInt Frac.div
  rw [hc]
  generalize hoursMag D = s at *
  generalize (float64 24 1).den = c at *
  generalize D / Hour = hour at *
  obtain ⟨hlo, hhi⟩ := hs
  have hpos : 0 < s.den * (24 * c) := by positivity
  have h1 : 24 * k * s.den ≤ s.num := le_trans (Nat.mul_le_mul_right _ hhour) hlo
  have h2 : s.num < 2 ^ 23 * s.den :=
    lt_of_le_of_lt hhi (Nat.mul_lt_mul_of_pos_right (by omega) hsd)
  have key : k * (s.den * (24 * c)) ≤ s.num * c * 2 ^ 0 := by
    calc k * (s.den * (24 * c)) = (24 * k * s.den) * c := by ring
      _ ≤ s.num * c := Nat.mul_le_mul_right _ h1
      _ = s.num * c * 2 ^ 0 := by ring
  have hE : s.num * c < s.den * (24 * c) * 2 ^ 23 := by
    calc s.num * c < (2 ^ 23 * s.den) * c := Nat.mul_lt_mul_of_pos_right h2 hcd
      _ ≤ s.den * (24 * c) * 2 ^ 23 := by
          have : s.den * (24 * c) * 2 ^ 23 = 24 * ((2 ^ 23 * s.den) * c) := by ring
          rw [this]; omega
  have h := float64_ge (s.num * c) (s.den * (24 * c)) k 0 23 hpos hE (by norm_num) key
  have hyd := float64_den_pos (s.num * c) (s.den * (24 * c))
  generalize float64 (s.num * c) (s.den * (24 * c)) = y at *
  apply (Nat.le_div_iff_mul_le hyd).2
  simpa using h

theorem wholeDays_exact (d : Int) (h0 : 0 ≤ d) (h : d < 85 * (Day : Int)) :
    wholeDays d = d / (Day : Int) := by
  obtain ⟨D, rfl⟩ := Int.eq_ofNat_of_zero_le h0
  have hDay : 0 < Day := by norm_num [Day, Hour]
  have hD : D < 85 * Day := by exact_mod_cast h
  have hK : D / Day + 1 ≤ 85 := by
    have : D / Day < 85 := (Nat.div_lt_iff_lt_mul hDay).2 hD
    omega
  have hlt : D < (D / Day + 1) * Day := by
    have e1 := Nat.div_add_mod D Day
    have e2 := Nat.mod_lt D hDay
    have e3 : (D / Day + 1) * Day = Day * (D / Day) + Day := by ring
    omega
  have h1 := daysMag_lt D (D / Day + 1) hK hlt
  have h2 := daysMag_ge D (D / Day) (lt_of_lt_of_le hD (by norm_num [Day, Hour]))
    (Nat.div_mul_le_self D Day)
  have h3 : daysMag D = D / Day := by omega
  unfold wholeDays
  simp only [Int.natAbs_ofNat]
  rw [if_neg (not_lt.2 h0), h3]
  exact Int.ofNat_ediv D Day

theorem wholeDays_ge (d : Int) (k : Nat) (hd : d ≤ maxDuration) (hk : (k : Int) * (Day : Int) ≤ d) :
    (k : Int) ≤ wholeDays d := by
  have h0 : 0 ≤ d := le_trans (by positivity) hk
  obtain ⟨D, rfl⟩ := Int.eq_ofNat_of_zero_le h0
  have hD : D < 2 ^ 63 := by
    unfold maxDuration at hd
    have : (D : Int) < 2 ^ 63 := by omega
    exact_mod_cast this
  have h2 := daysMag_ge D k hD (by exact_mod_cast hk)
  unfold wholeDays
  simp only [Int.natAbs_ofNat]
  rw [if_neg (not_lt.2 h0)]
  exact_mod_cast h2

/-! ## Status interpreter: claims C5, C6, C7 -/

/-- C5: whenever the lower-cased raw text contains one of the five denial phrases,
`InterpretStatus` returns "available", whatever the status tokens are. -/
theorem InterpretStatus_denial_available (tbl : CaseTables) (statusDetails : List String)
    (rawData : String)
    (h : Contains (ToLower tbl rawData) "not found" = true ∨
      Contains (ToLower tbl rawData) "no match" = true ∨
      Contains (ToLower tbl rawData) "no data found" = true ∨
      Contains (ToLower tbl rawData) "domain not found" = true ∨
      Contains (ToLower tbl rawData) "available for registration" = true) :
    InterpretStatus tbl statusDetails rawData = "available" := by
  unfold InterpretStatus
  simp only
  rw [if_pos]
  simpa [Bool.or_eq_true, or_assoc] using h

/-- Witness of C5: tokens `["active"]` with the raw text "Domain not found in registry"
give "available". -/
theorem InterpretStatus_denial_available_witness :
    Contains (ToLower CaseTables.ascii "Domain not found in registry") "not found" = true ∧
      InterpretStatus CaseTables.ascii ["active"] "Domain not found in registry" = "available" :=
  ⟨by decide, InterpretStatus_denial_available CaseTables.ascii ["active"]
    "Domain not found in registry" (Or.inl (by decide))⟩

/-- C6: with no status token and no denial phrase in the raw text, `InterpretStatus`
returns "available" exactly when the raw text is non-empty and either contains
"no entries found" (lower-cased) or is shorter than 100 bytes once trimmed; in every
other case it returns "unknown". -/
theorem InterpretStatus_no_tokens (tbl : CaseTables) (rawData : String)
    (h : hasDenialPhrase tbl rawData = false) :
    (InterpretStatus tbl [] rawData = "available" ↔
      (rawData ≠ "" ∧ (Contains (ToLower tbl rawData) "no entries found" = true ∨
        len (TrimSpace rawData) < 100))) ∧
    (¬ (rawData ≠ "" ∧ (Contains (ToLower tbl rawData) "no entries found" = true ∨
        len (TrimSpace rawData) < 100)) → InterpretStatus tbl [] rawData = "unknown") := by
  unfold hasDenialPhrase at h
  unfold InterpretStatus
  simp only [h, List.length_nil]
  by_cases hc : rawData ≠ "" ∧ (Contains (ToLower tbl rawData) "no entries found" = true ∨
      len (TrimSpace rawData) < 100)
  · simp [hc]
  · simp only [hc, if_false, Bool.false_eq_true, if_true, iff_false, not_false_eq_true,
      implies_true, and_true]
    decide

/-- Witness of C6: the empty raw text with no token gives "unknown". -/
theorem InterpretStatus_no_tokens_witness :
    hasDenialPhrase CaseTables.ascii "" = false ∧
      InterpretStatus CaseTables.ascii [] "" = "unknown" :=
  ⟨by decide, (InterpretStatus_no_tokens CaseTables.ascii "" (by decide)).2 (by decide)⟩

/-- C7: with at least one status token and no denial phrase in the raw text,
`InterpretStatus` returns "active" exactly when some token, lower-cased, contains
"active", "ok" or "prohibited", and "unknown" otherwise. -/
theorem InterpretStatus_tokens (tbl : CaseTables) (statusDetails : List String)
    (rawData : String) (hne : statusDetails ≠ [])
    (h : hasDenialPhrase tbl rawData = false) :
    (InterpretStatus tbl statusDetails rawData = "active" ↔
      ∃ status ∈ statusDetails, Contains (ToLower tbl status) "active" = true ∨
        Contains (ToLower tbl status) "ok" = true ∨
        Contains (ToLower tbl status) "prohibited" = true) ∧
    ((¬ ∃ status ∈ statusDetails, Contains (ToLower tbl status) "active" = true ∨
        Contains (ToLower tbl status) "ok" = true ∨
        Contains (ToLower tbl status) "prohibited" = true) →
      InterpretStatus tbl statusDetails rawData = "unknown") := by
  have hlen : ¬ statusDetails.length = 0 := by
    intro h0; exact hne (List.length_eq_zero.1 h0)
  unfold hasDenialPhrase at h
  unfold InterpretStatus
  simp only [h, hlen, if_false, Bool.false_eq_true]
  by_cases hc : ∃ status ∈ statusDetails, Contains (ToLower tbl status) "active" = true ∨
        Contains (ToLower tbl status) "ok" = true ∨
        Contains (ToLower tbl status) "prohibited" = true
  · have hb : ((statusDetails.any fun status =>
          Contains (ToLower tbl status) "active" || Contains (ToLower tbl status) "ok") ||
        statusDetails.any fun status => Contains (ToLower tbl status) "prohibited") = true := by
      obtain ⟨s, hs, h1⟩ := hc
      simp only [Bool.or_eq_true, List.any_eq_true]
      rcases h1 with h1 | h1 | h1
      · exact Or.inl ⟨s, hs, Or.inl h1⟩
      · exact Or.inl ⟨s, hs, Or.inr h1⟩
      · exact Or.inr ⟨s, hs, h1⟩
    simp [hb, hc]
  · have hb : ((statusDetails.any fun status =>
          Contains (ToLower tbl status) "active" || Contains (ToLower tbl status) "ok") ||
        statusDetails.any fun status => Contains (ToLower tbl status) "prohibited") = false := by
      rw [Bool.eq_false_iff]
      intro hb
      apply hc
      simp only [Bool.or_eq_true, List.any_eq_true] at hb
      rcases hb with ⟨s, hs, h1 | h1⟩ | ⟨s, hs, h1⟩
      · exact ⟨s, hs, Or.inl h1⟩
      · exact ⟨s, hs, Or.inr (Or.inl h1)⟩
      · exact ⟨s, hs, Or.inr (Or.inr h1)⟩
    simp only [hb, hc, Bool.false_eq_true, if_false, iff_false, not_false_eq_true,
      implies_true, and_true]
    decide

/-- Witness of C7: the tokens `["clientDeleteProhibited", "clientTransferProhibited"]`
give "active". -/
theorem InterpretStatus_tokens_witness :
    hasDenialPhrase CaseTables.ascii "Domain registered and protected" = false ∧
      InterpretStatus CaseTables.ascii ["clientDeleteProhibited", "clientTransferProhibited"]
        "Domain registered and protected" = "active" :=
  ⟨by decide, (InterpretStatus_tokens CaseTables.ascii
    ["clientDeleteProhibited", "clientTransferProhibited"] "Domain registered and protected"
    (by decide) (by decide)).1.2 ⟨"clientDeleteProhibited", by decide, Or.inr (Or.inr (by decide))⟩⟩

/-! ## Query classifier: claim C4 -/

theorem containsL_singleton (c : Char) (l : List Char) : containsL l [c] = true ↔ c ∈ l := by
  induction l with
  | nil => simp [containsL]
  | cons x xs ih =>
    simp only [containsL, List.isPrefixOf, Bool.or_eq_true, ih, List.mem_cons]
    constructor
    · rintro (h | h)
      · left
        cases xs <;> simp_all [List.isPrefixOf]
      · right; exact h
    · rintro (h | h)
      · left
        subst h
        cases xs <;> simp [List.isPrefixOf]
      · right; exact h

theorem len_ge_length (s : String) : s.data.length ≤ len s := by
  unfold len
  induction s.data with
  | nil => simp
  | cons x xs ih =>
    simp only [List.map_cons, List.sum_cons, List.length_cons]
    have := Char.utf8Size_pos x
    omega

theorem len_gt_two_of_AS_colon (tbl : CaseTables) (query : String)
    (hc : Contains query ":" = true) (hp : HasPrefix (ToUpper tbl query) "AS" = true) :
    len query > 2 := by
  have hmem : ':' ∈ query.data := (containsL_singleton ':' query.data).1 hc
  have hlen := len_ge_length query
  unfold HasPrefix ToUpper at hp
  have hup : unicodeToUpper tbl ':' = ':' := rfl
  rcases hq : query.data with _ | ⟨c1, _ | ⟨c2, _ | ⟨c3, rest⟩⟩⟩
  · rw [hq] at hmem; exact absurd hmem (List.not_mem_nil _)
  · rw [hq] at hp
    have hp2 : ['A', 'S'].isPrefixOf [unicodeToUpper tbl c1] = true := hp
    simp [List.isPrefixOf] at hp2
  · rw [hq] at hp hmem
    simp only [List.map_cons, List.map_nil] at hp
    have hp2 : ['A', 'S'].isPrefixOf [unicodeToUpper tbl c1, unicodeToUpper tbl c2] = true := hp
    simp only [List.isPrefixOf, Bool.and_eq_true, beq_iff_eq, and_true] at hp2
    have h1 : unicodeToUpper tbl c1 = 'A' ∧ unicodeToUpper tbl c2 = 'S' :=
      ⟨hp2.1.symm, hp2.2.symm⟩
    simp only [List.mem_cons, List.mem_singleton, List.not_mem_nil, or_false] at hmem
    rcases hmem with h | h
    · rw [← h, hup] at h1; exact absurd h1.1 (by decide)
    · rw [← h, hup] at h1; exact absurd h1.2 (by decide)
  · rw [hq] at hlen
    simp only [List.length_cons] at hlen
    omega

/-- C4 as amended: for a string that contains a colon, `DetectQueryType` returns ip when
the string has no dot and its upper-cased form does not start with "AS"; with no dot and
an upper-cased form starting with "AS" it returns asn; with a dot the dot rules decide
(ip when there are exactly three dots and every segment is at most 3 bytes long,
domain otherwise). -/
theorem DetectQueryType_colon (tbl : CaseTables) (query : String)
    (hc : Contains query ":" = true) :
    (Contains query "." = false → HasPrefix (ToUpper tbl query) "AS" = false →
      DetectQueryType tbl query = QueryTypeIP) ∧
    (Contains query "." = false → HasPrefix (ToUpper tbl query) "AS" = true →
      DetectQueryType tbl query = QueryTypeASN) ∧
    (Contains query "." = true →
      DetectQueryType tbl query =
        if Count query '.' = 3 ∧ (Split query '.').all (fun part => decide (len part ≤ 3)) = true
        then QueryTypeIP else QueryTypeDomain) := by
  refine ⟨?_, ?_, ?_⟩
  · intro hd hp
    unfold DetectQueryType
    simp [hd, hp, hc]
  · intro hd hp
    have hl := len_gt_two_of_AS_colon tbl query hc hp
    unfold DetectQueryType
    simp [hd, hp, hl]
  · intro hd
    unfold DetectQueryType
    simp only [hd, if_true]
    by_cases h3 : Count query '.' = 3
    · simp only [h3, if_true, true_and]
      by_cases ha : (Split query '.').any (fun part => decide (len part > 3)) = true
      · have hb : ¬ ((Split query '.').all (fun part => decide (len part ≤ 3)) = true) := by
          intro hb
          rw [List.any_eq_true] at ha
          rw [List.all_eq_true] at hb
          obtain ⟨p, hp, h1⟩ := ha
          have h2 := hb p hp
          simp only [decide_eq_true_eq] at h1 h2
          omega
        simp [ha, hb]
      · have hb : (Split query '.').all (fun part => decide (len part ≤ 3)) = true := by
          rw [List.all_eq_true]
          intro p hp
          simp only [decide_eq_true_eq]
          by_contra hcon
          apply ha
          rw [List.any_eq_true]
          exact ⟨p, hp, by simp only [decide_eq_true_eq]; omega⟩
        simp [ha, hb]
    · simp [h3]

/-- Witness of C4 as amended: "::1" has a colon, no dot and no "AS" in front, and is
classified ip. -/
theorem DetectQueryType_colon_witness :
    Contains "::1" ":" = true ∧ DetectQueryType CaseTables.ascii "::1" = QueryTypeIP :=
  ⟨by decide, (DetectQueryType_colon CaseTables.ascii "::1" (by decide)).1 (by decide) (by decide)⟩

/-- Counterexample to C4 as stated: "1.2.3.4:80" and "a.b:c" contain a colon and are
classified domain, "AS:1" contains a colon and is classified asn. -/
theorem DetectQueryType_colon_counterexample :
    (Contains "1.2.3.4:80" ":" = true ∧
      DetectQueryType CaseTables.ascii "1.2.3.4:80" = QueryTypeDomain) ∧
    (Contains "a.b:c" ":" = true ∧
      DetectQueryType CaseTables.ascii "a.b:c" = QueryTypeDomain) ∧
    (Contains "AS:1" ":" = true ∧
      DetectQueryType CaseTables.ascii "AS:1" = QueryTypeASN) := by
  decide

/-! ## Summary assembly: what each step leaves unchanged -/

theorem foldl_keeps {α β : Type} (f : Summary → α → Summary) (p : Summary → β)
    (h : ∀ s x, p (f s x) = p s) (l : List α) (s : Summary) : p (l.foldl f s) = p s := by
  induction l generalizing s with
  | nil => rfl
  | cons x xs ih => rw [List.foldl_cons, ih, h]

theorem foldl_lastSome {α : Type} (f : Summary → α → Summary) (p : Summary → String)
    (g : α → Option String) (h : ∀ s x, p (f s x) = (g x).getD (p s)) (l : List α)
    (s : Summary) : p (l.foldl f s) = ((l.filterMap g).getLast?).getD (p s) := by
  induction l generalizing s with
  | nil => rfl
  | cons x xs ih =>
    rw [List.foldl_cons, ih, h]
    cases hg : g x with
    | none => simp [List.filterMap_cons, hg]
    | some v =>
      simp only [List.filterMap_cons, hg, Option.getD_some]
      cases hl : (xs.filterMap g).getLast? with
      | none =>
        have : xs.filterMap g = [] := List.getLast?_eq_none_iff.1 hl
        simp [this]
      | some w =>
        rw [List.getLast?_cons, hl]
        simp

theorem rdapStatusStep_Registrar (s : Summary) (x : Value) :
    (rdapStatusStep s x).Registrar = s.Registrar := by
  unfold rdapStatusStep; repeat' (first | rfl | split)

theorem rdapNameserverStep_Status (s : Summary) (x : Value) :
    (rdapNameserverStep s x).Status = s.Status := by
  unfold rdapNameserverStep; repeat' (first | rfl | split)

theorem rdapNameserverStep_Registrar (s : Summary) (x : Value) :
    (rdapNameserverStep s x).Registrar = s.Registrar := by
  unfold rdapNameserverStep; repeat' (first | rfl | split)

theorem rdapEventStep_Status (rt : Runtime) (s : Summary) (x : Value) :
    (rdapEventStep rt s x).Status = s.Status := by
  unfold rdapEventStep; repeat' (first | rfl | split | dsimp only)

theorem rdapEventStep_Registrar (rt : Runtime) (s : Summary) (x : Value) :
    (rdapEventStep rt s x).Registrar = s.Registrar := by
  unfold rdapEventStep; repeat' (first | rfl | split | dsimp only)

theorem rdapPropStep_Status (s : Summary) (x : Value) :
    (rdapPropStep s x).Status = s.Status := by
  unfold rdapPropStep; repeat' (first | rfl | split)

theorem rdapPropStep_ID (s : Summary) (x : Value) :
    (rdapPropStep s x).Registrar.ID = s.Registrar.ID := by
  unfold rdapPropStep; repeat' (first | rfl | split)

theorem rdapPropStep_Name (s : Summary) (x : Value) :
    (rdapPropStep s x).Registrar.Name = (fnValue x).getD s.Registrar.Name := by
  unfold rdapPropStep fnValue
  split
  · split
    · split <;> simp_all
    · rfl
  · rfl

theorem rdapRegistrar_Status (s : Summary) (e : List (String × Value)) :
    (rdapRegistrar s e).Status = s.Status := by
  unfold rdapRegistrar
  have h := foldl_keeps rdapPropStep (fun s => s.Status) rdapPropStep_Status
  repeat' (first | rfl | exact h _ _ | split)

theorem rdapRoleLoop_eq (s : Summary) (e : List (String × Value)) (roles : List Value) :
    rdapRoleLoop s e roles = if roles.any isRegistrarRole then rdapRegistrar s e else s := by
  induction roles with
  | nil => rfl
  | cons r rs ih =>
    cases r with
    | str roleStr =>
      by_cases h : roleStr = "registrar"
      · simp [rdapRoleLoop, isRegistrarRole, h]
      · simp [rdapRoleLoop, isRegistrarRole, h, ih]
    | null => simp [rdapRoleLoop, isRegistrarRole, ih]
    | bool b => simp [rdapRoleLoop, isRegistrarRole, ih]
    | number t => simp [rdapRoleLoop, isRegistrarRole, ih]
    | arr a => simp [rdapRoleLoop, isRegistrarRole, ih]
    | obj o => simp [rdapRoleLoop, isRegistrarRole, ih]

theorem rdapEntityStep_eq (s : Summary) (entityObj : List (String × Value)) :
    rdapEntityStep s (Value.obj entityObj) =
      if hasRegistrarRole entityObj then rdapRegistrar s entityObj else s := by
  unfold rdapEntityStep hasRegistrarRole
  simp only
  split
  · rw [rdapRoleLoop_eq]
  · simp

theorem rdapEntityStep_Status (s : Summary) (x : Value) :
    (rdapEntityStep s x).Status = s.Status := by
  cases x with
  | obj o =>
    rw [rdapEntityStep_eq]
    split
    · exact rdapRegistrar_Status _ _
    · rfl
  | null => rfl
  | bool b => rfl
  | number t => rfl
  | arr a => rfl
  | str t => rfl

theorem rdapRegistrar_ID (s : Summary) (e : List (String × Value)) :
    (rdapRegistrar s e).Registrar.ID =
      (match e.lookup "Handle" with
        | some (Value.str handle) => some handle
        | _ => none).getD s.Registrar.ID := by
  unfold rdapRegistrar
  have h := foldl_keeps rdapPropStep (fun s => s.Registrar.ID) rdapPropStep_ID
  simp only
  split
  · rfl
  · simp only [Option.getD_none]
    repeat' (first | rfl | exact h _ _ | split)

theorem rdapRegistrar_Name (s : Summary) (e : List (String × Value)) :
    (rdapRegistrar s e).Registrar.Name =
      (match e.lookup "VCard" with
        | some (Value.obj vcard) =>
          match vcard.lookup "Properties" with
          | some (Value.arr props) => (props.filterMap fnValue).getLast?
          | _ => none
        | _ => none).getD s.Registrar.Name := by
  unfold rdapRegistrar
  have h := foldl_lastSome rdapPropStep (fun s => s.Registrar.Name) fnValue rdapPropStep_Name
  have hN : ∀ t : Summary, (match e.lookup "Handle" with
      | some (Value.str handle) =>
        ({ t with Registrar := { t.Registrar with ID := handle } } : Summary)
      | _ => t).Registrar.Name = t.Registrar.Name := by
    intro t; split <;> rfl
  simp only
  rw [hN]
  split
  · split
    · exact h _ _
    · rfl
  · rfl

theorem rdapEntityStep_ID (s : Summary) (x : Value) :
    (rdapEntityStep s x).Registrar.ID = (registrarHandle x).getD s.Registrar.ID := by
  cases x with
  | obj o =>
    rw [rdapEntityStep_eq]
    unfold registrarHandle
    by_cases h : hasRegistrarRole o = true
    · simp only [h, if_true]
      exact rdapRegistrar_ID s o
    · simp [h]
  | null => rfl
  | bool b => rfl
  | number t => rfl
  | arr a => rfl
  | str t => rfl

theorem rdapEntityStep_Name (s : Summary) (x : Value) :
    (rdapEntityStep s x).Registrar.Name = (registrarName x).getD s.Registrar.Name := by
  cases x with
  | obj o =>
    rw [rdapEntityStep_eq]
    unfold registrarName
    by_cases h : hasRegistrarRole o = true
    · simp only [h, if_true]
      exact rdapRegistrar_Name s o
    · simp [h]
  | null => rfl
  | bool b => rfl
  | number t => rfl
  | arr a => rfl
  | str t => rfl

theorem InterpretStatus_range (tbl : CaseTables) (statusDetails : List String)
    (rawData : String) :
    InterpretStatus tbl statusDetails rawData = "available" ∨
      InterpretStatus tbl statusDetails rawData = "active" ∨
      InterpretStatus tbl statusDetails rawData = "unknown" := by
  unfold InterpretStatus
  simp only
  split_ifs <;> simp

/-- The part of `parseRDAPSummary` after the status block: it changes neither `Status`
nor, before the entities, `Registrar`. -/
theorem parseRDAPSummary_Status (rt : Runtime) (result : QueryResult) (summary : Summary) :
    (parseRDAPSummary rt result summary).Status =
      match result.Data with
      | Value.obj domainData =>
        match domainData.lookup "Status" with
        | some (Value.arr statusArray) =>
          InterpretStatus rt.tbl (statusArray.foldl rdapStatusStep summary).StatusDetails
            (rt.jsonMarshal result.Data)
        | _ => summary.Status
      | _ => summary.Status := by
  unfold parseRDAPSummary
  have hN := foldl_keeps rdapNameserverStep (fun s => s.Status) rdapNameserverStep_Status
  have hE := foldl_keeps (rdapEventStep rt) (fun s => s.Status) (rdapEventStep_Status rt)
  have hR := foldl_keeps rdapEntityStep (fun s => s.Status) rdapEntityStep_Status
  cases hD : result.Data with
  | obj domainData =>
    simp only
    have e1 : ∀ t : Summary, (match domainData.lookup "Entities" with
        | some (Value.arr entitiesArray) => entitiesArray.foldl rdapEntityStep t
        | _ => t).Status = t.Status := by
      intro t; split
      · exact hR _ _
      · rfl
    have e2 : ∀ t : Summary, (match domainData.lookup "Events" with
        | some (Value.arr eventsArray) => eventsArray.foldl (rdapEventStep rt) t
        | _ => t).Status = t.Status := by
      intro t; split
      · exact hE _ _
      · rfl
    have e3 : ∀ t : Summary, (match domainData.lookup "SecureDNS" with
        | some (Value.obj secureDNS) =>
          match secureDNS.lookup "DelegationSigned" with
          | some (Value.bool delegationSigned) =>
            if delegationSigned then
              ({ t with DNSSEC := { Enabled := delegationSigned, Details := "Delegation signed" } } : Summary)
            else
              { t with DNSSEC := { t.DNSSEC with Enabled := delegationSigned } }
          | _ => t
        | _ => t).Status = t.Status := by
      intro t; repeat' (first | rfl | split)
    have e4 : ∀ t : Summary, (match domainData.lookup "Nameservers" with
        | some (Value.arr nsArray) => nsArray.foldl rdapNameserverStep t
        | _ => t).Status = t.Status := by
      intro t; split
      · exact hN _ _
      · rfl
    rw [e1, e2, e3, e4]
    split <;> rfl
  | null => rfl
  | bool b => rfl
  | number t => rfl
  | arr a => rfl
  | str t => rfl

theorem parseRDAPSummary_Registrar (rt : Runtime) (result : QueryResult) (summary : Summary)
    (domainData : List (String × Value)) (entities : List Value)
    (hD : result.Data = Value.obj domainData)
    (hE : domainData.lookup "Entities" = some (Value.arr entities)) :
    (parseRDAPSummary rt result summary).Registrar.ID =
        ((entities.filterMap registrarHandle).getLast?).getD summary.Registrar.ID ∧
      (parseRDAPSummary rt result summary).Registrar.Name =
        ((entities.filterMap registrarName).getLast?).getD summary.Registrar.Name := by
  unfold parseRDAPSummary
  have hS := foldl_keeps rdapStatusStep (fun s => s.Registrar) rdapStatusStep_Registrar
  have hN := foldl_keeps rdapNameserverStep (fun s => s.Registrar) rdapNameserverStep_Registrar
  have hV := foldl_keeps (rdapEventStep rt) (fun s => s.Registrar) (rdapEventStep_Registrar rt)
  have hI := foldl_lastSome rdapEntityStep (fun s => s.Registrar.ID) registrarHandle
    rdapEntityStep_ID entities
  have hM := foldl_lastSome rdapEntityStep (fun s => s.Registrar.Name) registrarName
    rdapEntityStep_Name entities
  rw [hD]
  simp only [hE]
  have e2 : ∀ t : Summary, (match domainData.lookup "Events" with
      | some (Value.arr eventsArray) => eventsArray.foldl (rdapEventStep rt) t
      | _ => t).Registrar = t.Registrar := by
    intro t; split
    · exact hV _ _
    · rfl
  have e3 : ∀ t : Summary, (match domainData.lookup "SecureDNS" with
      | some (Value.obj secureDNS) =>
        match secureDNS.lookup "DelegationSigned" with
        | some (Value.bool delegationSigned) =>
          if delegationSigned then
            ({ t with DNSSEC := { Enabled := delegationSigned, Details := "Delegation signed" } } : Summary)
          else
            { t with DNSSEC := { t.DNSSEC with Enabled := delegationSigned } }
        | _ => t
      | _ => t).Registrar = t.Registrar := by
    intro t; repeat' (first | rfl | split)
  have e4 : ∀ t : Summary, (match domainData.lookup "Nameservers" with
      | some (Value.arr nsArray) => nsArray.foldl rdapNameserverStep t
      | _ => t).Registrar = t.Registrar := by
    intro t; split
    · exact hN _ _
    · rfl
  have e5 : (match domainData.lookup "Status" with
      | some (Value.arr statusArray) =>
        ({ statusArray.foldl rdapStatusStep summary with
          Status := InterpretStatus rt.tbl (statusArray.foldl rdapStatusStep summary).StatusDetails
            (rt.jsonMarshal (Value.obj domainData)) } : Summary)
      | _ => summary).Registrar = summary.Registrar := by
    split
    · exact hS _ _
    · rfl
  constructor
  · rw [hI]
    rw [e2, e3, e4, e5]
  · rw [hM]
    rw [e2, e3, e4, e5]

theorem whoisNameserverStep_Status (tbl : CaseTables) (s : Summary) (x : String × Value) :
    (whoisNameserverStep tbl s x).Status = s.Status := by
  unfold whoisNameserverStep; repeat' (first | rfl | split)

theorem parseWhoisSummary_Status (rt : Runtime) (result : QueryResult) (summary : Summary) :
    (parseWhoisSummary rt result summary).Status =
      match result.Data with
      | Value.obj data =>
        match data.lookup "parsed_fields" with
        | some (Value.obj fields) =>
          InterpretStatus rt.tbl
            (["domain_status", "status"].foldl (whoisStatusField fields) summary).StatusDetails
            (match data.lookup "raw_response" with
              | some (Value.str rawResponse) => rawResponse
              | _ => "")
        | _ => summary.Status
      | _ => summary.Status := by
  unfold parseWhoisSummary
  have hN : ∀ (l : List (String × Value)) (s : Summary),
      (l.foldl (whoisNameserverStep rt.tbl) s).Status = s.Status :=
    foldl_keeps (whoisNameserverStep rt.tbl) (fun s => s.Status)
      (whoisNameserverStep_Status rt.tbl)
  cases hD : result.Data with
  | obj data =>
    simp only
    split
    · rename_i fields hf
      have e1 : ∀ t : Summary, (match fields.lookup "registrar_iana_id" with
          | some (Value.str registrarID) =>
            ({ t with Registrar := { t.Registrar with ID := registrarID } } : Summary)
          | _ => t).Status = t.Status := by
        intro t; split <;> rfl
      have e2 : ∀ t : Summary, (match fields.lookup "registrar" with
          | some (Value.str registrar) =>
            ({ t with Registrar := { t.Registrar with Name := registrar } } : Summary)
          | _ => t).Status = t.Status := by
        intro t; split <;> rfl
      have e3 : ∀ t : Summary, (match whoisEvent rt fields "registry_expiry_date" with
          | some ev => ({ t with Timeline := { t.Timeline with Expiration := some ev } } : Summary)
          | none => t).Status = t.Status := by
        intro t; split <;> rfl
      have e4 : ∀ t : Summary, (match whoisEvent rt fields "updated_date" with
          | some ev => ({ t with Timeline := { t.Timeline with LastUpdated := some ev } } : Summary)
          | none => t).Status = t.Status := by
        intro t; split <;> rfl
      have e5 : ∀ t : Summary, (match whoisEvent rt fields "creation_date" with
          | some ev => ({ t with Timeline := { t.Timeline with Registration := some ev } } : Summary)
          | none => t).Status = t.Status := by
        intro t; split <;> rfl
      have e6 : ∀ t : Summary, (match fields.lookup "dnssec" with
          | some (Value.str dnssec) =>
            ({ t with DNSSEC := { Enabled := decide (dnssec = "signedDelegation"), Details := dnssec } } : Summary)
          | _ => t).Status = t.Status := by
        intro t; split <;> rfl
      rw [e1, e2, e3, e4, e5, e6, hN]
    · rfl
  | null => rfl
  | bool b => rfl
  | number t => rfl
  | arr a => rfl
  | str t => rfl

theorem CreateSummary_Registrar (rt : Runtime) (result : QueryResult) :
    (CreateSummary rt result).Registrar =
      (if result.Protocol = "RDAP" then
        parseRDAPSummary rt result
          { Domain := result.Query, Protocol := result.Protocol, QueryType := result.Type_ }
      else
        parseWhoisSummary rt result
          { Domain := result.Query, Protocol := result.Protocol, QueryType := result.Type_ }).Registrar := by
  unfold CreateSummary
  simp only
  repeat' (first | rfl | split)

theorem CreateSummary_Status_domain (rt : Runtime) (result : QueryResult)
    (hT : result.Type_ = "domain") :
    (CreateSummary rt result).Status =
      (if result.Protocol = "RDAP" then
        parseRDAPSummary rt result
          { Domain := result.Query, Protocol := result.Protocol, QueryType := result.Type_ }
      else
        parseWhoisSummary rt result
          { Domain := result.Query, Protocol := result.Protocol, QueryType := result.Type_ }).Status := by
  unfold CreateSummary
  have hne : ¬ (result.Type_ = QueryType.toString QueryTypeASN) := by
    rw [hT]; decide
  simp only [hne, if_false]
  repeat' (first | rfl | split)

/-! ## Claims C1, C2, C3 -/

/-- C1, the code at the spec's example record: with the lines `aut-num: AS9009`, an
`import:` line naming `AS701,` and the comment
`% Abuse contact for 'AS9009' is 'abuse@example.ro'`, `parseASNInfo` returns the number
and the peer as expected, but the abuse contact is the text between the first and the
last single quote of the comment, handle and inner quotes included. -/
theorem parseASNInfo_abuse_contact_example :
    parseASNInfo CaseTables.ascii
        { Query := "AS9009", Type_ := "asn", Protocol := "WHOIS",
          RawData := "aut-num: AS9009\nimport: from AS701, accept ANY\n% Abuse contact for 'AS9009' is 'abuse@example.ro'\n" } =
      some { Number := "AS9009", Peers := ["AS701"],
             AbuseContact := "AS9009' is 'abuse@example.ro" } := by
  decide!

/-- C2 as amended: on the RDAP path every entity with a role "registrar" is processed,
in list order (the `break` ends the scan of one entity's roles only), so that
`Registrar.ID` is the handle of the last registrar entity that has a string handle and
`Registrar.Name` the last string-valued `fn` property of the last registrar entity that
has one; each is empty when there is none. -/
theorem CreateSummary_registrar_last (rt : Runtime) (result : QueryResult)
    (domainData : List (String × Value)) (entities : List Value)
    (hP : result.Protocol = "RDAP") (hD : result.Data = Value.obj domainData)
    (hE : domainData.lookup "Entities" = some (Value.arr entities)) :
    (CreateSummary rt result).Registrar.ID =
        ((entities.filterMap registrarHandle).getLast?).getD "" ∧
      (CreateSummary rt result).Registrar.Name =
        ((entities.filterMap registrarName).getLast?).getD "" := by
  rw [CreateSummary_Registrar, if_pos hP]
  exact parseRDAPSummary_Registrar rt result _ domainData entities hD hE

/-- Witness of C2 as amended: with the two registrar entities of `twoRegistrars` the
registrar is read off the list as the theorem says. -/
theorem CreateSummary_registrar_last_witness :
    twoRegistrarsResult.Protocol = "RDAP" ∧
      (CreateSummary (exampleRuntime ⟨0⟩ twoRegistrarsJSON []) twoRegistrarsResult).Registrar.ID =
        ((twoRegistrars.filterMap registrarHandle).getLast?).getD "" ∧
      (CreateSummary (exampleRuntime ⟨0⟩ twoRegistrarsJSON []) twoRegistrarsResult).Registrar.Name =
        ((twoRegistrars.filterMap registrarName).getLast?).getD "" :=
  ⟨rfl, CreateSummary_registrar_last (exampleRuntime ⟨0⟩ twoRegistrarsJSON []) twoRegistrarsResult
    [("Entities", Value.arr twoRegistrars)] twoRegistrars rfl rfl rfl⟩

/-- Counterexample to C2 as stated: with the registrar entities "First Registrar"
(handle "1") and "Second Registrar" (handle "2"), in this order, the summary holds the
second one. -/
theorem CreateSummary_registrar_counterexample :
    (CreateSummary (exampleRuntime ⟨0⟩ twoRegistrarsJSON []) twoRegistrarsResult).Registrar =
      { Name := "Second Registrar", ID := "2" } := by
  decide!

/-- C3 as amended: for a query of type "domain" the status of the summary is one of
"available", "active", "unknown" when a status was interpreted (RDAP: the payload is an
object with a `Status` array; WHOIS: the payload is a map with a `parsed_fields` map),
and it is the empty string otherwise. -/
theorem CreateSummary_domain_status (rt : Runtime) (result : QueryResult)
    (hT : result.Type_ = "domain") :
    (statusInterpreted result = true →
      ((CreateSummary rt result).Status = "available" ∨
        (CreateSummary rt result).Status = "active" ∨
        (CreateSummary rt result).Status = "unknown")) ∧
    (statusInterpreted result = false → (CreateSummary rt result).Status = "") := by
  rw [CreateSummary_Status_domain rt result hT]
  unfold statusInterpreted
  by_cases hP : result.Protocol = "RDAP"
  · simp only [hP, if_true]
    rw [parseRDAPSummary_Status]
    cases result.Data with
    | obj data =>
      simp only
      split
      · exact ⟨fun _ => InterpretStatus_range _ _ _, fun h => absurd h (by simp)⟩
      · exact ⟨fun h => absurd h (by simp), fun _ => rfl⟩
    | null => exact ⟨fun h => absurd h (by simp), fun _ => rfl⟩
    | bool b => exact ⟨fun h => absurd h (by simp), fun _ => rfl⟩
    | number t => exact ⟨fun h => absurd h (by simp), fun _ => rfl⟩
    | arr a => exact ⟨fun h => absurd h (by simp), fun _ => rfl⟩
    | str t => exact ⟨fun h => absurd h (by simp), fun _ => rfl⟩
  · simp only [hP, if_false]
    rw [parseWhoisSummary_Status]
    cases result.Data with
    | obj data =>
      simp only
      split
      · exact ⟨fun _ => InterpretStatus_range _ _ _, fun h => absurd h (by simp)⟩
      · exact ⟨fun h => absurd h (by simp), fun _ => rfl⟩
    | null => exact ⟨fun h => absurd h (by simp), fun _ => rfl⟩
    | bool b => exact ⟨fun h => absurd h (by simp), fun _ => rfl⟩
    | number t => exact ⟨fun h => absurd h (by simp), fun _ => rfl⟩
    | arr a => exact ⟨fun h => absurd h (by simp), fun _ => rfl⟩
    | str t => exact ⟨fun h => absurd h (by simp), fun _ => rfl⟩

/-- Witness of C3 as amended: an RDAP payload with the status array `["active"]`. -/
theorem CreateSummary_domain_status_witness :
    activeRDAPResult.Type_ = "domain" ∧ statusInterpreted activeRDAPResult = true ∧
      ((CreateSummary (exampleRuntime ⟨0⟩ "\x7b\"Status\":[\"active\"]\x7d" []) activeRDAPResult).Status = "available" ∨
        (CreateSummary (exampleRuntime ⟨0⟩ "\x7b\"Status\":[\"active\"]\x7d" []) activeRDAPResult).Status = "active" ∨
        (CreateSummary (exampleRuntime ⟨0⟩ "\x7b\"Status\":[\"active\"]\x7d" []) activeRDAPResult).Status = "unknown") :=
  ⟨rfl, rfl, (CreateSummary_domain_status (exampleRuntime ⟨0⟩ "\x7b\"Status\":[\"active\"]\x7d" [])
    activeRDAPResult rfl).1 rfl⟩

/-- Counterexample to C3 as stated: for a nil RDAP payload, for an RDAP object without
a `Status` array and for a WHOIS payload without `parsed_fields`, all of type "domain",
the status of the summary is the empty string. -/
theorem CreateSummary_domain_status_counterexample :
    (nilRDAPResult.Type_ = "domain" ∧
      (CreateSummary (exampleRuntime ⟨0⟩ "null" []) nilRDAPResult).Status = "") ∧
    (noStatusRDAPResult.Type_ = "domain" ∧
      (CreateSummary (exampleRuntime ⟨0⟩ "\x7b\"Nameservers\":[]\x7d" []) noStatusRDAPResult).Status = "") ∧
    (noFieldsWhoisResult.Type_ = "domain" ∧
      (CreateSummary (exampleRuntime ⟨0⟩ "" []) noFieldsWhoisResult).Status = "") := by
  decide!

/-! ## Lifecycle guidance: claims C8, C9, C10 -/

theorem elapsed_days (now expiry : Time) (h : expiry.ns ≤ now.ns) :
    ((now.ns - expiry.ns) / (Day : Int) < 85 →
      wholeDays (now.Sub expiry) = (now.ns - expiry.ns) / (Day : Int)) ∧
    (∀ k : Nat, k ≤ 106751 → (k : Int) ≤ (now.ns - expiry.ns) / (Day : Int) →
      (k : Int) ≤ wholeDays (now.Sub expiry)) := by
  have hDay : (0 : Int) < (Day : Int) := by norm_num [Day, Hour]
  have hx : 0 ≤ now.ns - expiry.ns := by omega
  have hmin : ¬ (now.ns - expiry.ns < minDuration) := by
    unfold minDuration; omega
  constructor
  · intro hd
    have hlt : now.ns - expiry.ns < 85 * (Day : Int) := by
      have := (Int.ediv_lt_iff_lt_mul hDay).1 hd
      linarith
    have hmax : ¬ (now.ns - expiry.ns > maxDuration) := by
      have : (85 : Int) * (Day : Int) ≤ maxDuration := by norm_num [Day, Hour, maxDuration]
      omega
    unfold Time.Sub
    rw [if_neg hmax, if_neg hmin]
    exact wholeDays_exact _ hx hlt
  · intro k hk hkd
    have hkx : (k : Int) * (Day : Int) ≤ now.ns - expiry.ns := (Int.le_ediv_iff_mul_le hDay).1 hkd
    unfold Time.Sub
    by_cases hmax : now.ns - expiry.ns > maxDuration
    · rw [if_pos hmax]
      apply wholeDays_ge _ _ le_rfl
      have h1 : (k : Int) * (Day : Int) ≤ 106751 * (Day : Int) := by
        apply mul_le_mul_of_nonneg_right _ (le_of_lt hDay)
        exact_mod_cast hk
      have h2 : (106751 : Int) * (Day : Int) ≤ maxDuration := by
        norm_num [Day, Hour, maxDuration]
      exact le_trans h1 h2
    · rw [if_neg hmax, if_neg hmin]
      exact wholeDays_ge _ _ (not_lt.1 hmax) hkx

/-- The guidance for an expiration that is not after `now`, as one expression in the
day count `w` the code computes and the lower-cased TLD. -/
theorem guidance_expired (tbl : CaseTables) (now : Time) (summary : Summary)
    (expiration : TimelineEvent) (hE : summary.Timeline.Expiration = some expiration)
    (hpast : expiration.Date.ns ≤ now.ns) :
    GeneratePostExpirationGuidance tbl now summary =
      some (
        if ToLower tbl (extractTLD summary.Domain) = "com" ∨
            ToLower tbl (extractTLD summary.Domain) = "net" ∨
            ToLower tbl (extractTLD summary.Domain) = "org" then
          if wholeDays (now.Sub expiration.Date) ≤ 30 then
            { DaysExpired := wholeDays (now.Sub expiration.Date),
              GuidanceMessage := msgRenewalGrace }
          else if wholeDays (now.Sub expiration.Date) ≤ 75 then
            { DaysExpired := wholeDays (now.Sub expiration.Date),
              GuidanceMessage := msgRedemption }
          else if 80 - wholeDays (now.Sub expiration.Date) > 0 then
            { DaysExpired := wholeDays (now.Sub expiration.Date),
              AvailableDate := some (expiration.Date.AddDate 80),
              GuidanceMessage := msgPendingDelete (80 - wholeDays (now.Sub expiration.Date)) }
          else
            { DaysExpired := wholeDays (now.Sub expiration.Date),
              GuidanceMessage := msgDeleted }
        else if ToLower tbl (extractTLD summary.Domain) = "uk" ∨
            ToLower tbl (extractTLD summary.Domain) = "co.uk" then
          if wholeDays (now.Sub expiration.Date) ≤ 90 then
            { DaysExpired := wholeDays (now.Sub expiration.Date),
              GuidanceMessage := msgUkGrace }
          else
            { DaysExpired := wholeDays (now.Sub expiration.Date),
              GuidanceMessage := msgUkAvailable }
        else
          if wholeDays (now.Sub expiration.Date) ≤ 30 then
            { DaysExpired := wholeDays (now.Sub expiration.Date),
              GuidanceMessage := msgGenericGrace }
          else
            { DaysExpired := wholeDays (now.Sub expiration.Date),
              GuidanceMessage := msgGenericAvailable }) := by
  have hDay : (0 : Int) < (Day : Int) := by norm_num [Day, Hour]
  have h1 : expiration.Date.After (now.AddDate 30) = false := by
    unfold Time.After Time.AddDate
    simp only [decide_eq_false_iff_not, not_lt]
    nlinarith
  have h2 : expiration.Date.After now = false := by
    unfold Time.After
    simp only [decide_eq_false_iff_not, not_lt]
    exact hpast
  unfold GeneratePostExpirationGuidance
  simp only [hE, h1, h2, Bool.false_eq_true, if_false]
  split_ifs <;> rfl

theorem lower_tld_example (tbl : CaseTables) :
    ToLower tbl (extractTLD "EXAMPLE.COM") = ToLower tbl (extractTLD "example.com") := by
  rfl

/-- C8: for an expiration at or before `now` and a lower-cased TLD `com`, `net` or `org`,
with `d` the whole days since the expiration, the message is the renewal-grace message
for `d ≤ 30`, the redemption message for `31 ≤ d ≤ 75` and the completed-deletion
message for `d ≥ 80`; the TLD is compared in lower case, so that "EXAMPLE.COM" gets the
guidance of "example.com". -/
theorem guidance_gtld_phases (tbl : CaseTables) (now : Time) (summary : Summary)
    (expiration : TimelineEvent) (hE : summary.Timeline.Expiration = some expiration)
    (hpast : expiration.Date.ns ≤ now.ns)
    (htld : ToLower tbl (extractTLD summary.Domain) = "com" ∨
      ToLower tbl (extractTLD summary.Domain) = "net" ∨
      ToLower tbl (extractTLD summary.Domain) = "org") :
    (∃ g, GeneratePostExpirationGuidance tbl now summary = some g ∧
      ((now.ns - expiration.Date.ns) / (Day : Int) ≤ 30 →
        g.GuidanceMessage = msgRenewalGrace) ∧
      (31 ≤ (now.ns - expiration.Date.ns) / (Day : Int) ∧
        (now.ns - expiration.Date.ns) / (Day : Int) ≤ 75 →
        g.GuidanceMessage = msgRedemption) ∧
      (80 ≤ (now.ns - expiration.Date.ns) / (Day : Int) →
        g.GuidanceMessage = msgDeleted)) ∧
    GeneratePostExpirationGuidance tbl now { summary with Domain := "EXAMPLE.COM" } =
      GeneratePostExpirationGuidance tbl now { summary with Domain := "example.com" } := by
  constructor
  · rw [guidance_expired tbl now summary expiration hE hpast]
    obtain ⟨hex, hge⟩ := elapsed_days now expiration.Date hpast
    refine ⟨_, rfl, ?_, ?_, ?_⟩
    · intro hd
      have hw := hex (by omega)
      rw [if_pos htld, if_pos (by omega)]
    · rintro ⟨h31, h75⟩
      have hw := hex (by omega)
      rw [if_pos htld, if_neg (by omega), if_pos (by omega)]
    · intro h80
      have hw := hge 80 (by norm_num) (by exact_mod_cast h80)
      rw [if_pos htld, if_neg (by omega), if_neg (by omega), if_neg (by omega)]
  · unfold GeneratePostExpirationGuidance
    simp only [lower_tld_example tbl]

/-- Witness of C8: "EXAMPLE.COM" expired 85 days before `now`. -/
theorem guidance_gtld_phases_witness :
    ((∃ g, GeneratePostExpirationGuidance CaseTables.ascii ⟨100 * Day⟩
        (expiringSummary "EXAMPLE.COM" ⟨15 * Day⟩) = some g ∧
      (((100 * Day : Int) - (15 * Day : Int)) / (Day : Int) ≤ 30 →
        g.GuidanceMessage = msgRenewalGrace) ∧
      (31 ≤ ((100 * Day : Int) - (15 * Day : Int)) / (Day : Int) ∧
        ((100 * Day : Int) - (15 * Day : Int)) / (Day : Int) ≤ 75 →
        g.GuidanceMessage = msgRedemption) ∧
      (80 ≤ ((100 * Day : Int) - (15 * Day : Int)) / (Day : Int) →
        g.GuidanceMessage = msgDeleted)) ∧
    GeneratePostExpirationGuidance CaseTables.ascii ⟨100 * Day⟩
        { expiringSummary "EXAMPLE.COM" ⟨15 * Day⟩ with Domain := "EXAMPLE.COM" } =
      GeneratePostExpirationGuidance CaseTables.ascii ⟨100 * Day⟩
        { expiringSummary "EXAMPLE.COM" ⟨15 * Day⟩ with Domain := "example.com" }) ∧
    GeneratePostExpirationGuidance CaseTables.ascii ⟨100 * Day⟩
        (expiringSummary "EXAMPLE.COM" ⟨15 * Day⟩) =
      some { DaysExpired := 85, GuidanceMessage := msgDeleted } ∧
    Contains msgRenewalGrace "Not yet available for registration" = true ∧
    Contains msgDeleted "should be available for registration" = true :=
  ⟨guidance_gtld_phases CaseTables.ascii ⟨100 * Day⟩ (expiringSummary "EXAMPLE.COM" ⟨15 * Day⟩)
    ⟨⟨15 * Day⟩, "test"⟩ rfl (by decide) (Or.inl (by decide)), by decide!, by decide!,
    by decide!⟩

/-- C9: for a summary with an expiration event, `AvailableDate` is set exactly when the
expiration is not after `now`, the lower-cased TLD is `com`, `net` or `org` and the whole
days `d` since the expiration satisfy `76 ≤ d ≤ 79`; the guidance then is the day count
`d`, the date 80 days after the expiration and the pending-deletion message naming
`80 - d` days.  Every other guidance that is returned has no `AvailableDate`. -/
theorem guidance_available_date (tbl : CaseTables) (now : Time) (summary : Summary)
    (expiration : TimelineEvent) (hE : summary.Timeline.Expiration = some expiration) :
    ((expiration.Date.ns ≤ now.ns ∧
        (ToLower tbl (extractTLD summary.Domain) = "com" ∨
          ToLower tbl (extractTLD summary.Domain) = "net" ∨
          ToLower tbl (extractTLD summary.Domain) = "org") ∧
        76 ≤ (now.ns - expiration.Date.ns) / (Day : Int) ∧
        (now.ns - expiration.Date.ns) / (Day : Int) ≤ 79) →
      GeneratePostExpirationGuidance tbl now summary =
        some { DaysExpired := (now.ns - expiration.Date.ns) / (Day : Int),
               AvailableDate := some (expiration.Date.AddDate 80),
               GuidanceMessage :=
                 msgPendingDelete (80 - (now.ns - expiration.Date.ns) / (Day : Int)) }) ∧
    (∀ g, GeneratePostExpirationGuidance tbl now summary = some g →
      (g.AvailableDate.isSome = true ↔
        (expiration.Date.ns ≤ now.ns ∧
          (ToLower tbl (extractTLD summary.Domain) = "com" ∨
            ToLower tbl (extractTLD summary.Domain) = "net" ∨
            ToLower tbl (extractTLD summary.Domain) = "org") ∧
          76 ≤ (now.ns - expiration.Date.ns) / (Day : Int) ∧
          (now.ns - expiration.Date.ns) / (Day : Int) ≤ 79))) := by
  have key : (expiration.Date.ns ≤ now.ns ∧
        (ToLower tbl (extractTLD summary.Domain) = "com" ∨
          ToLower tbl (extractTLD summary.Domain) = "net" ∨
          ToLower tbl (extractTLD summary.Domain) = "org") ∧
        76 ≤ (now.ns - expiration.Date.ns) / (Day : Int) ∧
        (now.ns - expiration.Date.ns) / (Day : Int) ≤ 79) →
      GeneratePostExpirationGuidance tbl now summary =
        some { DaysExpired := (now.ns - expiration.Date.ns) / (Day : Int),
               AvailableDate := some (expiration.Date.AddDate 80),
               GuidanceMessage :=
                 msgPendingDelete (80 - (now.ns - expiration.Date.ns) / (Day : Int)) } := by
    rintro ⟨hpast, htld, h76, h79⟩
    rw [guidance_expired tbl now summary expiration hE hpast]
    obtain ⟨hex, -⟩ := elapsed_days now expiration.Date hpast
    have hw := hex (by omega)
    rw [if_pos htld, if_neg (by omega), if_neg (by omega), if_pos (by omega), hw]
  refine ⟨key, ?_⟩
  intro g hg
  constructor
  · intro hsome
    by_cases hpast : expiration.Date.ns ≤ now.ns
    · rw [guidance_expired tbl now summary expiration hE hpast] at hg
      obtain ⟨hex, hge⟩ := elapsed_days now expiration.Date hpast
      have hg2 := Option.some.inj hg
      by_cases htld : ToLower tbl (extractTLD summary.Domain) = "com" ∨
          ToLower tbl (extractTLD summary.Domain) = "net" ∨
          ToLower tbl (extractTLD summary.Domain) = "org"
      · rw [if_pos htld] at hg2
        by_cases h30 : wholeDays (now.Sub expiration.Date) ≤ 30
        · rw [if_pos h30] at hg2; rw [← hg2] at hsome; simp at hsome
        rw [if_neg h30] at hg2
        by_cases h75 : wholeDays (now.Sub expiration.Date) ≤ 75
        · rw [if_pos h75] at hg2; rw [← hg2] at hsome; simp at hsome
        rw [if_neg h75] at hg2
        by_cases h80 : 80 - wholeDays (now.Sub expiration.Date) > 0
        · refine ⟨hpast, htld, ?_, ?_⟩
          · by_contra hcon
            have hw := hex (by omega)
            omega
          · by_contra hcon
            have hw := hge 80 (by norm_num) (by omega)
            omega
        · rw [if_neg h80] at hg2; rw [← hg2] at hsome; simp at hsome
      · rw [if_neg htld] at hg2
        split_ifs at hg2 <;> (rw [← hg2] at hsome; simp at hsome)
    · exfalso
      unfold GeneratePostExpirationGuidance at hg
      have hafter : expiration.Date.After now = true := by
        unfold Time.After
        simp only [decide_eq_true_eq]
        omega
      simp only [hE, hafter, if_true] at hg
      split_ifs at hg <;>
        (have hg2 := Option.some.inj hg; rw [← hg2] at hsome; simp at hsome)
  · intro h
    rw [key h] at hg
    have hg2 := Option.some.inj hg
    rw [← hg2]
    rfl

/-- Witness of C9: "example.com" expired 78 days before `now`; the message names
"2 days" and the date is 80 days after the expiration. -/
theorem guidance_available_date_witness :
    GeneratePostExpirationGuidance CaseTables.ascii ⟨100 * Day⟩
        (expiringSummary "example.com" ⟨22 * Day⟩) =
      some { DaysExpired := ((100 * Day : Int) - (22 * Day : Int)) / (Day : Int),
             AvailableDate := some ((⟨22 * Day⟩ : Time).AddDate 80),
             GuidanceMessage :=
               msgPendingDelete (80 - ((100 * Day : Int) - (22 * Day : Int)) / (Day : Int)) } ∧
    msgPendingDelete (80 - ((100 * Day : Int) - (22 * Day : Int)) / (Day : Int)) =
      "Domain is pending deletion! It will drop and become available for registration in approximately 2 days." ∧
    (⟨22 * Day⟩ : Time).AddDate 80 = ⟨102 * Day⟩ :=
  ⟨(guidance_available_date CaseTables.ascii ⟨100 * Day⟩ (expiringSummary "example.com" ⟨22 * Day⟩)
    ⟨⟨22 * Day⟩, "test"⟩ rfl).1 ⟨by decide, Or.inl (by decide), by decide, by decide⟩,
    by decide!, by decide!⟩

theorem append_ne_empty (a b : String) (h : a ≠ "") : a ++ b ≠ "" := by
  intro hab
  apply h
  have h1 : (a ++ b).data = [] := by rw [hab]
  rw [String.data_append] at h1
  have h2 : a.data = [] := (List.append_eq_nil.1 h1).1
  cases a
  simp only at h2
  subst h2
  rfl

theorem guidance_nil_cases (tbl : CaseTables) (now : Time) (summary : Summary) :
    (GeneratePostExpirationGuidance tbl now summary = none ↔
      (summary.Timeline.Expiration = none ∨
        ∃ expiration, summary.Timeline.Expiration = some expiration ∧
          now.ns + 30 * (Day : Int) < expiration.Date.ns)) ∧
    (∀ g, GeneratePostExpirationGuidance tbl now summary = some g → g.GuidanceMessage ≠ "") := by
  cases hE : summary.Timeline.Expiration with
  | none =>
    unfold GeneratePostExpirationGuidance
    simp [hE]
  | some expiration =>
    by_cases hfar : now.ns + 30 * (Day : Int) < expiration.Date.ns
    · have h1 : expiration.Date.After (now.AddDate 30) = true := by
        unfold Time.After Time.AddDate
        simp only [decide_eq_true_eq]
        exact hfar
      unfold GeneratePostExpirationGuidance
      simp only [hE, h1, if_true]
      simp [hfar]
    · have h1 : expiration.Date.After (now.AddDate 30) = false := by
        unfold Time.After Time.AddDate
        simp only [decide_eq_false_iff_not]
        exact hfar
      constructor
      · unfold GeneratePostExpirationGuidance
        simp only [hE, h1, Bool.false_eq_true, if_false]
        constructor
        · intro h
          exfalso
          split_ifs at h
        · rintro (h | ⟨e, he, hlt⟩)
          · exact absurd h (by simp)
          · have : e = expiration := (Option.some.inj he).symm
            subst this
            exact absurd hlt hfar
      · intro g hg
        unfold GeneratePostExpirationGuidance at hg
        simp only [hE, h1, Bool.false_eq_true, if_false] at hg
        have hm : ∀ d : Int, msgMonitor d ≠ "" := fun d => by
          unfold msgMonitor
          rw [String.append_assoc]
          exact append_ne_empty _ _ (by decide)
        have hw : ∀ d : Int, msgWatchlist d ≠ "" := fun d => by
          unfold msgWatchlist
          rw [String.append_assoc]
          exact append_ne_empty _ _ (by decide)
        have hp : ∀ d : Int, msgPendingDelete d ≠ "" := fun d => by
          unfold msgPendingDelete
          rw [String.append_assoc]
          exact append_ne_empty _ _ (by decide)
        split_ifs at hg <;>
          (have hg2 := Option.some.inj hg
           rw [← hg2]
           first
             | exact hm _
             | exact hw _
             | exact hp _
             | (dsimp only; decide))

/-- C10: `GeneratePostExpirationGuidance` returns nil exactly when the summary has no
expiration event or the expiration is more than 30 days after `now`; for an expiration
at most 30 days after `now`, or at any distance before it, it returns a guidance whose
message is not empty. -/
theorem guidance_nil_iff (tbl : CaseTables) (now : Time) (summary : Summary) :
    (GeneratePostExpirationGuidance tbl now summary = none ↔
      (summary.Timeline.Expiration = none ∨
        ∃ expiration, summary.Timeline.Expiration = some expiration ∧
          now.ns + 30 * (Day : Int) < expiration.Date.ns)) ∧
    (∀ expiration, summary.Timeline.Expiration = some expiration →
      expiration.Date.ns ≤ now.ns + 30 * (Day : Int) →
      ∃ g, GeneratePostExpirationGuidance tbl now summary = some g ∧
        g.GuidanceMessage ≠ "") := by
  obtain ⟨h1, h2⟩ := guidance_nil_cases tbl now summary
  refine ⟨h1, ?_⟩
  intro expiration hE hnear
  cases hg : GeneratePostExpirationGuidance tbl now summary with
  | none =>
    exfalso
    rcases h1.1 hg with h | ⟨e, he, hlt⟩
    · rw [hE] at h; exact absurd h (by simp)
    · rw [hE] at he
      have : e = expiration := (Option.some.inj he).symm
      subst this
      omega
  | some g => exact ⟨g, rfl, h2 g hg⟩

/-! ## The day count beyond 85 days -/

theorem float64_spec2 (n d : Nat) (hn : 0 < n) (hd : 0 < d) :
    ∃ j : Nat, (float64 n d).num =
        roundHalfEven (n * 2 ^ (floorLog2 d + 53)) (d * 2 ^ j) * 2 ^ j ∧
      (float64 n d).den = 2 ^ (floorLog2 d + 53) ∧
      2 ^ 52 * (d * 2 ^ j) ≤ n * 2 ^ (floorLog2 d + 53) ∧
      n * 2 ^ (floorLog2 d + 53) < 2 ^ 53 * (d * 2 ^ j) := by
  have ha := floorLog2_le n hn
  have ha2 := floorLog2_lt n
  have hb := floorLog2_lt d
  have hb2 := floorLog2_le d hd
  unfold float64
  simp only [Nat.ne_of_gt hn, Nat.ne_of_gt hd, or_self, if_false]
  by_cases hc : n * 2 ^ (floorLog2 d + 53) < 2 ^ 53 * (d * 2 ^ floorLog2 n)
  · rw [if_pos hc]
    refine ⟨floorLog2 n, rfl, rfl, ?_, hc⟩
    have h1 : 2 ^ 52 * d ≤ 2 ^ (floorLog2 d + 53) := by
      have : 2 ^ (floorLog2 d + 53) = 2 ^ 52 * 2 ^ (floorLog2 d + 1) := by
        rw [← pow_add]; congr 1; omega
      rw [this]; exact Nat.mul_le_mul_left _ (Nat.le_of_lt hb)
    calc 2 ^ 52 * (d * 2 ^ floorLog2 n) = (2 ^ 52 * d) * 2 ^ floorLog2 n := by ring
      _ ≤ 2 ^ (floorLog2 d + 53) * n := Nat.mul_le_mul h1 ha
      _ = n * 2 ^ (floorLog2 d + 53) := by ring
  · rw [if_neg hc]
    refine ⟨floorLog2 n + 1, ?_, rfl, ?_, ?_⟩
    · have : 2 * (d * 2 ^ floorLog2 n) = d * 2 ^ (floorLog2 n + 1) := by ring
      rw [← this]
    · have : 2 ^ 52 * (d * 2 ^ (floorLog2 n + 1)) = 2 ^ 53 * (d * 2 ^ floorLog2 n) := by ring
      rw [this]; exact Nat.le_of_not_lt hc
    · calc n * 2 ^ (floorLog2 d + 53)
          < 2 ^ (floorLog2 n + 1) * 2 ^ (floorLog2 d + 53) :=
            Nat.mul_lt_mul_of_pos_right ha2 (by positivity)
        _ = 2 ^ 53 * (2 ^ floorLog2 d * 2 ^ (floorLog2 n + 1)) := by ring
        _ ≤ 2 ^ 53 * (d * 2 ^ (floorLog2 n + 1)) :=
            Nat.mul_le_mul_left _ (Nat.mul_le_mul_right _ hb2)

/-- In the top binade below `2^E`, with `t + E = 53`: a value more than half a unit
`2^-t` below the grid point `G / 2^t` is rounded to at most the grid point before it. -/
theorem float64_lt_top (n d G t E : Nat) (hd : 0 < d) (hE : n < d * 2 ^ E)
    (hlo : d * 2 ^ E ≤ 2 * n) (htE : t + E = 53)
    (h : 2 * (n * 2 ^ t) + d < 2 * (G * d)) :
    (float64 n d).num * 2 ^ t + (float64 n d).den ≤ G * (float64 n d).den := by
  have hn : 0 < n := by
    rcases Nat.eq_zero_or_pos n with h0 | h0
    · subst h0
      have : 0 < d * 2 ^ E := by positivity
      omega
    · exact h0
  obtain ⟨j, hnum, hden, hj, hj2⟩ := float64_spec2 n d hn hd
  -- the exponent is determined: j + t = floorLog2 d + 53
  have h1 : d * 2 ^ (E + (floorLog2 d + 53)) < d * 2 ^ (54 + j) := by
    calc d * 2 ^ (E + (floorLog2 d + 53)) = (d * 2 ^ E) * 2 ^ (floorLog2 d + 53) := by ring
      _ ≤ (2 * n) * 2 ^ (floorLog2 d + 53) := Nat.mul_le_mul_right _ hlo
      _ = 2 * (n * 2 ^ (floorLog2 d + 53)) := by ring
      _ < 2 * (2 ^ 53 * (d * 2 ^ j)) := by omega
      _ = d * 2 ^ (54 + j) := by ring
  have h2 : E + (floorLog2 d + 53) < 54 + j :=
    (Nat.pow_lt_pow_iff_right (by norm_num)).1 (Nat.lt_of_mul_lt_mul_left h1)
  obtain ⟨J, hJ⟩ := shift_split n d j (floorLog2 d) E t hE (le_of_eq htE) hj
  have hJ0 : J = 0 := by omega
  subst hJ0
  rw [hnum, hden, hJ]
  have hm : roundHalfEven (n * 2 ^ (j + t + 0)) (d * 2 ^ j) < G := by
    apply rhe_lt _ _ _ (by positivity)
    have hpos : 0 < 2 ^ j := by positivity
    calc 2 * (n * 2 ^ (j + t + 0)) + d * 2 ^ j
        = (2 * (n * 2 ^ t) + d) * 2 ^ j := by ring
      _ < 2 * (G * d) * 2 ^ j := Nat.mul_lt_mul_of_pos_right h hpos
      _ = 2 * (G * (d * 2 ^ j)) := by ring
  calc roundHalfEven (n * 2 ^ (j + t + 0)) (d * 2 ^ j) * 2 ^ j * 2 ^ t + 2 ^ (j + t + 0)
      = (roundHalfEven (n * 2 ^ (j + t + 0)) (d * 2 ^ j) + 1) * 2 ^ (j + t + 0) := by ring
    _ ≤ G * 2 ^ (j + t + 0) := Nat.mul_le_mul_right _ hm

/-- The fraction of an hour: at most `1 - 9 * 2^-45`. -/
theorem nsecFrac_le45 (nsec : Nat) (h : nsec < Hour) :
    ((float64 nsec 1).div (float64 3600000000000 1)).num * 2 ^ 45 ≤
      (2 ^ 45 - 9) * ((float64 nsec 1).div (float64 3600000000000 1)).den := by
  have hg := float64_int nsec (lt_trans h (by norm_num [Hour]))
  have hc := float64_int 3600000000000 (by norm_num)
  have hgd := float64_den_pos nsec 1
  have hcd := float64_den_pos 3600000000000 1
  unfold Frac.div
  rw [hg, hc]
  generalize (float64 nsec 1).den = a at *
  generalize (float64 3600000000000 1).den = c at *
  have hac : 0 < a * c := Nat.mul_pos hgd hcd
  unfold Hour at h
  apply float64_le _ _ _ 45 0 (by positivity) _ (by norm_num)
  · have : nsec * a * c * 2 ^ 45 = (nsec * 2 ^ 45) * (a * c) := by ring
    rw [this]
    have : (2 ^ 45 - 9) * (a * (3600000000000 * c)) = ((2 ^ 45 - 9) * 3600000000000) * (a * c) := by ring
    rw [this]
    apply Nat.mul_le_mul_right
    norm_num
    omega
  · have : nsec * a * c = nsec * (a * c) := by ring
    rw [this]
    have : a * (3600000000000 * c) * 2 ^ 0 = 3600000000000 * (a * c) := by ring
    rw [this]
    exact Nat.mul_lt_mul_of_pos_right h hac

/-- Below `H` hours, for `2049 ≤ H ≤ 4096`, the rounded hours are at most `H - 2^-41`. -/
theorem hoursMag_le41 (D H : Nat) (hH1 : 2049 ≤ H) (hH : H ≤ 4096) (hD : D < H * Hour) :
    (hoursMag D).num * 2 ^ 41 + (hoursMag D).den ≤ H * 2 ^ 41 * (hoursMag D).den := by
  have hhour : D / Hour < H := (Nat.div_lt_iff_lt_mul (by norm_num [Hour])).2 hD
  have hnsec : D % Hour < Hour := Nat.mod_lt _ (by norm_num [Hour])
  have hf := float64_int (D / Hour) (by omega)
  have hq := nsecFrac_le45 (D % Hour) hnsec
  have hfd := float64_den_pos (D / Hour) 1
  have hqd : 0 < ((float64 (D % Hour) 1).div (float64 3600000000000 1)).den :=
    float64_den_pos _ _
  unfold hoursMag
  simp only
  unfold Frac.add
  rw [hf]
  generalize (float64 (D / Hour) 1).den = a at *
  generalize (float64 (D % Hour) 1).div (float64 3600000000000 1) = q at *
  generalize D / Hour = hour at *
  have hpos : 0 < a * q.den := Nat.mul_pos hfd hqd
  -- n * 2^45 + 9 d ≤ H * 2^45 * d
  have key : (hour * a * q.den + q.num * a) * 2 ^ 45 + 9 * (a * q.den) ≤
      H * 2 ^ 45 * (a * q.den) := by
    have e2 : (q.num * 2 ^ 45) * a ≤ (2 ^ 45 - 9) * q.den * a := Nat.mul_le_mul_right _ hq
    have e3 : (hour + 1) * 2 ^ 45 * (a * q.den) ≤ H * 2 ^ 45 * (a * q.den) :=
      Nat.mul_le_mul_right _ (Nat.mul_le_mul_right _ (by omega))
    have e4 : (hour * a * q.den + q.num * a) * 2 ^ 45 + 9 * (a * q.den)
        = hour * 2 ^ 45 * (a * q.den) + (q.num * 2 ^ 45) * a + 9 * (a * q.den) := by ring
    have e5 : (hour + 1) * 2 ^ 45 * (a * q.den)
        = hour * 2 ^ 45 * (a * q.den) + (2 ^ 45 - 9) * q.den * a + 9 * (a * q.den) := by
      have : (2 : Nat) ^ 45 = (2 ^ 45 - 9) + 9 := by norm_num
      conv_lhs => rw [this]
      ring
    rw [e4]
    calc hour * 2 ^ 45 * (a * q.den) + q.num * 2 ^ 45 * a + 9 * (a * q.den)
        ≤ hour * 2 ^ 45 * (a * q.den) + (2 ^ 45 - 9) * q.den * a + 9 * (a * q.den) := by
          omega
      _ = (hour + 1) * 2 ^ 45 * (a * q.den) := e5.symm
      _ ≤ H * 2 ^ 45 * (a * q.den) := e3
  generalize hn : hour * a * q.den + q.num * a = n at *
  generalize hdd : a * q.den = d at *
  have hE : n < d * 2 ^ 12 := by
    have h1 : H * 2 ^ 45 * d ≤ 4096 * 2 ^ 45 * d :=
      Nat.mul_le_mul_right _ (Nat.mul_le_mul_right _ hH)
    have h2 : n * 2 ^ 45 < (d * 2 ^ 12) * 2 ^ 45 := by
      have : (d * 2 ^ 12) * 2 ^ 45 = 4096 * 2 ^ 45 * d := by ring
      omega
    exact Nat.lt_of_mul_lt_mul_right h2
  have hstrict : 2 * (n * 2 ^ 41) + d < 2 * (H * 2 ^ 41 * d) := by
    have e1 : n * 2 ^ 45 = 16 * (n * 2 ^ 41) := by ring
    have e2 : H * 2 ^ 45 * d = 16 * (H * 2 ^ 41 * d) := by ring
    omega
  by_cases htop : d * 2 ^ 12 ≤ 2 * n
  · exact float64_lt_top n d (H * 2 ^ 41) 41 12 hpos hE htop (by norm_num) hstrict
  · -- below 2048 hours the result is at most 2048
    have hE11 : n < d * 2 ^ 11 := by
      have : d * 2 ^ 12 = 2 * (d * 2 ^ 11) := by ring
      omega
    have h1 := float64_le n d 2048 0 11 hpos hE11 (by norm_num) (by
      have : n * 2 ^ 0 = n := by ring
      rw [this]
      have : d * 2 ^ 11 = 2048 * d := by ring
      omega)
    have hden := float64_den_pos n d
    generalize float64 n d = s at *
    simp only [pow_zero, Nat.mul_one] at h1
    have h2 : s.num * 2 ^ 41 ≤ 2048 * s.den * 2 ^ 41 := Nat.mul_le_mul_right _ h1
    have h3 : 2049 * 2 ^ 41 * s.den ≤ H * 2 ^ 41 * s.den :=
      Nat.mul_le_mul_right _ (Nat.mul_le_mul_right _ hH1)
    have e3 : 2049 * 2 ^ 41 * s.den = 2048 * s.den * 2 ^ 41 + 2 ^ 41 * s.den := by ring
    have e4 : s.den ≤ 2 ^ 41 * s.den := Nat.le_mul_of_pos_left _ (by positivity)
    omega

theorem daysMag_lt_high (D K : Nat) (hK1 : 86 ≤ K) (hK : K ≤ 170) (hD : D < K * Day) :
    daysMag D < K := by
  have hH : D < (24 * K) * Hour := by
    have : K * Day = (24 * K) * Hour := by unfold Day; ring
    omega
  have hs := hoursMag_le41 D (24 * K) (by omega) (by omega) hH
  have hsd := hoursMag_den_pos D
  have hc := float64_int 24 (by norm_num)
  have hcd := float64_den_pos 24 1
  unfold daysMag Frac.toInt Frac.div
  rw [hc]
  generalize hoursMag D = s at *
  generalize (float64 24 1).den = c at *
  have hpos : 0 < s.den * (24 * c) := by positivity
  have hs32 : 2 * (s.num * 2 ^ 45) + 32 * s.den ≤ 48 * K * 2 ^ 45 * s.den := by
    have h3 := Nat.mul_le_mul_left 32 hs
    have e1 : 32 * (s.num * 2 ^ 41 + s.den) = 2 * (s.num * 2 ^ 45) + 32 * s.den := by ring
    have e2 : 32 * (24 * K * 2 ^ 41 * s.den) = 48 * K * 2 ^ 45 * s.den := by ring
    rw [e1, e2] at h3
    exact h3
  have key : 2 * (s.num * c * 2 ^ 45) + s.den * (24 * c) <
      2 * (K * 2 ^ 45 * (s.den * (24 * c))) := by
    have h4 : (2 * (s.num * 2 ^ 45) + 24 * s.den) * c < (48 * K * 2 ^ 45 * s.den) * c := by
      apply Nat.mul_lt_mul_of_pos_right _ hcd
      omega
    calc 2 * (s.num * c * 2 ^ 45) + s.den * (24 * c)
        = (2 * (s.num * 2 ^ 45) + 24 * s.den) * c := by ring
      _ < (48 * K * 2 ^ 45 * s.den) * c := h4
      _ = 2 * (K * 2 ^ 45 * (s.den * (24 * c))) := by ring
  have hE : s.num * c < s.den * (24 * c) * 2 ^ 8 := by
    have h5 : s.num * 2 ^ 41 < 24 * 256 * 2 ^ 41 * s.den := by
      have h6 : 24 * K * 2 ^ 41 * s.den ≤ 24 * 170 * 2 ^ 41 * s.den := by
        apply Nat.mul_le_mul_right
        apply Nat.mul_le_mul_right
        omega
      have h7 : 24 * 170 * 2 ^ 41 * s.den < 24 * 256 * 2 ^ 41 * s.den := by
        apply Nat.mul_lt_mul_of_pos_right _ hsd
        norm_num
      omega
    have h6 : s.num < 24 * 256 * s.den := by
      have e : 24 * 256 * 2 ^ 41 * s.den = (24 * 256 * s.den) * 2 ^ 41 := by ring
      rw [e] at h5
      exact Nat.lt_of_mul_lt_mul_right h5
    calc s.num * c < (24 * 256 * s.den) * c := Nat.mul_lt_mul_of_pos_right h6 hcd
      _ = s.den * (24 * c) * 2 ^ 8 := by ring
  have h := float64_lt (s.num * c) (s.den * (24 * c)) (K * 2 ^ 45) 45 8 hpos hE (by norm_num) key
  have hyd := float64_den_pos (s.num * c) (s.den * (24 * c))
  generalize float64 (s.num * c) (s.den * (24 * c)) = y at *
  apply (Nat.div_lt_iff_lt_mul hyd).2
  have e : K * 2 ^ 45 * y.den = (K * y.den) * 2 ^ 45 := by ring
  rw [e] at h
  exact Nat.lt_of_mul_lt_mul_right h

theorem daysMag_lt_170 (D K : Nat) (hK : K ≤ 170) (hD : D < K * Day) : daysMag D < K := by
  by_cases h : K ≤ 85
  · exact daysMag_lt D K h hD
  · exact daysMag_lt_high D K (by omega) hK hD

/-- The day count is never more than one above the whole days. -/
theorem daysMag_le_succ (D : Nat) (hD : D < 2 ^ 63) : daysMag D ≤ D / Day + 1 := by
  have hs := hoursMag_bounds D hD
  have hsd := hoursMag_den_pos D
  have hc := float64_int 24 (by norm_num)
  have hcd := float64_den_pos 24 1
  have hhour : D / Hour < 24 * (D / Day + 1) := by
    apply (Nat.div_lt_iff_lt_mul (by norm_num [Hour])).2
    have e1 := Nat.div_add_mod D Day
    have e2 := Nat.mod_lt D (show 0 < Day by norm_num [Day, Hour])
    have e3 : 24 * (D / Day + 1) * Hour = Day * (D / Day) + Day := by unfold Day; ring
    omega
  have hhour2 : D / Hour < 2 ^ 22 := by
    apply (Nat.div_lt_iff_lt_mul (by norm_num [Hour])).2
    exact lt_of_lt_of_le hD (by norm_num [Hour])
  unfold daysMag Frac.toInt Frac.div
  rw [hc]
  generalize hoursMag D = s at *
  generalize (float64 24 1).den = c at *
  generalize D / Hour = hour at *
  generalize D / Day = k at *
  obtain ⟨hlo, hhi⟩ := hs
  have hpos : 0 < s.den * (24 * c) := by positivity
  have h1 : s.num ≤ 24 * (k + 1) * s.den :=
    le_trans hhi (Nat.mul_le_mul_right _ (by omega))
  have h2 : s.num < 2 ^ 23 * s.den :=
    lt_of_le_of_lt hhi (Nat.mul_lt_mul_of_pos_right (by omega) hsd)
  have key : s.num * c * 2 ^ 0 ≤ (k + 1) * (s.den * (24 * c)) := by
    calc s.num * c * 2 ^ 0 = s.num * c := by ring
      _ ≤ (24 * (k + 1) * s.den) * c := Nat.mul_le_mul_right _ h1
      _ = (k + 1) * (s.den * (24 * c)) := by ring
  have hE : s.num * c < s.den * (24 * c) * 2 ^ 23 := by
    calc s.num * c < (2 ^ 23 * s.den) * c := Nat.mul_lt_mul_of_pos_right h2 hcd
      _ ≤ s.den * (24 * c) * 2 ^ 23 := by
          have : s.den * (24 * c) * 2 ^ 23 = 24 * ((2 ^ 23 * s.den) * c) := by ring
          rw [this]; omega
  have h := float64_le (s.num * c) (s.den * (24 * c)) (k + 1) 0 23 hpos hE (by norm_num) key
  have hyd := float64_den_pos (s.num * c) (s.den * (24 * c))
  generalize float64 (s.num * c) (s.den * (24 * c)) = y at *
  simp only [pow_zero, Nat.mul_one] at h
  exact Nat.div_le_of_le_mul (by rw [Nat.mul_comm]; exact h)

theorem hoursMag_le_whole (D : Nat) (hD : D < 2 ^ 63) (h0 : D % Hour = 0) :
    (hoursMag D).num ≤ (D / Hour) * (hoursMag D).den := by
  have hhour : D / Hour < 2 ^ 22 := by
    apply (Nat.div_lt_iff_lt_mul (by norm_num [Hour])).2
    exact lt_of_lt_of_le hD (by norm_num [Hour])
  have hf := float64_int (D / Hour) (lt_trans hhour (by norm_num))
  have hfd := float64_den_pos (D / Hour) 1
  unfold hoursMag
  simp only [h0]
  have hq : (float64 0 1).div (float64 3600000000000 1) = ⟨0, 1⟩ := by
    unfold Frac.div
    rw [float64_zero]
    simp only [Nat.zero_mul]
    exact float64_zero _
  rw [hq]
  unfold Frac.add
  rw [hf]
  generalize (float64 (D / Hour) 1).den = a at *
  generalize D / Hour = hour at *
  simp only [Nat.mul_one, Nat.zero_mul, Nat.add_zero]
  have hE : hour * a < a * 2 ^ 23 := by
    calc hour * a < 2 ^ 23 * a := Nat.mul_lt_mul_of_pos_right (by omega) hfd
      _ = a * 2 ^ 23 := by ring
  have h := float64_le (hour * a) a hour 0 23 hfd hE (by norm_num) (by simp)
  simpa using h

theorem daysMag_multiple (k : Nat) (hk : k * Day < 2 ^ 63) : daysMag (k * Day) = k := by
  have hge := daysMag_ge (k * Day) k hk le_rfl
  have hmod : (k * Day) % Hour = 0 := by
    have : k * Day = (k * 24) * Hour := by unfold Day; ring
    rw [this]; exact Nat.mul_mod_left _ _
  have hdiv : (k * Day) / Hour = 24 * k := by
    have : k * Day = (24 * k) * Hour := by unfold Day; ring
    rw [this]; exact Nat.mul_div_cancel _ (by norm_num [Hour])
  have hs := hoursMag_le_whole (k * Day) hk hmod
  rw [hdiv] at hs
  have hsd := hoursMag_den_pos (k * Day)
  have hc := float64_int 24 (by norm_num)
  have hcd := float64_den_pos 24 1
  have hle : daysMag (k * Day) ≤ k := by
    have hk22 : 24 * k < 2 ^ 23 := by
      have : k * Day < 2 ^ 63 := hk
      unfold Day Hour at this
      omega
    unfold daysMag Frac.toInt Frac.div
    rw [hc]
    generalize hoursMag (k * Day) = s at *
    generalize (float64 24 1).den = c at *
    have hpos : 0 < s.den * (24 * c) := by positivity
    have key : s.num * c * 2 ^ 0 ≤ k * (s.den * (24 * c)) := by
      calc s.num * c * 2 ^ 0 = s.num * c := by ring
        _ ≤ (24 * k * s.den) * c := Nat.mul_le_mul_right _ hs
        _ = k * (s.den * (24 * c)) := by ring
    have hE : s.num * c < s.den * (24 * c) * 2 ^ 23 := by
      have h2 : s.num < 2 ^ 23 * s.den :=
        lt_of_le_of_lt hs (Nat.mul_lt_mul_of_pos_right hk22 hsd)
      calc s.num * c < (2 ^ 23 * s.den) * c := Nat.mul_lt_mul_of_pos_right h2 hcd
        _ ≤ s.den * (24 * c) * 2 ^ 23 := by
            have : s.den * (24 * c) * 2 ^ 23 = 24 * ((2 ^ 23 * s.den) * c) := by ring
            rw [this]; omega
    have h := float64_le (s.num * c) (s.den * (24 * c)) k 0 23 hpos hE (by norm_num) key
    have hyd := float64_den_pos (s.num * c) (s.den * (24 * c))
    generalize float64 (s.num * c) (s.den * (24 * c)) = y at *
    simp only [pow_zero, Nat.mul_one] at h
    exact Nat.div_le_of_le_mul (by rw [Nat.mul_comm]; exact h)
  omega

/-! ## The day count of a time difference -/

theorem wholeDays_exact_170 (d : Int) (h0 : 0 ≤ d) (h : d < 170 * (Day : Int)) :
    wholeDays d = d / (Day : Int) := by
  obtain ⟨D, rfl⟩ := Int.eq_ofNat_of_zero_le h0
  have hDay : 0 < Day := by norm_num [Day, Hour]
  have hD : D < 170 * Day := by exact_mod_cast h
  have hK : D / Day + 1 ≤ 170 := by
    have : D / Day < 170 := (Nat.div_lt_iff_lt_mul hDay).2 hD
    omega
  have hlt : D < (D / Day + 1) * Day := by
    have e1 := Nat.div_add_mod D Day
    have e2 := Nat.mod_lt D hDay
    have e3 : (D / Day + 1) * Day = Day * (D / Day) + Day := by ring
    omega
  have h1 := daysMag_lt_170 D (D / Day + 1) hK hlt
  have h2 := daysMag_ge D (D / Day) (lt_of_lt_of_le hD (by norm_num [Day, Hour]))
    (Nat.div_mul_le_self D Day)
  have h3 : daysMag D = D / Day := by omega
  unfold wholeDays
  simp only [Int.natAbs_ofNat]
  rw [if_neg (not_lt.2 h0), h3]
  exact Int.ofNat_ediv D Day

theorem wholeDays_le_succ (d : Int) (h0 : 0 ≤ d) (hd : d ≤ maxDuration) :
    wholeDays d ≤ d / (Day : Int) + 1 := by
  obtain ⟨D, rfl⟩ := Int.eq_ofNat_of_zero_le h0
  have hD : D < 2 ^ 63 := by
    unfold maxDuration at hd
    have : (D : Int) < 2 ^ 63 := by omega
    exact_mod_cast this
  have h1 := daysMag_le_succ D hD
  unfold wholeDays
  simp only [Int.natAbs_ofNat]
  rw [if_neg (not_lt.2 h0)]
  have h2 : ((D / Day : Nat) : Int) = (D : Int) / (Day : Int) := Int.ofNat_ediv D Day
  rw [← h2]
  exact_mod_cast h1

theorem wholeDays_multiple (k : Nat) (hk : (k : Int) * (Day : Int) ≤ maxDuration) :
    wholeDays ((k : Int) * (Day : Int)) = k := by
  have hD : k * Day < 2 ^ 63 := by
    unfold maxDuration at hk
    have : ((k * Day : Nat) : Int) < 2 ^ 63 := by push_cast; omega
    exact_mod_cast this
  have h1 := daysMag_multiple k hD
  have e : (k : Int) * (Day : Int) = ((k * Day : Nat) : Int) := by push_cast; rfl
  rw [e]
  unfold wholeDays
  simp only [Int.natAbs_ofNat]
  rw [if_neg (not_lt.2 (Int.ofNat_nonneg _)), h1]

theorem wholeDays_nonneg (d : Int) (h0 : 0 ≤ d) : 0 ≤ wholeDays d := by
  unfold wholeDays
  rw [if_neg (not_lt.2 h0)]
  exact Int.ofNat_nonneg _

/-- The day count of `t.Sub u` for `u` not after `t`, against the whole days of the
exact difference. -/
theorem sub_days (t u : Time) (h : u.ns ≤ t.ns) :
    0 ≤ wholeDays (t.Sub u) ∧
    wholeDays (t.Sub u) ≤ (t.ns - u.ns) / (Day : Int) + 1 ∧
    ((t.ns - u.ns) / (Day : Int) < 170 →
      wholeDays (t.Sub u) = (t.ns - u.ns) / (Day : Int)) ∧
    (t.ns - u.ns ≤ maxDuration → (t.ns - u.ns) / (Day : Int) ≤ wholeDays (t.Sub u)) ∧
    (∀ k : Nat, t.ns - u.ns = (k : Int) * (Day : Int) → t.ns - u.ns ≤ maxDuration →
      wholeDays (t.Sub u) = k) := by
  have hDay : (0 : Int) < (Day : Int) := by norm_num [Day, Hour]
  have hx : 0 ≤ t.ns - u.ns := by omega
  have hmin : ¬ (t.ns - u.ns < minDuration) := by
    unfold minDuration; omega
  have hsub : t.ns - u.ns ≤ maxDuration → t.Sub u = t.ns - u.ns := by
    intro hmax
    unfold Time.Sub
    rw [if_neg (not_lt.2 hmax), if_neg hmin]
  refine ⟨?_, ?_, ?_, ?_, ?_⟩
  · apply wholeDays_nonneg
    by_cases hmax : t.ns - u.ns ≤ maxDuration
    · rw [hsub hmax]; exact hx
    · unfold Time.Sub
      rw [if_pos (not_le.1 hmax)]
      unfold maxDuration; norm_num
  · by_cases hmax : t.ns - u.ns ≤ maxDuration
    · rw [hsub hmax]
      exact wholeDays_le_succ _ hx hmax
    · have hs : t.Sub u = maxDuration := by
        unfold Time.Sub
        rw [if_pos (not_le.1 hmax)]
      rw [hs]
      have h1 := wholeDays_le_succ maxDuration (by unfold maxDuration; norm_num) le_rfl
      have h2 : maxDuration / (Day : Int) ≤ (t.ns - u.ns) / (Day : Int) :=
        Int.ediv_le_ediv hDay (le_of_lt (not_le.1 hmax))
      linarith
  · intro hd
    have hlt : t.ns - u.ns < 170 * (Day : Int) := by
      have := (Int.ediv_lt_iff_lt_mul hDay).1 hd
      linarith
    have hmax : t.ns - u.ns ≤ maxDuration := by
      have : (170 : Int) * (Day : Int) ≤ maxDuration := by norm_num [Day, Hour, maxDuration]
      omega
    rw [hsub hmax]
    exact wholeDays_exact_170 _ hx hlt
  · intro hmax
    rw [hsub hmax]
    have hk : ((t.ns - u.ns) / (Day : Int)) = (((t.ns - u.ns) / (Day : Int)).toNat : Int) :=
      (Int.toNat_of_nonneg (Int.ediv_nonneg hx (le_of_lt hDay))).symm
    rw [hk]
    apply wholeDays_ge _ _ hmax
    rw [← hk]
    exact Int.ediv_mul_le _ (ne_of_gt hDay)
  · intro k hk hmax
    rw [hsub hmax, hk]
    apply wholeDays_multiple
    rw [← hk]
    exact hmax

/-! ## Lifecycle guidance: claims C11, C12, C13 -/

/-- C11: for an expiration strictly after `now` and at most 30 days after it, with `n`
the whole days remaining, the guidance has `DaysExpired = 0`, no `AvailableDate`, and
the "Monitor closely" message naming `n` when `n ≤ 7`, the "Add to your watchlist"
message naming `n` when `8 ≤ n` (and `n ≤ 30` always); the domain plays no part. -/
theorem guidance_expiring_soon (tbl : CaseTables) (now : Time) (summary : Summary)
    (expiration : TimelineEvent) (hE : summary.Timeline.Expiration = some expiration)
    (hfut : now.ns < expiration.Date.ns)
    (hnear : expiration.Date.ns ≤ now.ns + 30 * (Day : Int)) :
    (expiration.Date.ns - now.ns) / (Day : Int) ≤ 30 ∧
    ((expiration.Date.ns - now.ns) / (Day : Int) ≤ 7 →
      GeneratePostExpirationGuidance tbl now summary =
        some { DaysExpired := 0, AvailableDate := none,
               GuidanceMessage := "Domain expires in " ++
                 fmtInt ((expiration.Date.ns - now.ns) / (Day : Int)) ++
                 " days. Monitor closely - it may become available if not renewed." }) ∧
    (8 ≤ (expiration.Date.ns - now.ns) / (Day : Int) →
      GeneratePostExpirationGuidance tbl now summary =
        some { DaysExpired := 0, AvailableDate := none,
               GuidanceMessage := "Domain expires in " ++
                 fmtInt ((expiration.Date.ns - now.ns) / (Day : Int)) ++
                 " days. Add to your watchlist if interested." }) := by
  have hDay : (0 : Int) < (Day : Int) := by norm_num [Day, Hour]
  have hn30 : (expiration.Date.ns - now.ns) / (Day : Int) ≤ 30 := by
    have h1 : expiration.Date.ns - now.ns ≤ 30 * (Day : Int) := by omega
    have h2 := Int.ediv_le_ediv hDay h1
    rwa [Int.mul_ediv_cancel _ (ne_of_gt hDay)] at h2
  obtain ⟨-, -, hex, -, -⟩ := sub_days expiration.Date now (le_of_lt hfut)
  have hw := hex (by omega)
  have h1 : expiration.Date.After (now.AddDate 30) = false := by
    unfold Time.After Time.AddDate
    simp only [decide_eq_false_iff_not, not_lt]
    exact hnear
  have h2 : expiration.Date.After now = true := by
    unfold Time.After
    simp only [decide_eq_true_eq]
    exact hfut
  refine ⟨hn30, ?_, ?_⟩
  · intro h7
    unfold GeneratePostExpirationGuidance
    simp only [hE, h1, h2, Bool.false_eq_true, if_false, if_true, hw]
    rw [if_pos h7]
    rfl
  · intro h8
    unfold GeneratePostExpirationGuidance
    simp only [hE, h1, h2, Bool.false_eq_true, if_false, if_true, hw]
    rw [if_neg (by omega)]
    rfl

/-- Witness of C11: "example.com" expiring 5 days after `now`. -/
theorem guidance_expiring_soon_witness :
    GeneratePostExpirationGuidance CaseTables.ascii ⟨100 * Day⟩
        (expiringSummary "example.com" ⟨105 * Day⟩) =
      some { DaysExpired := 0, AvailableDate := none,
             GuidanceMessage := "Domain expires in " ++
               fmtInt (((105 * Day : Int) - (100 * Day : Int)) / (Day : Int)) ++
               " days. Monitor closely - it may become available if not renewed." } ∧
    "Domain expires in " ++ fmtInt (((105 * Day : Int) - (100 * Day : Int)) / (Day : Int)) ++
        " days. Monitor closely - it may become available if not renewed." =
      "Domain expires in 5 days. Monitor closely - it may become available if not renewed." :=
  ⟨(guidance_expiring_soon CaseTables.ascii ⟨100 * Day⟩ (expiringSummary "example.com" ⟨105 * Day⟩)
    ⟨⟨105 * Day⟩, "test"⟩ rfl (by decide) (by decide)).2.1 (by decide), by decide!⟩

/-- C12: for an expiration at or before `now` and a lower-cased TLD other than `com`,
`net`, `org`, with `d` the whole days since the expiration: for `uk` and `co.uk` the
message is the 90-day grace message when `d ≤ 90` and the "available for public
registration" message when `d > 90`; for any other TLD it is the generic grace message
when `d ≤ 30` and the generic "likely available" message when `d > 30`. -/
theorem guidance_other_tld (tbl : CaseTables) (now : Time) (summary : Summary)
    (expiration : TimelineEvent) (hE : summary.Timeline.Expiration = some expiration)
    (hpast : expiration.Date.ns ≤ now.ns)
    (htld : ¬ (ToLower tbl (extractTLD summary.Domain) = "com" ∨
      ToLower tbl (extractTLD summary.Domain) = "net" ∨
      ToLower tbl (extractTLD summary.Domain) = "org")) :
    ∃ g, GeneratePostExpirationGuidance tbl now summary = some g ∧
      ((ToLower tbl (extractTLD summary.Domain) = "uk" ∨
          ToLower tbl (extractTLD summary.Domain) = "co.uk") →
        ((now.ns - expiration.Date.ns) / (Day : Int) ≤ 90 →
          g.GuidanceMessage = "Domain is in renewal grace period (.uk domains have 90-day grace period). Original owner can still renew.") ∧
        (90 < (now.ns - expiration.Date.ns) / (Day : Int) →
          g.GuidanceMessage = "Domain has passed the renewal grace period and should be available for public registration.")) ∧
      (¬ (ToLower tbl (extractTLD summary.Domain) = "uk" ∨
          ToLower tbl (extractTLD summary.Domain) = "co.uk") →
        ((now.ns - expiration.Date.ns) / (Day : Int) ≤ 30 →
          g.GuidanceMessage = "Domain may still be in renewal grace period. Original owner might still renew.") ∧
        (30 < (now.ns - expiration.Date.ns) / (Day : Int) →
          g.GuidanceMessage = "Domain is likely available for registration. Check with registrars or domain drop services.")) := by
  rw [guidance_expired tbl now summary expiration hE hpast]
  obtain ⟨-, -, hex, -, -⟩ := sub_days now expiration.Date hpast
  obtain ⟨-, hge⟩ := elapsed_days now expiration.Date hpast
  refine ⟨_, rfl, ?_, ?_⟩
  · intro huk
    constructor
    · intro hd
      have hw := hex (by omega)
      rw [if_neg htld, if_pos huk, if_pos (by omega)]
      rfl
    · intro hd
      have hw := hge 91 (by norm_num) (by omega)
      rw [if_neg htld, if_pos huk, if_neg (by omega)]
      rfl
  · intro huk
    constructor
    · intro hd
      have hw := hex (by omega)
      rw [if_neg htld, if_neg huk, if_pos (by omega)]
      rfl
    · intro hd
      have hw := hge 31 (by norm_num) (by omega)
      rw [if_neg htld, if_neg huk, if_neg (by omega)]
      rfl

/-- Witness of C12: "example.co.uk" expired 100 days before `now`. -/
theorem guidance_other_tld_witness :
    ∃ g, GeneratePostExpirationGuidance CaseTables.ascii ⟨100 * Day⟩
        (expiringSummary "example.co.uk" ⟨0⟩) = some g ∧
      ((ToLower CaseTables.ascii (extractTLD "example.co.uk") = "uk" ∨
          ToLower CaseTables.ascii (extractTLD "example.co.uk") = "co.uk") →
        (((100 * Day : Int) - 0) / (Day : Int) ≤ 90 →
          g.GuidanceMessage = "Domain is in renewal grace period (.uk domains have 90-day grace period). Original owner can still renew.") ∧
        (90 < ((100 * Day : Int) - 0) / (Day : Int) →
          g.GuidanceMessage = "Domain has passed the renewal grace period and should be available for public registration.")) ∧
      (¬ (ToLower CaseTables.ascii (extractTLD "example.co.uk") = "uk" ∨
          ToLower CaseTables.ascii (extractTLD "example.co.uk") = "co.uk") →
        (((100 * Day : Int) - 0) / (Day : Int) ≤ 30 →
          g.GuidanceMessage = "Domain may still be in renewal grace period. Original owner might still renew.") ∧
        (30 < ((100 * Day : Int) - 0) / (Day : Int) →
          g.GuidanceMessage = "Domain is likely available for registration. Check with registrars or domain drop services.")) :=
  guidance_other_tld CaseTables.ascii ⟨100 * Day⟩ (expiringSummary "example.co.uk" ⟨0⟩)
    ⟨⟨0⟩, "test"⟩ rfl (by decide) (by decide)

/-- C13 as amended: for an expiration at or before `now`, `DaysExpired` is the value
`int(elapsed.Hours() / 24)` of the `float64` computation.  It is never negative and
never more than one above the whole days `d` elapsed; when fewer than 170 days have
elapsed it is `d` (so it is 0 below 24 hours); within the range of a `Duration` it is
never below `d`, and for an elapsed time of exactly `k` times 24 hours it is `k`. -/
theorem guidance_days_expired (tbl : CaseTables) (now : Time) (summary : Summary)
    (expiration : TimelineEvent) (hE : summary.Timeline.Expiration = some expiration)
    (hpast : expiration.Date.ns ≤ now.ns) :
    ∃ g, GeneratePostExpirationGuidance tbl now summary = some g ∧
      g.DaysExpired = wholeDays (now.Sub expiration.Date) ∧
      0 ≤ g.DaysExpired ∧
      g.DaysExpired ≤ (now.ns - expiration.Date.ns) / (Day : Int) + 1 ∧
      ((now.ns - expiration.Date.ns) / (Day : Int) < 170 →
        g.DaysExpired = (now.ns - expiration.Date.ns) / (Day : Int)) ∧
      (now.ns - expiration.Date.ns < (Day : Int) → g.DaysExpired = 0) ∧
      (now.ns - expiration.Date.ns ≤ maxDuration →
        (now.ns - expiration.Date.ns) / (Day : Int) ≤ g.DaysExpired) ∧
      (∀ k : Nat, now.ns - expiration.Date.ns = (k : Int) * (Day : Int) →
        now.ns - expiration.Date.ns ≤ maxDuration → g.DaysExpired = k) := by
  have hDay : (0 : Int) < (Day : Int) := by norm_num [Day, Hour]
  rw [guidance_expired tbl now summary expiration hE hpast]
  obtain ⟨h0, h1, hex, hge, hk⟩ := sub_days now expiration.Date hpast
  have hD : ∀ g : ExpirationInfo, g.DaysExpired = wholeDays (now.Sub expiration.Date) →
      g.DaysExpired = wholeDays (now.Sub expiration.Date) ∧
      0 ≤ g.DaysExpired ∧
      g.DaysExpired ≤ (now.ns - expiration.Date.ns) / (Day : Int) + 1 ∧
      ((now.ns - expiration.Date.ns) / (Day : Int) < 170 →
        g.DaysExpired = (now.ns - expiration.Date.ns) / (Day : Int)) ∧
      (now.ns - expiration.Date.ns < (Day : Int) → g.DaysExpired = 0) ∧
      (now.ns - expiration.Date.ns ≤ maxDuration →
        (now.ns - expiration.Date.ns) / (Day : Int) ≤ g.DaysExpired) ∧
      (∀ k : Nat, now.ns - expiration.Date.ns = (k : Int) * (Day : Int) →
        now.ns - expiration.Date.ns ≤ maxDuration → g.DaysExpired = k) := by
    intro g hg
    rw [hg]
    refine ⟨rfl, h0, h1, hex, ?_, hge, hk⟩
    intro hlt
    have hz : (now.ns - expiration.Date.ns) / (Day : Int) = 0 :=
      Int.ediv_eq_zero_of_lt (by omega) hlt
    rw [hex (by omega), hz]
  refine ⟨_, rfl, hD _ ?_⟩
  split_ifs <;> rfl

/-- Witness of C13 as amended: "example.com" expired exactly 50 days before `now`. -/
theorem guidance_days_expired_witness :
    ∃ g, GeneratePostExpirationGuidance CaseTables.ascii ⟨100 * Day⟩
        (expiringSummary "example.com" ⟨50 * Day⟩) = some g ∧
      g.DaysExpired = wholeDays ((⟨100 * Day⟩ : Time).Sub ⟨50 * Day⟩) ∧
      0 ≤ g.DaysExpired ∧
      g.DaysExpired ≤ ((100 * Day : Int) - (50 * Day : Int)) / (Day : Int) + 1 ∧
      (((100 * Day : Int) - (50 * Day : Int)) / (Day : Int) < 170 →
        g.DaysExpired = ((100 * Day : Int) - (50 * Day : Int)) / (Day : Int)) ∧
      ((100 * Day : Int) - (50 * Day : Int) < (Day : Int) → g.DaysExpired = 0) ∧
      ((100 * Day : Int) - (50 * Day : Int) ≤ maxDuration →
        ((100 * Day : Int) - (50 * Day : Int)) / (Day : Int) ≤ g.DaysExpired) ∧
      (∀ k : Nat, (100 * Day : Int) - (50 * Day : Int) = (k : Int) * (Day : Int) →
        (100 * Day : Int) - (50 * Day : Int) ≤ maxDuration → g.DaysExpired = k) :=
  guidance_days_expired CaseTables.ascii ⟨100 * Day⟩ (expiringSummary "example.com" ⟨50 * Day⟩)
    ⟨⟨50 * Day⟩, "test"⟩ rfl (by decide)

/-- Counterexample to C13 as stated: one nanosecond short of 171 days after the
expiration 170 whole days have elapsed, and `DaysExpired` is 171. -/
theorem guidance_days_expired_counterexample :
    (GeneratePostExpirationGuidance CaseTables.ascii ⟨171 * Day⟩
        (expiringSummary "example.com" ⟨1⟩)).map (fun g => g.DaysExpired) = some 171 ∧
      ((171 * Day : Int) - 1) / (Day : Int) = 170 := by
  decide!

/-! ## TLD extraction and relative time: claims C14, C15 -/

theorem extractTLD_body (domain : String) (parts : List String) :
    (if parts.length ≥ 2 then
      if parts.length ≥ 3 ∧ len (parts.getD (parts.length - 2) "") ≤ 3 ∧
          len (parts.getD (parts.length - 1) "") ≤ 3 then
        Join (parts.drop (parts.length - 2)) "."
      else parts.getD (parts.length - 1) ""
    else domain) =
    (match parts.reverse with
    | [] => domain
    | [_] => domain
    | last :: second :: rest =>
      if rest ≠ [] ∧ len second ≤ 3 ∧ len last ≤ 3 then second ++ "." ++ last else last) := by
  rcases h : parts.reverse with _ | ⟨last, _ | ⟨second, rest⟩⟩
  · have hp : parts = [] := by simpa using h
    subst hp
    rfl
  · have hp : parts = [last] := by
      have := congrArg List.reverse h
      simpa using this
    subst hp
    rfl
  · have hp : parts = rest.reverse ++ [second, last] := by
      have := congrArg List.reverse h
      simpa using this
    subst hp
    have hlen : (rest.reverse ++ [second, last]).length = rest.length + 2 := by simp
    have h2 : (rest.reverse ++ [second, last]).getD (rest.length + 2 - 2) "" = second := by
      rw [List.getD_append_right _ _ _ _ (by simp)]
      simp
    have h1 : (rest.reverse ++ [second, last]).getD (rest.length + 2 - 1) "" = last := by
      rw [List.getD_append_right _ _ _ _ (by simp)]
      simp
    have hd : (rest.reverse ++ [second, last]).drop (rest.length + 2 - 2) = [second, last] := by
      simp
    have hr : (rest.length + 2 ≥ 3) ↔ rest ≠ [] := by
      cases rest <;> simp
    rw [hlen, h2, h1, hd]
    simp only [ge_iff_le, Nat.le_add_left, if_true, hr]
    rfl

/-- C14: `extractTLD` equals the reference `extractTLDSpec` on every string (one label:
the whole input; at least three labels with the last two each at most 3 bytes long:
those two joined by "."; otherwise the last label), and gives the six listed results. -/
theorem extractTLD_reference :
    (∀ domain : String, extractTLD domain = extractTLDSpec domain) ∧
    extractTLD "example.co.uk" = "co.uk" ∧ extractTLD "example.com" = "com" ∧
    extractTLD "a.b" = "b" ∧ extractTLD "a.b.c" = "b.c" ∧
    extractTLD "localhost" = "localhost" ∧
    extractTLD "very.long.subdomain.example.org" = "org" := by
  refine ⟨?_, by decide!, by decide!, by decide!, by decide!, by decide!, by decide!⟩
  intro domain
  exact extractTLD_body domain (Split domain '.')

theorem daysBetween_future (t u : Time) (h : u.ns ≤ t.ns) :
    daysBetween t u = (t.ns - u.ns) / (Day : Int) := by
  unfold daysBetween
  rw [Int.natAbs_of_nonneg (by omega)]

theorem daysBetween_past (t u : Time) (h : t.ns ≤ u.ns) :
    daysBetween t u = (u.ns - t.ns) / (Day : Int) := by
  unfold daysBetween
  rw [← Int.natAbs_neg, Int.natAbs_of_nonneg (by omega)]
  congr 1
  ring

theorem HumanReadableTime_count (now t : Time) :
    HumanReadableTime now t = humanReadableSpec (decide (now.ns < t.ns))
      (if now.ns < t.ns then wholeDays (t.Sub now) else wholeDays (now.Sub t)) := by
  unfold HumanReadableTime humanReadableSpec Time.After
  by_cases h : now.ns < t.ns
  · simp only [gt_iff_lt, h, decide_True, if_true]
    split_ifs <;> first | rfl | omega
  · simp only [gt_iff_lt, h, decide_False, if_false, Bool.false_eq_true]
    split_ifs <;> first | rfl | omega

/-- C15 as amended: `HumanReadableTime` equals the reference `humanReadableSpec` at the
day count `int(diff.Hours() / 24)` of the `float64` computation; that count is the whole
24-hour days in |t − now| when these are fewer than 170, and when |t − now| is exactly
`k` times 24 hours within the range of a `Duration`; so 400 days ahead gives
"in 1 years". -/
theorem HumanReadableTime_reference (now t : Time) :
    HumanReadableTime now t = humanReadableSpec (decide (now.ns < t.ns))
      (if now.ns < t.ns then wholeDays (t.Sub now) else wholeDays (now.Sub t)) ∧
    (daysBetween t now < 170 →
      HumanReadableTime now t =
        humanReadableSpec (decide (now.ns < t.ns)) (daysBetween t now)) ∧
    (∀ k : Nat, (t.ns - now.ns).natAbs = k * Day → (k : Int) * (Day : Int) ≤ maxDuration →
      HumanReadableTime now t = humanReadableSpec (decide (now.ns < t.ns)) k) ∧
    HumanReadableTime ⟨0⟩ ⟨400 * Day⟩ = "in 1 years" := by
  refine ⟨HumanReadableTime_count now t, ?_, ?_, by decide!⟩
  · intro h170
    rw [HumanReadableTime_count now t]
    by_cases h : now.ns < t.ns
    · obtain ⟨-, -, hex, -, -⟩ := sub_days t now (le_of_lt h)
      rw [daysBetween_future t now (le_of_lt h)] at h170 ⊢
      rw [if_pos h, hex h170]
    · obtain ⟨-, -, hex, -, -⟩ := sub_days now t (not_lt.1 h)
      rw [daysBetween_past t now (not_lt.1 h)] at h170 ⊢
      rw [if_neg h, hex h170]
  · intro k hk hmax
    rw [HumanReadableTime_count now t]
    by_cases h : now.ns < t.ns
    · obtain ⟨-, -, -, -, hmul⟩ := sub_days t now (le_of_lt h)
      have hd : t.ns - now.ns = (k : Int) * (Day : Int) := by
        have := congrArg (fun n : Nat => (n : Int)) hk
        simp only [Nat.cast_mul] at this
        rw [Int.natAbs_of_nonneg (by omega)] at this
        exact this
      rw [if_pos h, hmul k hd (by rw [hd]; exact hmax)]
    · obtain ⟨-, -, -, -, hmul⟩ := sub_days now t (not_lt.1 h)
      have hd : now.ns - t.ns = (k : Int) * (Day : Int) := by
        have := congrArg (fun n : Nat => (n : Int)) hk
        simp only [Nat.cast_mul] at this
        rw [← Int.natAbs_neg, Int.natAbs_of_nonneg (by omega)] at this
        rw [← this]
        ring
      rw [if_neg h, hmul k hd (by rw [hd]; exact hmax)]

/-- Counterexample to C15 as stated: for `t` one nanosecond less than 365 days before
`now`, 364 whole days lie between them and the reference gives "12 months ago", while
`HumanReadableTime` returns "1 years ago". -/
theorem HumanReadableTime_counterexample :
    HumanReadableTime ⟨365 * Day⟩ ⟨1⟩ = "1 years ago" ∧
      daysBetween ⟨1⟩ ⟨365 * Day⟩ = 364 ∧
      humanReadableSpec false (daysBetween ⟨1⟩ ⟨365 * Day⟩) = "12 months ago" := by
  decide!

/-! ## Query classifier: claims C16, C17, C18 -/

theorem Contains_char (s : String) (c : Char) :
    Contains s (String.singleton c) = true ↔ c ∈ s.data := by
  unfold Contains
  exact containsL_singleton c s.data

theorem splitL_length (sep : Char) (l : List Char) :
    (splitL sep l).length = l.count sep + 1 := by
  induction l with
  | nil => rfl
  | cons c cs ih =>
    unfold splitL
    by_cases h : c = sep
    · subst h
      simp [ih]
    · rw [if_neg h, List.count_cons_of_ne (fun e => h e.symm)]
      rcases hs : splitL sep cs with _ | ⟨p, ps⟩
      · rw [hs] at ih
        simp at ih
      · rw [hs] at ih
        simpa using ih

theorem Split_length (s : String) (sep : Char) : (Split s sep).length = Count s sep + 1 := by
  unfold Split Count
  rw [List.length_map, splitL_length]

theorem any_long_false (parts : List String) (h : ∀ part ∈ parts, len part ≤ 3) :
    parts.any (fun part => decide (len part > 3)) = false := by
  rw [List.any_eq_false]
  intro part hp
  have := h part hp
  simp only [decide_eq_true_eq]
  omega

theorem any_long_true (parts : List String) (h : ¬ ∀ part ∈ parts, len part ≤ 3) :
    parts.any (fun part => decide (len part > 3)) = true := by
  rw [List.any_eq_true]
  push_neg at h
  obtain ⟨part, hp, hl⟩ := h
  exact ⟨part, hp, by simpa using hl⟩

theorem DetectQueryType_dot (tbl : CaseTables) (query : String)
    (hdot : Contains query "." = true) :
    DetectQueryType tbl query =
      if Count query '.' = 3 ∧ ∀ part ∈ Split query '.', len part ≤ 3 then QueryTypeIP
      else QueryTypeDomain := by
  unfold DetectQueryType
  rw [if_pos hdot]
  by_cases h3 : Count query '.' = 3
  · rw [if_pos h3]
    by_cases hs : ∀ part ∈ Split query '.', len part ≤ 3
    · rw [if_pos (And.intro h3 hs)]
      dsimp only
      rw [any_long_false _ hs]
      rfl
    · rw [if_neg (fun h : Count query '.' = 3 ∧ ∀ part ∈ Split query '.', len part ≤ 3 =>
        hs h.2)]
      dsimp only
      rw [any_long_true _ hs]
      rfl
  · rw [if_neg h3, if_neg (fun h => h3 h.1)]

/-- C16: a string with exactly three dots whose dot-separated segments (there are four)
are each at most 3 bytes long is classified `ip`; empty segments count, as in "...". -/
theorem DetectQueryType_three_dots (tbl : CaseTables) (query : String)
    (h3 : Count query '.' = 3) (hseg : ∀ part ∈ Split query '.', len part ≤ 3) :
    (Split query '.').length = 4 ∧ DetectQueryType tbl query = QueryTypeIP := by
  have hdot : Contains query "." = true := by
    refine (Contains_char query '.').2 ?_
    have : 0 < query.data.count '.' := by
      unfold Count at h3
      omega
    exact List.count_pos_iff.1 this
  refine ⟨by rw [Split_length, h3], ?_⟩
  rw [DetectQueryType_dot tbl query hdot, if_pos ⟨h3, hseg⟩]

/-- Witness of C16: the string "..." of three dots and four empty segments. -/
theorem DetectQueryType_three_dots_witness :
    (Split "..." '.').length = 4 ∧ DetectQueryType CaseTables.ascii "..." = QueryTypeIP :=
  DetectQueryType_three_dots CaseTables.ascii "..." (by decide) (by decide)

/-- C17: a string with neither a dot nor a colon is classified `asn` exactly when it is
longer than 2 bytes and its upper-cased form starts with "AS", and `domain` otherwise;
"AS15169", "as13335", "AS1" are `asn` and "", "AS", "test", "localhost" are `domain`. -/
theorem DetectQueryType_plain (tbl : CaseTables) (query : String)
    (hdot : Contains query "." = false) (hcolon : Contains query ":" = false) :
    (DetectQueryType tbl query = QueryTypeASN ↔
      (len query > 2 ∧ HasPrefix (ToUpper tbl query) "AS" = true)) ∧
    (¬ (len query > 2 ∧ HasPrefix (ToUpper tbl query) "AS" = true) →
      DetectQueryType tbl query = QueryTypeDomain) ∧
    DetectQueryType tbl "AS15169" = QueryTypeASN ∧
    DetectQueryType tbl "as13335" = QueryTypeASN ∧
    DetectQueryType tbl "AS1" = QueryTypeASN ∧
    DetectQueryType tbl "" = QueryTypeDomain ∧
    DetectQueryType tbl "AS" = QueryTypeDomain ∧
    DetectQueryType tbl "test" = QueryTypeDomain ∧
    DetectQueryType tbl "localhost" = QueryTypeDomain := by
  have hmain : DetectQueryType tbl query =
      if len query > 2 ∧ HasPrefix (ToUpper tbl query) "AS" = true then QueryTypeASN
      else QueryTypeDomain := by
    unfold DetectQueryType
    rw [hdot, hcolon]
    by_cases hp : HasPrefix (ToUpper tbl query) "AS" = true
    · by_cases hl : len query > 2
      · simp [hp, hl]
      · simp [hp, hl]
    · simp [hp]
  refine ⟨?_, ?_, rfl, rfl, rfl, rfl, rfl, rfl, rfl⟩
  · rw [hmain]
    by_cases h : len query > 2 ∧ HasPrefix (ToUpper tbl query) "AS" = true
    · simp [h]
    · rw [if_neg h]
      simp [h]
  · intro h
    rw [hmain, if_neg h]

/-- Witness of C17: "AS15169" has no dot and no colon. -/
theorem DetectQueryType_plain_witness :
    (DetectQueryType CaseTables.ascii "AS15169" = QueryTypeASN ↔
      (len "AS15169" > 2 ∧ HasPrefix (ToUpper CaseTables.ascii "AS15169") "AS" = true)) ∧
    DetectQueryType CaseTables.ascii "AS15169" = QueryTypeASN :=
  ⟨(DetectQueryType_plain CaseTables.ascii "AS15169" (by decide) (by decide)).1, by decide⟩

/-- C18: a string containing a dot is never classified `asn`; it is `ip` exactly when it
has three dots and every dot-separated segment is at most 3 bytes long, and `domain`
otherwise, so "8.8.8.example", "192.168.1.reallylong" and "AS15169.net" are `domain`. -/
theorem DetectQueryType_dotted (tbl : CaseTables) (query : String)
    (hdot : Contains query "." = true) :
    DetectQueryType tbl query ≠ QueryTypeASN ∧
    (DetectQueryType tbl query = QueryTypeIP ↔
      (Count query '.' = 3 ∧ ∀ part ∈ Split query '.', len part ≤ 3)) ∧
    (¬ (Count query '.' = 3 ∧ ∀ part ∈ Split query '.', len part ≤ 3) →
      DetectQueryType tbl query = QueryTypeDomain) ∧
    DetectQueryType tbl "8.8.8.example" = QueryTypeDomain ∧
    DetectQueryType tbl "192.168.1.reallylong" = QueryTypeDomain ∧
    DetectQueryType tbl "AS15169.net" = QueryTypeDomain := by
  have hmain := DetectQueryType_dot tbl query hdot
  refine ⟨?_, ?_, ?_, rfl, rfl, rfl⟩
  · rw [hmain]
    split_ifs <;> simp
  · rw [hmain]
    by_cases h : Count query '.' = 3 ∧ ∀ part ∈ Split query '.', len part ≤ 3
    · simp [h]
    · rw [if_neg h]
      simp [h]
  · intro h
    rw [hmain, if_neg h]

/-- Witness of C18: "AS15169.net" contains a dot. -/
theorem DetectQueryType_dotted_witness :
    DetectQueryType CaseTables.ascii "AS15169.net" ≠ QueryTypeASN ∧
    DetectQueryType CaseTables.ascii "AS15169.net" = QueryTypeDomain :=
  ⟨(DetectQueryType_dotted CaseTables.ascii "AS15169.net" (by decide)).1, by decide⟩

/-! ## WHOIS text parser: claims C19, C20 -/

theorem splitNL_two (sep : Char) (l : List Char) (h : sep ∈ l) :
    splitNL sep 2 l =
      [l.takeWhile (fun c => c != sep), (l.dropWhile (fun c => c != sep)).drop 1] := by
  induction l with
  | nil => simp at h
  | cons c cs ih =>
    by_cases hc : c = sep
    · subst hc
      simp [splitNL]
    · have hm : sep ∈ cs := by
        rcases List.mem_cons.1 h with h1 | h1
        · exact absurd h1.symm hc
        · exact h1
      have hne : (c != sep) = true := by simpa using hc
      rw [splitNL, if_neg hc, ih hm, List.takeWhile_cons, List.dropWhile_cons]
      simp only [hne, if_true]

theorem SplitN_colon (line : String) (h : Contains line ":" = true) :
    SplitN line ':' 2 = [beforeColon line, afterColon line] := by
  have hm : ':' ∈ line.data := (Contains_char line ':').1 h
  unfold SplitN beforeColon afterColon
  rw [splitNL_two ':' line.data hm]
  rfl

theorem whoisLine_eq (tbl : CaseTables) (m : List (String × Value)) (rawLine : String) :
    whoisLine tbl m rawLine =
      if TrimSpace rawLine ≠ "" ∧ HasPrefix (TrimSpace rawLine) "%" = false ∧
          HasPrefix (TrimSpace rawLine) "#" = false ∧ Contains (TrimSpace rawLine) ":" = true ∧
          TrimSpace (afterColon (TrimSpace rawLine)) ≠ "" then
        mapSet m (ToLower tbl (ReplaceAll (TrimSpace (beforeColon (TrimSpace rawLine))) ' ' '_'))
          (Value.str (TrimSpace (afterColon (TrimSpace rawLine))))
      else m := by
  unfold whoisLine
  dsimp only
  by_cases h1 : TrimSpace rawLine = "" ∨ HasPrefix (TrimSpace rawLine) "%" = true ∨
      HasPrefix (TrimSpace rawLine) "#" = true
  · rw [if_pos h1, if_neg]
    rintro ⟨a, b, c, -⟩
    rcases h1 with h | h | h
    · exact a h
    · rw [b] at h
      exact Bool.false_ne_true h
    · rw [c] at h
      exact Bool.false_ne_true h
  · rw [if_neg h1]
    have ha : TrimSpace rawLine ≠ "" := fun h => h1 (Or.inl h)
    have hb : HasPrefix (TrimSpace rawLine) "%" = false := by
      cases hx : HasPrefix (TrimSpace rawLine) "%"
      · rfl
      · exact absurd (Or.inr (Or.inl hx)) h1
    have hc : HasPrefix (TrimSpace rawLine) "#" = false := by
      cases hx : HasPrefix (TrimSpace rawLine) "#"
      · rfl
      · exact absurd (Or.inr (Or.inr hx)) h1
    by_cases h2 : Contains (TrimSpace rawLine) ":" = true
    · rw [if_pos h2, SplitN_colon _ h2]
      simp only [List.length_cons, List.length_nil, if_true, List.getD_cons_zero,
        List.getD_cons_succ]
      by_cases h3 : TrimSpace (afterColon (TrimSpace rawLine)) = ""
      · rw [if_neg (not_not.2 h3), if_neg]
        rintro ⟨-, -, -, -, e⟩
        exact e h3
      · rw [if_pos h3, if_pos ⟨ha, hb, hc, h2, h3⟩]
    · rw [if_neg h2, if_neg]
      rintro ⟨-, -, -, d, -⟩
      exact h2 d

theorem mem_mapSet (m : List (String × Value)) (key : String) (value : Value)
    (k : String) (v : Value) (h : (k, v) ∈ mapSet m key value) :
    (k, v) ∈ m ∨ (k = key ∧ v = value) := by
  induction m with
  | nil =>
    simp only [mapSet, List.mem_singleton, Prod.mk.injEq] at h
    exact Or.inr h
  | cons e rest ih =>
    obtain ⟨k0, v0⟩ := e
    unfold mapSet at h
    by_cases hk : k0 = key
    · rw [if_pos hk] at h
      rcases List.mem_cons.1 h with h1 | h1
      · simp only [Prod.mk.injEq] at h1
        exact Or.inr ⟨h1.1.trans hk, h1.2⟩
      · exact Or.inl (List.mem_cons_of_mem _ h1)
    · rw [if_neg hk] at h
      rcases List.mem_cons.1 h with h1 | h1
      · exact Or.inl (h1 ▸ List.mem_cons_self _ _)
      · rcases ih h1 with h2 | h2
        · exact Or.inl (List.mem_cons_of_mem _ h2)
        · exact Or.inr h2

theorem whoisLine_entries (tbl : CaseTables) (lines : List String) :
    ∀ (m : List (String × Value)) (k : String) (v : Value),
      (k, v) ∈ lines.foldl (whoisLine tbl) m →
      (k, v) ∈ m ∨ ∃ rawLine ∈ lines, entryOfLine tbl rawLine k v := by
  induction lines with
  | nil =>
    intro m k v h
    exact Or.inl h
  | cons rawLine rest ih =>
    intro m k v h
    rw [List.foldl_cons] at h
    rcases ih _ k v h with h1 | ⟨r, hr, he⟩
    · rw [whoisLine_eq] at h1
      split_ifs at h1 with hc
      · rcases mem_mapSet _ _ _ _ _ h1 with h2 | ⟨hk, hv⟩
        · exact Or.inl h2
        · obtain ⟨a, b, c, d, e⟩ := hc
          exact Or.inr ⟨rawLine, List.mem_cons_self _ _, a, b, c, d, e, hv, hk⟩
      · exact Or.inl h1
    · exact Or.inr ⟨r, List.mem_cons_of_mem _ hr, he⟩

theorem parsedFields_parseWhoisData (tbl : CaseTables) (whoisData : String) :
    parsedFields (parseWhoisData tbl whoisData) = whoisSectionData tbl whoisData := by
  unfold parseWhoisData parsedFields
  dsimp only
  rcases h : whoisSectionData tbl whoisData with _ | ⟨e, rest⟩
  · rfl
  · rw [if_pos (by simp)]
    simp [mapSet, List.lookup]

theorem ToLower_ascii (tbl : CaseTables) (s : String) (h : ∀ c ∈ s.data, c.toNat ≤ 0x7F) :
    ToLower tbl s = ToLower CaseTables.ascii s := by
  unfold ToLower
  congr 1
  apply List.map_congr_left
  intro c hc
  unfold unicodeToLower
  rw [if_pos (h c hc), if_pos (h c hc)]

theorem whoisLine_ascii (tbl : CaseTables) (lines : List String)
    (h : ∀ rawLine ∈ lines,
      ∀ c ∈ (ReplaceAll (TrimSpace (beforeColon (TrimSpace rawLine))) ' ' '_').data,
        c.toNat ≤ 0x7F) :
    ∀ m : List (String × Value),
      lines.foldl (whoisLine tbl) m = lines.foldl (whoisLine CaseTables.ascii) m := by
  induction lines with
  | nil =>
    intro m
    rfl
  | cons rawLine rest ih =>
    intro m
    have h1 : whoisLine tbl m rawLine = whoisLine CaseTables.ascii m rawLine := by
      rw [whoisLine_eq, whoisLine_eq, ToLower_ascii tbl _ (h rawLine (List.mem_cons_self _ _))]
    rw [List.foldl_cons, List.foldl_cons, h1]
    exact ih (fun r hr => h r (List.mem_cons_of_mem _ hr)) _

theorem sample_sectionData (tbl : CaseTables) :
    parsedFields (parseWhoisData tbl sampleWhoisData) =
      whoisSectionData CaseTables.ascii sampleWhoisData := by
  rw [parsedFields_parseWhoisData]
  unfold whoisSectionData
  exact whoisLine_ascii tbl _ (by decide!) []

theorem parseWhoisData_raw (tbl : CaseTables) (whoisData : String) :
    stringOrEmpty ((parseWhoisData tbl whoisData).lookup "raw_response") = whoisData := by
  unfold parseWhoisData
  dsimp only
  rcases h : whoisSectionData tbl whoisData with _ | ⟨e, rest⟩
  · rfl
  · rw [if_pos (by simp)]
    simp [mapSet, List.lookup, stringOrEmpty]

/-- C19 as amended: `parseWhoisData` has no rule for a footer. On the sample of
`TestParseWhoisData` the two comment lines and the blank lines give no entry, but the
last line `>>> Last update of whois database: 2025-09-06T14:10:36Z <<<` contains a colon
and gives the entry `>>>_last_update_of_whois_database` with the value
`2025-09-06T14:10:36Z <<<`; the keys of the parsed mapping are those of the record's
lines and this one, and the raw text is kept under `raw_response`. -/
theorem parseWhoisData_sample_keys (tbl : CaseTables) :
    mapKeys (parsedFields (parseWhoisData tbl sampleWhoisData)) =
      ["domain_name", "registry_domain_id", "registrar_whois_server", "registrar_url",
        "updated_date", "creation_date", "registry_expiry_date", "registrar",
        "registrar_iana_id", "domain_status", "name_server", "dnssec",
        ">>>_last_update_of_whois_database"] ∧
    stringOrEmpty ((parsedFields (parseWhoisData tbl sampleWhoisData)).lookup
        ">>>_last_update_of_whois_database") = "2025-09-06T14:10:36Z <<<" ∧
    stringOrEmpty ((parseWhoisData tbl sampleWhoisData).lookup "raw_response") =
      sampleWhoisData := by
  rw [sample_sectionData tbl]
  exact ⟨by decide!, by decide!, parseWhoisData_raw tbl sampleWhoisData⟩

/-- Counterexample to C19 as stated: the parsed mapping of the sample of
`TestParseWhoisData` has the key `>>>_last_update_of_whois_database`, whose value comes
from the last line of the text. -/
theorem parseWhoisData_footer_counterexample :
    ">>>_last_update_of_whois_database" ∈
        mapKeys (parsedFields (parseWhoisData CaseTables.ascii sampleWhoisData)) ∧
      stringOrEmpty ((parsedFields (parseWhoisData CaseTables.ascii sampleWhoisData)).lookup
        ">>>_last_update_of_whois_database") = "2025-09-06T14:10:36Z <<<" := by
  decide!

/-- C20: every entry `(k, v)` of the parsed mapping of `parseWhoisData` comes from a line
of the text that, trimmed, is not blank, does not start with `%` or `#` and contains a
colon; `v` is the trimmed text after the first colon and is not empty, `k` is the trimmed
text before the first colon with every space replaced by an underscore, lower-cased
("Registry Expiry Date" becomes "registry_expiry_date"). A line without a colon or with
an empty value leaves the mapping as it is. -/
theorem parseWhoisData_entry (tbl : CaseTables) (whoisData : String) (k : String) (v : Value)
    (h : (k, v) ∈ parsedFields (parseWhoisData tbl whoisData)) :
    (∃ rawLine ∈ Split whoisData '\n',
      TrimSpace rawLine ≠ "" ∧ HasPrefix (TrimSpace rawLine) "%" = false ∧
      HasPrefix (TrimSpace rawLine) "#" = false ∧ Contains (TrimSpace rawLine) ":" = true ∧
      TrimSpace (afterColon (TrimSpace rawLine)) ≠ "" ∧
      v = Value.str (TrimSpace (afterColon (TrimSpace rawLine))) ∧
      k = ToLower tbl (ReplaceAll (TrimSpace (beforeColon (TrimSpace rawLine))) ' ' '_')) ∧
    (∀ (m : List (String × Value)) (rawLine : String),
      (Contains (TrimSpace rawLine) ":" = false ∨
        TrimSpace (afterColon (TrimSpace rawLine)) = "") →
      whoisLine tbl m rawLine = m) ∧
    ToLower tbl (ReplaceAll "Registry Expiry Date" ' ' '_') = "registry_expiry_date" := by
  refine ⟨?_, ?_, rfl⟩
  · rw [parsedFields_parseWhoisData] at h
    rcases whoisLine_entries tbl (Split whoisData '\n') [] k v h with h1 | ⟨r, hr, he⟩
    · simp at h1
    · exact ⟨r, hr, he⟩
  · intro m rawLine hno
    rw [whoisLine_eq, if_neg]
    rintro ⟨-, -, -, d, e⟩
    rcases hno with h1 | h1
    · rw [h1] at d
      exact Bool.false_ne_true d
    · exact e h1

/-- Witness of C20: the line "   Registrar URL: http://res-dom.iana.org", whose value
contains a colon. -/
theorem parseWhoisData_entry_witness :
    ∃ rawLine ∈ Split "   Registrar URL: http://res-dom.iana.org" '\n',
      entryOfLine CaseTables.ascii rawLine "registrar_url"
        (Value.str "http://res-dom.iana.org") :=
  (parseWhoisData_entry CaseTables.ascii "   Registrar URL: http://res-dom.iana.org"
    "registrar_url" (Value.str "http://res-dom.iana.org") (List.Mem.head _)).1

/-! ## WHOIS text parser: claims C21, C22, C23 -/

theorem whoisLine_lineEntry (tbl : CaseTables) (m : List (String × Value)) (rawLine : String) :
    whoisLine tbl m rawLine =
      match lineEntry tbl rawLine with
      | some e => mapSet m e.1 e.2
      | none => m := by
  rw [whoisLine_eq]
  unfold lineEntry
  dsimp only
  by_cases h1 : TrimSpace rawLine = "" ∨ HasPrefix (TrimSpace rawLine) "%" = true ∨
      HasPrefix (TrimSpace rawLine) "#" = true
  · rw [if_pos h1, if_neg]
    rintro ⟨a, b, c, -⟩
    rcases h1 with h | h | h
    · exact a h
    · rw [b] at h
      exact Bool.false_ne_true h
    · rw [c] at h
      exact Bool.false_ne_true h
  · rw [if_neg h1]
    have ha : TrimSpace rawLine ≠ "" := fun h => h1 (Or.inl h)
    have hb : HasPrefix (TrimSpace rawLine) "%" = false := by
      cases hx : HasPrefix (TrimSpace rawLine) "%"
      · rfl
      · exact absurd (Or.inr (Or.inl hx)) h1
    have hc : HasPrefix (TrimSpace rawLine) "#" = false := by
      cases hx : HasPrefix (TrimSpace rawLine) "#"
      · rfl
      · exact absurd (Or.inr (Or.inr hx)) h1
    by_cases h2 : Contains (TrimSpace rawLine) ":" = true
    · rw [if_pos h2]
      by_cases h3 : TrimSpace (afterColon (TrimSpace rawLine)) = ""
      · rw [if_pos h3, if_neg]
        rintro ⟨-, -, -, -, e⟩
        exact e h3
      · rw [if_neg h3, if_pos ⟨ha, hb, hc, h2, h3⟩]
    · rw [if_neg h2, if_neg]
      rintro ⟨-, -, -, d, -⟩
      exact h2 d

theorem lookup_cons_eq (k k0 : String) (v : Value) (rest : List (String × Value)) :
    ((k0, v) :: rest).lookup k = if k = k0 then some v else rest.lookup k := by
  rw [List.lookup_cons]
  by_cases h : k = k0
  · have hb : (k == k0) = true := by simpa using h
    rw [hb, if_pos h]
  · have hb : (k == k0) = false := by simpa using h
    rw [hb, if_neg h]

theorem lookup_mapSet (m : List (String × Value)) (key : String) (value : Value) (k : String) :
    (mapSet m key value).lookup k = if k = key then some value else m.lookup k := by
  induction m with
  | nil =>
    unfold mapSet
    rw [lookup_cons_eq]
  | cons e rest ih =>
    obtain ⟨k0, v0⟩ := e
    unfold mapSet
    by_cases hk : k0 = key
    · rw [if_pos hk, lookup_cons_eq, lookup_cons_eq, hk]
      by_cases h : k = key
      · rw [if_pos h, if_pos h]
      · rw [if_neg h, if_neg h, if_neg h]
    · rw [if_neg hk, lookup_cons_eq, lookup_cons_eq, ih]
      by_cases h2 : k = k0
      · have h : ¬ k = key := fun e => hk (h2.symm.trans e)
        rw [if_pos h2, if_pos h2, if_neg h]
      · rw [if_neg h2, if_neg h2]

theorem lookup_snoc (l : List (String × Value)) (e : String × Value) (k : String) :
    (l ++ [e]).lookup k =
      match l.lookup k with
      | some v => some v
      | none => if k = e.1 then some e.2 else none := by
  induction l with
  | nil =>
    obtain ⟨k0, v0⟩ := e
    rw [List.nil_append, lookup_cons_eq]
    rfl
  | cons x xs ih =>
    obtain ⟨k1, v1⟩ := x
    rw [List.cons_append, lookup_cons_eq, lookup_cons_eq, ih]
    by_cases h : k = k1
    · rw [if_pos h, if_pos h]
    · rw [if_neg h, if_neg h]

theorem foldl_whoisLine_lookup (tbl : CaseTables) (k : String) (lines : List String) :
    ∀ m : List (String × Value),
      (lines.foldl (whoisLine tbl) m).lookup k =
        match ((lines.filterMap (lineEntry tbl)).reverse).lookup k with
        | some v => some v
        | none => m.lookup k := by
  induction lines with
  | nil =>
    intro m
    rfl
  | cons rawLine rest ih =>
    intro m
    rw [List.foldl_cons, ih, whoisLine_lineEntry]
    cases he : lineEntry tbl rawLine with
    | none => simp [List.filterMap_cons, he]
    | some e =>
      simp only [List.filterMap_cons, he, List.reverse_cons, lookup_snoc, lookup_mapSet]
      cases (List.filterMap (lineEntry tbl) rest).reverse.lookup k with
      | none =>
        dsimp only
        by_cases h : k = e.1
        · rw [if_pos h, if_pos h]
        · rw [if_neg h, if_neg h]
      | some v => rfl

theorem mem_mapKeys_mapSet (m : List (String × Value)) (key : String) (value : Value)
    (x : String) : x ∈ mapKeys (mapSet m key value) ↔ x ∈ mapKeys m ∨ x = key := by
  induction m with
  | nil => simp [mapSet, mapKeys]
  | cons e rest ih =>
    obtain ⟨k0, v0⟩ := e
    unfold mapSet
    by_cases hk : k0 = key
    · rw [if_pos hk]
      simp only [mapKeys, List.map_cons, List.mem_cons]
      constructor
      · intro h
        exact Or.inl h
      · rintro (h | h)
        · exact h
        · exact Or.inl (h.trans hk.symm)
    · rw [if_neg hk]
      simp only [mapKeys, List.map_cons, List.mem_cons] at ih ⊢
      rw [ih]
      tauto

theorem nodup_mapSet (m : List (String × Value)) (key : String) (value : Value)
    (h : (mapKeys m).Nodup) : (mapKeys (mapSet m key value)).Nodup := by
  induction m with
  | nil => simp [mapSet, mapKeys]
  | cons e rest ih =>
    obtain ⟨k0, v0⟩ := e
    unfold mapSet
    by_cases hk : k0 = key
    · rw [if_pos hk]
      exact h
    · rw [if_neg hk]
      have h2 : k0 ∉ mapKeys rest ∧ (mapKeys rest).Nodup := by
        simpa [mapKeys] using h
      have h3 : k0 ∉ mapKeys (mapSet rest key value) := by
        rw [mem_mapKeys_mapSet]
        rintro (h4 | h4)
        · exact h2.1 h4
        · exact hk h4
      have h5 := ih h2.2
      show (k0 :: mapKeys (mapSet rest key value)).Nodup
      exact List.nodup_cons.2 ⟨h3, h5⟩

theorem nodup_whoisSectionData (tbl : CaseTables) (whoisData : String) :
    (mapKeys (whoisSectionData tbl whoisData)).Nodup := by
  unfold whoisSectionData
  have h : ∀ (lines : List String) (m : List (String × Value)), (mapKeys m).Nodup →
      (mapKeys (lines.foldl (whoisLine tbl) m)).Nodup := by
    intro lines
    induction lines with
    | nil =>
      intro m hm
      exact hm
    | cons rawLine rest ih =>
      intro m hm
      rw [List.foldl_cons]
      apply ih
      rw [whoisLine_lineEntry]
      cases lineEntry tbl rawLine with
      | none => exact hm
      | some e => exact nodup_mapSet m e.1 e.2 hm
  exact h _ [] List.nodup_nil

theorem mapSet_ne_nil (m : List (String × Value)) (key : String) (value : Value) :
    mapSet m key value ≠ [] := by
  cases m with
  | nil => simp [mapSet]
  | cons e rest =>
    obtain ⟨k0, v0⟩ := e
    unfold mapSet
    split_ifs <;> simp

theorem foldl_whoisLine_nil (tbl : CaseTables) (lines : List String) :
    ∀ m : List (String × Value),
      lines.foldl (whoisLine tbl) m = [] ↔
        m = [] ∧ ∀ rawLine ∈ lines, lineEntry tbl rawLine = none := by
  induction lines with
  | nil =>
    intro m
    simp
  | cons rawLine rest ih =>
    intro m
    rw [List.foldl_cons, ih, whoisLine_lineEntry]
    cases he : lineEntry tbl rawLine with
    | none => simp [he]
    | some e =>
      have := mapSet_ne_nil m e.1 e.2
      simp [he, this]

/-- C21: for every text and key, the parsed mapping of `parseWhoisData` holds for the key
the value of the last accepted line, in input order, that normalizes to the key (and
nothing when there is none), and it holds every key once; on the sample of
`TestParseWhoisData`, `name_server` is "B.IANA-SERVERS.NET" and `domain_status` the value
of the `clientUpdateProhibited` line. -/
theorem parseWhoisData_last_wins (tbl : CaseTables) (whoisData : String) :
    (∀ k : String, (parsedFields (parseWhoisData tbl whoisData)).lookup k =
      ((acceptedEntries tbl whoisData).reverse).lookup k) ∧
    (mapKeys (parsedFields (parseWhoisData tbl whoisData))).Nodup ∧
    stringOrEmpty ((parsedFields (parseWhoisData tbl sampleWhoisData)).lookup "name_server") =
      "B.IANA-SERVERS.NET" ∧
    stringOrEmpty ((parsedFields (parseWhoisData tbl sampleWhoisData)).lookup
        "domain_status") =
      "clientUpdateProhibited https://icann.org/epp#clientUpdateProhibited" := by
  refine ⟨?_, ?_, ?_, ?_⟩
  · intro k
    rw [parsedFields_parseWhoisData]
    unfold whoisSectionData acceptedEntries
    rw [foldl_whoisLine_lookup]
    cases ((List.filterMap (lineEntry tbl) (Split whoisData '\n')).reverse).lookup k with
    | none => rfl
    | some v => rfl
  · rw [parsedFields_parseWhoisData]
    exact nodup_whoisSectionData tbl whoisData
  · rw [sample_sectionData tbl]
    decide!
  · rw [sample_sectionData tbl]
    decide!

/-- C23: for every text the result of `parseWhoisData` has the text itself under
`raw_response` and no key other than `parsed_fields` and `raw_response`; `parsed_fields`
is present exactly when some line gives an entry, and then it is the parsed mapping.
The empty text and a text without a `key: value` line give `raw_response` alone. -/
theorem parseWhoisData_shape (tbl : CaseTables) (whoisData : String) :
    (parseWhoisData tbl whoisData).lookup "raw_response" = some (Value.str whoisData) ∧
    (((parseWhoisData tbl whoisData).lookup "parsed_fields").isSome = true ↔
      ∃ rawLine ∈ Split whoisData '\n', (lineEntry tbl rawLine).isSome = true) ∧
    (∀ fields, (parseWhoisData tbl whoisData).lookup "parsed_fields" = some fields →
      fields = Value.obj (whoisSectionData tbl whoisData)) ∧
    (∀ k ∈ mapKeys (parseWhoisData tbl whoisData), k = "parsed_fields" ∨ k = "raw_response") ∧
    parseWhoisData tbl "" = [("raw_response", Value.str "")] ∧
    parseWhoisData tbl "No match for domain\n\n" =
      [("raw_response", Value.str "No match for domain\n\n")] := by
  have hnil := foldl_whoisLine_nil tbl (Split whoisData '\n') []
  refine ⟨?_, ?_, ?_, ?_, rfl, rfl⟩
  · unfold parseWhoisData
    dsimp only
    rcases h : whoisSectionData tbl whoisData with _ | ⟨e, rest⟩
    · rfl
    · rw [if_pos (by simp)]
      simp [mapSet, lookup_cons_eq]
  · unfold parseWhoisData
    dsimp only
    rcases h : whoisSectionData tbl whoisData with _ | ⟨e, rest⟩
    · unfold whoisSectionData at h
      have h2 := (hnil.1 h).2
      simp only [List.length_nil, gt_iff_lt, lt_self_iff_false, if_false, mapSet,
        lookup_cons_eq]
      constructor
      · intro h3
        simp at h3
      · rintro ⟨r, hr, hs⟩
        rw [h2 r hr] at hs
        simp at hs
    · rw [if_pos (by simp)]
      constructor
      · intro _
        by_contra hno
        push_neg at hno
        have h3 : List.foldl (whoisLine tbl) [] (Split whoisData '\n') = [] := by
          refine hnil.2 ⟨rfl, ?_⟩
          intro r hr
          have := hno r hr
          cases hl : lineEntry tbl r with
          | none => rfl
          | some x =>
            rw [hl] at this
            simp at this
        unfold whoisSectionData at h
        rw [h3] at h
        simp at h
      · intro _
        simp [mapSet, lookup_cons_eq]
  · intro fields hf
    unfold parseWhoisData at hf
    dsimp only at hf
    rcases h : whoisSectionData tbl whoisData with _ | ⟨e, rest⟩
    · rw [h] at hf
      simp [mapSet, lookup_cons_eq] at hf
    · rw [h, if_pos (by simp)] at hf
      simp [mapSet, lookup_cons_eq] at hf
      exact hf.symm
  · intro k hk
    unfold parseWhoisData at hk
    dsimp only at hk
    rcases h : whoisSectionData tbl whoisData with _ | ⟨e, rest⟩
    · rw [h] at hk
      simp [mapSet, mapKeys] at hk
      exact Or.inr hk
    · rw [h, if_pos (by simp)] at hk
      simp [mapSet, mapKeys] at hk
      exact hk

theorem dropWhile_head_false (p : Char → Bool) (l : List Char) (c : Char) (t : List Char)
    (h : l.dropWhile p = c :: t) : p c = false := by
  induction l with
  | nil => simp at h
  | cons x xs ih =>
    rw [List.dropWhile_cons] at h
    by_cases hx : p x = true
    · rw [if_pos hx] at h
      exact ih h
    · rw [if_neg hx] at h
      have hxc : x = c := (List.cons.inj h).1
      rw [← hxc]
      simpa using hx

theorem rtrim_head (p : Char → Bool) (c : Char) (t : List Char) (hc : p c = false) :
    ∃ t2, ((c :: t).reverse.dropWhile p).reverse = c :: t2 := by
  have hpre : List.rdropWhile p (c :: t) <+: (c :: t) := List.rdropWhile_prefix p (c :: t)
  have hne : List.rdropWhile p (c :: t) ≠ [] := by
    intro h
    have h2 := (List.rdropWhile_eq_nil_iff).1 h c (List.mem_cons_self _ _)
    rw [hc] at h2
    exact Bool.false_ne_true h2
  obtain ⟨s, hs⟩ := hpre
  have hr : List.rdropWhile p (c :: t) = ((c :: t).reverse.dropWhile p).reverse := rfl
  rw [← hr]
  rcases hl : List.rdropWhile p (c :: t) with _ | ⟨a, r⟩
  · exact absurd hl hne
  · rw [hl] at hs
    have ha : a = c := (List.cons.inj hs).1
    exact ⟨r, by rw [ha]⟩

theorem TrimSpace_head (s : String) (c : Char) (t : List Char)
    (h : (TrimSpace s).data = c :: t) : unicodeIsSpace c = false := by
  have hpre : List.rdropWhile unicodeIsSpace (s.data.dropWhile unicodeIsSpace) <+:
      s.data.dropWhile unicodeIsSpace := List.rdropWhile_prefix _ _
  have hr : (TrimSpace s).data =
      List.rdropWhile unicodeIsSpace (s.data.dropWhile unicodeIsSpace) := rfl
  rw [hr] at h
  rw [h] at hpre
  obtain ⟨u, hu⟩ := hpre
  exact dropWhile_head_false unicodeIsSpace s.data c (t ++ u) hu.symm

theorem unicodeToLower_ne (tbl : CaseTables) (x b : Char) (hb : b.toNat < 65)
    (htbl : ∀ r : Char, 0x7F < r.toNat → tbl.lower r ≠ b) (hx : x ≠ b) :
    unicodeToLower tbl x ≠ b := by
  unfold unicodeToLower
  by_cases h1 : x.toNat ≤ 0x7F
  · rw [if_pos h1]
    by_cases h2 : 'A'.toNat ≤ x.toNat ∧ x.toNat ≤ 'Z'.toNat
    · rw [if_pos h2]
      intro e
      obtain ⟨ha, hz⟩ := h2
      have ha2 : 65 ≤ x.toNat := ha
      have hz2 : x.toNat ≤ 90 := hz
      have h3 : (Char.ofNat (x.toNat + 32)).toNat = x.toNat + 32 := by
        generalize x.toNat = n at ha2 hz2
        interval_cases n <;> rfl
      rw [e] at h3
      omega
    · rw [if_neg h2]
      exact hx
  · rw [if_neg h1]
    exact htbl x (by omega)

theorem HasPrefix_char_cons (c b : Char) (t : List Char) :
    HasPrefix ⟨c :: t⟩ (String.singleton b) = (b == c) := by
  unfold HasPrefix
  show List.isPrefixOf [b] (c :: t) = (b == c)
  simp [List.isPrefixOf]

theorem HasPrefix_char_nil (b : Char) : HasPrefix ⟨[]⟩ (String.singleton b) = false := rfl

theorem key_head (tbl : CaseTables) (b : Char) (hb : b.toNat < 65) (hb2 : b ≠ '_')
    (htbl : ∀ r : Char, 0x7F < r.toNat → tbl.lower r ≠ b) (line : String)
    (hsp : ∀ c t, line.data = c :: t → unicodeIsSpace c = false)
    (hpre : HasPrefix line (String.singleton b) = false) :
    HasPrefix (ToLower tbl (ReplaceAll (TrimSpace (beforeColon line)) ' ' '_'))
      (String.singleton b) = false := by
  obtain ⟨d⟩ := line
  cases d with
  | nil => rfl
  | cons c t =>
    have hc : unicodeIsSpace c = false := hsp c t rfl
    have hcb : b ≠ c := by
      rw [HasPrefix_char_cons] at hpre
      simpa using hpre
    by_cases hcol : c = ':'
    · subst hcol
      rfl
    · have hne : (c != ':') = true := by simpa using hcol
      have hbefore : (beforeColon ⟨c :: t⟩).data = c :: t.takeWhile (fun c => c != ':') := by
        show List.takeWhile (fun c => c != ':') (c :: t) = _
        rw [List.takeWhile_cons, hne]
        rfl
      have hdrop : (beforeColon ⟨c :: t⟩).data.dropWhile unicodeIsSpace =
          c :: t.takeWhile (fun c => c != ':') := by
        rw [hbefore, List.dropWhile_cons, hc]
        rfl
      obtain ⟨t2, ht2⟩ := rtrim_head unicodeIsSpace c (t.takeWhile (fun c => c != ':')) hc
      have htrim : (TrimSpace (beforeColon ⟨c :: t⟩)).data = c :: t2 := by
        show (((beforeColon ⟨c :: t⟩).data.dropWhile unicodeIsSpace).reverse.dropWhile
          unicodeIsSpace).reverse = c :: t2
        rw [hdrop, ht2]
      have hkey : ToLower tbl (ReplaceAll (TrimSpace (beforeColon ⟨c :: t⟩)) ' ' '_') =
          ⟨unicodeToLower tbl (if c = ' ' then '_' else c) ::
            (t2.map (fun c => if c = ' ' then '_' else c)).map (unicodeToLower tbl)⟩ := by
        unfold ToLower ReplaceAll
        rw [htrim]
        rfl
      rw [hkey, HasPrefix_char_cons]
      have hx : (if c = ' ' then '_' else c) ≠ b := by
        split_ifs
        · exact fun e => hb2 e.symm
        · exact fun e => hcb e.symm
      have := unicodeToLower_ne tbl _ b hb htbl hx
      simpa using fun e => this e.symm

/-- C22: a line whose trimmed form starts with `%` or `#` leaves the parsed mapping of
`parseWhoisData` as it is, with or without a colon, and no key of the parsed mapping
starts with `%` or `#`.  The case tables are assumed to map no rune above U+007F to `%`
or `#`, as the Unicode tables do. -/
theorem parseWhoisData_no_comment (tbl : CaseTables)
    (htbl : ∀ r : Char, 0x7F < r.toNat → tbl.lower r ≠ '%' ∧ tbl.lower r ≠ '#')
    (whoisData : String) :
    (∀ (m : List (String × Value)) (rawLine : String),
      (HasPrefix (TrimSpace rawLine) "%" = true ∨ HasPrefix (TrimSpace rawLine) "#" = true) →
      whoisLine tbl m rawLine = m) ∧
    (∀ k ∈ mapKeys (parsedFields (parseWhoisData tbl whoisData)),
      HasPrefix k "%" = false ∧ HasPrefix k "#" = false) := by
  constructor
  · intro m rawLine h
    rw [whoisLine_eq, if_neg]
    rintro ⟨-, b, c, -⟩
    rcases h with h | h
    · rw [b] at h
      exact Bool.false_ne_true h
    · rw [c] at h
      exact Bool.false_ne_true h
  · intro k hk
    rw [parsedFields_parseWhoisData] at hk
    obtain ⟨⟨k2, v⟩, hmem, hk2⟩ := List.mem_map.1 hk
    have hk3 : k2 = k := hk2
    subst hk3
    rcases whoisLine_entries tbl (Split whoisData '\n') [] k2 v hmem with h1 | ⟨r, -, he⟩
    · simp at h1
    · obtain ⟨-, hp, hh, -, -, -, hkey⟩ := he
      rw [hkey]
      exact ⟨key_head tbl '%' (by decide) (by decide) (fun r h => (htbl r h).1) _
          (TrimSpace_head r) hp,
        key_head tbl '#' (by decide) (by decide) (fun r h => (htbl r h).2) _
          (TrimSpace_head r) hh⟩

/-- Witness of C22: a text with two comment lines that contain a colon. -/
theorem parseWhoisData_no_comment_witness :
    (∀ (m : List (String × Value)) (rawLine : String),
      (HasPrefix (TrimSpace rawLine) "%" = true ∨ HasPrefix (TrimSpace rawLine) "#" = true) →
      whoisLine CaseTables.ascii m rawLine = m) ∧
    (∀ k ∈ mapKeys (parsedFields (parseWhoisData CaseTables.ascii
        "% note: x\nDomain Name: EXAMPLE.COM\n  # other: y")),
      HasPrefix k "%" = false ∧ HasPrefix k "#" = false) :=
  parseWhoisData_no_comment CaseTables.ascii
    (fun r h => ⟨fun e => absurd ((show r = '%' from e) ▸ h) (by decide),
      fun e => absurd ((show r = '#' from e) ▸ h) (by decide)⟩)
    "% note: x\nDomain Name: EXAMPLE.COM\n  # other: y"

/-! ## Fields of the RDAP summary: lemmas for claims C24 to C27 -/

theorem rdapPropStep_only (s : Summary) (x : Value) :
    rdapPropStep s x = { s with Registrar := (rdapPropStep s x).Registrar } := by
  unfold rdapPropStep; repeat' (first | rfl | split)

theorem foldl_only_Registrar {α : Type} (f : Summary → α → Summary)
    (h : ∀ s x, f s x = { s with Registrar := (f s x).Registrar }) (l : List α) :
    ∀ s : Summary, l.foldl f s = { s with Registrar := (l.foldl f s).Registrar } := by
  induction l with
  | nil =>
    intro s
    rfl
  | cons x xs ih =>
    intro s
    rw [List.foldl_cons]
    calc xs.foldl f (f s x)
        = { f s x with Registrar := (xs.foldl f (f s x)).Registrar } := ih _
      _ = { s with Registrar := (xs.foldl f (f s x)).Registrar } := by
        have h2 := h s x
        generalize xs.foldl f (f s x) = r
        rw [h2]

theorem rdapRegistrar_only (s : Summary) (e : List (String × Value)) :
    rdapRegistrar s e = { s with Registrar := (rdapRegistrar s e).Registrar } := by
  unfold rdapRegistrar
  have h := foldl_only_Registrar rdapPropStep rdapPropStep_only
  dsimp only
  repeat' (first | rfl | split)
  all_goals rw [h]

theorem rdapEntityStep_only (s : Summary) (x : Value) :
    rdapEntityStep s x = { s with Registrar := (rdapEntityStep s x).Registrar } := by
  cases x with
  | obj o =>
    rw [rdapEntityStep_eq]
    split
    · exact rdapRegistrar_only s o
    · rfl
  | null => rfl
  | bool b => rfl
  | number t => rfl
  | arr a => rfl
  | str t => rfl

theorem rdapStatusStep_Nameservers (s : Summary) (x : Value) :
    (rdapStatusStep s x).Nameservers = s.Nameservers := by
  unfold rdapStatusStep; repeat' (first | rfl | split)

theorem rdapStatusStep_Timeline (s : Summary) (x : Value) :
    (rdapStatusStep s x).Timeline = s.Timeline := by
  unfold rdapStatusStep; repeat' (first | rfl | split)

theorem rdapStatusStep_StatusDetails (s : Summary) (x : Value) :
    (rdapStatusStep s x).StatusDetails = s.StatusDetails ++ stringElems [x] := by
  unfold rdapStatusStep stringElems
  cases x <;> simp

theorem rdapNameserverStep_StatusDetails (s : Summary) (x : Value) :
    (rdapNameserverStep s x).StatusDetails = s.StatusDetails := by
  unfold rdapNameserverStep; repeat' (first | rfl | split)

theorem rdapNameserverStep_Timeline (s : Summary) (x : Value) :
    (rdapNameserverStep s x).Timeline = s.Timeline := by
  unfold rdapNameserverStep; repeat' (first | rfl | split)

theorem rdapNameserverStep_Nameservers (s : Summary) (x : Value) :
    (rdapNameserverStep s x).Nameservers = s.Nameservers ++ (ldhName x).toList := by
  unfold rdapNameserverStep ldhName
  repeat' split
  all_goals simp_all

theorem rdapEventStep_StatusDetails (rt : Runtime) (s : Summary) (x : Value) :
    (rdapEventStep rt s x).StatusDetails = s.StatusDetails := by
  unfold rdapEventStep; repeat' (first | rfl | split | dsimp only)

theorem rdapEventStep_Nameservers (rt : Runtime) (s : Summary) (x : Value) :
    (rdapEventStep rt s x).Nameservers = s.Nameservers := by
  unfold rdapEventStep; repeat' (first | rfl | split | dsimp only)

theorem rdapEntityStep_StatusDetails (s : Summary) (x : Value) :
    (rdapEntityStep s x).StatusDetails = s.StatusDetails := by
  rw [rdapEntityStep_only]

theorem rdapEntityStep_Nameservers (s : Summary) (x : Value) :
    (rdapEntityStep s x).Nameservers = s.Nameservers := by
  rw [rdapEntityStep_only]

theorem rdapEntityStep_Timeline (s : Summary) (x : Value) :
    (rdapEntityStep s x).Timeline = s.Timeline := by
  rw [rdapEntityStep_only]

theorem foldl_appends {α : Type} (f : Summary → α → Summary) (p : Summary → List String)
    (g : α → List String) (h : ∀ s x, p (f s x) = p s ++ g x) (l : List α) :
    ∀ s : Summary, p (l.foldl f s) = p s ++ (l.map g).flatten := by
  induction l with
  | nil =>
    intro s
    simp
  | cons x xs ih =>
    intro s
    rw [List.foldl_cons, ih, h]
    simp

theorem foldl_anySome {α : Type} (f : Summary → α → Summary)
    (p : Summary → Option TimelineEvent) (g : α → Bool)
    (h : ∀ s x, (p (f s x)).isSome = (g x || (p s).isSome)) (l : List α) :
    ∀ s : Summary, (p (l.foldl f s)).isSome = (l.any g || (p s).isSome) := by
  induction l with
  | nil =>
    intro s
    simp
  | cons x xs ih =>
    intro s
    rw [List.foldl_cons, ih, h, List.any_cons]
    cases g x <;> cases xs.any g <;> simp

theorem stringElems_flatten (l : List Value) :
    (l.map (fun x => stringElems [x])).flatten = stringElems l := by
  induction l with
  | nil => rfl
  | cons x xs ih =>
    rw [List.map_cons, List.flatten_cons, ih]
    unfold stringElems
    cases x <;> simp

theorem ldhName_flatten (l : List Value) :
    (l.map (fun x => (ldhName x).toList)).flatten = l.filterMap ldhName := by
  induction l with
  | nil => rfl
  | cons x xs ih =>
    rw [List.map_cons, List.flatten_cons, ih, List.filterMap_cons]
    cases ldhName x <;> simp

theorem parseRDAPSummary_StatusDetails (rt : Runtime) (result : QueryResult)
    (summary : Summary) :
    (parseRDAPSummary rt result summary).StatusDetails =
      match result.Data with
      | Value.obj domainData =>
        match domainData.lookup "Status" with
        | some (Value.arr statusArray) => summary.StatusDetails ++ stringElems statusArray
        | _ => summary.StatusDetails
      | _ => summary.StatusDetails := by
  unfold parseRDAPSummary
  have hN := foldl_keeps rdapNameserverStep (fun s => s.StatusDetails)
    rdapNameserverStep_StatusDetails
  have hE := foldl_keeps (rdapEventStep rt) (fun s => s.StatusDetails)
    (rdapEventStep_StatusDetails rt)
  have hR := foldl_keeps rdapEntityStep (fun s => s.StatusDetails) rdapEntityStep_StatusDetails
  have hA : ∀ (l : List Value) (s : Summary),
      (l.foldl rdapStatusStep s).StatusDetails = s.StatusDetails ++ stringElems l := by
    intro l s
    have := foldl_appends rdapStatusStep (fun s => s.StatusDetails) (fun x => stringElems [x])
      rdapStatusStep_StatusDetails l s
    rw [stringElems_flatten] at this
    exact this
  cases hD : result.Data with
  | obj domainData =>
    simp only
    have e1 : ∀ t : Summary, (match domainData.lookup "Entities" with
        | some (Value.arr entitiesArray) => entitiesArray.foldl rdapEntityStep t
        | _ => t).StatusDetails = t.StatusDetails := by
      intro t; split
      · exact hR _ _
      · rfl
    have e2 : ∀ t : Summary, (match domainData.lookup "Events" with
        | some (Value.arr eventsArray) => eventsArray.foldl (rdapEventStep rt) t
        | _ => t).StatusDetails = t.StatusDetails := by
      intro t; split
      · exact hE _ _
      · rfl
    have e3 : ∀ t : Summary, (match domainData.lookup "SecureDNS" with
        | some (Value.obj secureDNS) =>
          match secureDNS.lookup "DelegationSigned" with
          | some (Value.bool delegationSigned) =>
            if delegationSigned then
              ({ t with DNSSEC := { Enabled := delegationSigned, Details := "Delegation signed" } } : Summary)
            else
              { t with DNSSEC := { t.DNSSEC with Enabled := delegationSigned } }
          | _ => t
        | _ => t).StatusDetails = t.StatusDetails := by
      intro t; repeat' (first | rfl | split)
    have e4 : ∀ t : Summary, (match domainData.lookup "Nameservers" with
        | some (Value.arr nsArray) => nsArray.foldl rdapNameserverStep t
        | _ => t).StatusDetails = t.StatusDetails := by
      intro t; split
      · exact hN _ _
      · rfl
    rw [e1, e2, e3, e4]
    split
    · exact hA _ _
    · rfl
  | null => rfl
  | bool b => rfl
  | number t => rfl
  | arr a => rfl
  | str t => rfl

theorem parseRDAPSummary_Nameservers (rt : Runtime) (result : QueryResult)
    (summary : Summary) :
    (parseRDAPSummary rt result summary).Nameservers =
      match result.Data with
      | Value.obj domainData =>
        match domainData.lookup "Nameservers" with
        | some (Value.arr nsArray) => summary.Nameservers ++ nsArray.filterMap ldhName
        | _ => summary.Nameservers
      | _ => summary.Nameservers := by
  unfold parseRDAPSummary
  have hS := foldl_keeps rdapStatusStep (fun s => s.Nameservers) rdapStatusStep_Nameservers
  have hE := foldl_keeps (rdapEventStep rt) (fun s => s.Nameservers)
    (rdapEventStep_Nameservers rt)
  have hR := foldl_keeps rdapEntityStep (fun s => s.Nameservers) rdapEntityStep_Nameservers
  have hA : ∀ (l : List Value) (s : Summary),
      (l.foldl rdapNameserverStep s).Nameservers = s.Nameservers ++ l.filterMap ldhName := by
    intro l s
    have := foldl_appends rdapNameserverStep (fun s => s.Nameservers)
      (fun x => (ldhName x).toList) rdapNameserverStep_Nameservers l s
    rw [ldhName_flatten] at this
    exact this
  cases hD : result.Data with
  | obj domainData =>
    simp only
    have e1 : ∀ t : Summary, (match domainData.lookup "Entities" with
        | some (Value.arr entitiesArray) => entitiesArray.foldl rdapEntityStep t
        | _ => t).Nameservers = t.Nameservers := by
      intro t; split
      · exact hR _ _
      · rfl
    have e2 : ∀ t : Summary, (match domainData.lookup "Events" with
        | some (Value.arr eventsArray) => eventsArray.foldl (rdapEventStep rt) t
        | _ => t).Nameservers = t.Nameservers := by
      intro t; split
      · exact hE _ _
      · rfl
    have e3 : ∀ t : Summary, (match domainData.lookup "SecureDNS" with
        | some (Value.obj secureDNS) =>
          match secureDNS.lookup "DelegationSigned" with
          | some (Value.bool delegationSigned) =>
            if delegationSigned then
              ({ t with DNSSEC := { Enabled := delegationSigned, Details := "Delegation signed" } } : Summary)
            else
              { t with DNSSEC := { t.DNSSEC with Enabled := delegationSigned } }
          | _ => t
        | _ => t).Nameservers = t.Nameservers := by
      intro t; repeat' (first | rfl | split)
    have e5 : (match domainData.lookup "Status" with
        | some (Value.arr statusArray) =>
          ({ statusArray.foldl rdapStatusStep summary with
            Status := InterpretStatus rt.tbl (statusArray.foldl rdapStatusStep summary).StatusDetails
              (rt.jsonMarshal (Value.obj domainData)) } : Summary)
        | _ => summary).Nameservers = summary.Nameservers := by
      split
      · exact hS _ _
      · rfl
    rw [e1, e2, e3]
    split
    · rw [hA, e5]
    · exact e5
  | null => rfl
  | bool b => rfl
  | number t => rfl
  | arr a => rfl
  | str t => rfl

theorem parseRDAPSummary_Timeline (rt : Runtime) (result : QueryResult)
    (summary : Summary) (domainData : List (String × Value)) (events : List Value)
    (hD : result.Data = Value.obj domainData)
    (hV : domainData.lookup "Events" = some (Value.arr events)) :
    ∃ t : Summary, t.Timeline = summary.Timeline ∧
      (parseRDAPSummary rt result summary).Timeline =
        (events.foldl (rdapEventStep rt) t).Timeline := by
  unfold parseRDAPSummary
  have hS := foldl_keeps rdapStatusStep (fun s => s.Timeline) rdapStatusStep_Timeline
  have hN := foldl_keeps rdapNameserverStep (fun s => s.Timeline) rdapNameserverStep_Timeline
  have hR := foldl_keeps rdapEntityStep (fun s => s.Timeline) rdapEntityStep_Timeline
  rw [hD]
  simp only
  have e1 : ∀ t : Summary, (match domainData.lookup "Entities" with
      | some (Value.arr entitiesArray) => entitiesArray.foldl rdapEntityStep t
      | _ => t).Timeline = t.Timeline := by
    intro t; split
    · exact hR _ _
    · rfl
  have e3 : ∀ t : Summary, (match domainData.lookup "SecureDNS" with
      | some (Value.obj secureDNS) =>
        match secureDNS.lookup "DelegationSigned" with
        | some (Value.bool delegationSigned) =>
          if delegationSigned then
            ({ t with DNSSEC := { Enabled := delegationSigned, Details := "Delegation signed" } } : Summary)
          else
            { t with DNSSEC := { t.DNSSEC with Enabled := delegationSigned } }
        | _ => t
      | _ => t).Timeline = t.Timeline := by
    intro t; repeat' (first | rfl | split)
  have e4 : ∀ t : Summary, (match domainData.lookup "Nameservers" with
      | some (Value.arr nsArray) => nsArray.foldl rdapNameserverStep t
      | _ => t).Timeline = t.Timeline := by
    intro t; split
    · exact hN _ _
    · rfl
  have e5 : (match domainData.lookup "Status" with
      | some (Value.arr statusArray) =>
        ({ statusArray.foldl rdapStatusStep summary with
          Status := InterpretStatus rt.tbl (statusArray.foldl rdapStatusStep summary).StatusDetails
            (rt.jsonMarshal (Value.obj domainData)) } : Summary)
      | _ => summary).Timeline = summary.Timeline := by
    split
    · exact hS _ _
    · rfl
  rw [e1]
  split
  · rename_i ev hev
    rw [hV] at hev
    cases hev
    exact ⟨_, by rw [e3, e4, e5], rfl⟩
  · rename_i hno
    exact absurd hV (hno events)

theorem rdapEventStep_noop (rt : Runtime) (s : Summary) (x : Value)
    (h : eventMatches rt timelineActions x = false) : rdapEventStep rt s x = s := by
  cases x with
  | obj o =>
    have h2 : (timelineActions.contains (stringOrEmpty (o.lookup "Action")) &&
        (rt.timeParse RFC3339 (stringOrEmpty (o.lookup "Date"))).isSome) = false := h
    clear h
    rename' h2 => h
    unfold timelineActions at h
    unfold rdapEventStep
    dsimp only
    cases hp : rt.timeParse RFC3339 (stringOrEmpty (o.lookup "Date")) with
    | none => rfl
    | some date =>
      rw [hp] at h
      simp only [Option.isSome_some, Bool.and_true, List.contains_eq_any_beq, List.any_cons,
        List.any_nil, Bool.or_false, Bool.or_eq_false_iff, beq_eq_false_iff_ne, ne_eq] at h
      obtain ⟨h1, h2, h3, h4⟩ := h
      dsimp only
      rw [if_neg h1, if_neg (by rintro (e | e); exact h2 e; exact h3 e), if_neg h4]
  | null => rfl
  | bool b => rfl
  | number t => rfl
  | arr a => rfl
  | str t => rfl

theorem rdapEventStep_slots (rt : Runtime) (s : Summary) (x : Value) :
    ((rdapEventStep rt s x).Timeline.Registration.isSome =
      (eventMatches rt ["registration"] x || s.Timeline.Registration.isSome)) ∧
    ((rdapEventStep rt s x).Timeline.LastUpdated.isSome =
      (eventMatches rt ["last changed", "last update of RDAP database"] x ||
        s.Timeline.LastUpdated.isSome)) ∧
    ((rdapEventStep rt s x).Timeline.Expiration.isSome =
      (eventMatches rt ["expiration"] x || s.Timeline.Expiration.isSome)) := by
  cases x with
  | obj o =>
    simp only [eventMatches, rdapEventStep]
    cases hp : rt.timeParse RFC3339 (stringOrEmpty (o.lookup "Date")) with
    | none => simp
    | some date =>
      simp only [Option.isSome_some, Bool.and_true, List.contains_eq_any_beq, List.any_cons,
        List.any_nil, Bool.or_false]
      by_cases h1 : stringOrEmpty (o.lookup "Action") = "registration"
      · rw [if_pos h1, h1]
        refine ⟨by simp, ?_, ?_⟩ <;> simp
      · rw [if_neg h1]
        by_cases h2 : stringOrEmpty (o.lookup "Action") = "last changed" ∨
            stringOrEmpty (o.lookup "Action") = "last update of RDAP database"
        · rw [if_pos h2]
          rcases h2 with h2 | h2
          · rw [h2]
            refine ⟨?_, by simp, ?_⟩ <;> simp
          · rw [h2]
            refine ⟨?_, by simp, ?_⟩ <;> simp
        · rw [if_neg h2]
          push_neg at h2
          by_cases h3 : stringOrEmpty (o.lookup "Action") = "expiration"
          · rw [if_pos h3, h3]
            refine ⟨?_, ?_, by simp⟩ <;> simp
          · rw [if_neg h3]
            simp [h1, h2.1, h2.2, h3]
  | null => simp [eventMatches, rdapEventStep]
  | bool b => simp [eventMatches, rdapEventStep]
  | number t => simp [eventMatches, rdapEventStep]
  | arr a => simp [eventMatches, rdapEventStep]
  | str t => simp [eventMatches, rdapEventStep]

theorem CreateSummary_StatusDetails (rt : Runtime) (result : QueryResult) :
    (CreateSummary rt result).StatusDetails =
      (if result.Protocol = "RDAP" then parseRDAPSummary rt result (initialSummary result)
      else parseWhoisSummary rt result (initialSummary result)).StatusDetails := by
  unfold CreateSummary initialSummary
  simp only
  repeat' (first | rfl | split)

theorem CreateSummary_Nameservers (rt : Runtime) (result : QueryResult) :
    (CreateSummary rt result).Nameservers =
      (if result.Protocol = "RDAP" then parseRDAPSummary rt result (initialSummary result)
      else parseWhoisSummary rt result (initialSummary result)).Nameservers := by
  unfold CreateSummary initialSummary
  simp only
  repeat' (first | rfl | split)

theorem CreateSummary_Timeline (rt : Runtime) (result : QueryResult) :
    (CreateSummary rt result).Timeline =
      (if result.Protocol = "RDAP" then parseRDAPSummary rt result (initialSummary result)
      else parseWhoisSummary rt result (initialSummary result)).Timeline := by
  unfold CreateSummary initialSummary
  simp only
  repeat' (first | rfl | split)

theorem CreateSummary_Status (rt : Runtime) (result : QueryResult) :
    (CreateSummary rt result).Status =
      if result.Type_ = "asn" then
        match parseASNInfo rt.tbl result with
        | some asn =>
          if asn.Status ≠ "" then asn.Status
          else (if result.Protocol = "RDAP" then
              parseRDAPSummary rt result (initialSummary result)
            else parseWhoisSummary rt result (initialSummary result)).Status
        | none => (if result.Protocol = "RDAP" then
              parseRDAPSummary rt result (initialSummary result)
            else parseWhoisSummary rt result (initialSummary result)).Status
      else (if result.Protocol = "RDAP" then parseRDAPSummary rt result (initialSummary result)
        else parseWhoisSummary rt result (initialSummary result)).Status := by
  unfold CreateSummary initialSummary
  have hs : QueryType.toString QueryTypeASN = "asn" := rfl
  rw [hs]
  by_cases hT : result.Type_ = "asn"
  · simp only [hT, if_true]
    cases parseASNInfo rt.tbl result with
    | none =>
      dsimp only
      repeat' (first | rfl | split)
    | some asn =>
      dsimp only
      by_cases ha : asn.Status = ""
      · simp only [ha, ne_eq, not_true_eq_false, if_false]
        repeat' (first | rfl | split)
      · simp only [ha, ne_eq, not_false_eq_true, if_true]
        repeat' (first | rfl | split)
  · simp only [hT, if_false]
    repeat' (first | rfl | split)

/-! ## Summary assembly on the RDAP path: claims C24, C25, C26, C27 -/

theorem filterMap_none {α β : Type} (f : α → Option β) (l : List α)
    (h : ∀ a ∈ l, f a = none) : l.filterMap f = [] := by
  induction l with
  | nil => rfl
  | cons a as ih =>
    rw [List.filterMap_cons, h a (List.mem_cons_self _ _)]
    exact ih (fun b hb => h b (List.mem_cons_of_mem _ hb))

/-- C24 as amended: on the RDAP path, when an entity of the payload has the role
"registrar" and a VCard with at least one property named "fn" with a string value, and no
later entity is a registrar entity with such a property (whatever entities stand before
and after it), `Registrar.Name` is the value of the last such property in list order. -/
theorem CreateSummary_registrar_fn (rt : Runtime) (result : QueryResult)
    (domainData : List (String × Value)) (pre post : List Value)
    (entityObj vcard : List (String × Value)) (props : List Value)
    (hP : result.Protocol = "RDAP") (hD : result.Data = Value.obj domainData)
    (hE : domainData.lookup "Entities" =
      some (Value.arr (pre ++ Value.obj entityObj :: post)))
    (hR : hasRegistrarRole entityObj = true)
    (hV : entityObj.lookup "VCard" = some (Value.obj vcard))
    (hPr : vcard.lookup "Properties" = some (Value.arr props))
    (hfn : props.filterMap fnValue ≠ [])
    (hpost : ∀ later ∈ post, registrarName later = none) :
    some (CreateSummary rt result).Registrar.Name = (props.filterMap fnValue).getLast? := by
  rw [CreateSummary_Registrar, if_pos hP,
    (parseRDAPSummary_Registrar rt result _ domainData _ hD hE).2]
  have hname : registrarName (Value.obj entityObj) = (props.filterMap fnValue).getLast? := by
    unfold registrarName
    simp only [hR, if_true, hV, hPr]
  obtain ⟨v, hv⟩ : ∃ v, (props.filterMap fnValue).getLast? = some v := by
    cases hl : (props.filterMap fnValue).getLast? with
    | none => exact absurd (List.getLast?_eq_none_iff.1 hl) hfn
    | some v => exact ⟨v, rfl⟩
  rw [List.filterMap_append, List.filterMap_cons, hname, hv, filterMap_none _ post hpost]
  simp

/-- Witness of C24 as amended: the payload of `namesThenTechnicalResult`, whose registrar
entity is followed by a technical entity. -/
theorem CreateSummary_registrar_fn_witness :
    some (CreateSummary (exampleRuntime ⟨0⟩ namesThenTechnicalJSON [])
        namesThenTechnicalResult).Registrar.Name =
      (twoNamesProps.filterMap fnValue).getLast? :=
  CreateSummary_registrar_fn (exampleRuntime ⟨0⟩ namesThenTechnicalJSON [])
    namesThenTechnicalResult
    [("Entities", Value.arr [Value.obj twoNamesEntity, Value.obj technicalEntity])] []
    [Value.obj technicalEntity] twoNamesEntity
    [("Properties", Value.arr twoNamesProps)] twoNamesProps rfl rfl rfl rfl rfl rfl (by decide)
    (by decide)

/-- Counterexample to C24 as stated: the VCard of the registrar entity has the "fn"
properties "First Name" and "Second Name", in this order, and `Registrar.Name` is
"Second Name", also when a technical entity follows the registrar entity. -/
theorem CreateSummary_registrar_fn_counterexample :
    twoNamesProps.filterMap fnValue = ["First Name", "Second Name"] ∧
      (CreateSummary (exampleRuntime ⟨0⟩ twoNamesJSON []) twoNamesResult).Registrar.Name =
        "Second Name" ∧
      (CreateSummary (exampleRuntime ⟨0⟩ namesThenTechnicalJSON [])
        namesThenTechnicalResult).Registrar.Name = "Second Name" := by
  decide!

/-- C25: on the RDAP path, for every `Events` list, `Timeline.Registration` is set
exactly when some event has the action "registration" and a date that parses as
RFC 3339, `Timeline.Expiration` likewise for "expiration" and `Timeline.LastUpdated`
for "last changed" or "last update of RDAP database"; an event with another action or
with a date that does not parse leaves the whole summary as it is. -/
theorem CreateSummary_rdap_timeline (rt : Runtime) (result : QueryResult)
    (domainData : List (String × Value)) (events : List Value)
    (hP : result.Protocol = "RDAP") (hD : result.Data = Value.obj domainData)
    (hV : domainData.lookup "Events" = some (Value.arr events)) :
    ((CreateSummary rt result).Timeline.Registration.isSome =
      events.any (eventMatches rt ["registration"])) ∧
    ((CreateSummary rt result).Timeline.Expiration.isSome =
      events.any (eventMatches rt ["expiration"])) ∧
    ((CreateSummary rt result).Timeline.LastUpdated.isSome =
      events.any (eventMatches rt ["last changed", "last update of RDAP database"])) ∧
    (∀ (s : Summary) (event : Value), eventMatches rt timelineActions event = false →
      rdapEventStep rt s event = s) := by
  obtain ⟨t, ht, hpar⟩ := parseRDAPSummary_Timeline rt result (initialSummary result)
    domainData events hD hV
  rw [CreateSummary_Timeline, if_pos hP, hpar]
  have h1 := foldl_anySome (rdapEventStep rt) (fun s => s.Timeline.Registration)
    (eventMatches rt ["registration"]) (fun s x => (rdapEventStep_slots rt s x).1) events t
  have h2 := foldl_anySome (rdapEventStep rt) (fun s => s.Timeline.LastUpdated)
    (eventMatches rt ["last changed", "last update of RDAP database"])
    (fun s x => (rdapEventStep_slots rt s x).2.1) events t
  have h3 := foldl_anySome (rdapEventStep rt) (fun s => s.Timeline.Expiration)
    (eventMatches rt ["expiration"]) (fun s x => (rdapEventStep_slots rt s x).2.2) events t
  rw [ht] at h1 h2 h3
  refine ⟨?_, ?_, ?_, fun s event h => rdapEventStep_noop rt s event h⟩
  · rw [h1]
    simp [initialSummary]
  · rw [h3]
    simp [initialSummary]
  · rw [h2]
    simp [initialSummary]

/-- Witness of C25: the four events of `eventsResult`; the registration and the
expiration are set, the last update is not. -/
theorem CreateSummary_rdap_timeline_witness :
    ((CreateSummary eventsRuntime eventsResult).Timeline.Registration.isSome =
      sampleEvents.any (eventMatches eventsRuntime ["registration"])) ∧
    (CreateSummary eventsRuntime eventsResult).Timeline.Registration.isSome = true ∧
    (CreateSummary eventsRuntime eventsResult).Timeline.Expiration.isSome = true ∧
    (CreateSummary eventsRuntime eventsResult).Timeline.LastUpdated.isSome = false :=
  ⟨(CreateSummary_rdap_timeline eventsRuntime eventsResult [("Events", Value.arr sampleEvents)]
    sampleEvents rfl rfl rfl).1, by decide!, by decide!, by decide!⟩

/-- C26 as amended: on the RDAP path, when the payload has a `Status` array,
`StatusDetails` is the list of the string elements of the array, in array order, and the
status that `parseRDAPSummary` sets is `InterpretStatus` of that list and the JSON text of
the payload; it is the status of the summary unless the query is of type "asn" and the AS
record parsed from the raw text has a non-empty status, which then is the status of the
summary. -/
theorem CreateSummary_rdap_status (rt : Runtime) (result : QueryResult)
    (domainData : List (String × Value)) (statusArray : List Value)
    (hP : result.Protocol = "RDAP") (hD : result.Data = Value.obj domainData)
    (hS : domainData.lookup "Status" = some (Value.arr statusArray)) :
    (CreateSummary rt result).StatusDetails = stringElems statusArray ∧
    (parseRDAPSummary rt result (initialSummary result)).Status =
      InterpretStatus rt.tbl (stringElems statusArray) (rt.jsonMarshal result.Data) ∧
    (result.Type_ ≠ "asn" →
      (CreateSummary rt result).Status =
        InterpretStatus rt.tbl (stringElems statusArray) (rt.jsonMarshal result.Data)) ∧
    (∀ asn, result.Type_ = "asn" → parseASNInfo rt.tbl result = some asn →
      (CreateSummary rt result).Status =
        if asn.Status ≠ "" then asn.Status
        else InterpretStatus rt.tbl (stringElems statusArray) (rt.jsonMarshal result.Data)) ∧
    (result.Type_ = "asn" → parseASNInfo rt.tbl result = none →
      (CreateSummary rt result).Status =
        InterpretStatus rt.tbl (stringElems statusArray) (rt.jsonMarshal result.Data)) := by
  have hdet : (parseRDAPSummary rt result (initialSummary result)).StatusDetails =
      stringElems statusArray := by
    rw [parseRDAPSummary_StatusDetails, hD]
    simp only [hS]
    rfl
  have hst : (parseRDAPSummary rt result (initialSummary result)).Status =
      InterpretStatus rt.tbl (stringElems statusArray) (rt.jsonMarshal result.Data) := by
    have hA := foldl_appends rdapStatusStep (fun s => s.StatusDetails)
      (fun x => stringElems [x]) rdapStatusStep_StatusDetails statusArray
      (initialSummary result)
    rw [stringElems_flatten] at hA
    rw [parseRDAPSummary_Status, hD]
    simp only [hS]
    rw [hA]
    rfl
  refine ⟨?_, hst, ?_, ?_, ?_⟩
  · rw [CreateSummary_StatusDetails, if_pos hP, hdet]
  · intro hT
    rw [CreateSummary_Status, if_neg hT, if_pos hP, hst]
  · intro asn hT ha
    rw [CreateSummary_Status, if_pos hT, ha]
    dsimp only
    rw [if_pos hP, hst]
  · intro hT ha
    rw [CreateSummary_Status, if_pos hT, ha]
    dsimp only
    rw [if_pos hP, hst]

/-- Witness of C26 as amended: the payload of `activeRDAPResult`, with the status array
`["active"]`. -/
theorem CreateSummary_rdap_status_witness :
    (CreateSummary (exampleRuntime ⟨0⟩ "\x7b\"Status\":[\"active\"]\x7d" [])
        activeRDAPResult).StatusDetails = stringElems [Value.str "active"] ∧
    stringElems [Value.str "active"] = ["active"] :=
  ⟨(CreateSummary_rdap_status (exampleRuntime ⟨0⟩ "\x7b\"Status\":[\"active\"]\x7d" [])
    activeRDAPResult [("Status", Value.arr [Value.str "active"])] [Value.str "active"]
    rfl rfl rfl).1, rfl⟩

/-- Counterexample to C26 as stated: for the RDAP result `asnRDAPResult` of type "asn",
with the status array `["active"]` and the raw text `status: ASSIGNED`, `InterpretStatus`
of the status list and the JSON text is "active", but the status of the summary is
"ASSIGNED". -/
theorem CreateSummary_rdap_status_counterexample :
    (CreateSummary (exampleRuntime ⟨0⟩ "\x7b\"Status\":[\"active\"]\x7d" [])
        asnRDAPResult).StatusDetails = ["active"] ∧
    InterpretStatus CaseTables.ascii ["active"] "\x7b\"Status\":[\"active\"]\x7d" =
      "active" ∧
    (CreateSummary (exampleRuntime ⟨0⟩ "\x7b\"Status\":[\"active\"]\x7d" [])
        asnRDAPResult).Status = "ASSIGNED" := by
  decide!

theorem whoisStatusPart_Nameservers (s : Summary) (part : String) :
    (whoisStatusPart s part).Nameservers = s.Nameservers := by
  unfold whoisStatusPart; repeat' (first | rfl | split | dsimp only)

theorem whoisStatusField_Nameservers (fields : List (String × Value)) (s : Summary)
    (field : String) : (whoisStatusField fields s field).Nameservers = s.Nameservers := by
  unfold whoisStatusField
  have h := foldl_keeps whoisStatusPart (fun s => s.Nameservers) whoisStatusPart_Nameservers
  repeat' (first | rfl | exact h _ _ | split)

theorem whoisNameserverStep_Nodup (tbl : CaseTables) (s : Summary) (x : String × Value)
    (h : s.Nameservers.Nodup) : (whoisNameserverStep tbl s x).Nameservers.Nodup := by
  unfold whoisNameserverStep
  split
  · split
    · rename_i ns _
      by_cases hc : s.Nameservers.contains ns = true
      · rw [if_pos hc]
        exact h
      · rw [if_neg hc]
        have hnot : ns ∉ s.Nameservers := by simpa using hc
        show (s.Nameservers ++ [ns]).Nodup
        rw [List.nodup_append]
        refine ⟨h, List.nodup_singleton ns, ?_⟩
        intro a ha hb
        rw [List.mem_singleton.1 hb] at ha
        exact hnot ha
    · exact h
  · exact h

theorem foldl_inv {α : Type} (f : Summary → α → Summary) (P : Summary → Prop)
    (h : ∀ s x, P s → P (f s x)) (l : List α) : ∀ s : Summary, P s → P (l.foldl f s) := by
  induction l with
  | nil =>
    intro s hs
    exact hs
  | cons x xs ih =>
    intro s hs
    rw [List.foldl_cons]
    exact ih _ (h s x hs)

theorem parseWhoisSummary_Nodup (rt : Runtime) (result : QueryResult) (summary : Summary)
    (h : summary.Nameservers.Nodup) :
    (parseWhoisSummary rt result summary).Nameservers.Nodup := by
  unfold parseWhoisSummary
  have hF : ∀ (fields : List (String × Value)) (l : List String) (s : Summary),
      (l.foldl (whoisStatusField fields) s).Nameservers = s.Nameservers := fun fields =>
    foldl_keeps (whoisStatusField fields) (fun s => s.Nameservers)
      (whoisStatusField_Nameservers fields)
  have hN := foldl_inv (whoisNameserverStep rt.tbl) (fun s => s.Nameservers.Nodup)
    (whoisNameserverStep_Nodup rt.tbl)
  cases hD : result.Data with
  | obj data =>
    simp only
    split
    · rename_i fields hf
      have e1 : ∀ t : Summary, (match fields.lookup "registrar_iana_id" with
          | some (Value.str registrarID) =>
            ({ t with Registrar := { t.Registrar with ID := registrarID } } : Summary)
          | _ => t).Nameservers = t.Nameservers := by
        intro t; split <;> rfl
      have e2 : ∀ t : Summary, (match fields.lookup "registrar" with
          | some (Value.str registrar) =>
            ({ t with Registrar := { t.Registrar with Name := registrar } } : Summary)
          | _ => t).Nameservers = t.Nameservers := by
        intro t; split <;> rfl
      have e3 : ∀ t : Summary, (match whoisEvent rt fields "registry_expiry_date" with
          | some ev => ({ t with Timeline := { t.Timeline with Expiration := some ev } } : Summary)
          | none => t).Nameservers = t.Nameservers := by
        intro t; split <;> rfl
      have e4 : ∀ t : Summary, (match whoisEvent rt fields "updated_date" with
          | some ev => ({ t with Timeline := { t.Timeline with LastUpdated := some ev } } : Summary)
          | none => t).Nameservers = t.Nameservers := by
        intro t; split <;> rfl
      have e5 : ∀ t : Summary, (match whoisEvent rt fields "creation_date" with
          | some ev => ({ t with Timeline := { t.Timeline with Registration := some ev } } : Summary)
          | none => t).Nameservers = t.Nameservers := by
        intro t; split <;> rfl
      have e6 : ∀ t : Summary, (match fields.lookup "dnssec" with
          | some (Value.str dnssec) =>
            ({ t with DNSSEC := { Enabled := decide (dnssec = "signedDelegation"), Details := dnssec } } : Summary)
          | _ => t).Nameservers = t.Nameservers := by
        intro t; split <;> rfl
      rw [e1, e2, e3, e4, e5, e6]
      apply hN
      show (List.foldl (whoisStatusField fields) summary ["domain_status", "status"]).Nameservers.Nodup
      rw [hF]
      exact h
    · exact h
  | null => exact h
  | bool b => exact h
  | number t => exact h
  | arr a => exact h
  | str t => exact h

/-- C27, what the code does: on the WHOIS path the `Nameservers` list of `CreateSummary`
holds no hostname twice (the loop scans the list before it appends); the loop of the RDAP
path has no such scan, so there the list is the list of the string `LDHName` of the
elements of the `Nameservers` array, in array order, with every repetition kept. -/
theorem CreateSummary_nameserver_list (rt : Runtime) (result : QueryResult) :
    (result.Protocol ≠ "RDAP" → (CreateSummary rt result).Nameservers.Nodup) ∧
    (result.Protocol = "RDAP" →
      ∀ (domainData : List (String × Value)) (nsArray : List Value),
        result.Data = Value.obj domainData →
        domainData.lookup "Nameservers" = some (Value.arr nsArray) →
        (CreateSummary rt result).Nameservers = nsArray.filterMap ldhName) := by
  constructor
  · intro hP
    rw [CreateSummary_Nameservers, if_neg hP]
    exact parseWhoisSummary_Nodup rt result _ List.nodup_nil
  · intro hP domainData nsArray hD hN
    rw [CreateSummary_Nameservers, if_pos hP, parseRDAPSummary_Nameservers, hD]
    simp only [hN]
    rfl

/-- C27, the failing input: for an RDAP payload whose `Nameservers` array lists
"ns1.example.com" twice, the summary lists it twice. -/
theorem CreateSummary_nameserver_list_counterexample :
    (CreateSummary (exampleRuntime ⟨0⟩ dupNameserversJSON []) dupNameserversResult).Nameservers =
      ["ns1.example.com", "ns1.example.com"] := by
  decide!

/-! ## AS record parser: claims C28, C29, C30 -/

theorem asnLine_eq (tbl : CaseTables) (st : ASNScan) (rawLine : String) :
    asnLine tbl st rawLine =
      if TrimSpace rawLine = "" ∨ HasPrefix (TrimSpace rawLine) "#" = true then st
      else if HasPrefix (TrimSpace rawLine) "%" = true then
        { st with asn := asnAbuseComment tbl st.asn (TrimSpace rawLine) }
      else
        match asnEntry tbl rawLine with
        | some (_, value) =>
          asnKeyValue tbl st (TrimSpace (beforeColon (TrimSpace rawLine))) value
        | none => st := by
  unfold asnLine asnEntry
  dsimp only
  by_cases h1 : TrimSpace rawLine = "" ∨ HasPrefix (TrimSpace rawLine) "#" = true
  · rw [if_pos h1, if_pos h1]
  · rw [if_neg h1, if_neg h1]
    by_cases h2 : HasPrefix (TrimSpace rawLine) "%" = true
    · rw [if_pos h2, if_pos h2]
    · rw [if_neg h2, if_neg h2]
      have h3 : ¬ (TrimSpace rawLine = "" ∨ HasPrefix (TrimSpace rawLine) "#" = true ∨
          HasPrefix (TrimSpace rawLine) "%" = true) := by
        rintro (h | h | h)
        · exact h1 (Or.inl h)
        · exact h1 (Or.inr h)
        · exact h2 h
      rw [if_neg h3]
      by_cases h4 : Contains (TrimSpace rawLine) ":" = true
      · rw [if_pos h4, if_pos h4, SplitN_colon _ h4]
        simp only [List.length_cons, List.length_nil, if_true, List.getD_cons_zero,
          List.getD_cons_succ]
        by_cases h5 : TrimSpace (afterColon (TrimSpace rawLine)) = ""
        · rw [if_pos h5, if_pos h5]
        · rw [if_neg h5, if_neg h5]
          rfl
      · rw [if_neg h4, if_neg h4]

theorem asnPeerStep_only (asn : ASNInfo) (word : String) :
    asnPeerStep asn word = { asn with Peers := (asnPeerStep asn word).Peers } := by
  unfold asnPeerStep; repeat' (first | rfl | split | dsimp only)

theorem len_nil : len ⟨[]⟩ = 0 := rfl

theorem len_cons (c : Char) (t : List Char) : len ⟨c :: t⟩ = c.utf8Size + len ⟨t⟩ := by
  unfold len
  simp

theorem HasPrefix_AS (s : String) : HasPrefix s "AS" = true ↔ ∃ t, s.data = 'A' :: 'S' :: t := by
  unfold HasPrefix
  have h : "AS".data = ['A', 'S'] := rfl
  rw [h]
  constructor
  · intro hp
    obtain ⟨t, ht⟩ := List.isPrefixOf_iff_prefix.1 hp
    exact ⟨t, ht.symm⟩
  · rintro ⟨t, ht⟩
    rw [ht]
    exact List.isPrefixOf_iff_prefix.2 ⟨t, rfl⟩

theorem TrimRight_token (word : String) (hw : HasPrefix word "AS" = true)
    (hl : len (TrimRight word ",;:") > 2) : isPeerToken (TrimRight word ",;:") = true := by
  obtain ⟨t, ht⟩ := (HasPrefix_AS word).1 hw
  have hr : (TrimRight word ",;:").data =
      List.rdropWhile (fun c => ",;:".data.contains c) word.data := rfl
  have hpre : (TrimRight word ",;:").data <+: word.data := by
    rw [hr]
    exact List.rdropWhile_prefix _ _
  rw [ht] at hpre
  obtain ⟨u, hu⟩ := hpre
  have hdata : ∃ v, (TrimRight word ",;:").data = 'A' :: 'S' :: v := by
    rcases hd : (TrimRight word ",;:").data with _ | ⟨a, _ | ⟨b, v⟩⟩
    · have h0 : TrimRight word ",;:" = ⟨[]⟩ := String.ext hd
      rw [h0, len_nil] at hl
      omega
    · rw [hd] at hu
      have ha : a = 'A' := (List.cons.inj hu).1
      have h0 : TrimRight word ",;:" = ⟨[a]⟩ := String.ext hd
      rw [h0, ha] at hl
      have h1 : len ⟨['A']⟩ = 1 := rfl
      rw [h1] at hl
      omega
    · rw [hd] at hu
      have ha : a = 'A' := (List.cons.inj hu).1
      have hb : b = 'S' := (List.cons.inj (List.cons.inj hu).2).1
      exact ⟨v, by rw [ha, hb]⟩
  have hne : List.rdropWhile (fun c => ",;:".data.contains c) word.data ≠ [] := by
    rw [← hr]
    obtain ⟨v, hv⟩ := hdata
    rw [hv]
    simp
  have hlast := List.rdropWhile_last_not (fun c => ",;:".data.contains c) word.data hne
  unfold isPeerToken
  rw [(HasPrefix_AS _).2 hdata]
  simp only [Bool.true_and, Bool.and_eq_true, decide_eq_true_eq]
  refine ⟨hl, ?_⟩
  rw [hr, List.getLast?_eq_getLast _ hne]
  simpa using hlast

theorem asnPeerStep_Peers (asn : ASNInfo) (word : String) :
    (asnPeerStep asn word).Peers = asn.Peers ∨
      ∃ p, (asnPeerStep asn word).Peers = asn.Peers ++ [p] ∧ p ∉ asn.Peers ∧
        p ≠ asn.Number ∧ isPeerToken p = true := by
  unfold asnPeerStep
  by_cases h1 : (HasPrefix word "AS" && decide (len word > 2)) = true
  · rw [if_pos h1]
    dsimp only
    by_cases h2 : len (TrimRight word ",;:") > 2
    · rw [if_pos h2]
      by_cases h3 : (!asn.Peers.contains (TrimRight word ",;:") &&
          TrimRight word ",;:" != asn.Number) = true
      · rw [if_pos h3]
        right
        simp only [Bool.and_eq_true, Bool.not_eq_true', bne_iff_ne, ne_eq] at h3
        simp only [Bool.and_eq_true, decide_eq_true_eq] at h1
        refine ⟨TrimRight word ",;:", rfl, ?_, h3.2, TrimRight_token word h1.1 h2⟩
        have := h3.1
        simpa using this
      · rw [if_neg h3]
        exact Or.inl rfl
    · rw [if_neg h2]
      exact Or.inl rfl
  · rw [if_neg h1]
    exact Or.inl rfl

/-- How the peers of `b` extend those of `a`: the old list is kept as a prefix, no
duplicate is added, and every new peer is a peer token other than the number `n`. -/
theorem peers_fold (n : String) (words : List String) :
    ∀ a : ASNInfo, a.Number = n →
      ((words.foldl asnPeerStep a).Number = n) ∧
      (a.Peers <+: (words.foldl asnPeerStep a).Peers) ∧
      (a.Peers.Nodup → (words.foldl asnPeerStep a).Peers.Nodup) ∧
      (∀ p ∈ (words.foldl asnPeerStep a).Peers,
        p ∈ a.Peers ∨ (p ≠ n ∧ isPeerToken p = true)) := by
  induction words with
  | nil =>
    intro a ha
    exact ⟨ha, List.prefix_refl _, fun h => h, fun p hp => Or.inl hp⟩
  | cons w ws ih =>
    intro a ha
    rw [List.foldl_cons]
    have hnum : (asnPeerStep a w).Number = n := by
      rw [asnPeerStep_only]
      exact ha
    obtain ⟨i1, i2, i3, i4⟩ := ih (asnPeerStep a w) hnum
    rcases asnPeerStep_Peers a w with h | ⟨p, hp, hnot, hne, htok⟩
    · rw [h] at i2 i3 i4
      exact ⟨i1, i2, i3, i4⟩
    · rw [hp] at i2 i3 i4
      refine ⟨i1, (List.prefix_append _ _).trans i2, ?_, ?_⟩
      · intro hnd
        apply i3
        rw [List.nodup_append]
        refine ⟨hnd, List.nodup_singleton p, ?_⟩
        intro x hx hx2
        rw [List.mem_singleton.1 hx2] at hx
        exact hnot hx
      · intro q hq
        rcases i4 q hq with h | h
        · rcases List.mem_append.1 h with h2 | h2
          · exact Or.inl h2
          · rw [List.mem_singleton.1 h2]
            exact Or.inr ⟨ha ▸ hne, htok⟩
        · exact Or.inr h

theorem foldl_only_Peers (words : List String) :
    ∀ a : ASNInfo, words.foldl asnPeerStep a =
      { a with Peers := (words.foldl asnPeerStep a).Peers } := by
  induction words with
  | nil =>
    intro a
    rfl
  | cons w ws ih =>
    intro a
    rw [List.foldl_cons]
    calc ws.foldl asnPeerStep (asnPeerStep a w)
        = { asnPeerStep a w with Peers := (ws.foldl asnPeerStep (asnPeerStep a w)).Peers } :=
          ih _
      _ = { a with Peers := (ws.foldl asnPeerStep (asnPeerStep a w)).Peers } := by
        have h2 := asnPeerStep_only a w
        generalize ws.foldl asnPeerStep (asnPeerStep a w) = r
        rw [h2]

theorem asnAbuseComment_only (tbl : CaseTables) (asn : ASNInfo) (line : String) :
    asnAbuseComment tbl asn line =
      { asn with AbuseContact := (asnAbuseComment tbl asn line).AbuseContact } := by
  unfold asnAbuseComment; repeat' (first | rfl | split | dsimp only)

theorem asnSwitch_Peers (st : ASNScan) (key value : String) :
    (asnSwitch st key value).asn.Peers = st.asn.Peers := by
  unfold asnSwitch
  by_cases h0 : key = "aut-num" ∨ key = "asnumber"
  · rw [if_pos h0]
  rw [if_neg h0]
  by_cases h1 : key = "as-name" ∨ key = "asname"
  · rw [if_pos h1]
  rw [if_neg h1]
  by_cases h2 : key = "descr" ∨ key = "description"
  · rw [if_pos h2]
    split_ifs <;> rfl
  rw [if_neg h2]
  by_cases h3 : key = "country"
  · rw [if_pos h3]
  rw [if_neg h3]
  by_cases h4 : key = "org-name" ∨ key = "orgname"
  · rw [if_pos h4]
  rw [if_neg h4]
  by_cases h5 : key = "status"
  · rw [if_pos h5]
  rw [if_neg h5]
  by_cases h6 : key = "abuse-mailbox" ∨ key = "orgabuseemail" ∨ key = "orgabuse-email"
  · rw [if_pos h6]
  rw [if_neg h6]
  by_cases h7 : key = "organisation" ∨ key = "organization"
  · rw [if_pos h7]
  rw [if_neg h7]
  by_cases h8 : key = "role"
  · rw [if_pos h8]
  rw [if_neg h8]

theorem asnSwitch_Number (st : ASNScan) (key value : String) :
    (asnSwitch st key value).asn.Number =
      if key = "aut-num" ∨ key = "asnumber" then value else st.asn.Number := by
  by_cases hn : key = "aut-num" ∨ key = "asnumber"
  · rw [if_pos hn]
    unfold asnSwitch
    rw [if_pos hn]
  · rw [if_neg hn]
    unfold asnSwitch
    rw [if_neg hn]
    by_cases h1 : key = "as-name" ∨ key = "asname"
    · rw [if_pos h1]
    rw [if_neg h1]
    by_cases h2 : key = "descr" ∨ key = "description"
    · rw [if_pos h2]
      split_ifs <;> rfl
    rw [if_neg h2]
    by_cases h3 : key = "country"
    · rw [if_pos h3]
    rw [if_neg h3]
    by_cases h4 : key = "org-name" ∨ key = "orgname"
    · rw [if_pos h4]
    rw [if_neg h4]
    by_cases h5 : key = "status"
    · rw [if_pos h5]
    rw [if_neg h5]
    by_cases h6 : key = "abuse-mailbox" ∨ key = "orgabuseemail" ∨ key = "orgabuse-email"
    · rw [if_pos h6]
    rw [if_neg h6]
    by_cases h7 : key = "organisation" ∨ key = "organization"
    · rw [if_pos h7]
    rw [if_neg h7]
    by_cases h8 : key = "role"
    · rw [if_pos h8]
    rw [if_neg h8]

theorem asnSwitch_Name (st : ASNScan) (key value : String) :
    (asnSwitch st key value).asn.Name =
      if key = "as-name" ∨ key = "asname" then value else st.asn.Name := by
  by_cases hn : key = "as-name" ∨ key = "asname"
  · rw [if_pos hn]
    have h0 : ¬ (key = "aut-num" ∨ key = "asnumber") := by
      rcases hn with h | h <;> (rw [h]; decide)
    unfold asnSwitch
    rw [if_neg h0, if_pos hn]
  · rw [if_neg hn]
    unfold asnSwitch
    by_cases h0 : key = "aut-num" ∨ key = "asnumber"
    · rw [if_pos h0]
    rw [if_neg h0]
    rw [if_neg hn]
    by_cases h2 : key = "descr" ∨ key = "description"
    · rw [if_pos h2]
      split_ifs <;> rfl
    rw [if_neg h2]
    by_cases h3 : key = "country"
    · rw [if_pos h3]
    rw [if_neg h3]
    by_cases h4 : key = "org-name" ∨ key = "orgname"
    · rw [if_pos h4]
    rw [if_neg h4]
    by_cases h5 : key = "status"
    · rw [if_pos h5]
    rw [if_neg h5]
    by_cases h6 : key = "abuse-mailbox" ∨ key = "orgabuseemail" ∨ key = "orgabuse-email"
    · rw [if_pos h6]
    rw [if_neg h6]
    by_cases h7 : key = "organisation" ∨ key = "organization"
    · rw [if_pos h7]
    rw [if_neg h7]
    by_cases h8 : key = "role"
    · rw [if_pos h8]
    rw [if_neg h8]

theorem asnSwitch_Organization (st : ASNScan) (key value : String) :
    (asnSwitch st key value).asn.Organization =
      if key = "org-name" ∨ key = "orgname" then value else st.asn.Organization := by
  by_cases hn : key = "org-name" ∨ key = "orgname"
  · rw [if_pos hn]
    have h0 : ¬ (key = "aut-num" ∨ key = "asnumber") := by
      rcases hn with h | h <;> (rw [h]; decide)
    have h1 : ¬ (key = "as-name" ∨ key = "asname") := by
      rcases hn with h | h <;> (rw [h]; decide)
    have h2 : ¬ (key = "descr" ∨ key = "description") := by
      rcases hn with h | h <;> (rw [h]; decide)
    have h3 : ¬ (key = "country") := by
      rcases hn with h | h <;> (rw [h]; decide)
    unfold asnSwitch
    rw [if_neg h0, if_neg h1, if_neg h2, if_neg h3, if_pos hn]
  · rw [if_neg hn]
    unfold asnSwitch
    by_cases h0 : key = "aut-num" ∨ key = "asnumber"
    · rw [if_pos h0]
    rw [if_neg h0]
    by_cases h1 : key = "as-name" ∨ key = "asname"
    · rw [if_pos h1]
    rw [if_neg h1]
    by_cases h2 : key = "descr" ∨ key = "description"
    · rw [if_pos h2]
      split_ifs <;> rfl
    rw [if_neg h2]
    by_cases h3 : key = "country"
    · rw [if_pos h3]
    rw [if_neg h3]
    rw [if_neg hn]
    by_cases h5 : key = "status"
    · rw [if_pos h5]
    rw [if_neg h5]
    by_cases h6 : key = "abuse-mailbox" ∨ key = "orgabuseemail" ∨ key = "orgabuse-email"
    · rw [if_pos h6]
    rw [if_neg h6]
    by_cases h7 : key = "organisation" ∨ key = "organization"
    · rw [if_pos h7]
    rw [if_neg h7]
    by_cases h8 : key = "role"
    · rw [if_pos h8]
    rw [if_neg h8]

theorem asnSwitch_Status (st : ASNScan) (key value : String) :
    (asnSwitch st key value).asn.Status =
      if key = "status" then value else st.asn.Status := by
  by_cases hn : key = "status"
  · rw [if_pos hn]
    have h0 : ¬ (key = "aut-num" ∨ key = "asnumber") := by
      rw [hn]; decide
    have h1 : ¬ (key = "as-name" ∨ key = "asname") := by
      rw [hn]; decide
    have h2 : ¬ (key = "descr" ∨ key = "description") := by
      rw [hn]; decide
    have h3 : ¬ (key = "country") := by
      rw [hn]; decide
    have h4 : ¬ (key = "org-name" ∨ key = "orgname") := by
      rw [hn]; decide
    unfold asnSwitch
    rw [if_neg h0, if_neg h1, if_neg h2, if_neg h3, if_neg h4, if_pos hn]
  · rw [if_neg hn]
    unfold asnSwitch
    by_cases h0 : key = "aut-num" ∨ key = "asnumber"
    · rw [if_pos h0]
    rw [if_neg h0]
    by_cases h1 : key = "as-name" ∨ key = "asname"
    · rw [if_pos h1]
    rw [if_neg h1]
    by_cases h2 : key = "descr" ∨ key = "description"
    · rw [if_pos h2]
      split_ifs <;> rfl
    rw [if_neg h2]
    by_cases h3 : key = "country"
    · rw [if_pos h3]
    rw [if_neg h3]
    by_cases h4 : key = "org-name" ∨ key = "orgname"
    · rw [if_pos h4]
    rw [if_neg h4]
    rw [if_neg hn]
    by_cases h6 : key = "abuse-mailbox" ∨ key = "orgabuseemail" ∨ key = "orgabuse-email"
    · rw [if_pos h6]
    rw [if_neg h6]
    by_cases h7 : key = "organisation" ∨ key = "organization"
    · rw [if_pos h7]
    rw [if_neg h7]
    by_cases h8 : key = "role"
    · rw [if_pos h8]
    rw [if_neg h8]

theorem asnSwitch_Description (st : ASNScan) (key value : String) :
    (asnSwitch st key value).asn.Description =
      if key = "descr" ∨ key = "description" then (if st.asn.Description = "" then value else st.asn.Description) else st.asn.Description := by
  by_cases hn : key = "descr" ∨ key = "description"
  · rw [if_pos hn]
    have h0 : ¬ (key = "aut-num" ∨ key = "asnumber") := by
      rcases hn with h | h <;> (rw [h]; decide)
    have h1 : ¬ (key = "as-name" ∨ key = "asname") := by
      rcases hn with h | h <;> (rw [h]; decide)
    unfold asnSwitch
    rw [if_neg h0, if_neg h1, if_pos hn]
    split_ifs <;> rfl
  · rw [if_neg hn]
    unfold asnSwitch
    by_cases h0 : key = "aut-num" ∨ key = "asnumber"
    · rw [if_pos h0]
    rw [if_neg h0]
    by_cases h1 : key = "as-name" ∨ key = "asname"
    · rw [if_pos h1]
    rw [if_neg h1]
    rw [if_neg hn]
    by_cases h3 : key = "country"
    · rw [if_pos h3]
    rw [if_neg h3]
    by_cases h4 : key = "org-name" ∨ key = "orgname"
    · rw [if_pos h4]
    rw [if_neg h4]
    by_cases h5 : key = "status"
    · rw [if_pos h5]
    rw [if_neg h5]
    by_cases h6 : key = "abuse-mailbox" ∨ key = "orgabuseemail" ∨ key = "orgabuse-email"
    · rw [if_pos h6]
    rw [if_neg h6]
    by_cases h7 : key = "organisation" ∨ key = "organization"
    · rw [if_pos h7]
    rw [if_neg h7]
    by_cases h8 : key = "role"
    · rw [if_pos h8]
    rw [if_neg h8]

theorem asnFieldStep_Peers (tbl : CaseTables) (st : ASNScan) (key value : String) :
    (asnFieldStep tbl st key value).asn.Peers = st.asn.Peers := by
  unfold asnFieldStep
  dsimp only
  by_cases h : (asnSwitch st (ToLower tbl key) value).currentSection = "org" ∧
      ToLower tbl key = "org-name"
  · rw [if_pos h]
    exact asnSwitch_Peers st _ value
  · rw [if_neg h]
    exact asnSwitch_Peers st _ value

theorem asnFieldStep_Number (tbl : CaseTables) (st : ASNScan) (key value : String) :
    (asnFieldStep tbl st key value).asn.Number =
      if ToLower tbl key = "aut-num" ∨ ToLower tbl key = "asnumber" then value
      else st.asn.Number := by
  unfold asnFieldStep
  dsimp only
  by_cases h : (asnSwitch st (ToLower tbl key) value).currentSection = "org" ∧
      ToLower tbl key = "org-name"
  · rw [if_pos h]
    exact asnSwitch_Number st _ value
  · rw [if_neg h]
    exact asnSwitch_Number st _ value

theorem asnFieldStep_Name (tbl : CaseTables) (st : ASNScan) (key value : String) :
    (asnFieldStep tbl st key value).asn.Name =
      if ToLower tbl key = "as-name" ∨ ToLower tbl key = "asname" then value
      else st.asn.Name := by
  unfold asnFieldStep
  dsimp only
  by_cases h : (asnSwitch st (ToLower tbl key) value).currentSection = "org" ∧
      ToLower tbl key = "org-name"
  · rw [if_pos h]
    exact asnSwitch_Name st _ value
  · rw [if_neg h]
    exact asnSwitch_Name st _ value

theorem asnFieldStep_Status (tbl : CaseTables) (st : ASNScan) (key value : String) :
    (asnFieldStep tbl st key value).asn.Status =
      if ToLower tbl key = "status" then value else st.asn.Status := by
  unfold asnFieldStep
  dsimp only
  by_cases h : (asnSwitch st (ToLower tbl key) value).currentSection = "org" ∧
      ToLower tbl key = "org-name"
  · rw [if_pos h]
    exact asnSwitch_Status st _ value
  · rw [if_neg h]
    exact asnSwitch_Status st _ value

theorem asnFieldStep_Description (tbl : CaseTables) (st : ASNScan) (key value : String) :
    (asnFieldStep tbl st key value).asn.Description =
      if ToLower tbl key = "descr" ∨ ToLower tbl key = "description" then
        (if st.asn.Description = "" then value else st.asn.Description)
      else st.asn.Description := by
  unfold asnFieldStep
  dsimp only
  by_cases h : (asnSwitch st (ToLower tbl key) value).currentSection = "org" ∧
      ToLower tbl key = "org-name"
  · rw [if_pos h]
    exact asnSwitch_Description st _ value
  · rw [if_neg h]
    exact asnSwitch_Description st _ value

theorem asnFieldStep_Organization (tbl : CaseTables) (st : ASNScan) (key value : String) :
    (asnFieldStep tbl st key value).asn.Organization =
      if ToLower tbl key = "org-name" ∨ ToLower tbl key = "orgname" then value
      else st.asn.Organization := by
  unfold asnFieldStep
  dsimp only
  by_cases h : (asnSwitch st (ToLower tbl key) value).currentSection = "org" ∧
      ToLower tbl key = "org-name"
  · rw [if_pos h, if_pos (Or.inl h.2)]
  · rw [if_neg h]
    exact asnSwitch_Organization st _ value

theorem asnKeyValue_only (tbl : CaseTables) (st : ASNScan) (key value : String) :
    (asnKeyValue tbl st key value).asn =
      { (asnFieldStep tbl st key value).asn with
        Peers := (asnKeyValue tbl st key value).asn.Peers } := by
  unfold asnKeyValue
  dsimp only
  split_ifs
  · exact foldl_only_Peers _ _
  · rfl
  · rfl

theorem asnEntry_some (tbl : CaseTables) (rawLine k v : String)
    (h : asnEntry tbl rawLine = some (k, v)) :
    v ≠ "" ∧ k = ToLower tbl (TrimSpace (beforeColon (TrimSpace rawLine))) ∧
      ¬ (TrimSpace rawLine = "" ∨ HasPrefix (TrimSpace rawLine) "#" = true) ∧
      ¬ (HasPrefix (TrimSpace rawLine) "%" = true) := by
  unfold asnEntry at h
  dsimp only at h
  split_ifs at h with h1 h2 h3
  simp only [Option.some.injEq, Prod.mk.injEq] at h
  obtain ⟨hk, hv⟩ := h
  refine ⟨?_, hk.symm, ?_, ?_⟩
  · rw [← hv]
    exact h3
  · rintro (e | e)
    · exact h1 (Or.inl e)
    · exact h1 (Or.inr (Or.inl e))
  · intro e
    exact h1 (Or.inr (Or.inr e))

theorem asnLine_some (tbl : CaseTables) (st : ASNScan) (rawLine k v : String)
    (h : asnEntry tbl rawLine = some (k, v)) :
    asnLine tbl st rawLine =
      asnKeyValue tbl st (TrimSpace (beforeColon (TrimSpace rawLine))) v := by
  obtain ⟨-, -, h1, h2⟩ := asnEntry_some tbl rawLine k v h
  rw [asnLine_eq, if_neg h1, if_neg h2, h]

theorem asnLine_none (tbl : CaseTables) (st : ASNScan) (rawLine : String)
    (h : asnEntry tbl rawLine = none) :
    (asnLine tbl st rawLine).asn =
      { st.asn with AbuseContact := (asnLine tbl st rawLine).asn.AbuseContact } := by
  rw [asnLine_eq]
  split_ifs
  · rfl
  · exact asnAbuseComment_only tbl st.asn _
  · rw [h]

theorem asnLine_Peers_none (tbl : CaseTables) (st : ASNScan) (rawLine : String)
    (h : asnEntry tbl rawLine = none) : (asnLine tbl st rawLine).asn.Peers = st.asn.Peers := by
  rw [asnLine_none tbl st rawLine h]

theorem asnLine_Number (tbl : CaseTables) (st : ASNScan) (rawLine : String) :
    (asnLine tbl st rawLine).asn.Number =
      match asnEntry tbl rawLine with
      | some (k, v) => if k = "aut-num" ∨ k = "asnumber" then v else st.asn.Number
      | none => st.asn.Number := by
  cases h : asnEntry tbl rawLine with
  | none =>
    rw [asnLine_none tbl st rawLine h]
  | some e =>
    obtain ⟨k, v⟩ := e
    rw [asnLine_some tbl st rawLine k v h, asnKeyValue_only]
    dsimp only
    rw [asnFieldStep_Number, ← (asnEntry_some tbl rawLine k v h).2.1]

theorem asnLine_Name (tbl : CaseTables) (st : ASNScan) (rawLine : String) :
    (asnLine tbl st rawLine).asn.Name =
      match asnEntry tbl rawLine with
      | some (k, v) => if k = "as-name" ∨ k = "asname" then v else st.asn.Name
      | none => st.asn.Name := by
  cases h : asnEntry tbl rawLine with
  | none =>
    rw [asnLine_none tbl st rawLine h]
  | some e =>
    obtain ⟨k, v⟩ := e
    rw [asnLine_some tbl st rawLine k v h, asnKeyValue_only]
    dsimp only
    rw [asnFieldStep_Name, ← (asnEntry_some tbl rawLine k v h).2.1]

theorem asnLine_Status (tbl : CaseTables) (st : ASNScan) (rawLine : String) :
    (asnLine tbl st rawLine).asn.Status =
      match asnEntry tbl rawLine with
      | some (k, v) => if k = "status" then v else st.asn.Status
      | none => st.asn.Status := by
  cases h : asnEntry tbl rawLine with
  | none =>
    rw [asnLine_none tbl st rawLine h]
  | some e =>
    obtain ⟨k, v⟩ := e
    rw [asnLine_some tbl st rawLine k v h, asnKeyValue_only]
    dsimp only
    rw [asnFieldStep_Status, ← (asnEntry_some tbl rawLine k v h).2.1]

theorem asnLine_Organization (tbl : CaseTables) (st : ASNScan) (rawLine : String) :
    (asnLine tbl st rawLine).asn.Organization =
      match asnEntry tbl rawLine with
      | some (k, v) => if k = "org-name" ∨ k = "orgname" then v else st.asn.Organization
      | none => st.asn.Organization := by
  cases h : asnEntry tbl rawLine with
  | none =>
    rw [asnLine_none tbl st rawLine h]
  | some e =>
    obtain ⟨k, v⟩ := e
    rw [asnLine_some tbl st rawLine k v h, asnKeyValue_only]
    dsimp only
    rw [asnFieldStep_Organization, ← (asnEntry_some tbl rawLine k v h).2.1]

theorem asnLine_Description (tbl : CaseTables) (st : ASNScan) (rawLine : String) :
    (asnLine tbl st rawLine).asn.Description =
      match asnEntry tbl rawLine with
      | some (k, v) =>
        if k = "descr" ∨ k = "description" then
          (if st.asn.Description = "" then v else st.asn.Description)
        else st.asn.Description
      | none => st.asn.Description := by
  cases h : asnEntry tbl rawLine with
  | none =>
    rw [asnLine_none tbl st rawLine h]
  | some e =>
    obtain ⟨k, v⟩ := e
    rw [asnLine_some tbl st rawLine k v h, asnKeyValue_only]
    dsimp only
    rw [asnFieldStep_Description, ← (asnEntry_some tbl rawLine k v h).2.1]

theorem asnLine_Peers (tbl : CaseTables) (st : ASNScan) (rawLine : String) :
    (st.asn.Peers <+: (asnLine tbl st rawLine).asn.Peers) ∧
    (st.asn.Peers.Nodup → (asnLine tbl st rawLine).asn.Peers.Nodup) ∧
    (∀ p ∈ (asnLine tbl st rawLine).asn.Peers,
      p ∈ st.asn.Peers ∨
        (isPeerToken p = true ∧ (isNumberLine tbl rawLine = false → p ≠ st.asn.Number))) ∧
    (isPeerLine tbl rawLine = false → (asnLine tbl st rawLine).asn.Peers = st.asn.Peers) := by
  cases h : asnEntry tbl rawLine with
  | none =>
    rw [asnLine_Peers_none tbl st rawLine h]
    exact ⟨List.prefix_refl _, fun hn => hn, fun p hp => Or.inl hp, fun _ => rfl⟩
  | some e =>
    obtain ⟨k, v⟩ := e
    obtain ⟨-, hk, -, -⟩ := asnEntry_some tbl rawLine k v h
    rw [asnLine_some tbl st rawLine k v h]
    have hP := asnFieldStep_Peers tbl st (TrimSpace (beforeColon (TrimSpace rawLine))) v
    have hN := asnFieldStep_Number tbl st (TrimSpace (beforeColon (TrimSpace rawLine))) v
    rw [← hk] at hN
    have hnum : isNumberLine tbl rawLine = decide (k = "aut-num" ∨ k = "asnumber") := by
      unfold isNumberLine
      rw [h]
    have hpeer : isPeerLine tbl rawLine = (HasPrefix k "import" || HasPrefix k "export") := by
      unfold isPeerLine
      rw [h]
    unfold asnKeyValue
    dsimp only
    rw [← hk]
    by_cases hc : (HasPrefix k "import" || HasPrefix k "export") = true
    · rw [if_pos hc]
      by_cases hv : Contains v "AS" = true
      · rw [if_pos hv]
        dsimp only
        obtain ⟨-, f2, f3, f4⟩ := peers_fold _ (Fields v)
          (asnFieldStep tbl st (TrimSpace (beforeColon (TrimSpace rawLine))) v).asn rfl
        rw [hP] at f2 f3 f4
        refine ⟨f2, f3, ?_, ?_⟩
        · intro p hp
          rcases f4 p hp with h1 | ⟨h1, h2⟩
          · exact Or.inl h1
          · refine Or.inr ⟨h2, ?_⟩
            intro hno
            rw [hnum] at hno
            have hno2 : ¬ (k = "aut-num" ∨ k = "asnumber") := by simpa using hno
            rw [hN, if_neg hno2] at h1
            exact h1
        · intro hno
          rw [hpeer, hc] at hno
          exact absurd hno (by decide)
      · rw [if_neg hv, hP]
        exact ⟨List.prefix_refl _, fun hn => hn, fun p hp => Or.inl hp, fun _ => rfl⟩
    · rw [if_neg hc, hP]
      exact ⟨List.prefix_refl _, fun hn => hn, fun p hp => Or.inl hp, fun _ => rfl⟩

theorem scan_peers (tbl : CaseTables) (lines : List String) :
    ∀ st : ASNScan,
      (st.asn.Peers <+: (lines.foldl (asnLine tbl) st).asn.Peers) ∧
      (st.asn.Peers.Nodup → (lines.foldl (asnLine tbl) st).asn.Peers.Nodup) ∧
      ((∀ p ∈ st.asn.Peers, isPeerToken p = true) →
        ∀ p ∈ (lines.foldl (asnLine tbl) st).asn.Peers, isPeerToken p = true) := by
  induction lines with
  | nil =>
    intro st
    exact ⟨List.prefix_refl _, fun h => h, fun h => h⟩
  | cons rawLine rest ih =>
    intro st
    rw [List.foldl_cons]
    obtain ⟨i1, i2, i3⟩ := ih (asnLine tbl st rawLine)
    obtain ⟨s1, s2, s3, -⟩ := asnLine_Peers tbl st rawLine
    refine ⟨s1.trans i1, fun h => i2 (s2 h), fun h => i3 ?_⟩
    intro p hp
    rcases s3 p hp with h1 | h1
    · exact h p h1
    · exact h1.1

theorem scan_noPeerLines (tbl : CaseTables) (lines : List String) :
    ∀ st : ASNScan, (∀ rawLine ∈ lines, isPeerLine tbl rawLine = false) →
      (lines.foldl (asnLine tbl) st).asn.Peers = st.asn.Peers := by
  induction lines with
  | nil =>
    intro st _
    rfl
  | cons rawLine rest ih =>
    intro st h
    rw [List.foldl_cons, ih _ (fun r hr => h r (List.mem_cons_of_mem _ hr))]
    exact (asnLine_Peers tbl st rawLine).2.2.2 (h rawLine (List.mem_cons_self _ _))

theorem asnLine_Number_keep (tbl : CaseTables) (st : ASNScan) (rawLine : String)
    (h : isNumberLine tbl rawLine = false) :
    (asnLine tbl st rawLine).asn.Number = st.asn.Number := by
  rw [asnLine_Number]
  unfold isNumberLine at h
  cases he : asnEntry tbl rawLine with
  | none => rfl
  | some e =>
    obtain ⟨k, v⟩ := e
    rw [he] at h
    dsimp only at h ⊢
    have h2 : ¬ (k = "aut-num" ∨ k = "asnumber") := by simpa using h
    rw [if_neg h2]

theorem scan_noNumberLines (tbl : CaseTables) (lines : List String) :
    ∀ st : ASNScan, (∀ rawLine ∈ lines, isNumberLine tbl rawLine = false) →
      st.asn.Number ∉ st.asn.Peers →
      (lines.foldl (asnLine tbl) st).asn.Number ∉ (lines.foldl (asnLine tbl) st).asn.Peers := by
  induction lines with
  | nil =>
    intro st _ h
    exact h
  | cons rawLine rest ih =>
    intro st h hn
    rw [List.foldl_cons]
    apply ih _ (fun r hr => h r (List.mem_cons_of_mem _ hr))
    have hno := h rawLine (List.mem_cons_self _ _)
    rw [asnLine_Number_keep tbl st rawLine hno]
    intro hmem
    rcases (asnLine_Peers tbl st rawLine).2.2.1 _ hmem with h1 | h1
    · exact hn h1
    · exact h1.2 hno rfl

theorem scan_nonempty (tbl : CaseTables) (p : ASNScan → String) (keys : List String)
    (hstep : ∀ (st : ASNScan) (rawLine : String),
      p (asnLine tbl st rawLine) ≠ "" ↔ (p st ≠ "" ∨ lineHasKey tbl keys rawLine = true))
    (lines : List String) :
    ∀ st : ASNScan, p (lines.foldl (asnLine tbl) st) ≠ "" ↔
      (p st ≠ "" ∨ lines.any (lineHasKey tbl keys) = true) := by
  induction lines with
  | nil =>
    intro st
    simp
  | cons rawLine rest ih =>
    intro st
    rw [List.foldl_cons, ih, hstep, List.any_cons, Bool.or_eq_true]
    tauto

theorem step_Organization (tbl : CaseTables) (st : ASNScan) (rawLine : String) :
    (asnLine tbl st rawLine).asn.Organization ≠ "" ↔
      (st.asn.Organization ≠ "" ∨ lineHasKey tbl ["org-name", "orgname"] rawLine = true) := by
  rw [asnLine_Organization]
  unfold lineHasKey
  cases he : asnEntry tbl rawLine with
  | none => simp
  | some e =>
    obtain ⟨k, v⟩ := e
    have hv := (asnEntry_some tbl rawLine k v he).1
    dsimp only
    by_cases hk : k = "org-name" ∨ k = "orgname"
    · rw [if_pos hk]
      have : ["org-name", "orgname"].contains k = true := by simpa using hk
      exact ⟨fun _ => Or.inr this, fun _ => hv⟩
    · rw [if_neg hk]
      have : ["org-name", "orgname"].contains k = false := by simpa using hk
      rw [this]
      simp

theorem step_Status (tbl : CaseTables) (st : ASNScan) (rawLine : String) :
    (asnLine tbl st rawLine).asn.Status ≠ "" ↔
      (st.asn.Status ≠ "" ∨ lineHasKey tbl ["status"] rawLine = true) := by
  rw [asnLine_Status]
  unfold lineHasKey
  cases he : asnEntry tbl rawLine with
  | none => simp
  | some e =>
    obtain ⟨k, v⟩ := e
    have hv := (asnEntry_some tbl rawLine k v he).1
    dsimp only
    by_cases hk : k = "status"
    · rw [if_pos hk]
      have : ["status"].contains k = true := by simpa using hk
      exact ⟨fun _ => Or.inr this, fun _ => hv⟩
    · rw [if_neg hk]
      have : ["status"].contains k = false := by simpa using hk
      rw [this]
      simp

theorem step_Description (tbl : CaseTables) (st : ASNScan) (rawLine : String) :
    (asnLine tbl st rawLine).asn.Description ≠ "" ↔
      (st.asn.Description ≠ "" ∨ lineHasKey tbl ["descr", "description"] rawLine = true) := by
  rw [asnLine_Description]
  unfold lineHasKey
  cases he : asnEntry tbl rawLine with
  | none => simp
  | some e =>
    obtain ⟨k, v⟩ := e
    have hv := (asnEntry_some tbl rawLine k v he).1
    dsimp only
    by_cases hk : k = "descr" ∨ k = "description"
    · rw [if_pos hk]
      have : ["descr", "description"].contains k = true := by simpa using hk
      by_cases hd : st.asn.Description = ""
      · rw [if_pos hd]
        exact ⟨fun _ => Or.inr this, fun _ => hv⟩
      · rw [if_neg hd]
        exact ⟨fun _ => Or.inl hd, fun _ => hd⟩
    · rw [if_neg hk]
      have : ["descr", "description"].contains k = false := by simpa using hk
      rw [this]
      simp

theorem parseASNInfo_some (tbl : CaseTables) (result : QueryResult)
    (h : result.RawData ≠ "") :
    ∃ asn, parseASNInfo tbl result = some asn ∧
      asn.Number = (asnScan tbl result).asn.Number ∧
      asn.Peers = (asnScan tbl result).asn.Peers ∧
      asn.Name = (asnScan tbl result).asn.Name ∧
      asn.Description = (asnScan tbl result).asn.Description ∧
      asn.Organization =
        (if (asnScan tbl result).asn.Organization = "" ∧
            (asnScan tbl result).asn.Description ≠ "" then
          (asnScan tbl result).asn.Description
        else (asnScan tbl result).asn.Organization) ∧
      asn.Status =
        (if (asnScan tbl result).asn.Status = "" ∧
            ((asnScan tbl result).asn.Name ≠ "" ∨ asn.Organization ≠ "") then "active"
        else (asnScan tbl result).asn.Status) := by
  unfold parseASNInfo
  rw [if_neg h]
  refine ⟨_, rfl, ?_⟩
  show _ ∧ _ ∧ _ ∧ _ ∧ _ ∧ _
  dsimp only
  have hs : List.foldl (asnLine tbl) { asn := { Number := result.Query } }
      (Split result.RawData '\n') = asnScan tbl result := rfl
  rw [hs]
  generalize (asnScan tbl result).asn = a
  by_cases hO : a.Organization = "" <;> by_cases hD : a.Description = "" <;>
    by_cases hS : a.Status = "" <;> by_cases hN : a.Name = "" <;> simp [hO, hD, hS, hN]

theorem isPeerToken_spec (p : String) (h : isPeerToken p = true) :
    HasPrefix p "AS" = true ∧ len p > 2 ∧
      ∃ c, p.data.getLast? = some c ∧ c ≠ ',' ∧ c ≠ ';' ∧ c ≠ ':' := by
  unfold isPeerToken at h
  simp only [Bool.and_eq_true, decide_eq_true_eq] at h
  obtain ⟨⟨h1, h2⟩, h3⟩ := h
  refine ⟨h1, h2, ?_⟩
  cases hl : p.data.getLast? with
  | none =>
    rw [hl] at h3
    exact absurd h3 (by decide)
  | some c =>
    rw [hl] at h3
    have hc : ",;:".data.contains c = false := by simpa using h3
    have hd : ",;:".data = [',', ';', ':'] := rfl
    rw [hd] at hc
    simp only [List.contains_eq_any_beq, List.any_cons, List.any_nil, Bool.or_false,
      Bool.or_eq_false_iff, beq_eq_false_iff_ne, ne_eq] at hc
    exact ⟨c, rfl, hc.1, hc.2.1, hc.2.2⟩

/-- C28, where the check of the code holds: a peer is compared with the number the record
has when the peer's line is read, so when every line that sets the number (`aut-num`,
`asnumber`) stands before every `import`/`export` line, no element of `Peers` equals the
returned `Number`. -/
theorem parseASNInfo_self_peer (tbl : CaseTables) (result : QueryResult)
    (pre post : List String) (h : result.RawData ≠ "")
    (hs : Split result.RawData '\n' = pre ++ post)
    (hpre : ∀ rawLine ∈ pre, isPeerLine tbl rawLine = false)
    (hpost : ∀ rawLine ∈ post, isNumberLine tbl rawLine = false) :
    ∃ asn, parseASNInfo tbl result = some asn ∧ asn.Number ∉ asn.Peers := by
  obtain ⟨asn, ha, hN, hP, -⟩ := parseASNInfo_some tbl result h
  refine ⟨asn, ha, ?_⟩
  rw [hN, hP]
  unfold asnScan
  rw [hs, List.foldl_append]
  apply scan_noNumberLines tbl post _ hpost
  rw [scan_noPeerLines tbl pre _ hpre]
  exact List.not_mem_nil _

/-- Witness of C28: the `aut-num` line of `orderedPeerResult` stands before its `import`
line. -/
theorem parseASNInfo_self_peer_witness :
    (∃ asn, parseASNInfo CaseTables.ascii orderedPeerResult = some asn ∧
      asn.Number ∉ asn.Peers) ∧
    (parseASNInfo CaseTables.ascii orderedPeerResult).map (fun asn => (asn.Number, asn.Peers)) =
      some ("AS9009", ["AS701"]) :=
  ⟨parseASNInfo_self_peer CaseTables.ascii orderedPeerResult ["aut-num: AS9009"]
    ["import: from AS9009 AS701, AS701 accept ANY"] (by decide) (by decide!) (by decide!)
    (by decide!), by decide!⟩

/-- C28, the failing input: the query is "as9009", the `import` line names AS9009 and
stands before the line `aut-num: AS9009`; the returned `Number` is "AS9009" and `Peers`
contains "AS9009". -/
theorem parseASNInfo_self_peer_counterexample :
    (parseASNInfo CaseTables.ascii selfPeerResult).map (fun asn => (asn.Number, asn.Peers)) =
      some ("AS9009", ["AS9009"]) := by
  decide!

/-- C29: the `Peers` list of `parseASNInfo` has no duplicates, every element starts
with "AS", is longer than 2 bytes and ends with none of `,`, `;`, `:`, and the list only
grows at its end while the lines are read: the peers after any first part of the lines
are a prefix of the final list (first-seen order). -/
theorem parseASNInfo_peers (tbl : CaseTables) (result : QueryResult)
    (h : result.RawData ≠ "") :
    ∃ asn, parseASNInfo tbl result = some asn ∧ asn.Peers.Nodup ∧
      (∀ p ∈ asn.Peers, HasPrefix p "AS" = true ∧ len p > 2 ∧
        ∃ c, p.data.getLast? = some c ∧ c ≠ ',' ∧ c ≠ ';' ∧ c ≠ ':') ∧
      (∀ pre post : List String, Split result.RawData '\n' = pre ++ post →
        (pre.foldl (asnLine tbl) { asn := { Number := result.Query } }).asn.Peers <+:
          asn.Peers) := by
  obtain ⟨asn, ha, -, hP, -⟩ := parseASNInfo_some tbl result h
  refine ⟨asn, ha, ?_, ?_, ?_⟩
  · rw [hP]
    exact (scan_peers tbl _ _).2.1 List.nodup_nil
  · intro p hp
    rw [hP] at hp
    exact isPeerToken_spec p ((scan_peers tbl _ _).2.2 (fun q hq => absurd hq (List.not_mem_nil _))
      p hp)
  · intro pre post hs
    rw [hP]
    unfold asnScan
    rw [hs, List.foldl_append]
    exact (scan_peers tbl post _).1

/-- Witness of C29: the `import` line of `peersResult` holds the tokens "AS701,",
"AS3356;" and "AS701"; the peers are "AS701" and "AS3356". -/
theorem parseASNInfo_peers_witness :
    (∃ asn, parseASNInfo CaseTables.ascii peersResult = some asn ∧ asn.Peers.Nodup ∧
      (∀ p ∈ asn.Peers, HasPrefix p "AS" = true ∧ len p > 2 ∧
        ∃ c, p.data.getLast? = some c ∧ c ≠ ',' ∧ c ≠ ';' ∧ c ≠ ':') ∧
      (∀ pre post : List String, Split peersResult.RawData '\n' = pre ++ post →
        (pre.foldl (asnLine CaseTables.ascii)
          { asn := { Number := peersResult.Query } }).asn.Peers <+: asn.Peers)) ∧
    (parseASNInfo CaseTables.ascii peersResult).map (fun asn => asn.Peers) =
      some ["AS701", "AS3356"] :=
  ⟨parseASNInfo_peers CaseTables.ascii peersResult (by decide), by decide!⟩

/-- C30: for a non-empty text, when no line gives an `org-name`/`orgname` value and a
description was captured, `Organization` equals `Description`; when no line gives a
`status` value and `Name` or `Organization` is not empty, `Status` is "active"; so a
record with an empty `Status` has empty `Name`, `Organization` and `Description`.  A
description is captured exactly when some line gives a `descr`/`description` value. -/
theorem parseASNInfo_fallbacks (tbl : CaseTables) (result : QueryResult)
    (h : result.RawData ≠ "") :
    ∃ asn, parseASNInfo tbl result = some asn ∧
      (hasKeyLine tbl ["org-name", "orgname"] result.RawData = false →
        asn.Description ≠ "" → asn.Organization = asn.Description) ∧
      (hasKeyLine tbl ["status"] result.RawData = false →
        (asn.Name ≠ "" ∨ asn.Organization ≠ "") → asn.Status = "active") ∧
      (asn.Status = "" → asn.Name = "" ∧ asn.Organization = "" ∧ asn.Description = "") ∧
      (asn.Description ≠ "" ↔
        hasKeyLine tbl ["descr", "description"] result.RawData = true) := by
  obtain ⟨asn, ha, -, -, hName, hDesc, hOrg, hStat⟩ := parseASNInfo_some tbl result h
  have hO := scan_nonempty tbl (fun st => st.asn.Organization) ["org-name", "orgname"]
    (step_Organization tbl) (Split result.RawData '\n') { asn := { Number := result.Query } }
  have hS := scan_nonempty tbl (fun st => st.asn.Status) ["status"]
    (step_Status tbl) (Split result.RawData '\n') { asn := { Number := result.Query } }
  have hD := scan_nonempty tbl (fun st => st.asn.Description) ["descr", "description"]
    (step_Description tbl) (Split result.RawData '\n') { asn := { Number := result.Query } }
  have hO2 : (asnScan tbl result).asn.Organization ≠ "" ↔
      hasKeyLine tbl ["org-name", "orgname"] result.RawData = true := by
    unfold asnScan hasKeyLine
    rw [hO]
    simp
  have hS2 : (asnScan tbl result).asn.Status ≠ "" ↔
      hasKeyLine tbl ["status"] result.RawData = true := by
    unfold asnScan hasKeyLine
    rw [hS]
    simp
  have hD2 : (asnScan tbl result).asn.Description ≠ "" ↔
      hasKeyLine tbl ["descr", "description"] result.RawData = true := by
    unfold asnScan hasKeyLine
    rw [hD]
    simp
  refine ⟨asn, ha, ?_, ?_, ?_, ?_⟩
  · intro hno hd
    have hOe : (asnScan tbl result).asn.Organization = "" := by
      by_contra hne
      rw [hO2.1 hne] at hno
      exact absurd hno (by decide)
    rw [hDesc] at hd ⊢
    rw [hOrg, if_pos ⟨hOe, hd⟩]
  · intro hno hor
    have hSe : (asnScan tbl result).asn.Status = "" := by
      by_contra hne
      rw [hS2.1 hne] at hno
      exact absurd hno (by decide)
    rw [hName] at hor
    rw [hStat, if_pos ⟨hSe, hor⟩]
  · intro hst
    rw [hStat] at hst
    by_cases hc : (asnScan tbl result).asn.Status = "" ∧
        ((asnScan tbl result).asn.Name ≠ "" ∨ asn.Organization ≠ "")
    · rw [if_pos hc] at hst
      exact absurd hst (by decide)
    · rw [if_neg hc] at hst
      have hno : ¬ ((asnScan tbl result).asn.Name ≠ "" ∨ asn.Organization ≠ "") :=
        fun e => hc ⟨hst, e⟩
      push_neg at hno
      obtain ⟨hn, ho⟩ := hno
      refine ⟨hName.trans hn, ho, ?_⟩
      rw [hDesc]
      rw [hOrg] at ho
      by_contra hd
      by_cases ho2 : (asnScan tbl result).asn.Organization = ""
      · rw [if_pos ⟨ho2, hd⟩] at ho
        exact hd ho
      · rw [if_neg (fun e => ho2 e.1)] at ho
        exact ho2 ho
  · rw [hDesc]
    exact hD2

/-- Witness of C30: `describedResult` has a name and two description lines, no
organization and no status; the organization is the first description and the status
is "active". -/
theorem parseASNInfo_fallbacks_witness :
    (∃ asn, parseASNInfo CaseTables.ascii describedResult = some asn ∧
      (hasKeyLine CaseTables.ascii ["org-name", "orgname"] describedResult.RawData = false →
        asn.Description ≠ "" → asn.Organization = asn.Description) ∧
      (hasKeyLine CaseTables.ascii ["status"] describedResult.RawData = false →
        (asn.Name ≠ "" ∨ asn.Organization ≠ "") → asn.Status = "active") ∧
      (asn.Status = "" → asn.Name = "" ∧ asn.Organization = "" ∧ asn.Description = "") ∧
      (asn.Description ≠ "" ↔
        hasKeyLine CaseTables.ascii ["descr", "description"] describedResult.RawData = true)) ∧
    parseASNInfo CaseTables.ascii describedResult =
      some { Number := "AS64500", Name := "EXAMPLE", Description := "Example Net",
             Organization := "Example Net", Status := "active" } :=
  ⟨parseASNInfo_fallbacks CaseTables.ascii describedResult (by decide), by decide!⟩

/-! ## The WHOIS summary as a whole -/

theorem whoisStatusPart_only (s : Summary) (part : String) :
    whoisStatusPart s part = { s with StatusDetails := (whoisStatusPart s part).StatusDetails } := by
  unfold whoisStatusPart; repeat' (first | rfl | split | dsimp only)

theorem foldl_only_StatusDetails {α : Type} (f : Summary → α → Summary)
    (h : ∀ s x, f s x = { s with StatusDetails := (f s x).StatusDetails }) (l : List α) :
    ∀ s : Summary, l.foldl f s = { s with StatusDetails := (l.foldl f s).StatusDetails } := by
  induction l with
  | nil =>
    intro s
    rfl
  | cons x xs ih =>
    intro s
    rw [List.foldl_cons]
    calc xs.foldl f (f s x)
        = { f s x with StatusDetails := (xs.foldl f (f s x)).StatusDetails } := ih _
      _ = { s with StatusDetails := (xs.foldl f (f s x)).StatusDetails } := by
        have h2 := h s x
        generalize xs.foldl f (f s x) = r
        rw [h2]

theorem whoisStatusField_only (fields : List (String × Value)) (s : Summary) (field : String) :
    whoisStatusField fields s field =
      { s with StatusDetails := (whoisStatusField fields s field).StatusDetails } := by
  unfold whoisStatusField
  split
  · exact foldl_only_StatusDetails whoisStatusPart whoisStatusPart_only _ s
  · rfl

theorem whoisNameserverStep_only (tbl : CaseTables) (s : Summary) (x : String × Value) :
    whoisNameserverStep tbl s x =
      { s with Nameservers := (whoisNameserverStep tbl s x).Nameservers } := by
  unfold whoisNameserverStep; repeat' (first | rfl | split | dsimp only)

theorem foldl_only_Nameservers {α : Type} (f : Summary → α → Summary)
    (h : ∀ s x, f s x = { s with Nameservers := (f s x).Nameservers }) (l : List α) :
    ∀ s : Summary, l.foldl f s = { s with Nameservers := (l.foldl f s).Nameservers } := by
  induction l with
  | nil =>
    intro s
    rfl
  | cons x xs ih =>
    intro s
    rw [List.foldl_cons]
    calc xs.foldl f (f s x)
        = { f s x with Nameservers := (xs.foldl f (f s x)).Nameservers } := ih _
      _ = { s with Nameservers := (xs.foldl f (f s x)).Nameservers } := by
        have h2 := h s x
        generalize xs.foldl f (f s x) = r
        rw [h2]

theorem whoisNameserverStep_list (tbl : CaseTables) (s : Summary) (x : String × Value) :
    (whoisNameserverStep tbl s x).Nameservers = nameserverStep tbl s.Nameservers x := by
  unfold whoisNameserverStep nameserverStep
  repeat' (first | rfl | split)

theorem foldl_whoisNameserverStep (tbl : CaseTables) (fields : List (String × Value)) :
    ∀ s : Summary, (fields.foldl (whoisNameserverStep tbl) s).Nameservers =
      fields.foldl (nameserverStep tbl) s.Nameservers := by
  induction fields with
  | nil =>
    intro s
    rfl
  | cons x xs ih =>
    intro s
    rw [List.foldl_cons, List.foldl_cons, ih, whoisNameserverStep_list]

theorem parseWhoisSummary_blocks (rt : Runtime) (result : QueryResult) (summary : Summary)
    (data fields : List (String × Value)) (hD : result.Data = Value.obj data)
    (hf : data.lookup "parsed_fields" = some (Value.obj fields)) :
    parseWhoisSummary rt result summary =
      whoisRegistrarBlock fields (whoisTimelineBlock rt fields (whoisDnssecBlock fields
        (fields.foldl (whoisNameserverStep rt.tbl) (whoisStatusBlock rt data fields summary)))) := by
  unfold parseWhoisSummary
  rw [hD]
  dsimp only
  split
  · rename_i fields2 hf2
    have hfe : fields2 = fields := by
      rw [hf] at hf2
      injection hf2 with h1
      injection h1 with h2
      exact h2.symm
    subst hfe
    rfl
  · rename_i hno
    exact absurd hf (hno fields)

theorem whoisDnssecBlock_eq (fields : List (String × Value)) (t : Summary) :
    whoisDnssecBlock fields t =
      { t with DNSSEC :=
          match fields.lookup "dnssec" with
          | some (Value.str dnssec) =>
            { Enabled := decide (dnssec = "signedDelegation"), Details := dnssec }
          | _ => t.DNSSEC } := by
  unfold whoisDnssecBlock
  split <;> rfl

theorem whoisTimelineBlock_eq (rt : Runtime) (fields : List (String × Value)) (t : Summary) :
    whoisTimelineBlock rt fields t =
      { t with Timeline :=
          { Registration :=
              match whoisEvent rt fields "creation_date" with
              | some ev => some ev
              | none => t.Timeline.Registration,
            LastUpdated :=
              match whoisEvent rt fields "updated_date" with
              | some ev => some ev
              | none => t.Timeline.LastUpdated,
            Expiration :=
              match whoisEvent rt fields "registry_expiry_date" with
              | some ev => some ev
              | none => t.Timeline.Expiration } } := by
  unfold whoisTimelineBlock
  cases whoisEvent rt fields "creation_date" <;>
    cases whoisEvent rt fields "updated_date" <;>
    cases whoisEvent rt fields "registry_expiry_date" <;> rfl

theorem whoisRegistrarBlock_eq (fields : List (String × Value)) (t : Summary) :
    whoisRegistrarBlock fields t =
      { t with Registrar :=
          { Name :=
              match fields.lookup "registrar" with
              | some (Value.str registrar) => registrar
              | _ => t.Registrar.Name,
            ID :=
              match fields.lookup "registrar_iana_id" with
              | some (Value.str registrarID) => registrarID
              | _ => t.Registrar.ID } } := by
  unfold whoisRegistrarBlock
  dsimp only
  repeat' (first | rfl | split)

theorem whoisStatusBlock_eq (rt : Runtime) (data fields : List (String × Value))
    (t : Summary) :
    whoisStatusBlock rt data fields t =
      { t with
        Status := InterpretStatus rt.tbl
          (["domain_status", "status"].foldl (whoisStatusField fields) t).StatusDetails
          (whoisRaw data),
        StatusDetails :=
          (["domain_status", "status"].foldl (whoisStatusField fields) t).StatusDetails } := by
  unfold whoisStatusBlock
  have hS := foldl_only_StatusDetails (whoisStatusField fields) (whoisStatusField_only fields)
    ["domain_status", "status"] t
  dsimp only
  generalize ["domain_status", "status"].foldl (whoisStatusField fields) t = r at hS ⊢
  rw [hS]

theorem whoisNameserverFold_eq (tbl : CaseTables) (fields : List (String × Value))
    (t : Summary) :
    fields.foldl (whoisNameserverStep tbl) t =
      { t with Nameservers := fields.foldl (nameserverStep tbl) t.Nameservers } := by
  have hN := foldl_only_Nameservers (whoisNameserverStep tbl) (whoisNameserverStep_only tbl)
    fields t
  rw [foldl_whoisNameserverStep] at hN
  exact hN

theorem parseWhoisSummary_eq (rt : Runtime) (result : QueryResult) (summary : Summary)
    (data fields : List (String × Value)) (hD : result.Data = Value.obj data)
    (hf : data.lookup "parsed_fields" = some (Value.obj fields)) :
    parseWhoisSummary rt result summary =
      { summary with
        Status := InterpretStatus rt.tbl
          (["domain_status", "status"].foldl (whoisStatusField fields) summary).StatusDetails
          (whoisRaw data),
        StatusDetails :=
          (["domain_status", "status"].foldl (whoisStatusField fields) summary).StatusDetails,
        Timeline :=
          { Registration :=
              match whoisEvent rt fields "creation_date" with
              | some ev => some ev
              | none => summary.Timeline.Registration,
            LastUpdated :=
              match whoisEvent rt fields "updated_date" with
              | some ev => some ev
              | none => summary.Timeline.LastUpdated,
            Expiration :=
              match whoisEvent rt fields "registry_expiry_date" with
              | some ev => some ev
              | none => summary.Timeline.Expiration },
        Nameservers := fields.foldl (nameserverStep rt.tbl) summary.Nameservers,
        DNSSEC :=
          match fields.lookup "dnssec" with
          | some (Value.str dnssec) =>
            { Enabled := decide (dnssec = "signedDelegation"), Details := dnssec }
          | _ => summary.DNSSEC,
        Registrar :=
          { Name :=
              match fields.lookup "registrar" with
              | some (Value.str registrar) => registrar
              | _ => summary.Registrar.Name,
            ID :=
              match fields.lookup "registrar_iana_id" with
              | some (Value.str registrarID) => registrarID
              | _ => summary.Registrar.ID } } := by
  rw [parseWhoisSummary_blocks rt result summary data fields hD hf, whoisRegistrarBlock_eq,
    whoisTimelineBlock_eq, whoisDnssecBlock_eq, whoisNameserverFold_eq, whoisStatusBlock_eq]

theorem parseWhoisSummary_none (rt : Runtime) (result : QueryResult) (summary : Summary)
    (h : ∀ data fields, result.Data = Value.obj data →
      data.lookup "parsed_fields" ≠ some (Value.obj fields)) :
    parseWhoisSummary rt result summary = summary := by
  unfold parseWhoisSummary
  cases hD : result.Data with
  | obj data =>
    dsimp only
    split
    · rename_i fields hf
      exact absurd hf (h data fields hD)
    · rfl
  | null => rfl
  | bool b => rfl
  | number t => rfl
  | arr a => rfl
  | str t => rfl

/-! ## What the protocol parsers leave alone, and `CreateSummary` as a whole -/

theorem parseRDAPSummary_TimelineAll (rt : Runtime) (result : QueryResult)
    (summary : Summary) :
    ∃ (t : Summary) (events : List Value), t.Timeline = summary.Timeline ∧
      (parseRDAPSummary rt result summary).Timeline =
        (events.foldl (rdapEventStep rt) t).Timeline := by
  unfold parseRDAPSummary
  have hS := foldl_keeps rdapStatusStep (fun s => s.Timeline) rdapStatusStep_Timeline
  have hN := foldl_keeps rdapNameserverStep (fun s => s.Timeline) rdapNameserverStep_Timeline
  have hR := foldl_keeps rdapEntityStep (fun s => s.Timeline) rdapEntityStep_Timeline
  cases hD : result.Data with
  | obj domainData =>
    simp only
    have e1 : ∀ t : Summary, (match domainData.lookup "Entities" with
        | some (Value.arr entitiesArray) => entitiesArray.foldl rdapEntityStep t
        | _ => t).Timeline = t.Timeline := by
      intro t; split
      · exact hR _ _
      · rfl
    have e3 : ∀ t : Summary, (match domainData.lookup "SecureDNS" with
        | some (Value.obj secureDNS) =>
          match secureDNS.lookup "DelegationSigned" with
          | some (Value.bool delegationSigned) =>
            if delegationSigned then
              ({ t with DNSSEC := { Enabled := delegationSigned, Details := "Delegation signed" } } : Summary)
            else
              { t with DNSSEC := { t.DNSSEC with Enabled := delegationSigned } }
          | _ => t
        | _ => t).Timeline = t.Timeline := by
      intro t; repeat' (first | rfl | split)
    have e4 : ∀ t : Summary, (match domainData.lookup "Nameservers" with
        | some (Value.arr nsArray) => nsArray.foldl rdapNameserverStep t
        | _ => t).Timeline = t.Timeline := by
      intro t; split
      · exact hN _ _
      · rfl
    have e5 : (match domainData.lookup "Status" with
        | some (Value.arr statusArray) =>
          ({ statusArray.foldl rdapStatusStep summary with
            Status := InterpretStatus rt.tbl (statusArray.foldl rdapStatusStep summary).StatusDetails
              (rt.jsonMarshal (Value.obj domainData)) } : Summary)
        | _ => summary).Timeline = summary.Timeline := by
      split
      · exact hS _ _
      · rfl
    rw [e1]
    split
    · rename_i ev hev
      exact ⟨_, ev, by rw [e3, e4, e5], rfl⟩
    · exact ⟨_, [], by rw [e3, e4, e5], rfl⟩
  | null => exact ⟨summary, [], rfl, rfl⟩
  | bool b => exact ⟨summary, [], rfl, rfl⟩
  | number t => exact ⟨summary, [], rfl, rfl⟩
  | arr a => exact ⟨summary, [], rfl, rfl⟩
  | str t => exact ⟨summary, [], rfl, rfl⟩

theorem parseRDAPSummary_frame (rt : Runtime) (result : QueryResult) (summary : Summary) :
    (parseRDAPSummary rt result summary).Domain = summary.Domain ∧
    (parseRDAPSummary rt result summary).Protocol = summary.Protocol ∧
    (parseRDAPSummary rt result summary).QueryType = summary.QueryType ∧
    (parseRDAPSummary rt result summary).PostExpiration = summary.PostExpiration ∧
    (parseRDAPSummary rt result summary).ASN = summary.ASN := by
  have key : (fun s : Summary => (s.Domain, s.Protocol, s.QueryType, s.PostExpiration, s.ASN))
      (parseRDAPSummary rt result summary) =
      (summary.Domain, summary.Protocol, summary.QueryType, summary.PostExpiration,
        summary.ASN) := by
    unfold parseRDAPSummary
    have hS := foldl_keeps rdapStatusStep
      (fun s => (s.Domain, s.Protocol, s.QueryType, s.PostExpiration, s.ASN))
      (fun s x => by unfold rdapStatusStep; repeat' (first | rfl | split))
    have hN := foldl_keeps rdapNameserverStep
      (fun s => (s.Domain, s.Protocol, s.QueryType, s.PostExpiration, s.ASN))
      (fun s x => by unfold rdapNameserverStep; repeat' (first | rfl | split))
    have hE := foldl_keeps (rdapEventStep rt)
      (fun s => (s.Domain, s.Protocol, s.QueryType, s.PostExpiration, s.ASN))
      (fun s x => by unfold rdapEventStep; repeat' (first | rfl | split | dsimp only))
    have hR := foldl_keeps rdapEntityStep
      (fun s => (s.Domain, s.Protocol, s.QueryType, s.PostExpiration, s.ASN))
      (fun s x => by rw [rdapEntityStep_only])
    cases hD : result.Data with
    | obj domainData =>
      simp only
      have e1 : ∀ t : Summary, (fun s : Summary =>
          (s.Domain, s.Protocol, s.QueryType, s.PostExpiration, s.ASN))
          (match domainData.lookup "Entities" with
          | some (Value.arr entitiesArray) => entitiesArray.foldl rdapEntityStep t
          | _ => t) = (t.Domain, t.Protocol, t.QueryType, t.PostExpiration, t.ASN) := by
        intro t; split
        · exact hR _ _
        · rfl
      have e2 : ∀ t : Summary, (fun s : Summary =>
          (s.Domain, s.Protocol, s.QueryType, s.PostExpiration, s.ASN))
          (match domainData.lookup "Events" with
          | some (Value.arr eventsArray) => eventsArray.foldl (rdapEventStep rt) t
          | _ => t) = (t.Domain, t.Protocol, t.QueryType, t.PostExpiration, t.ASN) := by
        intro t; split
        · exact hE _ _
        · rfl
      have e3 : ∀ t : Summary, (fun s : Summary =>
          (s.Domain, s.Protocol, s.QueryType, s.PostExpiration, s.ASN))
          (match domainData.lookup "SecureDNS" with
          | some (Value.obj secureDNS) =>
            match secureDNS.lookup "DelegationSigned" with
            | some (Value.bool delegationSigned) =>
              if delegationSigned then
                ({ t with DNSSEC := { Enabled := delegationSigned, Details := "Delegation signed" } } : Summary)
              else
                { t with DNSSEC := { t.DNSSEC with Enabled := delegationSigned } }
            | _ => t
          | _ => t) = (t.Domain, t.Protocol, t.QueryType, t.PostExpiration, t.ASN) := by
        intro t; repeat' (first | rfl | split)
      have e4 : ∀ t : Summary, (fun s : Summary =>
          (s.Domain, s.Protocol, s.QueryType, s.PostExpiration, s.ASN))
          (match domainData.lookup "Nameservers" with
          | some (Value.arr nsArray) => nsArray.foldl rdapNameserverStep t
          | _ => t) = (t.Domain, t.Protocol, t.QueryType, t.PostExpiration, t.ASN) := by
        intro t; split
        · exact hN _ _
        · rfl
      have e5 : (fun s : Summary =>
          (s.Domain, s.Protocol, s.QueryType, s.PostExpiration, s.ASN))
          (match domainData.lookup "Status" with
          | some (Value.arr statusArray) =>
            ({ statusArray.foldl rdapStatusStep summary with
              Status := InterpretStatus rt.tbl (statusArray.foldl rdapStatusStep summary).StatusDetails
                (rt.jsonMarshal (Value.obj domainData)) } : Summary)
          | _ => summary) = (summary.Domain, summary.Protocol, summary.QueryType,
            summary.PostExpiration, summary.ASN) := by
        split
        · exact hS _ _
        · rfl
      exact (e1 _).trans ((e2 _).trans ((e3 _).trans ((e4 _).trans e5)))
    | null => rfl
    | bool b => rfl
    | number t => rfl
    | arr a => rfl
    | str t => rfl
  simp only [Prod.mk.injEq] at key
  exact key

theorem guidance_congr (tbl : CaseTables) (now : Time) (s t : Summary)
    (hD : s.Domain = t.Domain) (hE : s.Timeline.Expiration = t.Timeline.Expiration) :
    GeneratePostExpirationGuidance tbl now s = GeneratePostExpirationGuidance tbl now t := by
  unfold GeneratePostExpirationGuidance
  rw [hD, hE]

theorem CreateSummary_eq (rt : Runtime) (result : QueryResult) (P : Summary)
    (hP : P = if result.Protocol = "RDAP" then parseRDAPSummary rt result (initialSummary result)
      else parseWhoisSummary rt result (initialSummary result)) :
    CreateSummary rt result =
      { P with
        Status :=
          if result.Type_ = "asn" then
            match parseASNInfo rt.tbl result with
            | some asn => if asn.Status ≠ "" then asn.Status else P.Status
            | none => P.Status
          else P.Status,
        ASN := if result.Type_ = "asn" then parseASNInfo rt.tbl result else P.ASN,
        PostExpiration :=
          if P.Timeline.Expiration.isSome then GeneratePostExpirationGuidance rt.tbl rt.now P
          else P.PostExpiration } := by
  unfold CreateSummary
  have hs : QueryType.toString QueryTypeASN = "asn" := rfl
  have hP2 : (if result.Protocol = "RDAP" then
      parseRDAPSummary rt result
        { Domain := result.Query, Protocol := result.Protocol, QueryType := result.Type_ }
    else parseWhoisSummary rt result
        { Domain := result.Query, Protocol := result.Protocol, QueryType := result.Type_ }) = P :=
    hP.symm
  rw [hs]
  dsimp only
  rw [hP2]
  by_cases hT : result.Type_ = "asn"
  · rw [if_pos hT, if_pos hT, if_pos hT]
    cases parseASNInfo rt.tbl result with
    | none =>
      dsimp only
      by_cases hx : P.Timeline.Expiration.isSome = true
      · rw [if_pos hx, if_pos hx]
        congr 1
      · rw [if_neg hx, if_neg hx]
    | some asn =>
      dsimp only
      by_cases ha : asn.Status ≠ ""
      · rw [if_pos ha, if_pos ha]
        by_cases hx : P.Timeline.Expiration.isSome = true
        · rw [if_pos hx, if_pos hx]
          congr 1
        · rw [if_neg hx, if_neg hx]
      · rw [if_neg ha, if_neg ha]
        by_cases hx : P.Timeline.Expiration.isSome = true
        · rw [if_pos hx, if_pos hx]
          congr 1
        · rw [if_neg hx, if_neg hx]
  · rw [if_neg hT, if_neg hT, if_neg hT]
    by_cases hx : P.Timeline.Expiration.isSome = true
    · rw [if_pos hx, if_pos hx]
    · rw [if_neg hx, if_neg hx]

theorem parseWhoisSummary_frame (rt : Runtime) (result : QueryResult) (summary : Summary) :
    (parseWhoisSummary rt result summary).Domain = summary.Domain ∧
    (parseWhoisSummary rt result summary).Protocol = summary.Protocol ∧
    (parseWhoisSummary rt result summary).QueryType = summary.QueryType ∧
    (parseWhoisSummary rt result summary).PostExpiration = summary.PostExpiration ∧
    (parseWhoisSummary rt result summary).ASN = summary.ASN := by
  by_cases h : ∃ data fields, result.Data = Value.obj data ∧
      data.lookup "parsed_fields" = some (Value.obj fields)
  · obtain ⟨data, fields, hD, hf⟩ := h
    rw [parseWhoisSummary_eq rt result summary data fields hD hf]
    exact ⟨rfl, rfl, rfl, rfl, rfl⟩
  · rw [parseWhoisSummary_none rt result summary
      (fun data fields hD hf => h ⟨data, fields, hD, hf⟩)]
    exact ⟨rfl, rfl, rfl, rfl, rfl⟩

theorem protocolSummary_frame (rt : Runtime) (result : QueryResult) :
    (protocolSummary rt result).Domain = result.Query ∧
    (protocolSummary rt result).Protocol = result.Protocol ∧
    (protocolSummary rt result).QueryType = result.Type_ ∧
    (protocolSummary rt result).PostExpiration = none ∧
    (protocolSummary rt result).ASN = none := by
  unfold protocolSummary
  split
  · exact parseRDAPSummary_frame rt result (initialSummary result)
  · exact parseWhoisSummary_frame rt result (initialSummary result)

theorem CreateSummary_protocol (rt : Runtime) (result : QueryResult) :
    CreateSummary rt result =
      { protocolSummary rt result with
        Status :=
          if result.Type_ = "asn" then
            match parseASNInfo rt.tbl result with
            | some asn => if asn.Status ≠ "" then asn.Status else (protocolSummary rt result).Status
            | none => (protocolSummary rt result).Status
          else (protocolSummary rt result).Status,
        ASN := if result.Type_ = "asn" then parseASNInfo rt.tbl result else none,
        PostExpiration :=
          if (protocolSummary rt result).Timeline.Expiration.isSome then
            GeneratePostExpirationGuidance rt.tbl rt.now (protocolSummary rt result)
          else none } := by
  obtain ⟨-, -, -, hPE, hA⟩ := protocolSummary_frame rt result
  rw [CreateSummary_eq rt result (protocolSummary rt result) rfl, hPE, hA]

theorem parseASNInfo_isSome (tbl : CaseTables) (result : QueryResult) :
    (parseASNInfo tbl result).isSome = true ↔ result.RawData ≠ "" := by
  unfold parseASNInfo
  by_cases h : result.RawData = ""
  · rw [if_pos h]
    simp [h]
  · rw [if_neg h]
    simp [h]

/-! ## `CreateSummary` as a whole: claims C31, C32, C33, C36 -/

/-- C31: the `ASN` of the summary is present only for a query of type "asn", and then
exactly when the raw text is not empty; when it is present with a non-empty status, the
status of the summary is that status, otherwise it is the status that the protocol
parser produced. -/
theorem CreateSummary_asn (rt : Runtime) (result : QueryResult) :
    (CreateSummary rt result).ASN =
      (if result.Type_ = "asn" then parseASNInfo rt.tbl result else none) ∧
    ((CreateSummary rt result).ASN.isSome = true ↔
      (result.Type_ = "asn" ∧ result.RawData ≠ "")) ∧
    (∀ asn, (CreateSummary rt result).ASN = some asn → asn.Status ≠ "" →
      (CreateSummary rt result).Status = asn.Status) ∧
    ((∀ asn, (CreateSummary rt result).ASN = some asn → asn.Status = "") →
      (CreateSummary rt result).Status = (protocolSummary rt result).Status) := by
  rw [CreateSummary_protocol]
  dsimp only
  by_cases hT : result.Type_ = "asn"
  · rw [if_pos hT, if_pos hT]
    refine ⟨rfl, ?_, ?_, ?_⟩
    · rw [parseASNInfo_isSome]
      exact ⟨fun h => ⟨hT, h⟩, fun h => h.2⟩
    · intro asn ha hs
      rw [ha]
      dsimp only
      rw [if_pos hs]
    · intro h
      cases ha : parseASNInfo rt.tbl result with
      | none => rfl
      | some asn =>
        dsimp only
        rw [if_neg (not_not.2 (h asn ha))]
  · rw [if_neg hT, if_neg hT]
    refine ⟨rfl, ?_, ?_, ?_⟩
    · simp [hT]
    · intro asn ha
      exact absurd ha (by simp)
    · intro _
      rfl

/-- C32: for a result with nil `Data` and empty `RawData`, of any protocol and type,
`CreateSummary` returns the summary that has `Domain`, `Protocol` and `QueryType` from the
result and every other field empty or zero. -/
theorem CreateSummary_empty (rt : Runtime) (result : QueryResult)
    (hD : result.Data = Value.null) (hR : result.RawData = "") :
    CreateSummary rt result =
      { Domain := result.Query, Status := "", StatusDetails := [], Protocol := result.Protocol,
        QueryType := result.Type_,
        Timeline := { Registration := none, LastUpdated := none, Expiration := none },
        Nameservers := [], DNSSEC := { Enabled := false, Details := "" },
        Registrar := { Name := "", ID := "" }, PostExpiration := none, ASN := none } := by
  have hP : protocolSummary rt result = initialSummary result := by
    unfold protocolSummary parseRDAPSummary parseWhoisSummary
    rw [hD]
    split <;> rfl
  have hA : parseASNInfo rt.tbl result = none := by
    unfold parseASNInfo
    rw [if_pos hR]
  rw [CreateSummary_protocol, hP, hA]
  unfold initialSummary
  dsimp only
  split_ifs <;> rfl

/-- Witness of C32: a failed RDAP query. -/
theorem CreateSummary_empty_witness :
    CreateSummary (exampleRuntime ⟨0⟩ "null" []) failedResult =
      { Domain := failedResult.Query, Status := "", StatusDetails := [],
        Protocol := failedResult.Protocol, QueryType := failedResult.Type_,
        Timeline := { Registration := none, LastUpdated := none, Expiration := none },
        Nameservers := [], DNSSEC := { Enabled := false, Details := "" },
        Registrar := { Name := "", ID := "" }, PostExpiration := none, ASN := none } :=
  CreateSummary_empty (exampleRuntime ⟨0⟩ "null" []) failedResult rfl rfl

theorem rdapEventStep_snapshot (rt : Runtime) (s : Summary) (x : Value)
    (h : snapshotAt rt.now s.Timeline.Registration ∧ snapshotAt rt.now s.Timeline.LastUpdated ∧
      snapshotAt rt.now s.Timeline.Expiration) :
    snapshotAt rt.now (rdapEventStep rt s x).Timeline.Registration ∧
    snapshotAt rt.now (rdapEventStep rt s x).Timeline.LastUpdated ∧
    snapshotAt rt.now (rdapEventStep rt s x).Timeline.Expiration := by
  have hnew : ∀ date : Time,
      snapshotAt rt.now (some { Date := date, HumanReadable := HumanReadableTime rt.now date }) := by
    intro date ev hev
    injection hev with hev
    rw [← hev]
  cases x with
  | obj o =>
    unfold rdapEventStep
    dsimp only
    cases hp : rt.timeParse RFC3339 (stringOrEmpty (o.lookup "Date")) with
    | none => exact h
    | some date =>
      dsimp only
      by_cases h1 : stringOrEmpty (o.lookup "Action") = "registration"
      · rw [if_pos h1]
        exact ⟨hnew date, h.2.1, h.2.2⟩
      · rw [if_neg h1]
        by_cases h2 : stringOrEmpty (o.lookup "Action") = "last changed" ∨
            stringOrEmpty (o.lookup "Action") = "last update of RDAP database"
        · rw [if_pos h2]
          exact ⟨h.1, hnew date, h.2.2⟩
        · rw [if_neg h2]
          by_cases h3 : stringOrEmpty (o.lookup "Action") = "expiration"
          · rw [if_pos h3]
            exact ⟨h.1, h.2.1, hnew date⟩
          · rw [if_neg h3]
            exact h
  | null => exact h
  | bool b => exact h
  | number n => exact h
  | str t => exact h
  | arr a => exact h

theorem snapshotAt_none (now : Time) : snapshotAt now none := by
  intro ev hev
  exact absurd hev (by simp)

theorem whoisEvent_snapshot (rt : Runtime) (fields : List (String × Value)) (key : String) :
    snapshotAt rt.now (whoisEvent rt fields key) := by
  intro ev hev
  unfold whoisEvent at hev
  split at hev
  · split at hev
    · injection hev with hev
      rw [← hev]
    · exact absurd hev (by simp)
  · exact absurd hev (by simp)

theorem whoisSlot_snapshot (rt : Runtime) (fields : List (String × Value)) (key : String) :
    snapshotAt rt.now (match whoisEvent rt fields key with
      | some ev => some ev
      | none => none) := by
  have h := whoisEvent_snapshot rt fields key
  cases hw : whoisEvent rt fields key with
  | none => exact snapshotAt_none rt.now
  | some ev =>
    rw [hw] at h
    exact h

theorem protocolSummary_snapshot (rt : Runtime) (result : QueryResult) :
    snapshotAt rt.now (protocolSummary rt result).Timeline.Registration ∧
    snapshotAt rt.now (protocolSummary rt result).Timeline.LastUpdated ∧
    snapshotAt rt.now (protocolSummary rt result).Timeline.Expiration := by
  unfold protocolSummary
  split
  · obtain ⟨t, events, ht, hT⟩ := parseRDAPSummary_TimelineAll rt result (initialSummary result)
    rw [hT]
    refine foldl_inv (rdapEventStep rt)
      (fun s => snapshotAt rt.now s.Timeline.Registration ∧
        snapshotAt rt.now s.Timeline.LastUpdated ∧ snapshotAt rt.now s.Timeline.Expiration)
      (rdapEventStep_snapshot rt) events t ?_
    dsimp only
    rw [ht]
    exact ⟨snapshotAt_none _, snapshotAt_none _, snapshotAt_none _⟩
  · by_cases h : ∃ data fields, result.Data = Value.obj data ∧
        data.lookup "parsed_fields" = some (Value.obj fields)
    · obtain ⟨data, fields, hD, hf⟩ := h
      rw [parseWhoisSummary_eq rt result (initialSummary result) data fields hD hf]
      exact ⟨whoisSlot_snapshot rt fields _, whoisSlot_snapshot rt fields _,
        whoisSlot_snapshot rt fields _⟩
    · rw [parseWhoisSummary_none rt result (initialSummary result)
        (fun data fields hD hf => h ⟨data, fields, hD, hf⟩)]
      exact ⟨snapshotAt_none _, snapshotAt_none _, snapshotAt_none _⟩

/-- C33: every timeline event of the summary, on both protocol paths, has `HumanReadable`
equal to `HumanReadableTime` of its own `Date` at the instant of the call; and
`PostExpiration` is `GeneratePostExpirationGuidance` of the summary when an expiration
event is present, and absent otherwise. -/
theorem CreateSummary_snapshot (rt : Runtime) (result : QueryResult) :
    (∀ ev, (CreateSummary rt result).Timeline.Registration = some ev →
      ev.HumanReadable = HumanReadableTime rt.now ev.Date) ∧
    (∀ ev, (CreateSummary rt result).Timeline.LastUpdated = some ev →
      ev.HumanReadable = HumanReadableTime rt.now ev.Date) ∧
    (∀ ev, (CreateSummary rt result).Timeline.Expiration = some ev →
      ev.HumanReadable = HumanReadableTime rt.now ev.Date) ∧
    (CreateSummary rt result).PostExpiration =
      (if (CreateSummary rt result).Timeline.Expiration.isSome then
        GeneratePostExpirationGuidance rt.tbl rt.now (CreateSummary rt result)
      else none) := by
  have hS := protocolSummary_snapshot rt result
  have hG : GeneratePostExpirationGuidance rt.tbl rt.now (CreateSummary rt result) =
      GeneratePostExpirationGuidance rt.tbl rt.now (protocolSummary rt result) := by
    apply guidance_congr
    · rw [CreateSummary_protocol]
    · rw [CreateSummary_protocol]
  rw [hG, CreateSummary_protocol]
  exact ⟨hS.1, hS.2.1, hS.2.2, rfl⟩

/-- C36: on the WHOIS path, a string `dnssec` field gives `DNSSEC.Details` equal to that
value and `DNSSEC.Enabled` true exactly when the value is "signedDelegation"; without a
string `dnssec` field, DNSSEC is disabled with empty details. -/
theorem CreateSummary_whois_dnssec (rt : Runtime) (result : QueryResult)
    (data fields : List (String × Value)) (hP : result.Protocol ≠ "RDAP")
    (hD : result.Data = Value.obj data)
    (hf : data.lookup "parsed_fields" = some (Value.obj fields)) :
    (∀ dnssec, fields.lookup "dnssec" = some (Value.str dnssec) →
      (CreateSummary rt result).DNSSEC.Details = dnssec ∧
      ((CreateSummary rt result).DNSSEC.Enabled = true ↔ dnssec = "signedDelegation")) ∧
    ((∀ dnssec, fields.lookup "dnssec" ≠ some (Value.str dnssec)) →
      (CreateSummary rt result).DNSSEC = { Enabled := false, Details := "" }) := by
  have hPS : protocolSummary rt result =
      parseWhoisSummary rt result (initialSummary result) := by
    unfold protocolSummary
    rw [if_neg hP]
  rw [CreateSummary_protocol, hPS,
    parseWhoisSummary_eq rt result (initialSummary result) data fields hD hf]
  dsimp only
  constructor
  · intro dnssec h
    rw [h]
    dsimp only
    exact ⟨rfl, by simp⟩
  · intro h
    split
    · rename_i dnssec hd
      exact absurd hd (h dnssec)
    · rfl

/-- Witness of C36: a record that says `DNSSEC: unsigned`. -/
theorem CreateSummary_whois_dnssec_witness :
    (CreateSummary (exampleRuntime ⟨0⟩ "" []) unsignedResult).DNSSEC.Details = "unsigned" ∧
    ((CreateSummary (exampleRuntime ⟨0⟩ "" []) unsignedResult).DNSSEC.Enabled = true ↔
      "unsigned" = "signedDelegation") :=
  (CreateSummary_whois_dnssec (exampleRuntime ⟨0⟩ "" []) unsignedResult
    [("parsed_fields", Value.obj [("dnssec", Value.str "unsigned")]),
      ("raw_response", Value.str "DNSSEC: unsigned")]
    [("dnssec", Value.str "unsigned")] (by decide) rfl rfl).1 "unsigned" rfl

/-! ## Status words of a WHOIS record: claim C39 -/

theorem fieldsL_noSpace (l : List Char) : ∀ cur : List Char,
    (∀ c ∈ cur, unicodeIsSpace c = false) →
    ∀ w ∈ fieldsL l cur, ∀ c ∈ w, unicodeIsSpace c = false := by
  induction l with
  | nil =>
    intro cur hc w hw c hcw
    unfold fieldsL at hw
    split at hw
    · exact absurd hw (List.not_mem_nil w)
    · rw [List.mem_singleton] at hw
      subst hw
      exact hc c (List.mem_reverse.1 hcw)
  | cons x xs ih =>
    intro cur hc w hw c hcw
    unfold fieldsL at hw
    by_cases hx : unicodeIsSpace x = true
    · rw [if_pos hx] at hw
      split at hw
      · exact ih [] (fun d hd => absurd hd (List.not_mem_nil d)) w hw c hcw
      · rcases List.mem_cons.1 hw with h | h
        · subst h
          exact hc c (List.mem_reverse.1 hcw)
        · exact ih [] (fun d hd => absurd hd (List.not_mem_nil d)) w h c hcw
    · rw [if_neg hx] at hw
      refine ih (x :: cur) ?_ w hw c hcw
      intro d hd
      rcases List.mem_cons.1 hd with h | h
      · subst h
        exact Bool.eq_false_iff.2 hx
      · exact hc d h

theorem splitL_absent (sep : Char) (l : List Char) (h : sep ∉ l) : splitL sep l = [l] := by
  induction l with
  | nil => rfl
  | cons c cs ih =>
    unfold splitL
    have hc : c ≠ sep := fun e => h (by rw [e]; exact List.mem_cons_self _ _)
    rw [if_neg hc, ih (fun hm => h (List.mem_cons_of_mem _ hm))]

theorem Fields_word (status part : String) (h : part ∈ Fields status) :
    (Split part ' ').headD "" = part := by
  unfold Fields at h
  obtain ⟨w, hw, rfl⟩ := List.mem_map.1 h
  have hns : ' ' ∉ w := by
    intro hm
    have h2 := fieldsL_noSpace status.data [] (fun d hd => absurd hd (List.not_mem_nil d)) w hw
      ' ' hm
    exact absurd h2 (by decide)
  unfold Split
  dsimp only
  rw [splitL_absent ' ' w hns]
  rfl

theorem whoisStatusPart_word (s : Summary) (part : String)
    (h : (Split part ' ').headD "" = part) :
    whoisStatusPart s part =
      if keepsStatusWord part then { s with StatusDetails := s.StatusDetails ++ [part] }
      else s := by
  unfold whoisStatusPart keepsStatusWord
  dsimp only
  rw [h]
  generalize (Contains part "rohibited" || Contains part "ctive" || Contains part "ransfer" ||
    Contains part "client") = a
  generalize HasPrefix part "http" = b
  cases a <;> cases b <;> rfl

theorem foldl_whoisStatusPart (l : List String)
    (hl : ∀ p ∈ l, (Split p ' ').headD "" = p) : ∀ s : Summary,
    (l.foldl whoisStatusPart s).StatusDetails = s.StatusDetails ++ l.filter keepsStatusWord := by
  induction l with
  | nil =>
    intro s
    simp
  | cons p ps ih =>
    intro s
    rw [List.foldl_cons, ih (fun q hq => hl q (List.mem_cons_of_mem _ hq)),
      whoisStatusPart_word s p (hl p (List.mem_cons_self _ _)), List.filter_cons]
    by_cases hk : keepsStatusWord p = true
    · rw [if_pos hk, if_pos hk]
      simp
    · rw [if_neg hk, if_neg hk]

theorem whoisStatusField_words (fields : List (String × Value)) (s : Summary)
    (field : String) :
    (whoisStatusField fields s field).StatusDetails =
      s.StatusDetails ++ statusWords fields field := by
  unfold whoisStatusField statusWords
  cases fields.lookup field with
  | none => simp
  | some v =>
    cases v with
    | str status =>
      exact foldl_whoisStatusPart (Fields status) (fun p hp => Fields_word status p hp) s
    | null => simp
    | bool b => simp
    | number n => simp
    | arr a => simp
    | obj o => simp

theorem mem_statusWords (fields : List (String × Value)) (field w : String)
    (h : w ∈ statusWords fields field) :
    (∃ status, fields.lookup field = some (Value.str status) ∧ w ∈ Fields status) ∧
    (Contains w "rohibited" = true ∨ Contains w "ctive" = true ∨ Contains w "ransfer" = true ∨
      Contains w "client" = true) ∧ HasPrefix w "http" = false := by
  unfold statusWords at h
  split at h
  · rename_i status hs
    rw [List.mem_filter] at h
    refine ⟨⟨status, hs, h.1⟩, ?_⟩
    have hk := h.2
    unfold keepsStatusWord at hk
    simp only [Bool.and_eq_true, Bool.or_eq_true, Bool.not_eq_true'] at hk
    refine ⟨?_, hk.2⟩
    rcases hk.1 with ((h1 | h1) | h1) | h1
    · exact Or.inl h1
    · exact Or.inr (Or.inl h1)
    · exact Or.inr (Or.inr (Or.inl h1))
    · exact Or.inr (Or.inr (Or.inr h1))
  · exact absurd h (List.not_mem_nil w)

theorem InterpretStatus_nil (tbl : CaseTables) (rawData : String)
    (h : hasDenialPhrase tbl rawData = false) :
    InterpretStatus tbl [] rawData =
      if rawData ≠ "" ∧ (Contains (ToLower tbl rawData) "no entries found" = true ∨
        len (TrimSpace rawData) < 100) then "available" else "unknown" := by
  unfold hasDenialPhrase at h
  unfold InterpretStatus
  simp only [h, List.length_nil]
  rfl

/-- C39: on the WHOIS path `StatusDetails` is the list of the words of the `domain_status`
value followed by those of the `status` value that contain "rohibited", "ctive",
"ransfer" or "client" and do not start with "http"; every other word is dropped. With no
such word, a query that is not of type "asn" and a raw text without denial phrase, the
status is "available" when the raw text is non-empty and contains "no entries found" or
has fewer than 100 bytes once trimmed, and "unknown" otherwise; it is never "active". -/
theorem CreateSummary_whois_words (rt : Runtime) (result : QueryResult)
    (data fields : List (String × Value)) (hP : result.Protocol ≠ "RDAP")
    (hD : result.Data = Value.obj data)
    (hf : data.lookup "parsed_fields" = some (Value.obj fields)) :
    (CreateSummary rt result).StatusDetails =
      statusWords fields "domain_status" ++ statusWords fields "status" ∧
    (∀ w ∈ (CreateSummary rt result).StatusDetails,
      (∃ status, (fields.lookup "domain_status" = some (Value.str status) ∨
        fields.lookup "status" = some (Value.str status)) ∧ w ∈ Fields status) ∧
      (Contains w "rohibited" = true ∨ Contains w "ctive" = true ∨
        Contains w "ransfer" = true ∨ Contains w "client" = true) ∧
      HasPrefix w "http" = false) ∧
    (statusWords fields "domain_status" ++ statusWords fields "status" = [] →
      result.Type_ ≠ "asn" → hasDenialPhrase rt.tbl (whoisRaw data) = false →
      (CreateSummary rt result).Status =
        if whoisRaw data ≠ "" ∧
          (Contains (ToLower rt.tbl (whoisRaw data)) "no entries found" = true ∨
            len (TrimSpace (whoisRaw data)) < 100) then "available" else "unknown") := by
  have hPS : protocolSummary rt result =
      parseWhoisSummary rt result (initialSummary result) := by
    unfold protocolSummary
    rw [if_neg hP]
  have hW : (["domain_status", "status"].foldl (whoisStatusField fields)
      (initialSummary result)).StatusDetails =
      statusWords fields "domain_status" ++ statusWords fields "status" := by
    rw [List.foldl_cons, List.foldl_cons, List.foldl_nil, whoisStatusField_words,
      whoisStatusField_words]
    rfl
  rw [CreateSummary_protocol, hPS,
    parseWhoisSummary_eq rt result (initialSummary result) data fields hD hf, hW]
  dsimp only
  refine ⟨rfl, ?_, ?_⟩
  · intro w hw
    rcases List.mem_append.1 hw with h | h
    · obtain ⟨⟨status, hs, hm⟩, h2⟩ := mem_statusWords fields "domain_status" w h
      exact ⟨⟨status, Or.inl hs, hm⟩, h2⟩
    · obtain ⟨⟨status, hs, hm⟩, h2⟩ := mem_statusWords fields "status" w h
      exact ⟨⟨status, Or.inr hs, hm⟩, h2⟩
  · intro he hT hden
    rw [if_neg hT, he, InterpretStatus_nil rt.tbl (whoisRaw data) hden]

/-- Witness of C39: the only status value of `okResult` is "ok": no word is kept. -/
theorem CreateSummary_whois_words_witness :
    (CreateSummary (exampleRuntime ⟨0⟩ "" []) okResult).StatusDetails =
      statusWords [("status", Value.str "ok")] "domain_status" ++
        statusWords [("status", Value.str "ok")] "status" :=
  (CreateSummary_whois_words (exampleRuntime ⟨0⟩ "" []) okResult
    [("parsed_fields", Value.obj [("status", Value.str "ok")]),
      ("raw_response", Value.str okRecord)]
    [("status", Value.str "ok")] (by decide) rfl rfl).1

theorem okResult_unknown :
    (CreateSummary (exampleRuntime ⟨0⟩ "" []) okResult).StatusDetails = [] ∧
    100 ≤ len (TrimSpace okRecord) ∧
    hasDenialPhrase CaseTables.ascii okRecord = false ∧
    (CreateSummary (exampleRuntime ⟨0⟩ "" []) okResult).Status = "unknown" := by
  decide!

/-- The raw text of `paddedResult` has 110 characters and no denial phrase, and its only
status value is "ok", yet the status of the summary is "available"; so is the status for
`noEntriesResult`, whose raw text has more than 100 bytes once trimmed and none of the five
denial phrases. -/
theorem CreateSummary_whois_words_counterexample :
    (paddedRecord.length = 110 ∧
      hasDenialPhrase CaseTables.ascii paddedRecord = false ∧
      Contains (ToLower CaseTables.ascii paddedRecord) "no entries found" = false ∧
      (CreateSummary (exampleRuntime ⟨0⟩ "" []) paddedResult).StatusDetails = [] ∧
      (CreateSummary (exampleRuntime ⟨0⟩ "" []) paddedResult).Status = "available") ∧
    (100 ≤ len (TrimSpace noEntriesRecord) ∧
      hasDenialPhrase CaseTables.ascii noEntriesRecord = false ∧
      (CreateSummary (exampleRuntime ⟨0⟩ "" []) noEntriesResult).StatusDetails = [] ∧
      (CreateSummary (exampleRuntime ⟨0⟩ "" []) noEntriesResult).Status = "available") := by
  decide!

/-! ## Dates of a WHOIS record: claim C35 -/

theorem parseWhoisDate_findSome (rt : Runtime) (dateStr : String) :
    parseWhoisDate rt dateStr =
      whoisLayouts.findSome? (fun format => rt.timeParse format dateStr) := rfl

theorem findSome_first {α β : Type} (f : α → Option β) (pre : List α) (x : α)
    (post : List α) (b : β) (hpre : ∀ a ∈ pre, f a = none) (hx : f x = some b) :
    (pre ++ x :: post).findSome? f = some b := by
  induction pre with
  | nil =>
    rw [List.nil_append, List.findSome?_cons, hx]
  | cons a as ih =>
    rw [List.cons_append, List.findSome?_cons, hpre a (List.mem_cons_self _ _)]
    exact ih (fun c hc => hpre c (List.mem_cons_of_mem _ hc))

theorem findSome_none {α β : Type} (f : α → Option β) (l : List α) :
    l.findSome? f = none ↔ ∀ a ∈ l, f a = none := by
  induction l with
  | nil => simp
  | cons a as ih =>
    rw [List.findSome?_cons]
    cases h : f a with
    | none =>
      dsimp only
      rw [ih]
      constructor
      · intro h2 c hc
        rcases List.mem_cons.1 hc with e | e
        · rw [e]
          exact h
        · exact h2 c e
      · intro h2 c hc
        exact h2 c (List.mem_cons_of_mem _ hc)
    | some b =>
      dsimp only
      constructor
      · intro h2
        exact absurd h2 (by simp)
      · intro h2
        have h3 := h2 a (List.mem_cons_self _ _)
        rw [h] at h3
        exact absurd h3 (by simp)

theorem whoisEvent_failing (rt : Runtime) (fields : List (String × Value))
    (key text : String) (hk : fields.lookup key = some (Value.str text))
    (hp : parseWhoisDate rt text = none) : whoisEvent rt fields key = none := by
  unfold whoisEvent
  rw [hk]
  dsimp only
  rw [hp]

theorem whoisSlot_eq (rt : Runtime) (fields : List (String × Value)) (key : String) :
    (match whoisEvent rt fields key with
      | some ev => some ev
      | none => (none : Option TimelineEvent)) = whoisEvent rt fields key := by
  cases whoisEvent rt fields key <;> rfl

theorem whoisEvent_parsed (rt : Runtime) (fields : List (String × Value))
    (key text : String) (date : Time) (hk : fields.lookup key = some (Value.str text))
    (hp : parseWhoisDate rt text = some date) :
    whoisEvent rt fields key = some (eventAt rt date) := by
  unfold whoisEvent eventAt
  rw [hk]
  dsimp only
  rw [hp]

/-- C35: `parseWhoisDate` returns what `time.Parse` gives in the first of the six layouts
that accepts the text, and fails exactly when `time.Parse` rejects it in each of them.
With `time.Parse` as the reference model `goTimeParse`, the texts
"2023-08-14T07:01:31Z" and "2023-08-14 07:01:31" give 2023-08-14 07:01:31 UTC, the texts
"2023-08-14", "14-Aug-2023" and "2023/08/14" give midnight UTC of that day, and the empty
text and "not a date" fail. On the WHOIS path each timeline slot is the event of its own
date field when that field parses and is absent when it fails, and no field of the summary
other than the timeline and the guidance derived from it depends on `time.Parse`. -/
theorem parseWhoisDate_layouts (rt : Runtime) :
    (∀ dateStr, parseWhoisDate rt dateStr = none ↔
      ∀ layout ∈ whoisLayouts, rt.timeParse layout dateStr = none) ∧
    (∀ dateStr pre layout post date, whoisLayouts = pre ++ layout :: post →
      (∀ earlier ∈ pre, rt.timeParse earlier dateStr = none) →
      rt.timeParse layout dateStr = some date → parseWhoisDate rt dateStr = some date) ∧
    (rt.timeParse = goTimeParse →
      parseWhoisDate rt "2023-08-14T07:01:31Z" = some ⟨1691996491000000000⟩ ∧
      parseWhoisDate rt "2023-08-14 07:01:31" = some ⟨1691996491000000000⟩ ∧
      parseWhoisDate rt "2023-08-14" = some ⟨1691971200000000000⟩ ∧
      parseWhoisDate rt "14-Aug-2023" = some ⟨1691971200000000000⟩ ∧
      parseWhoisDate rt "2023/08/14" = some ⟨1691971200000000000⟩ ∧
      parseWhoisDate rt "" = none ∧
      parseWhoisDate rt "not a date" = none) ∧
    (∀ (result : QueryResult) (data fields : List (String × Value)),
      result.Protocol ≠ "RDAP" → result.Data = Value.obj data →
      data.lookup "parsed_fields" = some (Value.obj fields) →
      ((CreateSummary rt result).Timeline.Registration = whoisEvent rt fields "creation_date" ∧
        (CreateSummary rt result).Timeline.LastUpdated = whoisEvent rt fields "updated_date" ∧
        (CreateSummary rt result).Timeline.Expiration =
          whoisEvent rt fields "registry_expiry_date") ∧
      (∀ text date, fields.lookup "creation_date" = some (Value.str text) →
        parseWhoisDate rt text = some date →
        (CreateSummary rt result).Timeline.Registration =
          some { Date := date, HumanReadable := HumanReadableTime rt.now date }) ∧
      (∀ text date, fields.lookup "updated_date" = some (Value.str text) →
        parseWhoisDate rt text = some date →
        (CreateSummary rt result).Timeline.LastUpdated =
          some { Date := date, HumanReadable := HumanReadableTime rt.now date }) ∧
      (∀ text date, fields.lookup "registry_expiry_date" = some (Value.str text) →
        parseWhoisDate rt text = some date →
        (CreateSummary rt result).Timeline.Expiration =
          some { Date := date, HumanReadable := HumanReadableTime rt.now date }) ∧
      (∀ text, fields.lookup "creation_date" = some (Value.str text) →
        parseWhoisDate rt text = none → (CreateSummary rt result).Timeline.Registration = none) ∧
      (∀ text, fields.lookup "updated_date" = some (Value.str text) →
        parseWhoisDate rt text = none → (CreateSummary rt result).Timeline.LastUpdated = none) ∧
      (∀ text, fields.lookup "registry_expiry_date" = some (Value.str text) →
        parseWhoisDate rt text = none →
        (CreateSummary rt result).Timeline.Expiration = none ∧
          (CreateSummary rt result).PostExpiration = none) ∧
      (∀ rt2 : Runtime, rt2.tbl = rt.tbl →
        { CreateSummary rt2 result with Timeline := {}, PostExpiration := none } =
          { CreateSummary rt result with Timeline := {}, PostExpiration := none })) := by
  refine ⟨?_, ?_, ?_, ?_⟩
  · intro dateStr
    rw [parseWhoisDate_findSome]
    exact findSome_none _ _
  · intro dateStr pre layout post date hl hpre hx
    rw [parseWhoisDate_findSome, hl]
    exact findSome_first _ pre layout post date hpre hx
  · intro hm
    have hp : ∀ s, parseWhoisDate rt s =
        whoisLayouts.findSome? (fun format => goTimeParse format s) := by
      intro s
      rw [parseWhoisDate_findSome, hm]
    rw [hp, hp, hp, hp, hp, hp, hp]
    decide!
  · intro result data fields hP hD hf
    have hPS : ∀ r : Runtime, protocolSummary r result =
        parseWhoisSummary r result (initialSummary result) := by
      intro r
      unfold protocolSummary
      rw [if_neg hP]
    have hslots : (CreateSummary rt result).Timeline.Registration =
          whoisEvent rt fields "creation_date" ∧
        (CreateSummary rt result).Timeline.LastUpdated = whoisEvent rt fields "updated_date" ∧
        (CreateSummary rt result).Timeline.Expiration =
          whoisEvent rt fields "registry_expiry_date" := by
      rw [CreateSummary_protocol, hPS,
        parseWhoisSummary_eq rt result (initialSummary result) data fields hD hf]
      exact ⟨whoisSlot_eq rt fields _, whoisSlot_eq rt fields _, whoisSlot_eq rt fields _⟩
    refine ⟨hslots, ?_, ?_, ?_, ?_, ?_, ?_, ?_⟩
    · intro text date hk hp
      rw [hslots.1]
      exact whoisEvent_parsed rt fields _ text date hk hp
    · intro text date hk hp
      rw [hslots.2.1]
      exact whoisEvent_parsed rt fields _ text date hk hp
    · intro text date hk hp
      rw [hslots.2.2]
      exact whoisEvent_parsed rt fields _ text date hk hp
    · intro text hk hp
      rw [hslots.1]
      exact whoisEvent_failing rt fields _ text hk hp
    · intro text hk hp
      rw [hslots.2.1]
      exact whoisEvent_failing rt fields _ text hk hp
    · intro text hk hp
      have he : whoisEvent rt fields "registry_expiry_date" = none :=
        whoisEvent_failing rt fields _ text hk hp
      refine ⟨by rw [hslots.2.2]; exact he, ?_⟩
      rw [CreateSummary_protocol, hPS,
        parseWhoisSummary_eq rt result (initialSummary result) data fields hD hf]
      dsimp only
      rw [he]
      rfl
    · intro rt2 htbl
      rw [CreateSummary_protocol, CreateSummary_protocol, hPS, hPS,
        parseWhoisSummary_eq rt result (initialSummary result) data fields hD hf,
        parseWhoisSummary_eq rt2 result (initialSummary result) data fields hD hf, htbl]

/-- Witness of C35: with the reference model of `time.Parse`, the date-only text gives
midnight of the day through the third layout, and in the summary of `badDateResult` the
creation date "not a date" leaves `Registration` absent while the expiry date
"2023-08-14" gives the `Expiration` event. -/
theorem parseWhoisDate_layouts_witness :
    parseWhoisDate (modelRuntime ⟨1700000000000000000⟩ "") "2023-08-14" =
      some ⟨1691971200000000000⟩ ∧
    (CreateSummary (modelRuntime ⟨1700000000000000000⟩ "")
      badDateResult).Timeline.Registration = none ∧
    (CreateSummary (modelRuntime ⟨1700000000000000000⟩ "")
      badDateResult).Timeline.Expiration =
        some (eventAt (modelRuntime ⟨1700000000000000000⟩ "") ⟨1691971200000000000⟩) :=
  ⟨(parseWhoisDate_layouts (modelRuntime ⟨1700000000000000000⟩ "")).2.1 "2023-08-14"
      [RFC3339, "2006-01-02T15:04:05Z"] "2006-01-02"
      ["2006-01-02 15:04:05", "02-Jan-2006", "2006/01/02"] ⟨1691971200000000000⟩ rfl
      (by decide!) (by decide!),
    ((parseWhoisDate_layouts (modelRuntime ⟨1700000000000000000⟩ "")).2.2.2 badDateResult
      [("parsed_fields", Value.obj [("creation_date", Value.str "not a date"),
          ("registry_expiry_date", Value.str "2023-08-14"), ("registrar", Value.str "Example")]),
        ("raw_response", Value.str
          "Creation Date: not a date\nRegistry Expiry Date: 2023-08-14\nRegistrar: Example")]
      [("creation_date", Value.str "not a date"),
        ("registry_expiry_date", Value.str "2023-08-14"), ("registrar", Value.str "Example")]
      (by decide) rfl rfl).2.2.2.2.1 "not a date" rfl
      (((parseWhoisDate_layouts (modelRuntime ⟨1700000000000000000⟩ "")).2.2.1 rfl).2.2.2.2.2.2),
    ((parseWhoisDate_layouts (modelRuntime ⟨1700000000000000000⟩ "")).2.2.2 badDateResult
      [("parsed_fields", Value.obj [("creation_date", Value.str "not a date"),
          ("registry_expiry_date", Value.str "2023-08-14"), ("registrar", Value.str "Example")]),
        ("raw_response", Value.str
          "Creation Date: not a date\nRegistry Expiry Date: 2023-08-14\nRegistrar: Example")]
      [("creation_date", Value.str "not a date"),
        ("registry_expiry_date", Value.str "2023-08-14"), ("registrar", Value.str "Example")]
      (by decide) rfl rfl).2.2.2.1 "2023-08-14" ⟨1691971200000000000⟩ rfl
      (((parseWhoisDate_layouts (modelRuntime ⟨1700000000000000000⟩ "")).2.2.1 rfl).2.2.1)⟩

/-- The reference model of `time.Parse` on further texts: the layouts are split into the
expected elements; a numeric zone offset moves the instant; a fraction of a second is read
although the layout has none; 29 February is accepted in a leap year only; an hour of one
digit and several blanks are accepted where Go accepts them; the literal `Z` of the second
layout is required. -/
theorem goTimeParse_examples :
    layoutElems "02-Jan-2006" =
      [LayoutElem.zeroDay, LayoutElem.literal '-', LayoutElem.shortMonth,
        LayoutElem.literal '-', LayoutElem.longYear] ∧
    layoutElems "2006-01-02T15:04:05Z" =
      [LayoutElem.longYear, LayoutElem.literal '-', LayoutElem.zeroMonth,
        LayoutElem.literal '-', LayoutElem.zeroDay, LayoutElem.literal 'T', LayoutElem.hour,
        LayoutElem.literal ':', LayoutElem.zeroMinute, LayoutElem.literal ':',
        LayoutElem.zeroSecond, LayoutElem.literal 'Z'] ∧
    goTimeParse RFC3339 "1970-01-01T00:00:00Z" = some ⟨0⟩ ∧
    goTimeParse RFC3339 "1995-08-14T04:00:00+02:00" = some ⟨808365600000000000⟩ ∧
    goTimeParse RFC3339 "2024-02-29T07:01:31.5Z" = some ⟨1709190091500000000⟩ ∧
    goTimeParse RFC3339 "2023-02-29T07:01:31Z" = none ∧
    goTimeParse "2006-01-02 15:04:05" "2023-08-14   7:01:31" = some ⟨1691996491000000000⟩ ∧
    goTimeParse "2006-01-02T15:04:05Z" "2023-08-14T07:01:31" = none ∧
    goTimeParse "2006-01-02" "2023-08-14 07:01:31" = none := by
  decide!

/-! ## The last event of a slot wins: claim C40 -/

theorem rdapEventStep_values (rt : Runtime) (s : Summary) (x : Value) :
    ((rdapEventStep rt s x).Timeline.Registration =
      match eventTime rt ["registration"] x with
      | some date => some (eventAt rt date)
      | none => s.Timeline.Registration) ∧
    ((rdapEventStep rt s x).Timeline.LastUpdated =
      match eventTime rt ["last changed", "last update of RDAP database"] x with
      | some date => some (eventAt rt date)
      | none => s.Timeline.LastUpdated) ∧
    ((rdapEventStep rt s x).Timeline.Expiration =
      match eventTime rt ["expiration"] x with
      | some date => some (eventAt rt date)
      | none => s.Timeline.Expiration) := by
  cases x with
  | obj o =>
    unfold rdapEventStep eventTime eventAt
    dsimp only
    cases hp : rt.timeParse RFC3339 (stringOrEmpty (o.lookup "Date")) with
    | none =>
      simp
    | some date =>
      dsimp only
      by_cases h1 : stringOrEmpty (o.lookup "Action") = "registration"
      · rw [if_pos h1, h1]
        exact ⟨rfl, rfl, rfl⟩
      · rw [if_neg h1]
        have e1 : ["registration"].contains (stringOrEmpty (o.lookup "Action")) = false := by
          simpa using h1
        rw [e1]
        by_cases h2 : stringOrEmpty (o.lookup "Action") = "last changed" ∨
            stringOrEmpty (o.lookup "Action") = "last update of RDAP database"
        · rw [if_pos h2]
          rcases h2 with h2 | h2
          · rw [h2]
            exact ⟨rfl, rfl, rfl⟩
          · rw [h2]
            exact ⟨rfl, rfl, rfl⟩
        · rw [if_neg h2]
          have e2 : ["last changed", "last update of RDAP database"].contains
              (stringOrEmpty (o.lookup "Action")) = false := by
            simpa using h2
          rw [e2]
          by_cases h3 : stringOrEmpty (o.lookup "Action") = "expiration"
          · rw [if_pos h3, h3]
            exact ⟨rfl, rfl, rfl⟩
          · rw [if_neg h3]
            have e3 : ["expiration"].contains (stringOrEmpty (o.lookup "Action")) = false := by
              simpa using h3
            rw [e3]
            exact ⟨rfl, rfl, rfl⟩
  | null => exact ⟨rfl, rfl, rfl⟩
  | bool b => exact ⟨rfl, rfl, rfl⟩
  | number n => exact ⟨rfl, rfl, rfl⟩
  | str t => exact ⟨rfl, rfl, rfl⟩
  | arr a => exact ⟨rfl, rfl, rfl⟩

theorem lastEventTime_cons (rt : Runtime) (actions : List String) (event : Value)
    (rest : List Value) :
    lastEventTime rt actions (event :: rest) =
      match lastEventTime rt actions rest with
      | some date => some date
      | none => eventTime rt actions event := rfl

theorem foldl_rdapEventStep (rt : Runtime) (events : List Value) : ∀ s : Summary,
    ((events.foldl (rdapEventStep rt) s).Timeline.Registration =
      match lastEventTime rt ["registration"] events with
      | some date => some (eventAt rt date)
      | none => s.Timeline.Registration) ∧
    ((events.foldl (rdapEventStep rt) s).Timeline.LastUpdated =
      match lastEventTime rt ["last changed", "last update of RDAP database"] events with
      | some date => some (eventAt rt date)
      | none => s.Timeline.LastUpdated) ∧
    ((events.foldl (rdapEventStep rt) s).Timeline.Expiration =
      match lastEventTime rt ["expiration"] events with
      | some date => some (eventAt rt date)
      | none => s.Timeline.Expiration) := by
  induction events with
  | nil =>
    intro s
    exact ⟨rfl, rfl, rfl⟩
  | cons x xs ih =>
    intro s
    rw [List.foldl_cons]
    obtain ⟨i1, i2, i3⟩ := ih (rdapEventStep rt s x)
    obtain ⟨v1, v2, v3⟩ := rdapEventStep_values rt s x
    rw [i1, i2, i3, v1, v2, v3, lastEventTime_cons, lastEventTime_cons, lastEventTime_cons]
    refine ⟨?_, ?_, ?_⟩
    · cases lastEventTime rt ["registration"] xs <;> rfl
    · cases lastEventTime rt ["last changed", "last update of RDAP database"] xs <;> rfl
    · cases lastEventTime rt ["expiration"] xs <;> rfl

theorem lastEventTime_split (rt : Runtime) (actions : List String) (pre : List Value)
    (event : Value) (post : List Value) (date : Time)
    (he : eventTime rt actions event = some date)
    (hpost : ∀ later ∈ post, eventTime rt actions later = none) :
    lastEventTime rt actions (pre ++ event :: post) = some date := by
  have hp : lastEventTime rt actions post = none := by
    induction post with
    | nil => rfl
    | cons y ys ih =>
      rw [lastEventTime_cons, ih (fun l hl => hpost l (List.mem_cons_of_mem _ hl))]
      exact hpost y (List.mem_cons_self _ _)
  induction pre with
  | nil =>
    rw [List.nil_append, lastEventTime_cons, hp]
    exact he
  | cons y ys ih =>
    rw [List.cons_append, lastEventTime_cons, ih]

/-- C40: on the RDAP path each slot of the timeline holds the last event of the `Events`
array, in list order, that has an action of the slot and a date that parses; so an event
of the slot that no later matching event follows is the one the slot carries. -/
theorem CreateSummary_rdap_last_event (rt : Runtime) (result : QueryResult)
    (domainData : List (String × Value)) (events : List Value)
    (hP : result.Protocol = "RDAP") (hD : result.Data = Value.obj domainData)
    (hV : domainData.lookup "Events" = some (Value.arr events)) :
    (CreateSummary rt result).Timeline.Registration =
      (lastEventTime rt ["registration"] events).map (eventAt rt) ∧
    (CreateSummary rt result).Timeline.LastUpdated =
      (lastEventTime rt ["last changed", "last update of RDAP database"] events).map
        (eventAt rt) ∧
    (CreateSummary rt result).Timeline.Expiration =
      (lastEventTime rt ["expiration"] events).map (eventAt rt) ∧
    (∀ pre event post date, events = pre ++ event :: post →
      eventTime rt ["last changed", "last update of RDAP database"] event = some date →
      (∀ later ∈ post,
        eventTime rt ["last changed", "last update of RDAP database"] later = none) →
      (CreateSummary rt result).Timeline.LastUpdated =
        some { Date := date, HumanReadable := HumanReadableTime rt.now date }) := by
  obtain ⟨t, ht, hT⟩ := parseRDAPSummary_Timeline rt result (initialSummary result)
    domainData events hD hV
  obtain ⟨f1, f2, f3⟩ := foldl_rdapEventStep rt events t
  have hR : (CreateSummary rt result).Timeline = (events.foldl (rdapEventStep rt) t).Timeline := by
    rw [CreateSummary_Timeline, if_pos hP, hT]
  have hU : (CreateSummary rt result).Timeline.LastUpdated =
      (lastEventTime rt ["last changed", "last update of RDAP database"] events).map
        (eventAt rt) := by
    rw [hR, f2, ht]
    cases lastEventTime rt ["last changed", "last update of RDAP database"] events <;> rfl
  refine ⟨?_, hU, ?_, ?_⟩
  · rw [hR, f1, ht]
    cases lastEventTime rt ["registration"] events <;> rfl
  · rw [hR, f3, ht]
    cases lastEventTime rt ["expiration"] events <;> rfl
  · intro pre event post date he hev hpost
    rw [hU, he, lastEventTime_split rt _ pre event post date hev hpost]
    rfl

/-- Witness of C40: a "last changed" event followed by a "last update of RDAP database"
event: `LastUpdated` carries the date of the second. -/
theorem CreateSummary_rdap_last_event_witness :
    (CreateSummary changesRuntime changesResult).Timeline.LastUpdated =
      some (eventAt changesRuntime ⟨1748736000000000000⟩) :=
  (CreateSummary_rdap_last_event changesRuntime changesResult
    [("Events", Value.arr changeEvents)] changeEvents rfl rfl rfl).2.2.2
    [Value.obj [("Action", Value.str "last changed"),
      ("Date", Value.str "2024-03-01T00:00:00Z")]]
    (Value.obj [("Action", Value.str "last update of RDAP database"),
      ("Date", Value.str "2025-06-01T00:00:00Z")]) [] ⟨1748736000000000000⟩ rfl (by decide)
    (fun later h => absurd h (List.not_mem_nil later))

/-! ## The order of the `range` over the parsed fields: claim C34 -/

theorem lookup_perm {l1 l2 : List (String × Value)} (h : l1.Perm l2) :
    (mapKeys l1).Nodup → ∀ k : String, l1.lookup k = l2.lookup k := by
  induction h with
  | nil =>
    intro _ k
    rfl
  | cons x _ ih =>
    intro hn k
    obtain ⟨a, b⟩ := x
    unfold mapKeys at hn
    rw [List.map_cons, List.nodup_cons] at hn
    rw [lookup_cons_eq, lookup_cons_eq, ih hn.2 k]
  | swap x y l =>
    intro hn k
    obtain ⟨a, b⟩ := x
    obtain ⟨c, d⟩ := y
    unfold mapKeys at hn
    rw [List.map_cons, List.map_cons, List.nodup_cons] at hn
    have hne : c ≠ a := fun e => hn.1 (by rw [e]; exact List.mem_cons_self _ _)
    rw [lookup_cons_eq, lookup_cons_eq, lookup_cons_eq, lookup_cons_eq]
    by_cases h1 : k = c
    · have h2 : k ≠ a := fun e => hne (h1.symm.trans e)
      rw [if_pos h1, if_neg h2, if_pos h1]
    · rw [if_neg h1, if_neg h1]
  | trans h1 _ ih1 ih2 =>
    intro hn k
    have hn2 : (mapKeys _).Nodup :=
      (List.Perm.nodup_iff (List.Perm.map (fun entry : String × Value => entry.1) h1)).1 hn
    rw [ih1 hn k, ih2 hn2 k]

theorem mem_nameserverStep (tbl : CaseTables) (acc : List String) (e : String × Value)
    (x : String) :
    x ∈ nameserverStep tbl acc e ↔
      x ∈ acc ∨ ((Contains (ToLower tbl e.1) "name_server" ||
        Contains (ToLower tbl e.1) "nameserver") = true ∧ e.2 = Value.str x) := by
  obtain ⟨k, v⟩ := e
  unfold nameserverStep
  dsimp only
  by_cases hk : (Contains (ToLower tbl k) "name_server" ||
      Contains (ToLower tbl k) "nameserver") = true
  · rw [if_pos hk]
    cases v with
    | str ns =>
      dsimp only
      by_cases hc : acc.contains ns = true
      · rw [if_pos hc]
        have hm : ns ∈ acc := by simpa using hc
        constructor
        · exact Or.inl
        · rintro (h | ⟨_, h⟩)
          · exact h
          · injection h with h
            rw [← h]
            exact hm
      · rw [if_neg hc, List.mem_append, List.mem_singleton]
        constructor
        · rintro (h | h)
          · exact Or.inl h
          · exact Or.inr ⟨hk, by rw [h]⟩
        · rintro (h | ⟨_, h⟩)
          · exact Or.inl h
          · injection h with h
            exact Or.inr h.symm
    | null =>
      dsimp only
      exact ⟨Or.inl, fun h => h.elim id (fun h2 => Value.noConfusion h2.2)⟩
    | bool b =>
      dsimp only
      exact ⟨Or.inl, fun h => h.elim id (fun h2 => Value.noConfusion h2.2)⟩
    | number n =>
      dsimp only
      exact ⟨Or.inl, fun h => h.elim id (fun h2 => Value.noConfusion h2.2)⟩
    | arr a =>
      dsimp only
      exact ⟨Or.inl, fun h => h.elim id (fun h2 => Value.noConfusion h2.2)⟩
    | obj o =>
      dsimp only
      exact ⟨Or.inl, fun h => h.elim id (fun h2 => Value.noConfusion h2.2)⟩
  · rw [if_neg hk]
    exact ⟨Or.inl, fun h => h.elim id (fun h2 => absurd h2.1 hk)⟩

theorem mem_foldl_nameserverStep (tbl : CaseTables) (fields : List (String × Value))
    (x : String) : ∀ acc : List String,
    x ∈ fields.foldl (nameserverStep tbl) acc ↔
      x ∈ acc ∨ ∃ e ∈ fields, (Contains (ToLower tbl e.1) "name_server" ||
        Contains (ToLower tbl e.1) "nameserver") = true ∧ e.2 = Value.str x := by
  induction fields with
  | nil =>
    intro acc
    simp
  | cons y ys ih =>
    intro acc
    rw [List.foldl_cons, ih, mem_nameserverStep]
    constructor
    · rintro ((h | h) | ⟨e, he, h⟩)
      · exact Or.inl h
      · exact Or.inr ⟨y, List.mem_cons_self _ _, h⟩
      · exact Or.inr ⟨e, List.mem_cons_of_mem _ he, h⟩
    · rintro (h | ⟨e, he, h⟩)
      · exact Or.inl (Or.inl h)
      · rcases List.mem_cons.1 he with e1 | e1
        · rw [e1] at h
          exact Or.inl (Or.inr h)
        · exact Or.inr ⟨e, e1, h⟩

theorem nodup_foldl_nameserverStep (tbl : CaseTables) (fields : List (String × Value)) :
    ∀ acc : List String, acc.Nodup → (fields.foldl (nameserverStep tbl) acc).Nodup := by
  induction fields with
  | nil =>
    intro acc h
    exact h
  | cons y ys ih =>
    intro acc h
    rw [List.foldl_cons]
    apply ih
    have h2 := whoisNameserverStep_Nodup tbl { Nameservers := acc } y h
    rw [whoisNameserverStep_list] at h2
    exact h2

theorem perm_foldl_nameserverStep (tbl : CaseTables) (fields fields2 : List (String × Value))
    (h : fields.Perm fields2) :
    (fields.foldl (nameserverStep tbl) []).Perm (fields2.foldl (nameserverStep tbl) []) := by
  rw [List.perm_ext_iff_of_nodup (nodup_foldl_nameserverStep tbl fields [] List.nodup_nil)
    (nodup_foldl_nameserverStep tbl fields2 [] List.nodup_nil)]
  intro x
  rw [mem_foldl_nameserverStep, mem_foldl_nameserverStep]
  constructor
  · rintro (hx | ⟨e, he, hx⟩)
    · exact Or.inl hx
    · exact Or.inr ⟨e, h.mem_iff.1 he, hx⟩
  · rintro (hx | ⟨e, he, hx⟩)
    · exact Or.inl hx
    · exact Or.inr ⟨e, h.mem_iff.2 he, hx⟩

theorem perm_short {l1 l2 : List String} (h : l1.Perm l2) (hl : l1.length ≤ 1) : l2 = l1 := by
  rcases l1 with _ | ⟨a, _ | ⟨b, t⟩⟩
  · exact (List.Perm.nil_eq h).symm
  · exact (List.singleton_perm.1 h).symm
  · exact absurd hl (by simp)

theorem whoisStatusField_perm (fields fields2 : List (String × Value))
    (hl : ∀ k : String, fields.lookup k = fields2.lookup k) :
    whoisStatusField fields2 = whoisStatusField fields := by
  funext s field
  unfold whoisStatusField
  rw [hl field]

theorem whoisEvent_perm (rt : Runtime) (fields fields2 : List (String × Value))
    (hl : ∀ k : String, fields.lookup k = fields2.lookup k) (key : String) :
    whoisEvent rt fields2 key = whoisEvent rt fields key := by
  unfold whoisEvent
  rw [hl key]

theorem protocolSummary_perm (rt : Runtime) (result : QueryResult)
    (data data2 fields fields2 : List (String × Value))
    (hP : result.Protocol ≠ "RDAP") (hD : result.Data = Value.obj data)
    (hf : data.lookup "parsed_fields" = some (Value.obj fields))
    (hf2 : data2.lookup "parsed_fields" = some (Value.obj fields2))
    (hraw : whoisRaw data2 = whoisRaw data)
    (hl : ∀ k : String, fields.lookup k = fields2.lookup k) :
    (protocolSummary rt result).Nameservers = fields.foldl (nameserverStep rt.tbl) [] ∧
    protocolSummary rt { result with Data := Value.obj data2 } =
      { protocolSummary rt result with
        Nameservers := fields2.foldl (nameserverStep rt.tbl) [] } := by
  have h1 : protocolSummary rt result =
      parseWhoisSummary rt result (initialSummary result) := by
    unfold protocolSummary
    rw [if_neg hP]
  have h2 : protocolSummary rt { result with Data := Value.obj data2 } =
      parseWhoisSummary rt { result with Data := Value.obj data2 } (initialSummary result) := by
    unfold protocolSummary
    rw [if_neg hP]
    rfl
  rw [h1, h2, parseWhoisSummary_eq rt result (initialSummary result) data fields hD hf,
    parseWhoisSummary_eq rt { result with Data := Value.obj data2 } (initialSummary result)
      data2 fields2 rfl hf2,
    whoisStatusField_perm fields fields2 hl, whoisEvent_perm rt fields fields2 hl,
    whoisEvent_perm rt fields fields2 hl, whoisEvent_perm rt fields fields2 hl,
    ← hl "dnssec", ← hl "registrar", ← hl "registrar_iana_id", hraw]
  exact ⟨rfl, rfl⟩

/-- C34: `CreateSummary` is a function of the result, the clock and, on the WHOIS path,
the order in which the `range` visits the parsed fields. Two visiting orders of the same
map give summaries that agree on every field other than `Nameservers`, and whose
`Nameservers` lists hold the same hostnames, each once; with at most one hostname the
summaries are identical. -/
theorem CreateSummary_range_order (rt : Runtime) (result : QueryResult)
    (data data2 fields fields2 : List (String × Value))
    (hP : result.Protocol ≠ "RDAP") (hD : result.Data = Value.obj data)
    (hf : data.lookup "parsed_fields" = some (Value.obj fields))
    (hf2 : data2.lookup "parsed_fields" = some (Value.obj fields2))
    (hraw : whoisRaw data2 = whoisRaw data)
    (hperm : fields.Perm fields2) (hkeys : (mapKeys fields).Nodup) :
    (CreateSummary rt result).Nameservers.Perm
      (CreateSummary rt { result with Data := Value.obj data2 }).Nameservers ∧
    (CreateSummary rt result).Nameservers.Nodup ∧
    { CreateSummary rt { result with Data := Value.obj data2 } with Nameservers := [] } =
      { CreateSummary rt result with Nameservers := [] } ∧
    ((CreateSummary rt result).Nameservers.length ≤ 1 →
      CreateSummary rt { result with Data := Value.obj data2 } = CreateSummary rt result) := by
  obtain ⟨hN, hP2⟩ := protocolSummary_perm rt result data data2 fields fields2 hP hD hf hf2 hraw
    (lookup_perm hperm hkeys)
  have hC : CreateSummary rt { result with Data := Value.obj data2 } =
      { CreateSummary rt result with
        Nameservers := fields2.foldl (nameserverStep rt.tbl) [] } := by
    rw [CreateSummary_protocol, CreateSummary_protocol, hP2]
    rfl
  have hN1 : (CreateSummary rt result).Nameservers = fields.foldl (nameserverStep rt.tbl) [] := by
    rw [CreateSummary_protocol]
    exact hN
  have hperm2 := perm_foldl_nameserverStep rt.tbl fields fields2 hperm
  refine ⟨?_, ?_, ?_, ?_⟩
  · rw [hC, hN1]
    exact hperm2
  · rw [hN1]
    exact nodup_foldl_nameserverStep rt.tbl fields [] List.nodup_nil
  · rw [hC]
  · intro hlen
    rw [hN1] at hlen
    rw [hC, perm_short hperm2 hlen, ← hN1]

/-- Witness of C34: the two visiting orders of the fields of `twoSpellingsRecord`. -/
theorem CreateSummary_range_order_witness :
    (CreateSummary (exampleRuntime ⟨0⟩ "" [])
        (whoisResult firstOrderFields twoSpellingsRecord)).Nameservers.Perm
      (CreateSummary (exampleRuntime ⟨0⟩ "" [])
        { whoisResult firstOrderFields twoSpellingsRecord with
          Data := Value.obj [("parsed_fields", Value.obj secondOrderFields),
            ("raw_response", Value.str twoSpellingsRecord)] }).Nameservers :=
  (CreateSummary_range_order (exampleRuntime ⟨0⟩ "" [])
    (whoisResult firstOrderFields twoSpellingsRecord)
    [("parsed_fields", Value.obj firstOrderFields),
      ("raw_response", Value.str twoSpellingsRecord)]
    [("parsed_fields", Value.obj secondOrderFields),
      ("raw_response", Value.str twoSpellingsRecord)]
    firstOrderFields secondOrderFields (by decide) rfl rfl rfl rfl
    (List.Perm.swap _ _ []) (by decide)).1

/-- The two visiting orders of the one map of `twoSpellingsRecord` give different
`Nameservers` lists, so different summaries. -/
theorem CreateSummary_order_differs :
    secondOrderFields = firstOrderFields.reverse ∧
    (CreateSummary (exampleRuntime ⟨0⟩ "" [])
        (whoisResult firstOrderFields twoSpellingsRecord)).Nameservers =
      ["ns1.example.test", "ns2.example.test"] ∧
    (CreateSummary (exampleRuntime ⟨0⟩ "" [])
        (whoisResult secondOrderFields twoSpellingsRecord)).Nameservers =
      ["ns2.example.test", "ns1.example.test"] ∧
    CreateSummary (exampleRuntime ⟨0⟩ "" [])
        (whoisResult firstOrderFields twoSpellingsRecord) ≠
      CreateSummary (exampleRuntime ⟨0⟩ "" [])
        (whoisResult secondOrderFields twoSpellingsRecord) := by
  refine ⟨rfl, by decide!, by decide!, by decide!⟩

/-! ## Keys of an AS record: claim C37 -/

theorem asnSwitch_Country (st : ASNScan) (key value : String) :
    (asnSwitch st key value).asn.Country =
      if key = "country" then value else st.asn.Country := by
  unfold asnSwitch
  by_cases h0 : key = "aut-num" ∨ key = "asnumber"
  · rw [if_pos h0]
    have hc : key ≠ "country" := by
      rcases h0 with h | h <;> (rw [h]; decide)
    rw [if_neg hc]
  rw [if_neg h0]
  by_cases h1 : key = "as-name" ∨ key = "asname"
  · rw [if_pos h1]
    have hc : key ≠ "country" := by
      rcases h1 with h | h <;> (rw [h]; decide)
    rw [if_neg hc]
  rw [if_neg h1]
  by_cases h2 : key = "descr" ∨ key = "description"
  · rw [if_pos h2]
    have hc : key ≠ "country" := by
      rcases h2 with h | h <;> (rw [h]; decide)
    rw [if_neg hc]
    split_ifs <;> rfl
  rw [if_neg h2]
  by_cases h3 : key = "country"
  · rw [if_pos h3, if_pos h3]
  rw [if_neg h3, if_neg h3]
  by_cases h4 : key = "org-name" ∨ key = "orgname"
  · rw [if_pos h4]
  rw [if_neg h4]
  by_cases h5 : key = "status"
  · rw [if_pos h5]
  rw [if_neg h5]
  by_cases h6 : key = "abuse-mailbox" ∨ key = "orgabuseemail" ∨ key = "orgabuse-email"
  · rw [if_pos h6]
  rw [if_neg h6]
  by_cases h7 : key = "organisation" ∨ key = "organization"
  · rw [if_pos h7]
  rw [if_neg h7]
  by_cases h8 : key = "role"
  · rw [if_pos h8]
  rw [if_neg h8]

theorem asnFieldStep_Country (tbl : CaseTables) (st : ASNScan) (key value : String) :
    (asnFieldStep tbl st key value).asn.Country =
      if ToLower tbl key = "country" then value else st.asn.Country := by
  unfold asnFieldStep
  dsimp only
  by_cases h : (asnSwitch st (ToLower tbl key) value).currentSection = "org" ∧
      ToLower tbl key = "org-name"
  · rw [if_pos h]
    exact asnSwitch_Country st _ value
  · rw [if_neg h]
    exact asnSwitch_Country st _ value

theorem asnLine_Country (tbl : CaseTables) (st : ASNScan) (rawLine : String) :
    (asnLine tbl st rawLine).asn.Country =
      match asnEntry tbl rawLine with
      | some (k, v) => if k = "country" then v else st.asn.Country
      | none => st.asn.Country := by
  cases h : asnEntry tbl rawLine with
  | none =>
    rw [asnLine_none tbl st rawLine h]
  | some e =>
    obtain ⟨k, v⟩ := e
    rw [asnLine_some tbl st rawLine k v h, asnKeyValue_only]
    dsimp only
    rw [asnFieldStep_Country, ← (asnEntry_some tbl rawLine k v h).2.1]

theorem keyValue_nonempty (tbl : CaseTables) (keys : List String) (rawLine v : String)
    (h : keyValue tbl keys rawLine = some v) : v ≠ "" := by
  unfold keyValue at h
  cases he : asnEntry tbl rawLine with
  | none =>
    rw [he] at h
    exact absurd h (by simp)
  | some e =>
    obtain ⟨k, w⟩ := e
    rw [he] at h
    dsimp only at h
    split_ifs at h
    injection h with h
    rw [← h]
    exact (asnEntry_some tbl rawLine k w he).1

theorem step_keyValue (tbl : CaseTables) (keys : List String) (rawLine : String) (old : String)
    (c : String → Prop) [DecidablePred c] (hc : ∀ k, c k ↔ keys.contains k = true) :
    (match asnEntry tbl rawLine with
      | some (k, v) => if c k then v else old
      | none => old) = (keyValue tbl keys rawLine).getD old := by
  unfold keyValue
  cases asnEntry tbl rawLine with
  | none => rfl
  | some e =>
    obtain ⟨k, v⟩ := e
    dsimp only
    by_cases h : c k
    · rw [if_pos h, if_pos ((hc k).1 h)]
      rfl
    · rw [if_neg h, if_neg (fun h2 => h ((hc k).2 h2))]
      rfl

theorem scan_last (tbl : CaseTables) (p : ASNScan → String) (keys : List String)
    (hstep : ∀ st rawLine, p (asnLine tbl st rawLine) = (keyValue tbl keys rawLine).getD (p st))
    (lines : List String) : ∀ st : ASNScan,
    p (lines.foldl (asnLine tbl) st) = (lastValue tbl keys lines).getD (p st) := by
  induction lines with
  | nil =>
    intro st
    rfl
  | cons x xs ih =>
    intro st
    rw [List.foldl_cons, ih, hstep]
    show _ = (match lastValue tbl keys xs with
      | some value => some value
      | none => keyValue tbl keys x).getD (p st)
    cases lastValue tbl keys xs <;> rfl

theorem scan_first (tbl : CaseTables) (lines : List String) : ∀ st : ASNScan,
    (lines.foldl (asnLine tbl) st).asn.Description =
      if st.asn.Description = "" then
        (firstValue tbl ["descr", "description"] lines).getD ""
      else st.asn.Description := by
  induction lines with
  | nil =>
    intro st
    by_cases h : st.asn.Description = ""
    · rw [if_pos h]
      exact h
    · rw [if_neg h]
      rfl
  | cons x xs ih =>
    intro st
    have hstep : (asnLine tbl st x).asn.Description =
        if st.asn.Description = "" then
          (keyValue tbl ["descr", "description"] x).getD st.asn.Description
        else st.asn.Description := by
      rw [asnLine_Description]
      unfold keyValue
      cases asnEntry tbl x with
      | none =>
        dsimp only
        split_ifs <;> rfl
      | some e =>
        obtain ⟨k, v⟩ := e
        dsimp only
        by_cases hk : k = "descr" ∨ k = "description"
        · have hc : ["descr", "description"].contains k = true := by simpa using hk
          rw [if_pos hk, if_pos hc]
          split_ifs <;> rfl
        · have hc : ¬ (["descr", "description"].contains k = true) := by simpa using hk
          rw [if_neg hk, if_neg hc]
          split_ifs <;> rfl
    rw [List.foldl_cons, ih, hstep]
    unfold firstValue
    rw [List.findSome?_cons]
    by_cases h : st.asn.Description = ""
    · rw [if_pos h, if_pos h]
      cases hk : keyValue tbl ["descr", "description"] x with
      | none =>
        dsimp only [Option.getD]
        rw [if_pos h]
      | some v =>
        dsimp only [Option.getD]
        rw [if_neg (keyValue_nonempty tbl _ x v hk)]
    · rw [if_neg h, if_neg h, if_neg h]

theorem parseASNInfo_Country (tbl : CaseTables) (result : QueryResult) (asn : ASNInfo)
    (h : parseASNInfo tbl result = some asn) :
    asn.Country = (asnScan tbl result).asn.Country := by
  unfold parseASNInfo at h
  by_cases hR : result.RawData = ""
  · rw [if_pos hR] at h
    exact absurd h (by simp)
  · rw [if_neg hR] at h
    injection h with h
    rw [← h]
    split_ifs <;> rfl

/-- C37: for a non-empty raw text, `parseASNInfo` reads the keys lower-cased: `Number` is
the value of the last `aut-num`/`asnumber` line with a non-empty value, or the query when
there is none; `Name`, `Country` and `Status` are the values of the last `as-name`/`asname`,
`country` and `status` lines; `Description` is the value of the first `descr`/`description`
line. -/
theorem parseASNInfo_keys (tbl : CaseTables) (result : QueryResult)
    (h : result.RawData ≠ "") :
    ∃ asn, parseASNInfo tbl result = some asn ∧
      asn.Number =
        (lastValue tbl ["aut-num", "asnumber"] (Split result.RawData '\n')).getD result.Query ∧
      asn.Name = (lastValue tbl ["as-name", "asname"] (Split result.RawData '\n')).getD "" ∧
      asn.Country = (lastValue tbl ["country"] (Split result.RawData '\n')).getD "" ∧
      (∀ status, lastValue tbl ["status"] (Split result.RawData '\n') = some status →
        asn.Status = status) ∧
      asn.Description =
        (firstValue tbl ["descr", "description"] (Split result.RawData '\n')).getD "" ∧
      (∀ keys rawLine value, keyValue tbl keys rawLine = some value → value ≠ "") := by
  obtain ⟨asn, ha, hNum, -, hName, hDesc, -, hStat⟩ := parseASNInfo_some tbl result h
  have hCountry := parseASNInfo_Country tbl result asn ha
  have sNum := scan_last tbl (fun st => st.asn.Number) ["aut-num", "asnumber"]
    (fun st rawLine => by
      dsimp only
      rw [asnLine_Number]
      exact step_keyValue tbl _ rawLine _ (fun k => k = "aut-num" ∨ k = "asnumber")
        (fun k => by simp))
    (Split result.RawData '\n') { asn := { Number := result.Query } }
  have sName := scan_last tbl (fun st => st.asn.Name) ["as-name", "asname"]
    (fun st rawLine => by
      dsimp only
      rw [asnLine_Name]
      exact step_keyValue tbl _ rawLine _ (fun k => k = "as-name" ∨ k = "asname")
        (fun k => by simp))
    (Split result.RawData '\n') { asn := { Number := result.Query } }
  have sCountry := scan_last tbl (fun st => st.asn.Country) ["country"]
    (fun st rawLine => by
      dsimp only
      rw [asnLine_Country]
      exact step_keyValue tbl _ rawLine _ (fun k => k = "country") (fun k => by simp))
    (Split result.RawData '\n') { asn := { Number := result.Query } }
  have sStatus := scan_last tbl (fun st => st.asn.Status) ["status"]
    (fun st rawLine => by
      dsimp only
      rw [asnLine_Status]
      exact step_keyValue tbl _ rawLine _ (fun k => k = "status") (fun k => by simp))
    (Split result.RawData '\n') { asn := { Number := result.Query } }
  have sDesc := scan_first tbl (Split result.RawData '\n') { asn := { Number := result.Query } }
  refine ⟨asn, ha, ?_, ?_, ?_, ?_, ?_, ?_⟩
  · rw [hNum]
    exact sNum
  · rw [hName]
    exact sName
  · rw [hCountry]
    exact sCountry
  · intro status hs
    have hne : status ≠ "" := by
      have hex : ∀ lines : List String, lastValue tbl ["status"] lines = some status →
          status ≠ "" := by
        intro lines
        induction lines with
        | nil =>
          intro h0
          exact absurd h0 (by simp [lastValue])
        | cons x xs ih =>
          intro h0
          unfold lastValue at h0
          cases hl : lastValue tbl ["status"] xs with
          | none =>
            rw [hl] at h0
            exact keyValue_nonempty tbl _ x status h0
          | some w =>
            rw [hl] at h0
            injection h0 with h0
            rw [h0] at hl
            exact ih hl
      exact hex _ hs
    have hsc : (asnScan tbl result).asn.Status = status := by
      unfold asnScan
      rw [sStatus, hs]
      rfl
    rw [hStat, hsc, if_neg (fun hh => hne hh.1)]
  · rw [hDesc]
    exact sDesc
  · intro keys rawLine value hk
    exact keyValue_nonempty tbl keys rawLine value hk

/-- Witness of C37: the record of `selfPeerResult`, with the line `aut-num: AS9009`. -/
theorem parseASNInfo_keys_witness :
    ∃ asn, parseASNInfo CaseTables.ascii selfPeerResult = some asn ∧ asn.Number = "AS9009" := by
  obtain ⟨asn, ha, hNum, -⟩ := parseASNInfo_keys CaseTables.ascii selfPeerResult (by decide)
  exact ⟨asn, ha, hNum.trans (by decide!)⟩

theorem mixedCaseResult_keys :
    parseASNInfo CaseTables.ascii mixedCaseResult =
      some { Number := "AS9009", Name := "SECOND", Description := "one", Country := "NL",
             Organization := "one", Status := "ASSIGNED" } := by
  decide!

/-! ## Names whose last two labels are short: claim C38 -/

theorem extractTLD_short_labels (domain : String) (front : List String)
    (second last : String) (hparts : Split domain '.' = front ++ [second, last])
    (hfront : front ≠ []) (h2 : len second ≤ 3) (h1 : len last ≤ 3) :
    extractTLD domain = second ++ "." ++ last := by
  have hrev : (Split domain '.').reverse = last :: second :: front.reverse := by
    rw [hparts]
    simp
  have hne : front.reverse ≠ [] := by
    intro h
    exact hfront (List.reverse_eq_nil_iff.1 h)
  unfold extractTLD
  dsimp only
  rw [extractTLD_body domain (Split domain '.'), hrev]
  dsimp only
  rw [if_pos (And.intro hne (And.intro h2 h1))]

theorem ToLower_dotted (tbl : CaseTables) (second last : String) :
    (ToLower tbl (second ++ "." ++ last)).data =
      second.data.map (unicodeToLower tbl) ++ '.' :: last.data.map (unicodeToLower tbl) := by
  unfold ToLower
  show ((second.data ++ ['.']) ++ last.data).map (unicodeToLower tbl) = _
  rw [List.map_append, List.map_append, List.append_assoc]
  rfl

theorem ToLower_dotted_ne (tbl : CaseTables) (second last target : String)
    (ht : '.' ∉ target.data) : ToLower tbl (second ++ "." ++ last) ≠ target := by
  intro h
  apply ht
  rw [← h, ToLower_dotted]
  exact List.mem_append_right _ (List.mem_cons_self _ _)

theorem append_dot_co_uk (x y : List Char) (h : x ++ '.' :: y = ['c', 'o', '.', 'u', 'k']) :
    x = ['c', 'o'] ∧ y = ['u', 'k'] := by
  rcases x with _ | ⟨a, _ | ⟨b, _ | ⟨c, _ | ⟨d, t⟩⟩⟩⟩
  · simp at h
  · simp at h
  · simp only [List.cons_append, List.nil_append, List.cons.injEq] at h
    obtain ⟨ha, hb, -, hy⟩ := h
    rw [ha, hb, hy]
    exact ⟨rfl, rfl⟩
  · simp at h
  · simp at h
    obtain ⟨-, -, -, -, ht⟩ := h
    rcases t with _ | ⟨e, t⟩ <;> simp at ht

theorem ToLower_dotted_co_uk (tbl : CaseTables) (second last : String)
    (h : ToLower tbl (second ++ "." ++ last) = "co.uk") :
    ToLower tbl second = "co" ∧ ToLower tbl last = "uk" := by
  have hd := congrArg String.data h
  rw [ToLower_dotted] at hd
  obtain ⟨hx, hy⟩ := append_dot_co_uk _ _ hd
  unfold ToLower
  rw [hx, hy]
  exact ⟨rfl, rfl⟩

/-- C38: an expired name with at least three labels whose last two labels are each at most
3 bytes long and are not "co" and "uk" (compared lower-cased) has the TLD made of these
two labels, so it falls under the generic rule: with `d` the whole days since the
expiration the message is the generic grace message for `d ≤ 30` and the generic
"likely available" message for `d > 30`, and `AvailableDate` is never set, whatever the
last label is. -/
theorem guidance_short_labels (tbl : CaseTables) (now : Time) (summary : Summary)
    (expiration : TimelineEvent) (front : List String) (second last : String)
    (hE : summary.Timeline.Expiration = some expiration)
    (hpast : expiration.Date.ns ≤ now.ns)
    (hparts : Split summary.Domain '.' = front ++ [second, last]) (hfront : front ≠ [])
    (h2 : len second ≤ 3) (h1 : len last ≤ 3)
    (hcouk : ¬ (ToLower tbl second = "co" ∧ ToLower tbl last = "uk")) :
    extractTLD summary.Domain = second ++ "." ++ last ∧
    ∃ g, GeneratePostExpirationGuidance tbl now summary = some g ∧
      g.AvailableDate = none ∧
      ((now.ns - expiration.Date.ns) / (Day : Int) ≤ 30 →
        g.GuidanceMessage = "Domain may still be in renewal grace period. Original owner might still renew.") ∧
      (30 < (now.ns - expiration.Date.ns) / (Day : Int) →
        g.GuidanceMessage = "Domain is likely available for registration. Check with registrars or domain drop services.") ∧
      (g.GuidanceMessage = msgGenericGrace ∨ g.GuidanceMessage = msgGenericAvailable) := by
  have hT := extractTLD_short_labels summary.Domain front second last hparts hfront h2 h1
  have hgtld : ¬ (ToLower tbl (extractTLD summary.Domain) = "com" ∨
      ToLower tbl (extractTLD summary.Domain) = "net" ∨
      ToLower tbl (extractTLD summary.Domain) = "org") := by
    rw [hT]
    rintro (h | h | h)
    · exact ToLower_dotted_ne tbl second last "com" (by decide) h
    · exact ToLower_dotted_ne tbl second last "net" (by decide) h
    · exact ToLower_dotted_ne tbl second last "org" (by decide) h
  have huk : ¬ (ToLower tbl (extractTLD summary.Domain) = "uk" ∨
      ToLower tbl (extractTLD summary.Domain) = "co.uk") := by
    rw [hT]
    rintro (h | h)
    · exact ToLower_dotted_ne tbl second last "uk" (by decide) h
    · exact hcouk (ToLower_dotted_co_uk tbl second last h)
  refine ⟨hT, ?_⟩
  rw [guidance_expired tbl now summary expiration hE hpast, if_neg hgtld, if_neg huk]
  obtain ⟨-, -, hex, -, -⟩ := sub_days now expiration.Date hpast
  obtain ⟨-, hge⟩ := elapsed_days now expiration.Date hpast
  refine ⟨_, rfl, ?_, ?_, ?_, ?_⟩
  · split_ifs <;> rfl
  · intro hd
    have hw := hex (by omega)
    rw [if_pos (by omega)]
    rfl
  · intro hd
    have hw := hge 31 (by norm_num) (by omega)
    rw [if_neg (by omega)]
    rfl
  · split_ifs
    · exact Or.inl rfl
    · exact Or.inr rfl

/-- Witness of C38: "www.ibm.com" expired 40 days before `now`. -/
theorem guidance_short_labels_witness :
    extractTLD "www.ibm.com" = "ibm" ++ "." ++ "com" ∧
    ∃ g, GeneratePostExpirationGuidance CaseTables.ascii ⟨40 * Day⟩
        (expiringSummary "www.ibm.com" ⟨0⟩) = some g ∧
      g.AvailableDate = none ∧
      (((40 * Day : Int) - 0) / (Day : Int) ≤ 30 →
        g.GuidanceMessage = "Domain may still be in renewal grace period. Original owner might still renew.") ∧
      (30 < ((40 * Day : Int) - 0) / (Day : Int) →
        g.GuidanceMessage = "Domain is likely available for registration. Check with registrars or domain drop services.") ∧
      (g.GuidanceMessage = msgGenericGrace ∨ g.GuidanceMessage = msgGenericAvailable) :=
  guidance_short_labels CaseTables.ascii ⟨40 * Day⟩ (expiringSummary "www.ibm.com" ⟨0⟩)
    ⟨⟨0⟩, "test"⟩ ["www"] "ibm" "com" rfl (by decide) (by decide) (by decide) (by decide)
    (by decide) (by decide)

theorem guidance_short_labels_examples :
    GeneratePostExpirationGuidance CaseTables.ascii ⟨40 * Day⟩
        (expiringSummary "www.ibm.com" ⟨0⟩) =
      some { DaysExpired := 40, GuidanceMessage := msgGenericAvailable } ∧
    GeneratePostExpirationGuidance CaseTables.ascii ⟨40 * Day⟩
        (expiringSummary "a.b.org" ⟨0⟩) =
      some { DaysExpired := 40, GuidanceMessage := msgGenericAvailable } ∧
    GeneratePostExpirationGuidance CaseTables.ascii ⟨40 * Day⟩
        (expiringSummary "example.com." ⟨0⟩) =
      some { DaysExpired := 40, GuidanceMessage := msgGenericAvailable } ∧
    GeneratePostExpirationGuidance CaseTables.ascii ⟨40 * Day⟩
        (expiringSummary "example.com" ⟨0⟩) =
      some { DaysExpired := 40, GuidanceMessage := msgRedemption } := by
  decide!

end Regard
